import Mathlib

/-!
# AliMUONTrackerDDLDecoder: a shallow embedding

This file embeds the decoder of `MUON/AliMUONTrackerDDLDecoder.h` and proves
properties of it.

Conventions of the embedding.

* The raw buffer is a list of bytes (`List Nat`, each entry taken modulo 256).
  A pointer into the buffer is the byte offset from `buffer` (a `Nat`), so
  `buffer` itself is offset `0` and `end` is `bufferSize`.  Pointer arithmetic
  is done in `Nat`: on the LP64 targets of the code `UInt_t * sizeof(UInt_t)`
  is a 64-bit product and does not wrap.
* `UInt_t` values are `Nat`s below `2 ^ 32`; where the C++ arithmetic can wrap
  (`++count`, `length + headerSize`) the reduction modulo `2 ^ 32` is explicit.
* A 32-bit read assembles four bytes in little-endian order; a byte outside the
  list reads as `0`.
* The event handler (a template parameter of the class) is modelled by the
  handler that records every callback it receives, in order.
* The `while` loops take an iteration budget (`fuel`); a loop that exhausts it
  yields `none` instead of a return value.
-/

namespace AliMUONTrackerDDLDecoder

/-! ## Error codes and callbacks -/

/-- Error codes of `AliMUONTrackerDDLDecoderEventHandler::ErrorCode`, in the
order of `ErrorCodeToString`. -/
inductive ErrorCode
  | kNoError
  | kBufferTooBig
  | kTooManyBlocks
  | kTooManyDSPs
  | kTooManyBusPatches
  | kNoBlockHeader
  | kBadBlockKey
  | kBadBlockLength
  | kBadBlockTotalLength
  | kBlockLengthMismatch
  | kNoDSPHeader
  | kBadDSPKey
  | kBadDSPLength
  | kBadDSPTotalLength
  | kDSPLengthMismatch
  | kNoBusPatchHeader
  | kBadBusPatchKey
  | kBadBusPatchLength
  | kBadBusPatchTotalLength
  | kBusPatchLengthMismatch
  | kGlitchFound
  | kBadPaddingWord
  | kParityError
  deriving DecidableEq

/-- One callback received by the event handler.  Pointers are byte offsets
into the buffer; `OnData` carries the data word itself. -/
inductive Event
  | OnNewBuffer (buffer : Nat) (bufferSize : Nat)
  | OnNewBlock (header : Nat) (data : Nat)
  | OnNewDSP (header : Nat) (data : Nat)
  | OnNewBusPatch (header : Nat) (data : Nat)
  | OnData (data : Nat)
  | OnError (error : ErrorCode) (location : Nat)
  deriving DecidableEq

namespace Event

/-- Is the callback an `OnError`? -/
def isError : Event → Bool
  | OnError _ _ => true
  | _ => false

/-- Is the callback an `OnError` with the given code? -/
def isErrorCode (c : ErrorCode) : Event → Bool
  | OnError e _ => decide (e = c)
  | _ => false

end Event

/-! ## Reading the buffer -/

/-- The byte at offset `p` (zero outside the list). -/
def readByte (buffer : List Nat) (p : Nat) : Nat :=
  buffer.getD p 0 % 256

/-- The `UInt_t` read through `reinterpret_cast<const UInt_t*>` at byte offset
`p` (little endian). -/
def readUInt (buffer : List Nat) (p : Nat) : Nat :=
  readByte buffer p + 256 * readByte buffer (p + 1)
    + 65536 * readByte buffer (p + 2) + 16777216 * readByte buffer (p + 3)

/-! ## Constants -/

/-- The key word expected to identify block structure headers. -/
def fgkBlockDataKey : Nat := 0xFC0000FC
/-- The key word expected to identify DSP structure headers. -/
def fgkDSPDataKey : Nat := 0xF000000F
/-- The key word expected to identify bus patch headers. -/
def fgkBusPatchDataKey : Nat := 0xB000000B
/-- The expected format of the padding word in the DDL payload. -/
def fgkPaddingWord : Nat := 0xBEEFFACE

/-! ## Parity -/

/-- Method `AliMUONTrackerDDLDecoder::ParityIsOk` (lines 1085-1101). -/
def ParityIsOk (data : Nat) : Bool :=
  let data := data ^^^ (data >>> 16)
  let data := data ^^^ (data >>> 8)
  let data := data ^^^ (data >>> 4)
  let data := data &&& 0xf
  let data := (0x6996 >>> data) &&& 1
  data == 0

/-- The number of set bits among the 32 bits of a word. -/
def popCount32 (w : Nat) : Nat :=
  (List.range 32).countP (fun i => w.testBit i)

/-- The word has an even number of set bits. -/
def evenParity (w : Nat) : Bool :=
  popCount32 w % 2 == 0

/-- The parity of the `n` low bits of `w` (exclusive or of the bits). -/
def xorBits (w : Nat) : Nat → Bool
  | 0 => false
  | n + 1 => xor (xorBits w n) (w.testBit n)

/-! ## Header layout -/

/-- Sizes (`sizeof`) and field offsets (`offsetof`), in bytes, of the three
header structs `AliMUONBlockHeaderStruct`, `AliMUONDSPHeaderStruct` and
`AliMUONBusPatchHeaderStruct`.  The structs are declared in
`AliMUONTrackerDDLDecoderEventHandler.h`; the decoder only uses the sizes and
the fields listed here, all of them `UInt_t`. -/
structure Layout where
  sizeofBlockHeader : Nat
  blockDataKey : Nat
  blockTotalLength : Nat
  blockLength : Nat
  blockDSPId : Nat
  sizeofDSPHeader : Nat
  dspDataKey : Nat
  dspTotalLength : Nat
  dspLength : Nat
  dspPaddingWord : Nat
  dspErrorWord : Nat
  sizeofBusPatchHeader : Nat
  busPatchDataKey : Nat
  busPatchTotalLength : Nat
  busPatchLength : Nat
  deriving DecidableEq

/-! ## The decoder object -/

/-- The data members of `AliMUONTrackerDDLDecoder` (lines 164-171).  The event
handler is the list of callbacks received so far. -/
structure Decoder where
  fExitOnError : Bool
  fTryRecover : Bool
  fSendDataOnParityError : Bool
  fHadError : Bool
  fMaxBlocks : Nat
  fMaxDSPs : Nat
  fMaxBusPatches : Nat
  fHandler : List Event
  deriving DecidableEq

namespace Decoder

/-- Default constructor (lines 97-101). -/
def init : Decoder :=
  { fExitOnError := true, fTryRecover := false, fSendDataOnParityError := false,
    fHadError := false, fMaxBlocks := 2, fMaxDSPs := 5, fMaxBusPatches := 5,
    fHandler := [] }

/-- The handler receives one more callback. -/
def emit (d : Decoder) (e : Event) : Decoder :=
  { d with fHandler := d.fHandler ++ [e] }

/-- The call `fHandler.OnNewBuffer(buffer, bufferSize)`. -/
def OnNewBuffer (d : Decoder) (buffer bufferSize : Nat) : Decoder :=
  d.emit (Event.OnNewBuffer buffer bufferSize)

/-- The call `fHandler.OnNewBlock(header, data)`. -/
def OnNewBlock (d : Decoder) (header data : Nat) : Decoder :=
  d.emit (Event.OnNewBlock header data)

/-- The call `fHandler.OnNewDSP(header, data)`. -/
def OnNewDSP (d : Decoder) (header data : Nat) : Decoder :=
  d.emit (Event.OnNewDSP header data)

/-- The call `fHandler.OnNewBusPatch(header, data)`. -/
def OnNewBusPatch (d : Decoder) (header data : Nat) : Decoder :=
  d.emit (Event.OnNewBusPatch header data)

/-- The call `fHandler.OnData(data)`. -/
def OnData (d : Decoder) (data : Nat) : Decoder :=
  d.emit (Event.OnData data)

/-- The call `fHandler.OnError(error, location)`. -/
def OnError (d : Decoder) (error : ErrorCode) (location : Nat) : Decoder :=
  d.emit (Event.OnError error location)

/-- The statement `if (c) fHandler.OnError(error, location);`. -/
def OnErrorIf (d : Decoder) (c : Bool) (error : ErrorCode) (location : Nat) : Decoder :=
  if c then d.OnError error location else d

/-- The assignment `fHadError = true;`. -/
def setHadError (d : Decoder) : Decoder :=
  { d with fHadError := true }

/-- The assignment `fHadError = false;`. -/
def clearHadError (d : Decoder) : Decoder :=
  { d with fHadError := false }

end Decoder

/-- What one pass through the body of a `while` loop does: it leaves the
function (`return`, or the iteration budget ran out in a callee, giving
`none`), or it goes to the next test of the loop condition (`continue`, or
the end of the body) with the updated cursor and structure count. -/
inductive Step
  | exit (ret : Option Bool) (d : Decoder)
  | next (d : Decoder) (current : Nat) (count : Nat)
  deriving DecidableEq

/-- The two statements that follow the call of the next level's decoding
method in each of the three loops (lines 483-489, 636-642, 752-758):
`if (DecodeXYZ(dataStart, dataEnd)) continue; if (fExitOnError) return false;`,
after which the body ends.  `res` is the result of the call. -/
def Step.afterCall (res : Option Bool × Decoder) (current count : Nat) : Step :=
  match res with
  | (none, d) => Step.exit none d
  | (some true, d) => Step.next d current count
  | (some false, d) =>
    if d.fExitOnError = true then Step.exit (some false) d
    else Step.next d current count

/-! ## Key search and recovery -/

/-- The loop of `FindKey` (lines 1075-1080); `n` bounds the remaining
iterations. -/
def FindKey.loop (buffer : List Nat) (key end_ : Nat) : Nat → Nat → Option Nat
  | 0, _ => none
  | n + 1, current =>
    if current + 4 ≤ end_ then
      if readUInt buffer current = key then some current
      else FindKey.loop buffer key end_ n (current + 1)
    else none

/-- Method `AliMUONTrackerDDLDecoder::FindKey` (lines 1063-1082); `none` is `NULL`.
The loop advances one byte per iteration and stops once
`current + 4 > end`, hence runs fewer than `end - start` times. -/
def FindKey (buffer : List Nat) (key start end_ : Nat) : Option Nat :=
  FindKey.loop buffer key end_ (end_ - start) start

/-- Possible results of `TryRecoverStruct` (lines 183-188). -/
inductive RecoverResult
  | kRecoverFailed
  | kStructRecovered
  | kContinueToNextStruct
  deriving DecidableEq

/-- The result of `TryRecoverStruct` together with the final values of its
three reference parameters. -/
structure Recovery where
  result : RecoverResult
  dataEnd : Nat
  structEnd : Nat
  current : Nat
  deriving DecidableEq

/-- The test repeated six times in `TryRecoverStruct` (lines 921-935 and its
copies): position `p` is the end of the buffer, or a whole word can be read
at `p` and it is one of the two keys. -/
def TryRecoverStruct.keyAt (buffer : List Nat) (p bufferEnd key1 key2 : Nat) : Bool :=
  if p = bufferEnd then true
  else if p + 4 ≤ bufferEnd then
    if readUInt buffer p = key1 ∨ readUInt buffer p = key2 then true else false
  else false

/-- Method `AliMUONTrackerDDLDecoder::TryRecoverStruct` (lines 815-1060). -/
def TryRecoverStruct (d : Decoder) (buffer : List Nat)
    (expectedKey headerSize totalLength length structStart bufferEnd : Nat)
    (dataEnd structEnd current : Nat) : Recovery :=
  if d.fTryRecover = false then
    ⟨RecoverResult.kContinueToNextStruct, dataEnd, structEnd, current⟩
  else
    let headerKeyOk : Bool := decide (expectedKey = readUInt buffer structStart)
    let lengthsMatch : Bool := decide (totalLength = (length + headerSize) % 2 ^ 32)
    let lengthIsCorrect : Bool :=
      if expectedKey = fgkBlockDataKey then
        TryRecoverStruct.keyAt buffer dataEnd bufferEnd fgkBlockDataKey fgkBlockDataKey
      else if expectedKey = fgkDSPDataKey then
        TryRecoverStruct.keyAt buffer dataEnd bufferEnd fgkBlockDataKey fgkDSPDataKey
      else if expectedKey = fgkBusPatchDataKey then
        TryRecoverStruct.keyAt buffer dataEnd bufferEnd fgkDSPDataKey fgkBusPatchDataKey
      else false
    let totalLengthIsCorrect : Bool :=
      if expectedKey = fgkBlockDataKey then
        TryRecoverStruct.keyAt buffer structEnd bufferEnd fgkBlockDataKey fgkBlockDataKey
      else if expectedKey = fgkDSPDataKey then
        TryRecoverStruct.keyAt buffer structEnd bufferEnd fgkBlockDataKey fgkDSPDataKey
      else if expectedKey = fgkBusPatchDataKey then
        TryRecoverStruct.keyAt buffer structEnd bufferEnd fgkDSPDataKey fgkBusPatchDataKey
      else false
    if headerKeyOk && lengthIsCorrect then
      ⟨RecoverResult.kStructRecovered, dataEnd, dataEnd, dataEnd⟩
    else if headerKeyOk && totalLengthIsCorrect then
      ⟨RecoverResult.kStructRecovered, structEnd, structEnd, structEnd⟩
    else if lengthsMatch && lengthIsCorrect && totalLengthIsCorrect then
      ⟨RecoverResult.kStructRecovered, dataEnd, structEnd, current⟩
    else
      match FindKey buffer expectedKey (structStart + 4) bufferEnd with
      | some location => ⟨RecoverResult.kContinueToNextStruct, dataEnd, structEnd, location⟩
      | none => ⟨RecoverResult.kRecoverFailed, dataEnd, structEnd, current⟩

/-! ## Bus patch payload -/

/-- Method `AliMUONTrackerDDLDecoder::DecodeBusPatchData` (lines 765-812): the loop
over the data words, `data` running from `start` to `end` in steps of one
`UInt_t`. -/
def DecodeBusPatchData (buffer : List Nat) :
    Nat → Decoder → Nat → Nat → Option Bool × Decoder
  | 0, d, _, _ => (none, d)
  | fuel + 1, d, data, dataEnd =>
    if data < dataEnd then
      if ParityIsOk (readUInt buffer data) = true then
        DecodeBusPatchData buffer fuel (d.OnData (readUInt buffer data)) (data + 4) dataEnd
      else
        let d := d.OnError ErrorCode.kParityError data
        let d := d.setHadError
        if d.fExitOnError = true then (some false, d)
        else if d.fSendDataOnParityError = true then
          DecodeBusPatchData buffer fuel (d.OnData (readUInt buffer data)) (data + 4) dataEnd
        else
          DecodeBusPatchData buffer fuel d (data + 4) dataEnd
    else (some true, d)

/-! ## DSP payload -/

/-- Lines 734-758 of `DecodeDSPData`: the bus patch header is valid or was
recovered; count it, announce it and decode its data. -/
def DecodeDSPData.accept (buffer : List Nat) (fuel : Nat) (d : Decoder)
    (busPatchStart dataStart dataEnd current busPatchCount : Nat) : Step :=
  let busPatchCount := (busPatchCount + 1) % 2 ^ 32
  if busPatchCount > d.fMaxBusPatches then
    let d := d.OnError ErrorCode.kTooManyBusPatches current
    let d := d.setHadError
    Step.exit (some false) d
  else
    let d := d.OnNewBusPatch busPatchStart dataStart
    Step.afterCall (DecodeBusPatchData buffer fuel d dataStart dataEnd) current busPatchCount

/-- Lines 669-759 of `DecodeDSPData`: the body of the loop over bus patches. -/
def DecodeDSPData.body (L : Layout) (buffer : List Nat) (fuel : Nat) (d : Decoder)
    (end_ current busPatchCount : Nat) : Step :=
  let busPatchStart := current
  let current := current + L.sizeofBusPatchHeader
  if current > end_ then
    let d := d.OnError ErrorCode.kNoBusPatchHeader busPatchStart
    let d := d.setHadError
    Step.exit (some false) d
  else
    let dataStart := current
    let fDataKey := readUInt buffer (busPatchStart + L.busPatchDataKey)
    let fLength := readUInt buffer (busPatchStart + L.busPatchLength)
    let fTotalLength := readUInt buffer (busPatchStart + L.busPatchTotalLength)
    let current := current + fLength * 4
    let dataEnd := current
    let busPatchEnd := busPatchStart + fTotalLength * 4
    if fDataKey ≠ fgkBusPatchDataKey ∨ dataEnd > end_ ∨ busPatchEnd > end_
        ∨ dataEnd ≠ busPatchEnd then
      let d := d.OnErrorIf (decide (fDataKey ≠ fgkBusPatchDataKey))
        ErrorCode.kBadBusPatchKey (busPatchStart + L.busPatchDataKey)
      let d := d.OnErrorIf (decide (busPatchEnd > end_))
        ErrorCode.kBadBusPatchLength (busPatchStart + L.busPatchLength)
      let d := d.OnErrorIf (decide (dataEnd > end_))
        ErrorCode.kBadBusPatchTotalLength (busPatchStart + L.busPatchTotalLength)
      let d := d.OnErrorIf (decide (dataEnd ≠ busPatchEnd))
        ErrorCode.kBusPatchLengthMismatch busPatchStart
      let d := d.setHadError
      if d.fExitOnError = true then Step.exit (some false) d
      else
        let r := TryRecoverStruct d buffer fgkBusPatchDataKey L.sizeofBusPatchHeader
          fTotalLength fLength busPatchStart end_ dataEnd busPatchEnd current
        match r.result with
        | RecoverResult.kContinueToNextStruct => Step.next d r.current busPatchCount
        | RecoverResult.kRecoverFailed => Step.exit (some false) d
        | RecoverResult.kStructRecovered =>
          DecodeDSPData.accept buffer fuel d busPatchStart dataStart r.dataEnd r.current
            busPatchCount
    else
      DecodeDSPData.accept buffer fuel d busPatchStart dataStart dataEnd current busPatchCount

/-- The `while (current < end)` loop of `DecodeDSPData` (lines 667-761). -/
def DecodeDSPData.loop (L : Layout) (buffer : List Nat) (end_ : Nat) :
    Nat → Decoder → Nat → Nat → Option Bool × Decoder
  | 0, d, _, _ => (none, d)
  | fuel + 1, d, current, busPatchCount =>
    if current < end_ then
      match DecodeDSPData.body L buffer fuel d end_ current busPatchCount with
      | Step.exit ret d => (ret, d)
      | Step.next d current busPatchCount =>
        DecodeDSPData.loop L buffer end_ fuel d current busPatchCount
    else (some true, d)

/-- Method `AliMUONTrackerDDLDecoder::DecodeDSPData` (lines 649-762). -/
def DecodeDSPData (L : Layout) (buffer : List Nat) (fuel : Nat) (d : Decoder)
    (start end_ : Nat) : Option Bool × Decoder :=
  DecodeDSPData.loop L buffer end_ fuel d start 0

/-! ## Block payload -/

/-- Lines 636-642 of `DecodeBlockData`: decode the bus patches of the DSP. -/
def DecodeBlockData.decodeDSP (L : Layout) (buffer : List Nat) (fuel : Nat) (d : Decoder)
    (dataStart dataEnd current dspCount : Nat) : Step :=
  Step.afterCall (DecodeDSPData L buffer fuel d dataStart dataEnd) current dspCount

/-- Lines 620-642 of `DecodeBlockData`: the padding word, then the bus
patches.  (`dataEnd - 4` is a truncated subtraction; `dataEnd` is at least the
size of a block header here.) -/
def DecodeBlockData.padding (L : Layout) (buffer : List Nat) (fuel : Nat) (d : Decoder)
    (dspStart dataStart dataEnd current dspCount : Nat) : Step :=
  if readUInt buffer (dspStart + L.dspPaddingWord) = 1 then
    let dataEnd := dataEnd - 4
    if readUInt buffer dataEnd ≠ fgkPaddingWord then
      let d := d.OnError ErrorCode.kBadPaddingWord dataEnd
      let d := d.setHadError
      if d.fExitOnError = true then Step.exit (some false) d
      else DecodeBlockData.decodeDSP L buffer fuel d dataStart dataEnd current dspCount
    else DecodeBlockData.decodeDSP L buffer fuel d dataStart dataEnd current dspCount
  else DecodeBlockData.decodeDSP L buffer fuel d dataStart dataEnd current dspCount

/-- Lines 581-642 of `DecodeBlockData`: the DSP header is valid or was
recovered; count it, announce it, check the error word, then go on with the
padding word and the bus patches. -/
def DecodeBlockData.accept (L : Layout) (buffer : List Nat) (fuel : Nat) (d : Decoder)
    (blockHeader dspStart dataStart dataEnd current dspCount : Nat) : Step :=
  let dspCount := (dspCount + 1) % 2 ^ 32
  if dspCount > d.fMaxDSPs then
    let d := d.OnError ErrorCode.kTooManyDSPs current
    let d := d.setHadError
    Step.exit (some false) d
  else
    let d := d.OnNewDSP dspStart dataStart
    let fErrorWord := readUInt buffer (dspStart + L.dspErrorWord)
    let fDSPId := readUInt buffer (blockHeader + L.blockDSPId)
    if fErrorWord = (0x000000B1 ||| fDSPId) ∨ fErrorWord = (0x00000091 ||| fDSPId) then
      let d := d.OnError ErrorCode.kGlitchFound (dspStart + L.dspErrorWord)
      let d := d.setHadError
      if d.fExitOnError = true then Step.exit (some false) d
      else if d.fTryRecover = true then Step.next d current dspCount
      else DecodeBlockData.padding L buffer fuel d dspStart dataStart dataEnd current dspCount
    else DecodeBlockData.padding L buffer fuel d dspStart dataStart dataEnd current dspCount

/-- Lines 520-642 of `DecodeBlockData`: the body of the loop over DSPs. -/
def DecodeBlockData.body (L : Layout) (buffer : List Nat) (fuel : Nat) (d : Decoder)
    (blockHeader end_ current dspCount : Nat) : Step :=
  let dspStart := current
  let current := current + L.sizeofDSPHeader
  if current > end_ then
    let d := d.OnError ErrorCode.kNoDSPHeader dspStart
    let d := d.setHadError
    Step.exit (some false) d
  else
    let dataStart := current
    let fDataKey := readUInt buffer (dspStart + L.dspDataKey)
    let fLength := readUInt buffer (dspStart + L.dspLength)
    let fTotalLength := readUInt buffer (dspStart + L.dspTotalLength)
    let current := current + fLength * 4
    let dataEnd := current
    let dspEnd := dspStart + fTotalLength * 4
    if fDataKey ≠ fgkDSPDataKey ∨ dataEnd > end_ ∨ dspEnd > end_ ∨ dataEnd ≠ dspEnd then
      let d := d.OnErrorIf (decide (fDataKey ≠ fgkDSPDataKey))
        ErrorCode.kBadDSPKey (dspStart + L.dspDataKey)
      let d := d.OnErrorIf (decide (dspEnd > end_))
        ErrorCode.kBadDSPLength (dspStart + L.dspLength)
      let d := d.OnErrorIf (decide (dataEnd > end_))
        ErrorCode.kBadDSPTotalLength (dspStart + L.dspTotalLength)
      let d := d.OnErrorIf (decide (dataEnd ≠ dspEnd))
        ErrorCode.kDSPLengthMismatch dspStart
      let d := d.setHadError
      if d.fExitOnError = true then Step.exit (some false) d
      else
        let r := TryRecoverStruct d buffer fgkDSPDataKey L.sizeofDSPHeader
          fTotalLength fLength dspStart end_ dataEnd dspEnd current
        match r.result with
        | RecoverResult.kContinueToNextStruct => Step.next d r.current dspCount
        | RecoverResult.kRecoverFailed => Step.exit (some false) d
        | RecoverResult.kStructRecovered =>
          DecodeBlockData.accept L buffer fuel d blockHeader dspStart dataStart r.dataEnd
            r.current dspCount
    else
      DecodeBlockData.accept L buffer fuel d blockHeader dspStart dataStart dataEnd current
        dspCount

/-- The `while (current < end)` loop of `DecodeBlockData` (lines 518-645). -/
def DecodeBlockData.loop (L : Layout) (buffer : List Nat) (blockHeader end_ : Nat) :
    Nat → Decoder → Nat → Nat → Option Bool × Decoder
  | 0, d, _, _ => (none, d)
  | fuel + 1, d, current, dspCount =>
    if current < end_ then
      match DecodeBlockData.body L buffer fuel d blockHeader end_ current dspCount with
      | Step.exit ret d => (ret, d)
      | Step.next d current dspCount =>
        DecodeBlockData.loop L buffer blockHeader end_ fuel d current dspCount
    else (some true, d)

/-- Method `AliMUONTrackerDDLDecoder::DecodeBlockData` (lines 496-646); `blockHeader`
is the position of the block header. -/
def DecodeBlockData (L : Layout) (buffer : List Nat) (fuel : Nat) (d : Decoder)
    (blockHeader start end_ : Nat) : Option Bool × Decoder :=
  DecodeBlockData.loop L buffer blockHeader end_ fuel d start 0

/-! ## The DDL payload -/

/-- Lines 469-489 of `Decode`: the block header is valid or was recovered;
count it, announce it and decode its data. -/
def Decode.accept (L : Layout) (buffer : List Nat) (fuel : Nat) (d : Decoder)
    (blockStart dataStart dataEnd current blockCount : Nat) : Step :=
  let blockCount := (blockCount + 1) % 2 ^ 32
  if blockCount > d.fMaxBlocks then
    let d := d.OnError ErrorCode.kTooManyBlocks current
    Step.exit (some false) d
  else
    let d := d.OnNewBlock blockStart dataStart
    Step.afterCall (DecodeBlockData L buffer fuel d blockStart dataStart dataEnd) current
      blockCount

/-- Lines 393-489 of `Decode`: the body of the loop over blocks. -/
def Decode.body (L : Layout) (buffer : List Nat) (fuel : Nat) (d : Decoder)
    (end_ current blockCount : Nat) : Step :=
  let blockStart := current
  let current := current + L.sizeofBlockHeader
  if current > end_ then
    if blockCount = d.fMaxBlocks then
      Step.exit (some false) (d.OnError ErrorCode.kBufferTooBig blockStart)
    else
      Step.exit (some false) (d.OnError ErrorCode.kNoBlockHeader blockStart)
  else
    let dataStart := current
    let fDataKey := readUInt buffer (blockStart + L.blockDataKey)
    let fLength := readUInt buffer (blockStart + L.blockLength)
    let fTotalLength := readUInt buffer (blockStart + L.blockTotalLength)
    let current := current + fLength * 4
    let dataEnd := current
    let blockEnd := blockStart + fTotalLength * 4
    if fDataKey ≠ fgkBlockDataKey ∨ dataEnd > end_ ∨ blockEnd > end_ ∨ dataEnd ≠ blockEnd then
      if blockCount = d.fMaxBlocks then
        Step.exit (some false) (d.OnError ErrorCode.kBufferTooBig blockStart)
      else
        let d := d.OnErrorIf (decide (fDataKey ≠ fgkBlockDataKey))
          ErrorCode.kBadBlockKey (blockStart + L.blockDataKey)
        let d := d.OnErrorIf (decide (blockEnd > end_))
          ErrorCode.kBadBlockLength (blockStart + L.blockLength)
        let d := d.OnErrorIf (decide (dataEnd > end_))
          ErrorCode.kBadBlockTotalLength (blockStart + L.blockTotalLength)
        let d := d.OnErrorIf (decide (dataEnd ≠ blockEnd))
          ErrorCode.kBlockLengthMismatch blockStart
        if d.fExitOnError = true then Step.exit (some false) d
        else
          let d := d.setHadError
          let r := TryRecoverStruct d buffer fgkBlockDataKey L.sizeofBlockHeader
            fTotalLength fLength blockStart end_ dataEnd blockEnd current
          match r.result with
          | RecoverResult.kContinueToNextStruct => Step.next d r.current blockCount
          | RecoverResult.kRecoverFailed => Step.exit (some false) d
          | RecoverResult.kStructRecovered =>
            Decode.accept L buffer fuel d blockStart dataStart r.dataEnd r.current blockCount
    else
      Decode.accept L buffer fuel d blockStart dataStart dataEnd current blockCount

/-- The `while (current < end)` loop of `Decode` (lines 391-492), with the
final `return not fHadError`. -/
def Decode.loop (L : Layout) (buffer : List Nat) (end_ : Nat) :
    Nat → Decoder → Nat → Nat → Option Bool × Decoder
  | 0, d, _, _ => (none, d)
  | fuel + 1, d, current, blockCount =>
    if current < end_ then
      match Decode.body L buffer fuel d end_ current blockCount with
      | Step.exit ret d => (ret, d)
      | Step.next d current blockCount =>
        Decode.loop L buffer end_ fuel d current blockCount
    else (some (!d.fHadError), d)

/-- Method `AliMUONTrackerDDLDecoder::Decode` (lines 347-493).  `buffer` holds the
bytes of the memory starting at the pointer passed to the C++ method, which is
position `0`. -/
def Decode (L : Layout) (buffer : List Nat) (fuel : Nat) (d : Decoder)
    (bufferSize : Nat) : Option Bool × Decoder :=
  let d := d.clearHadError
  let current := 0
  let end_ := current + bufferSize
  let d := d.OnNewBuffer 0 bufferSize
  Decode.loop L buffer end_ fuel d current 0

/-! ## Auxiliary definitions for the statements -/

namespace Decoder

/-- The decoder `d` after more callbacks `t` were received and `fHadError` was
given the value `h`; the configuration is that of `d`. -/
def upd (d : Decoder) (h : Bool) (t : List Event) : Decoder :=
  { d with fHadError := h, fHandler := d.fHandler ++ t }

end Decoder

/-- Does the list of callbacks contain an `OnError`? -/
def hasError (t : List Event) : Bool :=
  t.any Event.isError

/-- The `n` words read by `DecodeBusPatchData` from position `start` on. -/
def payloadWords (buffer : List Nat) (start : Nat) : Nat → List Nat
  | 0 => []
  | n + 1 => readUInt buffer start :: payloadWords buffer (start + 4) n

/-- The callbacks for the data word `w` read at position `p` when the decoder
does not exit on errors; `send` is the flag `fSendDataOnParityError`: a word
of even parity is delivered, a word of odd parity is reported and delivered
only when `send` is set. -/
def wordEvents (send : Bool) (p w : Nat) : List Event :=
  if evenParity w = true then [Event.OnData w]
  else if send = true then [Event.OnError ErrorCode.kParityError p, Event.OnData w]
  else [Event.OnError ErrorCode.kParityError p]

/-- The callbacks for the data words `ws` read from position `p` on when the
decoder does not exit on errors. -/
def wordsEvents (send : Bool) : Nat → List Nat → List Event
  | _, [] => []
  | p, w :: ws => wordEvents send p w ++ wordsEvents send (p + 4) ws

/-- The number of `OnError` callbacks with code `c` in a list of callbacks. -/
def countError (c : ErrorCode) (t : List Event) : Nat :=
  t.countP (Event.isErrorCode c)

/-- The decoder as constructed, with "exit on error" switched off. -/
def noExitDecoder : Decoder :=
  { Decoder.init with fExitOnError := false }

/-- The callbacks `t` are callbacks other than `OnError` followed by at most
four `OnError` callbacks, and `P` holds if there is an `OnError` at all. -/
def ErrorTail (t : List Event) (P : Prop) : Prop :=
  ∃ pre errs, t = pre ++ errs ∧ hasError pre = false ∧ (∀ e ∈ errs, e.isError = true)
    ∧ errs.length ≤ 4 ∧ (errs ≠ [] → P)

/-- What holds of the result of `DecodeBusPatchData`, `DecodeDSPData` and
`DecodeBlockData` started on the decoder `d`: callbacks `t` were added,
`fHadError` was set if one of them is an `OnError`, a returned `false` comes
with an `OnError`, and under "exit on error" the first `OnError` ends the
decoding. -/
def SubPost (d : Decoder) (res : Option Bool × Decoder) : Prop :=
  ∃ t, res.2 = d.upd (d.fHadError || hasError t) t
    ∧ (res.1 = some false → hasError t = true)
    ∧ (d.fExitOnError = true → ErrorTail t (res.1 = some false))

/-- What holds of one pass through a loop body of `DecodeDSPData` or
`DecodeBlockData`. -/
def StepPost (d : Decoder) : Step → Prop
  | Step.exit ret d2 => ret ≠ some true ∧ SubPost d (ret, d2)
  | Step.next d2 _ _ =>
    ∃ t, d2 = d.upd (d.fHadError || hasError t) t
      ∧ (d.fExitOnError = true → hasError t = false)

/-- The `OnError` callbacks of a sequence of statements
`if (c) fHandler.OnError(code, location);`. -/
def reports (l : List (Bool × ErrorCode × Nat)) : List Event :=
  (l.filter (fun x => x.1)).map (fun x => Event.OnError x.2.1 x.2.2)

/-- What holds of one pass through the loop body of `Decode`: as `StepPost`,
except that a `return false` may leave `fHadError` unset. -/
def TopStepPost (d : Decoder) : Step → Prop
  | Step.exit ret d2 =>
    ret ≠ some true ∧ ∃ h t, d2 = d.upd h t
      ∧ (ret = some false → hasError t = true)
      ∧ (d.fExitOnError = true → ErrorTail t (ret = some false))
  | Step.next d2 _ _ =>
    ∃ t, d2 = d.upd (d.fHadError || hasError t) t
      ∧ (d.fExitOnError = true → hasError t = false)

/-- What holds of the result of the loop of `Decode` started on the decoder
`d`: callbacks `t` were added, the value returned is `true` exactly when
`fHadError` was unset and no `OnError` was added, and under "exit on error"
the first `OnError` ends the decoding. -/
def TopPost (d : Decoder) (res : Option Bool × Decoder) : Prop :=
  ∃ h t, res.2 = d.upd h t
    ∧ (∀ b, res.1 = some b → b = !(d.fHadError || hasError t))
    ∧ (d.fExitOnError = true → ErrorTail t (res.1 = some false))

/-! ## Example data -/

/-- Modelled from the spec: the header structs are not among the sources; the
spec (section 6) gives each header as a sequence of 32-bit fields beginning
with `dataKey`, `length`, `totalLength`, followed by the level's own fields (a
DSP id in the block header; an id, the error word and the padding flag in the
DSP header).  This layout has exactly these fields, in this order. -/
def specLayout : Layout :=
  { sizeofBlockHeader := 16, blockDataKey := 0, blockLength := 4, blockTotalLength := 8,
    blockDSPId := 12,
    sizeofDSPHeader := 24, dspDataKey := 0, dspLength := 4, dspTotalLength := 8,
    dspErrorWord := 16, dspPaddingWord := 20,
    sizeofBusPatchHeader := 12, busPatchDataKey := 0, busPatchLength := 4,
    busPatchTotalLength := 8 }

/-- The four bytes of a 32-bit word, least significant first. -/
def wordBytes (w : Nat) : List Nat :=
  [w % 256, w / 256 % 256, w / 65536 % 256, w / 16777216 % 256]

/-- The bytes of a sequence of 32-bit words. -/
def wordsToBytes : List Nat → List Nat
  | [] => []
  | w :: ws => wordBytes w ++ wordsToBytes ws

/-- In `specLayout`: one block wrapping one DSP wrapping one bus patch with the
data words `ws`. -/
def chainBuffer (ws : List Nat) : List Nat :=
  wordsToBytes
    ([fgkBlockDataKey, ws.length + 9, ws.length + 13, 0,
      fgkDSPDataKey, ws.length + 3, ws.length + 9, 0, 0, 0,
      fgkBusPatchDataKey, ws.length, ws.length + 3] ++ ws)

/-! ## Well-formed buffers -/

/-- The header sizes are positive multiples of the word size. -/
def Layout.wordSized (L : Layout) : Prop :=
  (0 < L.sizeofBlockHeader ∧ L.sizeofBlockHeader % 4 = 0)
    ∧ (0 < L.sizeofDSPHeader ∧ L.sizeofDSPHeader % 4 = 0)
    ∧ (0 < L.sizeofBusPatchHeader ∧ L.sizeofBusPatchHeader % 4 = 0)

/-- The limits of the decoder are values of type `UInt_t`. -/
def Decoder.limitsAreUInt (d : Decoder) : Prop :=
  d.fMaxBlocks < 2 ^ 32 ∧ d.fMaxDSPs < 2 ^ 32 ∧ d.fMaxBusPatches < 2 ^ 32

/-- A bus patch structure, given by its data words. -/
structure BusPatch where
  data : List Nat
  deriving DecidableEq

/-- A DSP structure, given by its bus patches. -/
structure DSP where
  busPatches : List BusPatch
  deriving DecidableEq

/-- A block structure, given by its DSP structures. -/
structure Block where
  dsps : List DSP
  deriving DecidableEq

/-- The size in bytes of a bus patch structure. -/
def BusPatch.size (L : Layout) (bp : BusPatch) : Nat :=
  L.sizeofBusPatchHeader + 4 * bp.data.length

/-- The size in bytes of a sequence of bus patch structures. -/
def busPatchesSize (L : Layout) : List BusPatch → Nat
  | [] => 0
  | bp :: bps => bp.size L + busPatchesSize L bps

/-- The size in bytes of a DSP structure. -/
def DSP.size (L : Layout) (dsp : DSP) : Nat :=
  L.sizeofDSPHeader + busPatchesSize L dsp.busPatches

/-- The size in bytes of a sequence of DSP structures. -/
def dspsSize (L : Layout) : List DSP → Nat
  | [] => 0
  | dsp :: dsps => dsp.size L + dspsSize L dsps

/-- The size in bytes of a block structure. -/
def Block.size (L : Layout) (b : Block) : Nat :=
  L.sizeofBlockHeader + dspsSize L b.dsps

/-- The size in bytes of a sequence of block structures. -/
def blocksSize (L : Layout) : List Block → Nat
  | [] => 0
  | b :: bs => b.size L + blocksSize L bs

/-- The words `ws` stand in the buffer from position `p` on. -/
def wordsAt (buffer : List Nat) : Nat → List Nat → Prop
  | _, [] => True
  | p, w :: ws => readUInt buffer p = w ∧ wordsAt buffer (p + 4) ws

/-- A header at position `p` carrying the key `key`, a payload of `size` bytes
in its length field and `totalLength = length + header words`; the three
fields are at the offsets `oKey`, `oLength`, `oTotal` of a header of
`sizeofHeader` bytes. -/
def headerAt (buffer : List Nat) (p key size sizeofHeader oKey oLength oTotal : Nat) : Prop :=
  readUInt buffer (p + oKey) = key
    ∧ readUInt buffer (p + oLength) * 4 = size
    ∧ readUInt buffer (p + oTotal) = readUInt buffer (p + oLength) + sizeofHeader / 4

/-- The bus patch `bp` stands in the buffer at position `p`: a well-formed
header followed by the data words. -/
def busPatchAt (L : Layout) (buffer : List Nat) (p : Nat) (bp : BusPatch) : Prop :=
  headerAt buffer p fgkBusPatchDataKey (4 * bp.data.length) L.sizeofBusPatchHeader
      L.busPatchDataKey L.busPatchLength L.busPatchTotalLength
    ∧ wordsAt buffer (p + L.sizeofBusPatchHeader) bp.data

/-- The bus patches `bps` stand in the buffer one after the other from
position `p` on. -/
def busPatchesAt (L : Layout) (buffer : List Nat) : Nat → List BusPatch → Prop
  | _, [] => True
  | p, bp :: bps => busPatchAt L buffer p bp ∧ busPatchesAt L buffer (p + bp.size L) bps

/-- The DSP structure `dsp` stands in the buffer at position `p`, inside the
block whose header is at `blockHeader`: a well-formed header whose error word
is not a glitch pattern and whose padding flag is not set, followed by the bus
patches. -/
def dspAt (L : Layout) (buffer : List Nat) (blockHeader p : Nat) (dsp : DSP) : Prop :=
  headerAt buffer p fgkDSPDataKey (busPatchesSize L dsp.busPatches) L.sizeofDSPHeader
      L.dspDataKey L.dspLength L.dspTotalLength
    ∧ readUInt buffer (p + L.dspErrorWord)
        ≠ (0x000000B1 ||| readUInt buffer (blockHeader + L.blockDSPId))
    ∧ readUInt buffer (p + L.dspErrorWord)
        ≠ (0x00000091 ||| readUInt buffer (blockHeader + L.blockDSPId))
    ∧ readUInt buffer (p + L.dspPaddingWord) ≠ 1
    ∧ busPatchesAt L buffer (p + L.sizeofDSPHeader) dsp.busPatches

/-- The DSP structures `dsps` stand in the buffer one after the other from
position `p` on, inside the block whose header is at `blockHeader`. -/
def dspsAt (L : Layout) (buffer : List Nat) (blockHeader : Nat) : Nat → List DSP → Prop
  | _, [] => True
  | p, dsp :: dsps =>
    dspAt L buffer blockHeader p dsp ∧ dspsAt L buffer blockHeader (p + dsp.size L) dsps

/-- The block structure `b` stands in the buffer at position `p`. -/
def blockAt (L : Layout) (buffer : List Nat) (p : Nat) (b : Block) : Prop :=
  headerAt buffer p fgkBlockDataKey (dspsSize L b.dsps) L.sizeofBlockHeader
      L.blockDataKey L.blockLength L.blockTotalLength
    ∧ dspsAt L buffer p (p + L.sizeofBlockHeader) b.dsps

/-- The block structures `bs` stand in the buffer one after the other from
position `p` on. -/
def blocksAt (L : Layout) (buffer : List Nat) : Nat → List Block → Prop
  | _, [] => True
  | p, b :: bs => blockAt L buffer p b ∧ blocksAt L buffer (p + b.size L) bs

/-- Every data word of the blocks has even parity. -/
def evenWords (bs : List Block) : Prop :=
  ∀ b ∈ bs, ∀ dsp ∈ b.dsps, ∀ bp ∈ dsp.busPatches, ∀ w ∈ bp.data, evenParity w = true

/-- No level holds more structures than the decoder's limit for it. -/
def withinLimits (d : Decoder) (bs : List Block) : Prop :=
  bs.length ≤ d.fMaxBlocks
    ∧ ∀ b ∈ bs, b.dsps.length ≤ d.fMaxDSPs
      ∧ ∀ dsp ∈ b.dsps, dsp.busPatches.length ≤ d.fMaxBusPatches

/-- The callbacks for a bus patch at position `p` whose words have even
parity. -/
def busPatchEvents (L : Layout) (p : Nat) (bp : BusPatch) : List Event :=
  Event.OnNewBusPatch p (p + L.sizeofBusPatchHeader) :: bp.data.map Event.OnData

/-- The callbacks for consecutive bus patches from position `p` on. -/
def busPatchesEvents (L : Layout) : Nat → List BusPatch → List Event
  | _, [] => []
  | p, bp :: bps => busPatchEvents L p bp ++ busPatchesEvents L (p + bp.size L) bps

/-- The callbacks for a DSP structure at position `p`. -/
def dspEvents (L : Layout) (p : Nat) (dsp : DSP) : List Event :=
  Event.OnNewDSP p (p + L.sizeofDSPHeader)
    :: busPatchesEvents L (p + L.sizeofDSPHeader) dsp.busPatches

/-- The callbacks for consecutive DSP structures from position `p` on. -/
def dspsEvents (L : Layout) : Nat → List DSP → List Event
  | _, [] => []
  | p, dsp :: dsps => dspEvents L p dsp ++ dspsEvents L (p + dsp.size L) dsps

/-- The callbacks for a block structure at position `p`. -/
def blockEvents (L : Layout) (p : Nat) (b : Block) : List Event :=
  Event.OnNewBlock p (p + L.sizeofBlockHeader)
    :: dspsEvents L (p + L.sizeofBlockHeader) b.dsps

/-- The callbacks for consecutive block structures from position `p` on. -/
def blocksEvents (L : Layout) : Nat → List Block → List Event
  | _, [] => []
  | p, b :: bs => blockEvents L p b ++ blocksEvents L (p + b.size L) bs

/-- The function `f` of the iteration budget returns `ret` and leaves the
decoder `d`, for every budget from some bound on. -/
def Returns (f : Nat → Option Bool × Decoder) (ret : Bool) (d : Decoder) : Prop :=
  ∃ n, ∀ fuel, n ≤ fuel → f fuel = (some ret, d)

/-- How a loop goes on after one pass through its body: `k` is the rest of the
loop. -/
def Step.run (s : Step) (k : Decoder → Nat → Nat → Option Bool × Decoder) :
    Option Bool × Decoder :=
  match s with
  | Step.exit ret d => (ret, d)
  | Step.next d current count => k d current count

/-- The function `loop` is a `while (current < end)` loop with the body `body`
that returns `last d` when the loop condition fails. -/
structure IsLoop (loop : Nat → Decoder → Nat → Nat → Option Bool × Decoder)
    (body : Nat → Decoder → Nat → Nat → Step) (end_ : Nat) (last : Decoder → Bool) : Prop where
  zero : ∀ d current count, loop 0 d current count = (none, d)
  succ : ∀ fuel d current count, loop (fuel + 1) d current count
    = if current < end_ then (body fuel d current count).run (loop fuel)
      else (some (last d), d)

/-- The kind of a callback: 0 `OnNewBuffer`, 1 `OnNewBlock`, 2 `OnNewDSP`,
3 `OnNewBusPatch`, 4 `OnData`, 5 `OnError`. -/
def Event.kind : Event → Nat
  | Event.OnNewBuffer _ _ => 0
  | Event.OnNewBlock _ _ => 1
  | Event.OnNewDSP _ _ => 2
  | Event.OnNewBusPatch _ _ => 3
  | Event.OnData _ => 4
  | Event.OnError _ _ => 5

/-- The number of callbacks of kind `k` in a list of callbacks. -/
def countKind (k : Nat) (t : List Event) : Nat :=
  t.countP (fun e => e.kind == k)

/-- The number of data words of a sequence of bus patches. -/
def busPatchesWords : List BusPatch → Nat
  | [] => 0
  | bp :: bps => bp.data.length + busPatchesWords bps

/-- The number of bus patches of a sequence of DSP structures. -/
def dspsBusPatches : List DSP → Nat
  | [] => 0
  | dsp :: dsps => dsp.busPatches.length + dspsBusPatches dsps

/-- The number of data words of a sequence of DSP structures. -/
def dspsWords : List DSP → Nat
  | [] => 0
  | dsp :: dsps => busPatchesWords dsp.busPatches + dspsWords dsps

/-- The number of DSP structures of a sequence of blocks. -/
def blocksDSPs : List Block → Nat
  | [] => 0
  | b :: bs => b.dsps.length + blocksDSPs bs

/-- The number of bus patches of a sequence of blocks. -/
def blocksBusPatches : List Block → Nat
  | [] => 0
  | b :: bs => dspsBusPatches b.dsps + blocksBusPatches bs

/-- The number of data words of a sequence of blocks. -/
def blocksWords : List Block → Nat
  | [] => 0
  | b :: bs => dspsWords b.dsps + blocksWords bs

/-- One block holding one DSP structure holding one bus patch with the data
words `ws`. -/
def chainBlocks (ws : List Nat) : List Block :=
  [{ dsps := [{ busPatches := [{ data := ws }] }] }]

/-- The callbacks of `Decode` on one block, one DSP and one bus patch whose
data words are the words `ws` of even parity followed by a last word `w` of
odd parity: the last word is reported, and delivered only if the decoder
neither exits on errors nor withholds words with a parity error. -/
def lastWordOddEvents (L : Layout) (d : Decoder) (ws : List Nat) (w : Nat) : List Event :=
  Event.OnNewBuffer 0 (blocksSize L (chainBlocks (ws ++ [w])))
    :: blocksEvents L 0 (chainBlocks ws)
    ++ Event.OnError ErrorCode.kParityError
        (L.sizeofBlockHeader + L.sizeofDSPHeader + L.sizeofBusPatchHeader + 4 * ws.length)
    :: (if d.fExitOnError = false ∧ d.fSendDataOnParityError = true then [Event.OnData w]
        else [])

/-- The decoder as constructed, with "send data on parity error" switched on
(and "exit on error" still on). -/
def sendDecoder : Decoder :=
  { Decoder.init with fSendDataOnParityError := true }

/-! ## A DSP structure with too many bus patches -/

/-- The data words of a sequence of bus patches. -/
def wordsOfBusPatches (bps : List BusPatch) : List Nat :=
  bps.flatMap (fun bp => bp.data)

/-- The data words of a sequence of DSP structures. -/
def wordsOfDSPs (dsps : List DSP) : List Nat :=
  dsps.flatMap (fun dsp => wordsOfBusPatches dsp.busPatches)

/-- The data words of a sequence of blocks. -/
def wordsOfBlocks (bs : List Block) : List Nat :=
  bs.flatMap (fun b => wordsOfDSPs b.dsps)

/-- A sequence of blocks in which one DSP structure holds more bus patches
than the limit: the blocks `pre` before its block, the DSP structures `dpre`
before it in its block, its bus patches `first` up to the limit, the next bus
patch `extra`, its other bus patches `rest`, the DSP structures `dpost` behind
it in its block and the blocks `post` behind its block. -/
structure Overfull where
  pre : List Block
  dpre : List DSP
  first : List BusPatch
  extra : BusPatch
  rest : List BusPatch
  dpost : List DSP
  post : List Block
  deriving DecidableEq

namespace Overfull

/-- The DSP structure with too many bus patches. -/
def dsp (o : Overfull) : DSP :=
  { busPatches := o.first ++ o.extra :: o.rest }

/-- The block of the DSP structure with too many bus patches. -/
def block (o : Overfull) : Block :=
  { dsps := o.dpre ++ o.dsp :: o.dpost }

/-- All the blocks. -/
def blocks (o : Overfull) : List Block :=
  o.pre ++ o.block :: o.post

/-- The position of the block of the DSP structure with too many bus
patches. -/
def blockStart (L : Layout) (o : Overfull) : Nat :=
  blocksSize L o.pre

/-- The position of the DSP structure with too many bus patches. -/
def dspStart (L : Layout) (o : Overfull) : Nat :=
  o.blockStart L + L.sizeofBlockHeader + dspsSize L o.dpre

/-- The callbacks up to the bus patches `first` of the DSP structure with too
many bus patches: those of all structures before it, its own `OnNewDSP` and
those of its bus patches `first`. -/
def before (L : Layout) (o : Overfull) : List Event :=
  Event.OnNewBuffer 0 (blocksSize L o.blocks) :: blocksEvents L 0 o.pre
    ++ Event.OnNewBlock (o.blockStart L) (o.blockStart L + L.sizeofBlockHeader)
      :: dspsEvents L (o.blockStart L + L.sizeofBlockHeader) o.dpre
    ++ Event.OnNewDSP (o.dspStart L) (o.dspStart L + L.sizeofDSPHeader)
      :: busPatchesEvents L (o.dspStart L + L.sizeofDSPHeader) o.first

/-- The location reported with `kTooManyBusPatches`: the end of the bus patch
`extra`. -/
def errorAt (L : Layout) (o : Overfull) : Nat :=
  o.dspStart L + L.sizeofDSPHeader + busPatchesSize L o.first + o.extra.size L

/-- The callbacks behind the DSP structure with too many bus patches, when
the decoder does not exit on errors. -/
def behind (L : Layout) (o : Overfull) : List Event :=
  dspsEvents L (o.dspStart L + o.dsp.size L) o.dpost
    ++ blocksEvents L (o.blockStart L + o.block.size L) o.post

/-- The limits hold everywhere except for the bus patches of the one DSP
structure, of which exactly `first` are within the limit. -/
def withinLimits (d : Decoder) (o : Overfull) : Prop :=
  o.blocks.length ≤ d.fMaxBlocks
    ∧ (∀ b ∈ o.blocks, b.dsps.length ≤ d.fMaxDSPs)
    ∧ (∀ b ∈ o.pre ++ o.post, ∀ dsp ∈ b.dsps, dsp.busPatches.length ≤ d.fMaxBusPatches)
    ∧ (∀ dsp ∈ o.dpre ++ o.dpost, dsp.busPatches.length ≤ d.fMaxBusPatches)
    ∧ o.first.length = d.fMaxBusPatches

end Overfull

/-- In `specLayout`: one block with one DSP structure with six bus patches,
the first with the data word `3`, the others without data. -/
def sixBusPatchesBuffer : List Nat :=
  wordsToBytes
    [fgkBlockDataKey, 25, 29, 0,
      fgkDSPDataKey, 19, 25, 0, 0, 0,
      fgkBusPatchDataKey, 1, 4, 3,
      fgkBusPatchDataKey, 0, 3,
      fgkBusPatchDataKey, 0, 3,
      fgkBusPatchDataKey, 0, 3,
      fgkBusPatchDataKey, 0, 3,
      fgkBusPatchDataKey, 0, 3]

/-- The structures in `sixBusPatchesBuffer`, the sixth bus patch being beyond
the default limit of five. -/
def sixBusPatches : Overfull :=
  { pre := [], dpre := [],
    first := [{ data := [3] }, { data := [] }, { data := [] }, { data := [] }, { data := [] }],
    extra := { data := [] }, rest := [], dpost := [], post := [] }

/-! ## A recovered DSP header with `totalLength = 0` -/

/-- In `specLayout`: one well-formed block header whose payload is one DSP
header with the right key, the length field `1000` (pointing past the end of
the block) and the total length field `0`. -/
def stuckBuffer : List Nat :=
  wordsToBytes
    [fgkBlockDataKey, 6, 10, 0,
      fgkDSPDataKey, 1000, 0, 0, 0, 0]

/-- The decoder as constructed, with "exit on error" off, "try recover" on and
the largest limit `MaxDSPs(0xFFFFFFFF)`. -/
def wrapDecoder : Decoder :=
  { Decoder.init with fExitOnError := false, fTryRecover := true, fMaxDSPs := 2 ^ 32 - 1 }

/-- The callbacks of `n` passes of the loop of `DecodeBlockData` over the DSP
header of `stuckBuffer`. -/
def stuckEvents : Nat → List Event
  | 0 => []
  | n + 1 =>
    Event.OnError ErrorCode.kBadDSPTotalLength 24
      :: Event.OnError ErrorCode.kDSPLengthMismatch 16
      :: Event.OnNewDSP 16 40 :: stuckEvents n

/-- The decoder never acts on a recovery: it exits on the first error, or
"try recover" is off. -/
def Decoder.noRecovery (d : Decoder) : Prop :=
  d.fExitOnError = true ∨ d.fTryRecover = false

/-- One pass through a loop body, started at `current`, returns a value or
moves the cursor forward, and keeps the decoder's flags. -/
def Step.progress (current : Nat) : Step → Prop
  | Step.exit ret _ => ret ≠ none
  | Step.next d current2 _ => current < current2 ∧ d.noRecovery

/-! ## The three levels of headers -/

/-- What the three loops use of a level of structures: the key of its headers
and the key of the enclosing level (the block key for blocks), the size of its
header and the offsets of the three fields, and its error codes for a
malformed header. -/
structure Level where
  key : Nat
  parentKey : Nat
  sizeofHeader : Nat
  dataKey : Nat
  length : Nat
  totalLength : Nat
  kBadKey : ErrorCode
  kBadLength : ErrorCode
  kBadTotalLength : ErrorCode
  kLengthMismatch : ErrorCode
  deriving DecidableEq

/-- The level of block structures, as used by `Decode`. -/
def Layout.blockLevel (L : Layout) : Level :=
  { key := fgkBlockDataKey, parentKey := fgkBlockDataKey,
    sizeofHeader := L.sizeofBlockHeader, dataKey := L.blockDataKey,
    length := L.blockLength, totalLength := L.blockTotalLength,
    kBadKey := ErrorCode.kBadBlockKey, kBadLength := ErrorCode.kBadBlockLength,
    kBadTotalLength := ErrorCode.kBadBlockTotalLength,
    kLengthMismatch := ErrorCode.kBlockLengthMismatch }

/-- The level of DSP structures, as used by `DecodeBlockData`. -/
def Layout.dspLevel (L : Layout) : Level :=
  { key := fgkDSPDataKey, parentKey := fgkBlockDataKey,
    sizeofHeader := L.sizeofDSPHeader, dataKey := L.dspDataKey,
    length := L.dspLength, totalLength := L.dspTotalLength,
    kBadKey := ErrorCode.kBadDSPKey, kBadLength := ErrorCode.kBadDSPLength,
    kBadTotalLength := ErrorCode.kBadDSPTotalLength,
    kLengthMismatch := ErrorCode.kDSPLengthMismatch }

/-- The level of bus patch structures, as used by `DecodeDSPData`. -/
def Layout.busPatchLevel (L : Layout) : Level :=
  { key := fgkBusPatchDataKey, parentKey := fgkDSPDataKey,
    sizeofHeader := L.sizeofBusPatchHeader, dataKey := L.busPatchDataKey,
    length := L.busPatchLength, totalLength := L.busPatchTotalLength,
    kBadKey := ErrorCode.kBadBusPatchKey, kBadLength := ErrorCode.kBadBusPatchLength,
    kBadTotalLength := ErrorCode.kBadBusPatchTotalLength,
    kLengthMismatch := ErrorCode.kBusPatchLengthMismatch }

namespace Level

/-- The field `fDataKey` of the header at position `p`. -/
def fDataKey (v : Level) (buffer : List Nat) (p : Nat) : Nat :=
  readUInt buffer (p + v.dataKey)

/-- The field `fLength` of the header at position `p`. -/
def fLength (v : Level) (buffer : List Nat) (p : Nat) : Nat :=
  readUInt buffer (p + v.length)

/-- The field `fTotalLength` of the header at position `p`. -/
def fTotalLength (v : Level) (buffer : List Nat) (p : Nat) : Nat :=
  readUInt buffer (p + v.totalLength)

/-- The pointer `dataStart` of the structure at `p`: the end of its header. -/
def dataStart (v : Level) (p : Nat) : Nat :=
  p + v.sizeofHeader

/-- The pointer `dataEnd` of the structure at `p`, computed from `fLength`. -/
def dataEnd (v : Level) (buffer : List Nat) (p : Nat) : Nat :=
  v.dataStart p + v.fLength buffer p * 4

/-- The end of the structure at `p` (`blockEnd`, `dspEnd`, `busPatchEnd`),
computed from `fTotalLength`. -/
def structEnd (v : Level) (buffer : List Nat) (p : Nat) : Nat :=
  p + v.fTotalLength buffer p * 4

/-- The header at `p` passes the four checks made on it, `end_` being the end
of the enclosing structure: the key is the level's key, the two ends computed
from `fLength` and `fTotalLength` are not beyond `end_`, and they are equal. -/
def wellFormed (v : Level) (buffer : List Nat) (p end_ : Nat) : Prop :=
  v.fDataKey buffer p = v.key ∧ v.dataEnd buffer p ≤ end_ ∧ v.structEnd buffer p ≤ end_
    ∧ v.dataEnd buffer p = v.structEnd buffer p

instance (v : Level) (buffer : List Nat) (p end_ : Nat) :
    Decidable (v.wellFormed buffer p end_) := by
  unfold wellFormed
  infer_instance

/-- The `OnError` callbacks for the header at `p`, in the order of the four
`if` statements that issue them (lines 441-448, 556-563, 709-716). -/
def framing (v : Level) (buffer : List Nat) (p end_ : Nat) : List Event :=
  reports
    [(decide (v.fDataKey buffer p ≠ v.key), v.kBadKey, p + v.dataKey),
     (decide (v.structEnd buffer p > end_), v.kBadLength, p + v.length),
     (decide (v.dataEnd buffer p > end_), v.kBadTotalLength, p + v.totalLength),
     (decide (v.dataEnd buffer p ≠ v.structEnd buffer p), v.kLengthMismatch, p)]

/-- The call of `TryRecoverStruct` for the header at `p` (lines 459-463,
571-575, 724-728). -/
def recover (v : Level) (d : Decoder) (buffer : List Nat) (p end_ : Nat) : Recovery :=
  TryRecoverStruct d buffer v.key v.sizeofHeader (v.fTotalLength buffer p) (v.fLength buffer p)
    p end_ (v.dataEnd buffer p) (v.structEnd buffer p) (v.dataEnd buffer p)

/-- Is the callback one of the level's four errors for a malformed header? -/
def isFraming (v : Level) : Event → Bool
  | Event.OnError c _ =>
    decide (c = v.kBadKey ∨ c = v.kBadLength ∨ c = v.kBadTotalLength ∨ c = v.kLengthMismatch)
  | _ => false

end Level

/-- How each loop goes on after `TryRecoverStruct` (lines 464-466, 576-578,
729-731): to the next test of the loop condition, out of the function with
`false`, or on to `accept` with the recovered `dataEnd` and `current`. -/
def Step.ofRecovery (r : Recovery) (d : Decoder) (count : Nat) (accept : Nat → Nat → Step) :
    Step :=
  match r.result with
  | RecoverResult.kContinueToNextStruct => Step.next d r.current count
  | RecoverResult.kRecoverFailed => Step.exit (some false) d
  | RecoverResult.kStructRecovered => accept r.dataEnd r.current

/-- The decoder that one pass through a loop body leaves. -/
def Step.decoder : Step → Decoder
  | Step.exit _ d => d
  | Step.next d _ _ => d

/-- The decoder as constructed, with "exit on error" off and "try recover"
on. -/
def recoverDecoder : Decoder :=
  { Decoder.init with fExitOnError := false, fTryRecover := true }

/-! ## Recovery, by the rows of its decision table -/

/-- The level is one of the three levels of the decoder. -/
def Level.ofLayout (v : Level) (L : Layout) : Prop :=
  v = L.blockLevel ∨ v = L.dspLevel ∨ v = L.busPatchLevel

/-- Position `p` is a trustworthy end for a structure of the level: it is the
end `bufferEnd` of the enclosing structure, or a whole word lies between `p`
and `bufferEnd` and it is the key of the level or of the enclosing level. -/
def Level.trusts (v : Level) (buffer : List Nat) (p bufferEnd : Nat) : Prop :=
  p = bufferEnd
    ∨ (p + 4 ≤ bufferEnd ∧ (readUInt buffer p = v.key ∨ readUInt buffer p = v.parentKey))

instance (v : Level) (buffer : List Nat) (p bufferEnd : Nat) :
    Decidable (v.trusts buffer p bufferEnd) := by
  unfold Level.trusts
  infer_instance

/-- The end of `TryRecoverStruct` (lines 1047-1059), given the result
`location` of the key search. -/
def Recovery.scan (location : Option Nat) (dataEnd structEnd current : Nat) : Recovery :=
  match location with
  | some l => ⟨RecoverResult.kContinueToNextStruct, dataEnd, structEnd, l⟩
  | none => ⟨RecoverResult.kRecoverFailed, dataEnd, structEnd, current⟩

/-- Position `p` is the first position from `start` on at which a whole word
before `end_` equals `key`. -/
def firstKeyFrom (buffer : List Nat) (key start end_ p : Nat) : Prop :=
  start ≤ p ∧ p + 4 ≤ end_ ∧ readUInt buffer p = key
    ∧ ∀ q, start ≤ q → q < p → readUInt buffer q ≠ key

/-- No position from `start` on holds a whole word before `end_` equal to
`key`. -/
def noKeyFrom (buffer : List Nat) (key start end_ : Nat) : Prop :=
  ∀ p, start ≤ p → p + 4 ≤ end_ → readUInt buffer p ≠ key

/-- In `specLayout`: one block header without payload, with consistent length
fields (`length = 0`, `totalLength = 4`, the four words of the header) and
the key word `0` instead of the block key; it ends at the end of the buffer. -/
def badKeyBuffer : List Nat :=
  wordsToBytes [0, 0, 4, 0]

/-- In `specLayout`: a DSP header with the right key, no payload and the total
length field `99`, followed by the key of the next DSP header. -/
def badTotalLengthBuffer : List Nat :=
  wordsToBytes [fgkDSPDataKey, 0, 99, 0, 0, 0, fgkDSPDataKey]

/-- None of the three rows of the decision table of `TryRecoverStruct` (lines
1027-1045) applies to the header at `p`: not "key intact and length
trustworthy", not "key intact and total length trustworthy", not "the lengths
match (line 911) and both are trustworthy". -/
def Level.noRow (v : Level) (buffer : List Nat) (p end_ : Nat) : Prop :=
  ¬ (readUInt buffer p = v.key ∧ v.trusts buffer (v.dataEnd buffer p) end_)
    ∧ ¬ (readUInt buffer p = v.key ∧ v.trusts buffer (v.structEnd buffer p) end_)
    ∧ ¬ (v.fTotalLength buffer p = (v.fLength buffer p + v.sizeofHeader) % 2 ^ 32
        ∧ v.trusts buffer (v.dataEnd buffer p) end_
        ∧ v.trusts buffer (v.structEnd buffer p) end_)

instance (v : Level) (buffer : List Nat) (p end_ : Nat) :
    Decidable (v.noRow buffer p end_) := by
  unfold Level.noRow
  infer_instance

/-- Sixteen bytes read as a bus patch header in `specLayout`: the key word is
`0x00000B00`, the length field `0xB0` and the total length field `0`; the bus
patch key `0xB000000B` stands at the byte positions 1 and 12. -/
def scanBuffer : List Nat :=
  [0x00, 0x0B, 0x00, 0x00, 0xB0, 0x00, 0x00, 0x00,
   0x00, 0x00, 0x00, 0x00, 0x0B, 0x00, 0x00, 0xB0]

/-- In `specLayout`: one block with one DSP structure with two bus patches of
one data word each; the first bus patch header has the key word `0`, all other
fields of all headers are right. -/
def skipBuffer : List Nat :=
  wordsToBytes
    [fgkBlockDataKey, 14, 18, 0,
      fgkDSPDataKey, 8, 14, 0, 0, 0,
      0, 1, 4, 3,
      fgkBusPatchDataKey, 1, 4, 5]

/-- In `specLayout`: a block header with the right key, the length field `1`
(one word of payload, which the buffer of 16 bytes does not hold) and the
total length field `4` (the header alone, which ends at the end of the
buffer). -/
def longBlockBuffer : List Nat :=
  wordsToBytes [fgkBlockDataKey, 1, 4, 0]

/-- In `specLayout`: a DSP header with the right key, the length field `1` and
the total length field `6` (the header alone). -/
def longDSPBuffer : List Nat :=
  wordsToBytes [fgkDSPDataKey, 1, 6, 0, 0, 0]

/-- In `specLayout`: a bus patch header with the right key, the length field
`1` and the total length field `3` (the header alone). -/
def longBusPatchBuffer : List Nat :=
  wordsToBytes [fgkBusPatchDataKey, 1, 3]

/-- In `specLayout`: two block headers without payload; the length field of
the first is `4` instead of `0`, so that the end computed from it is the end
of the buffer; its total length field is right. -/
def lengthToEndBuffer : List Nat :=
  wordsToBytes [fgkBlockDataKey, 4, 4, 0, fgkBlockDataKey, 0, 4, 0]

/-- In `specLayout`: three block headers without payload; the length field of
the third is `1` instead of `0`; its total length field is right. -/
def thirdBlockBuffer : List Nat :=
  wordsToBytes [fgkBlockDataKey, 0, 4, 0, fgkBlockDataKey, 0, 4, 0, fgkBlockDataKey, 1, 4, 0]

/-- In `specLayout`: two block headers without payload; the length field of
the first is `9` instead of `0`, so that the end computed from it is past the
end of the buffer; its total length field is right. -/
def longLengthBuffer : List Nat :=
  wordsToBytes [fgkBlockDataKey, 9, 4, 0, fgkBlockDataKey, 0, 4, 0]

/-! ## Where a callback is issued -/

/-- The place of the decoder at which an error is reported, numbered from the
outermost to the innermost: 1 while reading a block header in `Decode`, 2
while accepting a block, 3 while reading a DSP header in `DecodeBlockData`, 4
while accepting a DSP structure, 5 while reading a bus patch header in
`DecodeDSPData`, 6 while accepting a bus patch, 7 in `DecodeBusPatchData`
(`kNoError` is never reported and gets 0). -/
def ErrorCode.rank : ErrorCode → Nat
  | kNoError => 0
  | kBufferTooBig => 1
  | kTooManyBlocks => 2
  | kTooManyDSPs => 4
  | kTooManyBusPatches => 6
  | kNoBlockHeader => 1
  | kBadBlockKey => 1
  | kBadBlockLength => 1
  | kBadBlockTotalLength => 1
  | kBlockLengthMismatch => 1
  | kNoDSPHeader => 3
  | kBadDSPKey => 3
  | kBadDSPLength => 3
  | kBadDSPTotalLength => 3
  | kDSPLengthMismatch => 3
  | kNoBusPatchHeader => 5
  | kBadBusPatchKey => 5
  | kBadBusPatchLength => 5
  | kBadBusPatchTotalLength => 5
  | kBusPatchLengthMismatch => 5
  | kGlitchFound => 4
  | kBadPaddingWord => 4
  | kParityError => 7

/-- The place of the decoder at which a callback is issued, numbered as for
`ErrorCode.rank`; `OnNewBuffer` gets 0. -/
def Event.rank : Event → Nat
  | OnNewBuffer _ _ => 0
  | OnNewBlock _ _ => 2
  | OnNewDSP _ _ => 4
  | OnNewBusPatch _ _ => 6
  | OnData _ => 7
  | OnError c _ => c.rank

/-- The decoder `d2` is `d` after callbacks of rank at least `k` (and possibly
a change of `fHadError`). -/
def Adds (k : Nat) (d d2 : Decoder) : Prop :=
  ∃ h t, d2 = d.upd h t ∧ ∀ e ∈ t, k ≤ e.rank

/-- In `specLayout`: one block with one DSP structure whose padding flag is
`1`; its payload of five words is one bus patch with the data word `3`,
followed by the padding word. -/
def paddedBuffer : List Nat :=
  wordsToBytes
    [fgkBlockDataKey, 11, 15, 0,
      fgkDSPDataKey, 5, 11, 0, 0, 1,
      fgkBusPatchDataKey, 1, 4, 3,
      fgkPaddingWord]

/-! ## The states of the loop of `Decode` -/

/-- The states in which the run of `Decode` on `buffer` and `bufferSize`,
started on the decoder `d0` with the iteration budget `f0`, tests the
condition of its loop: the remaining budget, the decoder, `current` and
`blockCount`.  The first is the state before the first pass; each pass that
ends with a `continue` or at the end of the loop body gives the next. -/
inductive Decode.Reach (L : Layout) (buffer : List Nat) (d0 : Decoder) (bufferSize f0 : Nat) :
    Nat → Decoder → Nat → Nat → Prop
  | start :
    Decode.Reach L buffer d0 bufferSize f0 f0 ((d0.clearHadError).OnNewBuffer 0 bufferSize) 0 0
  | step {fuel : Nat} {d d2 : Decoder} {p n p2 n2 : Nat} :
    Decode.Reach L buffer d0 bufferSize f0 (fuel + 1) d p n → p < bufferSize →
    Decode.body L buffer fuel d bufferSize p n = Step.next d2 p2 n2 →
    Decode.Reach L buffer d0 bufferSize f0 fuel d2 p2 n2

/-- The header at `p` is malformed and recovery leaves the cursor on it. -/
def Level.stuckAt (v : Level) (d : Decoder) (buffer : List Nat) (p end_ : Nat) : Prop :=
  ¬ v.wellFormed buffer p end_ ∧ (v.recover d buffer p end_).current = p

/-- In `specLayout`: three well-formed block headers without payload. -/
def threeBlocksBuffer : List Nat :=
  wordsToBytes [fgkBlockDataKey, 0, 4, 0, fgkBlockDataKey, 0, 4, 0, fgkBlockDataKey, 0, 4, 0]

/-! ## The accessors of the decoder -/

namespace Decoder

/-- Method `bool ExitOnError() const` (line 111). -/
def ExitOnError (d : Decoder) : Bool := d.fExitOnError

/-- Method `void ExitOnError(bool value)` (line 115); the C++ name is the one
of the getter. -/
def setExitOnError (d : Decoder) (value : Bool) : Decoder :=
  { d with fExitOnError := value }

/-- Method `bool TryRecover() const` (line 120). -/
def TryRecover (d : Decoder) : Bool := d.fTryRecover

/-- Method `void TryRecover(bool value)` (line 125). -/
def setTryRecover (d : Decoder) (value : Bool) : Decoder :=
  { d with fTryRecover := value }

/-- Method `bool SendDataOnParityError() const` (line 130). -/
def SendDataOnParityError (d : Decoder) : Bool := d.fSendDataOnParityError

/-- Method `void SendDataOnParityError(bool value)` (line 135). -/
def setSendDataOnParityError (d : Decoder) (value : Bool) : Decoder :=
  { d with fSendDataOnParityError := value }

/-- Method `UInt_t MaxBlocks() const` (line 138). -/
def MaxBlocks (d : Decoder) : Nat := d.fMaxBlocks

/-- Method `void MaxBlocks(UInt_t n)` (line 141). -/
def setMaxBlocks (d : Decoder) (n : Nat) : Decoder :=
  { d with fMaxBlocks := n }

/-- Method `UInt_t MaxDSPs() const` (line 145). -/
def MaxDSPs (d : Decoder) : Nat := d.fMaxDSPs

/-- Method `void MaxDSPs(UInt_t n)` (line 149). -/
def setMaxDSPs (d : Decoder) (n : Nat) : Decoder :=
  { d with fMaxDSPs := n }

/-- Method `UInt_t MaxBusPatches() const` (line 153). -/
def MaxBusPatches (d : Decoder) : Nat := d.fMaxBusPatches

/-- Method `void MaxBusPatches(UInt_t n)` (line 157). -/
def setMaxBusPatches (d : Decoder) (n : Nat) : Decoder :=
  { d with fMaxBusPatches := n }

/-- Method `GetHandler()` (lines 104 and 107). -/
def GetHandler (d : Decoder) : List Event := d.fHandler

/-- The values returned by the six getters of the configuration. -/
def config (d : Decoder) : Bool × Bool × Bool × Nat × Nat × Nat :=
  (d.ExitOnError, d.TryRecover, d.SendDataOnParityError, d.MaxBlocks, d.MaxDSPs,
    d.MaxBusPatches)

end Decoder

/-- In `specLayout`: one block header with the right key, the length field
`1000` (pointing past the end of the buffer of 16 bytes) and the total length
field `0`. -/
def twiceBuffer : List Nat :=
  wordsToBytes [fgkBlockDataKey, 1000, 0, 0]

/-- In `specLayout`: one block with one DSP structure whose payload of 48 bytes
is a bus patch header with the key word `0`, the length field `0` and the
total length field `12`, followed by three well-formed bus patches without
data.  For the first header `dataEnd` is 52, the start of the next bus patch,
and `structEnd` is 88, the end of the DSP structure. -/
def mixedUnitsBuffer : List Nat :=
  wordsToBytes
    [fgkBlockDataKey, 18, 22, 0,
      fgkDSPDataKey, 12, 18, 0, 0, 0,
      0, 0, 12,
      fgkBusPatchDataKey, 0, 3,
      fgkBusPatchDataKey, 0, 3,
      fgkBusPatchDataKey, 0, 3]

/-! ## The glitch and the padding word of a DSP structure -/

/-- The test of lines 600-601 on the DSP header at `dspStart` in the block
whose header is at `blockHeader`: the error word equals `0xB1` or `0x91`
combined by a bitwise "or" with the DSP id of the block header. -/
def isGlitch (L : Layout) (buffer : List Nat) (blockHeader dspStart : Nat) : Prop :=
  readUInt buffer (dspStart + L.dspErrorWord)
      = (0x000000B1 ||| readUInt buffer (blockHeader + L.blockDSPId))
    ∨ readUInt buffer (dspStart + L.dspErrorWord)
      = (0x00000091 ||| readUInt buffer (blockHeader + L.blockDSPId))

instance (L : Layout) (buffer : List Nat) (blockHeader dspStart : Nat) :
    Decidable (isGlitch L buffer blockHeader dspStart) := by
  unfold isGlitch
  infer_instance

/-- In `specLayout`: one block with the DSP id `1` holding one DSP structure
without payload whose error word is `0xB0`, that is `0xB1` "xor" the DSP
id. -/
def xorGlitchBuffer : List Nat :=
  wordsToBytes
    [fgkBlockDataKey, 6, 10, 1,
      fgkDSPDataKey, 0, 6, 0, 0xB0, 0]

/-- In `specLayout`: one block with the DSP id `1` holding one DSP structure
without payload whose error word is `0xB1`, that is `0xB1` "or" the DSP id. -/
def orGlitchBuffer : List Nat :=
  wordsToBytes
    [fgkBlockDataKey, 6, 10, 1,
      fgkDSPDataKey, 0, 6, 0, 0xB1, 0]

/-- In `specLayout`: one block (DSP id `0`) with two DSP structures; the first
has the error word `0xB1` and one word of payload, which is the DSP key; the
second is well-formed, without payload. -/
def glitchBuffer : List Nat :=
  wordsToBytes
    [fgkBlockDataKey, 13, 17, 0,
      fgkDSPDataKey, 1, 7, 0, 0xB1, 0, fgkDSPDataKey,
      fgkDSPDataKey, 0, 6, 0, 0, 0]

/-- In `specLayout`: two blocks; the payload of the first is one word, too
short for a DSP header; the second has no payload. -/
def failBuffer : List Nat :=
  wordsToBytes [fgkBlockDataKey, 1, 5, 0, 0, fgkBlockDataKey, 0, 4, 0]

/-! ## The part of the memory that is read -/

/-- The memories `b` and `b2` hold the same bytes at the positions from `lo`
up to, but not including, `hi`. -/
def agreeOn (lo hi : Nat) (b b2 : List Nat) : Prop :=
  ∀ p, p < hi → lo ≤ p → readByte b p = readByte b2 p

instance (lo hi : Nat) (b b2 : List Nat) : Decidable (agreeOn lo hi b b2) := by
  unfold agreeOn
  infer_instance

/-- The fields of a header that the decoder reads lie inside the header. -/
def Level.fieldsInside (v : Level) : Prop :=
  v.dataKey + 4 ≤ v.sizeofHeader ∧ v.length + 4 ≤ v.sizeofHeader
    ∧ v.totalLength + 4 ≤ v.sizeofHeader

/-- The fields of the three headers that the decoder reads lie inside the
headers, as `offsetof` and `sizeof` of a struct guarantee. -/
def Layout.fieldsInside (L : Layout) : Prop :=
  (L.blockLevel.fieldsInside ∧ L.blockDSPId + 4 ≤ L.sizeofBlockHeader)
    ∧ (L.dspLevel.fieldsInside ∧ L.dspPaddingWord + 4 ≤ L.sizeofDSPHeader
      ∧ L.dspErrorWord + 4 ≤ L.sizeofDSPHeader)
    ∧ L.busPatchLevel.fieldsInside

instance (v : Level) : Decidable v.fieldsInside := by
  unfold Level.fieldsInside
  infer_instance

instance (L : Layout) : Decidable L.fieldsInside := by
  unfold Layout.fieldsInside
  infer_instance

instance (L : Layout) : Decidable L.wordSized := by
  unfold Layout.wordSized
  infer_instance

/-- The memory of `longLengthBuffer` (two block headers in 32 bytes, the
length field of the first claiming nine words of payload), followed by more
words: the end computed from that length field, position 52, holds the block
key. -/
def overrunBuffer : List Nat :=
  longLengthBuffer ++ wordsToBytes [0, 0, 0, 0, 0, fgkBlockDataKey, 0, 4, 0]

/-- In `specLayout`: one block (DSP id `0`) with one DSP structure whose error
word is `0xB1` and whose padding flag is `1`; its payload is the single word
`0`, which is not the padding word. -/
def padGlitchBuffer : List Nat :=
  wordsToBytes
    [fgkBlockDataKey, 7, 11, 0,
      fgkDSPDataKey, 1, 7, 0, 0xB1, 1, 0]

/-- In `specLayout`: one block with one DSP structure whose padding flag is
`1`; its payload of five words is one bus patch with the data word `3`,
followed by the word `0` in the place of the padding word. -/
def badPaddingBuffer : List Nat :=
  wordsToBytes
    [fgkBlockDataKey, 11, 15, 0,
      fgkDSPDataKey, 5, 11, 0, 0, 1,
      fgkBusPatchDataKey, 1, 4, 3,
      0]

/-- One pass through a loop body, started at `p` with `count` structures
counted, returns a value, or goes on without moving the cursor backwards and
with at most `max` structures counted, having moved the cursor forwards or
counted one more structure. -/
def Step.advances (p count max : Nat) : Step → Prop
  | Step.exit ret _ => ret ≠ none
  | Step.next _ p2 n2 => p ≤ p2 ∧ n2 ≤ max ∧ ((p < p2 ∧ n2 = count) ∨ n2 = count + 1)

/-! ## The assertion of `DecodeBusPatchData` -/

/-- The assertion at the entry of `DecodeBusPatchData` (line 785),
`assert( UInt_t(end - start) % 4 == 0 )`: the difference of the two pointers,
converted to 32 bits, is a multiple of 4. -/
def DecodeBusPatchData.assertion (start end_ : Nat) : Prop :=
  (((end_ : Int) - (start : Int)) % 2 ^ 32) % 4 = 0

instance (start end_ : Nat) : Decidable (DecodeBusPatchData.assertion start end_) := by
  unfold DecodeBusPatchData.assertion
  infer_instance

/-- Method `AliMUONTrackerDDLDecoder::DecodeBusPatchData` (lines 765-812) with the
assertion enabled: `none` is the failure of the assertion, which aborts the
program. -/
def DecodeBusPatchData.asserted (buffer : List Nat) (fuel : Nat) (d : Decoder)
    (start end_ : Nat) : Option (Option Bool × Decoder) :=
  if DecodeBusPatchData.assertion start end_ then
    some (DecodeBusPatchData buffer fuel d start end_)
  else none

/-- Lines 734-758 of `DecodeDSPData`, as `DecodeDSPData.accept`, with the
assertion of `DecodeBusPatchData` enabled. -/
def DecodeDSPData.acceptAsserted (buffer : List Nat) (fuel : Nat) (d : Decoder)
    (busPatchStart dataStart dataEnd current busPatchCount : Nat) : Option Step :=
  let busPatchCount := (busPatchCount + 1) % 2 ^ 32
  if busPatchCount > d.fMaxBusPatches then
    let d := d.OnError ErrorCode.kTooManyBusPatches current
    let d := d.setHadError
    some (Step.exit (some false) d)
  else
    let d := d.OnNewBusPatch busPatchStart dataStart
    match DecodeBusPatchData.asserted buffer fuel d dataStart dataEnd with
    | none => none
    | some res => some (Step.afterCall res current busPatchCount)

/-- Lines 669-759 of `DecodeDSPData`, as `DecodeDSPData.body`, with the
assertion of `DecodeBusPatchData` enabled. -/
def DecodeDSPData.bodyAsserted (L : Layout) (buffer : List Nat) (fuel : Nat) (d : Decoder)
    (end_ current busPatchCount : Nat) : Option Step :=
  let busPatchStart := current
  let current := current + L.sizeofBusPatchHeader
  if current > end_ then
    let d := d.OnError ErrorCode.kNoBusPatchHeader busPatchStart
    let d := d.setHadError
    some (Step.exit (some false) d)
  else
    let dataStart := current
    let fDataKey := readUInt buffer (busPatchStart + L.busPatchDataKey)
    let fLength := readUInt buffer (busPatchStart + L.busPatchLength)
    let fTotalLength := readUInt buffer (busPatchStart + L.busPatchTotalLength)
    let current := current + fLength * 4
    let dataEnd := current
    let busPatchEnd := busPatchStart + fTotalLength * 4
    if fDataKey ≠ fgkBusPatchDataKey ∨ dataEnd > end_ ∨ busPatchEnd > end_
        ∨ dataEnd ≠ busPatchEnd then
      let d := d.OnErrorIf (decide (fDataKey ≠ fgkBusPatchDataKey))
        ErrorCode.kBadBusPatchKey (busPatchStart + L.busPatchDataKey)
      let d := d.OnErrorIf (decide (busPatchEnd > end_))
        ErrorCode.kBadBusPatchLength (busPatchStart + L.busPatchLength)
      let d := d.OnErrorIf (decide (dataEnd > end_))
        ErrorCode.kBadBusPatchTotalLength (busPatchStart + L.busPatchTotalLength)
      let d := d.OnErrorIf (decide (dataEnd ≠ busPatchEnd))
        ErrorCode.kBusPatchLengthMismatch busPatchStart
      let d := d.setHadError
      if d.fExitOnError = true then some (Step.exit (some false) d)
      else
        let r := TryRecoverStruct d buffer fgkBusPatchDataKey L.sizeofBusPatchHeader
          fTotalLength fLength busPatchStart end_ dataEnd busPatchEnd current
        match r.result with
        | RecoverResult.kContinueToNextStruct => some (Step.next d r.current busPatchCount)
        | RecoverResult.kRecoverFailed => some (Step.exit (some false) d)
        | RecoverResult.kStructRecovered =>
          DecodeDSPData.acceptAsserted buffer fuel d busPatchStart dataStart r.dataEnd r.current
            busPatchCount
    else
      DecodeDSPData.acceptAsserted buffer fuel d busPatchStart dataStart dataEnd current
        busPatchCount

/-- The `while (current < end)` loop of `DecodeDSPData` (lines 667-761), as
`DecodeDSPData.loop`, with the assertion of `DecodeBusPatchData` enabled. -/
def DecodeDSPData.loopAsserted (L : Layout) (buffer : List Nat) (end_ : Nat) :
    Nat → Decoder → Nat → Nat → Option (Option Bool × Decoder)
  | 0, d, _, _ => some (none, d)
  | fuel + 1, d, current, busPatchCount =>
    if current < end_ then
      match DecodeDSPData.bodyAsserted L buffer fuel d end_ current busPatchCount with
      | none => none
      | some (Step.exit ret d) => some (ret, d)
      | some (Step.next d current busPatchCount) =>
        DecodeDSPData.loopAsserted L buffer end_ fuel d current busPatchCount
    else some (some true, d)

/-- Method `AliMUONTrackerDDLDecoder::DecodeDSPData` (lines 649-762), the only caller
of `DecodeBusPatchData`, with the assertion of `DecodeBusPatchData` enabled. -/
def DecodeDSPData.asserted (L : Layout) (buffer : List Nat) (fuel : Nat) (d : Decoder)
    (start end_ : Nat) : Option (Option Bool × Decoder) :=
  DecodeDSPData.loopAsserted L buffer end_ fuel d start 0

/-- Lines 636-642 of `DecodeBlockData`, as `DecodeBlockData.decodeDSP`, with
the assertion of `DecodeBusPatchData` enabled. -/
def DecodeBlockData.decodeDSPAsserted (L : Layout) (buffer : List Nat) (fuel : Nat)
    (d : Decoder) (dataStart dataEnd current dspCount : Nat) : Option Step :=
  match DecodeDSPData.asserted L buffer fuel d dataStart dataEnd with
  | none => none
  | some res => some (Step.afterCall res current dspCount)

/-- Lines 620-642 of `DecodeBlockData`, as `DecodeBlockData.padding`, with the
assertion of `DecodeBusPatchData` enabled. -/
def DecodeBlockData.paddingAsserted (L : Layout) (buffer : List Nat) (fuel : Nat)
    (d : Decoder) (dspStart dataStart dataEnd current dspCount : Nat) : Option Step :=
  if readUInt buffer (dspStart + L.dspPaddingWord) = 1 then
    let dataEnd := dataEnd - 4
    if readUInt buffer dataEnd ≠ fgkPaddingWord then
      let d := d.OnError ErrorCode.kBadPaddingWord dataEnd
      let d := d.setHadError
      if d.fExitOnError = true then some (Step.exit (some false) d)
      else DecodeBlockData.decodeDSPAsserted L buffer fuel d dataStart dataEnd current dspCount
    else DecodeBlockData.decodeDSPAsserted L buffer fuel d dataStart dataEnd current dspCount
  else DecodeBlockData.decodeDSPAsserted L buffer fuel d dataStart dataEnd current dspCount

/-- Lines 581-642 of `DecodeBlockData`, as `DecodeBlockData.accept`, with the
assertion of `DecodeBusPatchData` enabled. -/
def DecodeBlockData.acceptAsserted (L : Layout) (buffer : List Nat) (fuel : Nat)
    (d : Decoder) (blockHeader dspStart dataStart dataEnd current dspCount : Nat) :
    Option Step :=
  let dspCount := (dspCount + 1) % 2 ^ 32
  if dspCount > d.fMaxDSPs then
    let d := d.OnError ErrorCode.kTooManyDSPs current
    let d := d.setHadError
    some (Step.exit (some false) d)
  else
    let d := d.OnNewDSP dspStart dataStart
    let fErrorWord := readUInt buffer (dspStart + L.dspErrorWord)
    let fDSPId := readUInt buffer (blockHeader + L.blockDSPId)
    if fErrorWord = (0x000000B1 ||| fDSPId) ∨ fErrorWord = (0x00000091 ||| fDSPId) then
      let d := d.OnError ErrorCode.kGlitchFound (dspStart + L.dspErrorWord)
      let d := d.setHadError
      if d.fExitOnError = true then some (Step.exit (some false) d)
      else if d.fTryRecover = true then some (Step.next d current dspCount)
      else
        DecodeBlockData.paddingAsserted L buffer fuel d dspStart dataStart dataEnd current
          dspCount
    else
      DecodeBlockData.paddingAsserted L buffer fuel d dspStart dataStart dataEnd current
        dspCount

/-- Lines 520-642 of `DecodeBlockData`, as `DecodeBlockData.body`, with the
assertion of `DecodeBusPatchData` enabled. -/
def DecodeBlockData.bodyAsserted (L : Layout) (buffer : List Nat) (fuel : Nat) (d : Decoder)
    (blockHeader end_ current dspCount : Nat) : Option Step :=
  let dspStart := current
  let current := current + L.sizeofDSPHeader
  if current > end_ then
    let d := d.OnError ErrorCode.kNoDSPHeader dspStart
    let d := d.setHadError
    some (Step.exit (some false) d)
  else
    let dataStart := current
    let fDataKey := readUInt buffer (dspStart + L.dspDataKey)
    let fLength := readUInt buffer (dspStart + L.dspLength)
    let fTotalLength := readUInt buffer (dspStart + L.dspTotalLength)
    let current := current + fLength * 4
    let dataEnd := current
    let dspEnd := dspStart + fTotalLength * 4
    if fDataKey ≠ fgkDSPDataKey ∨ dataEnd > end_ ∨ dspEnd > end_ ∨ dataEnd ≠ dspEnd then
      let d := d.OnErrorIf (decide (fDataKey ≠ fgkDSPDataKey))
        ErrorCode.kBadDSPKey (dspStart + L.dspDataKey)
      let d := d.OnErrorIf (decide (dspEnd > end_))
        ErrorCode.kBadDSPLength (dspStart + L.dspLength)
      let d := d.OnErrorIf (decide (dataEnd > end_))
        ErrorCode.kBadDSPTotalLength (dspStart + L.dspTotalLength)
      let d := d.OnErrorIf (decide (dataEnd ≠ dspEnd))
        ErrorCode.kDSPLengthMismatch dspStart
      let d := d.setHadError
      if d.fExitOnError = true then some (Step.exit (some false) d)
      else
        let r := TryRecoverStruct d buffer fgkDSPDataKey L.sizeofDSPHeader
          fTotalLength fLength dspStart end_ dataEnd dspEnd current
        match r.result with
        | RecoverResult.kContinueToNextStruct => some (Step.next d r.current dspCount)
        | RecoverResult.kRecoverFailed => some (Step.exit (some false) d)
        | RecoverResult.kStructRecovered =>
          DecodeBlockData.acceptAsserted L buffer fuel d blockHeader dspStart dataStart
            r.dataEnd r.current dspCount
    else
      DecodeBlockData.acceptAsserted L buffer fuel d blockHeader dspStart dataStart dataEnd
        current dspCount

/-- The `while (current < end)` loop of `DecodeBlockData` (lines 518-645), as
`DecodeBlockData.loop`, with the assertion of `DecodeBusPatchData` enabled. -/
def DecodeBlockData.loopAsserted (L : Layout) (buffer : List Nat) (blockHeader end_ : Nat) :
    Nat → Decoder → Nat → Nat → Option (Option Bool × Decoder)
  | 0, d, _, _ => some (none, d)
  | fuel + 1, d, current, dspCount =>
    if current < end_ then
      match DecodeBlockData.bodyAsserted L buffer fuel d blockHeader end_ current dspCount with
      | none => none
      | some (Step.exit ret d) => some (ret, d)
      | some (Step.next d current dspCount) =>
        DecodeBlockData.loopAsserted L buffer blockHeader end_ fuel d current dspCount
    else some (some true, d)

/-- Method `AliMUONTrackerDDLDecoder::DecodeBlockData` (lines 496-646) with the
assertion of `DecodeBusPatchData` enabled. -/
def DecodeBlockData.asserted (L : Layout) (buffer : List Nat) (fuel : Nat) (d : Decoder)
    (blockHeader start end_ : Nat) : Option (Option Bool × Decoder) :=
  DecodeBlockData.loopAsserted L buffer blockHeader end_ fuel d start 0

/-- Lines 469-489 of `Decode`, as `Decode.accept`, with the assertion of
`DecodeBusPatchData` enabled. -/
def Decode.acceptAsserted (L : Layout) (buffer : List Nat) (fuel : Nat) (d : Decoder)
    (blockStart dataStart dataEnd current blockCount : Nat) : Option Step :=
  let blockCount := (blockCount + 1) % 2 ^ 32
  if blockCount > d.fMaxBlocks then
    let d := d.OnError ErrorCode.kTooManyBlocks current
    some (Step.exit (some false) d)
  else
    let d := d.OnNewBlock blockStart dataStart
    match DecodeBlockData.asserted L buffer fuel d blockStart dataStart dataEnd with
    | none => none
    | some res => some (Step.afterCall res current blockCount)

/-- Lines 393-489 of `Decode`, as `Decode.body`, with the assertion of
`DecodeBusPatchData` enabled. -/
def Decode.bodyAsserted (L : Layout) (buffer : List Nat) (fuel : Nat) (d : Decoder)
    (end_ current blockCount : Nat) : Option Step :=
  let blockStart := current
  let current := current + L.sizeofBlockHeader
  if current > end_ then
    if blockCount = d.fMaxBlocks then
      some (Step.exit (some false) (d.OnError ErrorCode.kBufferTooBig blockStart))
    else
      some (Step.exit (some false) (d.OnError ErrorCode.kNoBlockHeader blockStart))
  else
    let dataStart := current
    let fDataKey := readUInt buffer (blockStart + L.blockDataKey)
    let fLength := readUInt buffer (blockStart + L.blockLength)
    let fTotalLength := readUInt buffer (blockStart + L.blockTotalLength)
    let current := current + fLength * 4
    let dataEnd := current
    let blockEnd := blockStart + fTotalLength * 4
    if fDataKey ≠ fgkBlockDataKey ∨ dataEnd > end_ ∨ blockEnd > end_ ∨ dataEnd ≠ blockEnd then
      if blockCount = d.fMaxBlocks then
        some (Step.exit (some false) (d.OnError ErrorCode.kBufferTooBig blockStart))
      else
        let d := d.OnErrorIf (decide (fDataKey ≠ fgkBlockDataKey))
          ErrorCode.kBadBlockKey (blockStart + L.blockDataKey)
        let d := d.OnErrorIf (decide (blockEnd > end_))
          ErrorCode.kBadBlockLength (blockStart + L.blockLength)
        let d := d.OnErrorIf (decide (dataEnd > end_))
          ErrorCode.kBadBlockTotalLength (blockStart + L.blockTotalLength)
        let d := d.OnErrorIf (decide (dataEnd ≠ blockEnd))
          ErrorCode.kBlockLengthMismatch blockStart
        if d.fExitOnError = true then some (Step.exit (some false) d)
        else
          let d := d.setHadError
          let r := TryRecoverStruct d buffer fgkBlockDataKey L.sizeofBlockHeader
            fTotalLength fLength blockStart end_ dataEnd blockEnd current
          match r.result with
          | RecoverResult.kContinueToNextStruct => some (Step.next d r.current blockCount)
          | RecoverResult.kRecoverFailed => some (Step.exit (some false) d)
          | RecoverResult.kStructRecovered =>
            Decode.acceptAsserted L buffer fuel d blockStart dataStart r.dataEnd r.current
              blockCount
    else
      Decode.acceptAsserted L buffer fuel d blockStart dataStart dataEnd current blockCount

/-- The `while (current < end)` loop of `Decode` (lines 391-492), as
`Decode.loop`, with the assertion of `DecodeBusPatchData` enabled. -/
def Decode.loopAsserted (L : Layout) (buffer : List Nat) (end_ : Nat) :
    Nat → Decoder → Nat → Nat → Option (Option Bool × Decoder)
  | 0, d, _, _ => some (none, d)
  | fuel + 1, d, current, blockCount =>
    if current < end_ then
      match Decode.bodyAsserted L buffer fuel d end_ current blockCount with
      | none => none
      | some (Step.exit ret d) => some (ret, d)
      | some (Step.next d current blockCount) =>
        Decode.loopAsserted L buffer end_ fuel d current blockCount
    else some (some (!d.fHadError), d)

/-- Method `AliMUONTrackerDDLDecoder::Decode` (lines 347-493) with the assertion of
`DecodeBusPatchData` enabled: `none` is the failure of the assertion in one of
the calls of `DecodeBusPatchData` made during the decoding. -/
def Decode.asserted (L : Layout) (buffer : List Nat) (fuel : Nat) (d : Decoder)
    (bufferSize : Nat) : Option (Option Bool × Decoder) :=
  let d := d.clearHadError
  let current := 0
  let end_ := current + bufferSize
  let d := d.OnNewBuffer 0 bufferSize
  Decode.loopAsserted L buffer end_ fuel d current 0

/-- In `specLayout`: a word `0`, one more byte, then a bus patch with the data
word `3`: the bus patch header stands at the unaligned position 5, its data
word at 17, and the buffer ends at 21. -/
def unalignedBuffer : List Nat :=
  wordBytes 0 ++ [0] ++ wordsToBytes [fgkBusPatchDataKey, 1, 4, 3]

/-! ## The decoder before and after a call of `Decode` -/

/-- The decoder `d` whose event handler received the callbacks `pre` before
those recorded in `d`. -/
def Decoder.prepend (d : Decoder) (pre : List Event) : Decoder :=
  { d with fHandler := pre ++ d.fHandler }

/-- The decoder with the configuration of `d` that has not decoded anything:
`fHadError` is unset and the event handler has received no callback. -/
def Decoder.fresh (d : Decoder) : Decoder :=
  { d with fHadError := false, fHandler := [] }

/-- The step `s` for an event handler that received the callbacks `pre`
before. -/
def Step.prepend (pre : List Event) : Step → Step
  | Step.exit ret d => Step.exit ret (d.prepend pre)
  | Step.next d current count => Step.next (d.prepend pre) current count

/-! ## Runs without errors come to an end -/

/-- The result `res` of a method started on the decoder `d` is a returned
value, unless an `OnError` is among the callbacks added. -/
def Settles (d : Decoder) (res : Option Bool × Decoder) : Prop :=
  ∃ h t, res.2 = d.upd h t ∧ (res.1 = none → hasError t = true)

/-- One pass through a loop body, started at `p` on the decoder `d`, returns a
value or moves the cursor forwards, unless an `OnError` is among the callbacks
added. -/
def Step.settles (d : Decoder) (p : Nat) : Step → Prop
  | Step.exit ret d2 => ∃ h t, d2 = d.upd h t ∧ (ret = none → hasError t = true)
  | Step.next d2 p2 _ => ∃ h t, d2 = d.upd h t ∧ (p < p2 ∨ hasError t = true)

/-! # Theorems -/

/-! ## Parity -/

theorem parity_table (n : Nat) (h : n < 16) :
    (((0x6996 >>> n) &&& 1) == 0) = !(xorBits n 4) := by
  revert n
  decide

theorem xorBits_mod (x k n : Nat) (h : n ≤ k) : xorBits (x % 2 ^ k) n = xorBits x n := by
  induction n with
  | zero => rfl
  | succ n ih =>
    have hn : n < k := h
    simp [xorBits, ih (Nat.le_of_lt hn), Nat.testBit_mod_two_pow, hn]

theorem parity_nibble (x : Nat) :
    (((0x6996 >>> (x &&& 0xf)) &&& 1) == 0) = !(xorBits x 4) := by
  have h16 : x &&& 0xf = x % 2 ^ 4 := Nat.and_pow_two_sub_one_eq_mod x 4
  rw [h16, parity_table (x % 2 ^ 4) (Nat.mod_lt _ (by norm_num)),
    xorBits_mod x 4 4 (Nat.le_refl 4)]

theorem xorBits_xor (a b n : Nat) :
    xorBits (a ^^^ b) n = xor (xorBits a n) (xorBits b n) := by
  induction n with
  | zero => rfl
  | succ n ih =>
    simp only [xorBits, ih, Nat.testBit_xor]
    cases xorBits a n <;> cases xorBits b n <;> cases a.testBit n <;> cases b.testBit n <;> rfl

theorem xorBits_add (w k m : Nat) :
    xorBits w (k + m) = xor (xorBits w k) (xorBits (w >>> k) m) := by
  induction m with
  | zero => simp [xorBits]
  | succ m ih =>
    rw [← Nat.add_assoc]
    simp only [xorBits, ih, Nat.testBit_shiftRight, Bool.xor_assoc]

/-- One folding step of `ParityIsOk` halves the number of bits whose parity is
wanted. -/
theorem xorBits_fold (w k : Nat) : xorBits (w ^^^ (w >>> k)) k = xorBits w (k + k) := by
  rw [xorBits_xor, xorBits_add]

/-- The verdict of `ParityIsOk` is the negated exclusive or of the 32 low bits. -/
theorem ParityIsOk_eq (w : Nat) : ParityIsOk w = !(xorBits w 32) := by
  unfold ParityIsOk
  simp only []
  rw [parity_nibble, xorBits_fold _ 4, xorBits_fold _ 8, xorBits_fold _ 16]

theorem countP_range_mod_two (w n : Nat) :
    ((List.range n).countP (fun i => w.testBit i)) % 2 = (xorBits w n).toNat := by
  induction n with
  | zero => simp [xorBits]
  | succ n ih =>
    rw [List.range_succ, List.countP_append, Nat.add_mod, ih]
    cases h1 : xorBits w n <;> cases h2 : w.testBit n <;>
      simp [xorBits, h1, h2, List.countP_cons]

theorem xorBits_two_pow (i n : Nat) : xorBits (2 ^ i) n = decide (i < n) := by
  induction n with
  | zero => simp [xorBits]
  | succ n ih =>
    simp only [xorBits, ih, Nat.testBit_two_pow]
    by_cases h1 : i < n
    · have h2 : i ≠ n := Nat.ne_of_lt h1
      have h3 : i < n + 1 := Nat.lt_succ_of_lt h1
      simp [h1, h2, h3]
    · by_cases h2 : i = n
      · simp [h2]
      · have h3 : ¬ i < n + 1 := by omega
        simp [h1, h2, h3]

/-- Flipping one of the 32 bits flips the verdict of `ParityIsOk`. -/
theorem ParityIsOk_flip (w i : Nat) (hi : i < 32) :
    ParityIsOk (w ^^^ 2 ^ i) = !(ParityIsOk w) := by
  simp only [ParityIsOk_eq, xorBits_xor, xorBits_two_pow, hi]
  cases xorBits w 32 <;> simp

/-- The verdict of `ParityIsOk` is the even-parity predicate. -/
theorem ParityIsOk_eq_evenParity (w : Nat) : ParityIsOk w = evenParity w := by
  rw [ParityIsOk_eq, evenParity, popCount32, countP_range_mod_two]
  cases xorBits w 32 <;> rfl

theorem evenParity_iff (w : Nat) : evenParity w = true ↔ Even (popCount32 w) := by
  simp [evenParity, Nat.even_iff]

/-- C3: for every word `w`, `ParityIsOk w` holds if and only if the number of
set bits among the 32 bits of `w` is even. -/
theorem parityIsOk_iff_even_popCount (w : Nat) :
    ParityIsOk w = true ↔ Even (popCount32 w) := by
  rw [ParityIsOk_eq_evenParity, evenParity_iff]

/-- C4: flipping one bit `i < 32` of a word negates the verdict of
`ParityIsOk`, and flipping two bits `i, j < 32` leaves it unchanged. -/
theorem parityIsOk_flip_one_two (w i j : Nat) (hi : i < 32) (hj : j < 32) (_hij : i ≠ j) :
    ParityIsOk (w ^^^ 2 ^ i) = !(ParityIsOk w) ∧
      ParityIsOk (w ^^^ 2 ^ i ^^^ 2 ^ j) = ParityIsOk w := by
  refine ⟨ParityIsOk_flip w i hi, ?_⟩
  rw [ParityIsOk_flip _ j hj, ParityIsOk_flip w i hi, Bool.not_not]

/-- C4 at the word `0x12345678` and the bits 3 and 17. -/
theorem parityIsOk_flip_one_two_witness :
    ParityIsOk (0x12345678 ^^^ 2 ^ 3) = !(ParityIsOk 0x12345678) ∧
      ParityIsOk (0x12345678 ^^^ 2 ^ 3 ^^^ 2 ^ 17) = ParityIsOk 0x12345678 :=
  parityIsOk_flip_one_two 0x12345678 3 17 (by decide) (by decide) (by decide)

/-! ## The decoder object: normal form of the state -/

namespace Decoder

@[simp] theorem upd_fExitOnError (d : Decoder) (h : Bool) (t : List Event) :
    (d.upd h t).fExitOnError = d.fExitOnError := rfl
@[simp] theorem upd_fTryRecover (d : Decoder) (h : Bool) (t : List Event) :
    (d.upd h t).fTryRecover = d.fTryRecover := rfl
@[simp] theorem upd_fSendDataOnParityError (d : Decoder) (h : Bool) (t : List Event) :
    (d.upd h t).fSendDataOnParityError = d.fSendDataOnParityError := rfl
@[simp] theorem upd_fHadError (d : Decoder) (h : Bool) (t : List Event) :
    (d.upd h t).fHadError = h := rfl
@[simp] theorem upd_fMaxBlocks (d : Decoder) (h : Bool) (t : List Event) :
    (d.upd h t).fMaxBlocks = d.fMaxBlocks := rfl
@[simp] theorem upd_fMaxDSPs (d : Decoder) (h : Bool) (t : List Event) :
    (d.upd h t).fMaxDSPs = d.fMaxDSPs := rfl
@[simp] theorem upd_fMaxBusPatches (d : Decoder) (h : Bool) (t : List Event) :
    (d.upd h t).fMaxBusPatches = d.fMaxBusPatches := rfl
@[simp] theorem upd_fHandler (d : Decoder) (h : Bool) (t : List Event) :
    (d.upd h t).fHandler = d.fHandler ++ t := rfl

@[simp] theorem upd_upd (d : Decoder) (h h2 : Bool) (t t2 : List Event) :
    (d.upd h t).upd h2 t2 = d.upd h2 (t ++ t2) := by
  simp [upd, List.append_assoc]

theorem upd_self (d : Decoder) : d.upd d.fHadError [] = d := by
  cases d
  simp [upd]

@[simp] theorem OnNewBuffer_eq (d : Decoder) (b n : Nat) :
    d.OnNewBuffer b n = d.upd d.fHadError [Event.OnNewBuffer b n] := rfl
@[simp] theorem OnNewBlock_eq (d : Decoder) (a b : Nat) :
    d.OnNewBlock a b = d.upd d.fHadError [Event.OnNewBlock a b] := rfl
@[simp] theorem OnNewDSP_eq (d : Decoder) (a b : Nat) :
    d.OnNewDSP a b = d.upd d.fHadError [Event.OnNewDSP a b] := rfl
@[simp] theorem OnNewBusPatch_eq (d : Decoder) (a b : Nat) :
    d.OnNewBusPatch a b = d.upd d.fHadError [Event.OnNewBusPatch a b] := rfl
@[simp] theorem OnData_eq (d : Decoder) (w : Nat) :
    d.OnData w = d.upd d.fHadError [Event.OnData w] := rfl
@[simp] theorem OnError_eq (d : Decoder) (c : ErrorCode) (p : Nat) :
    d.OnError c p = d.upd d.fHadError [Event.OnError c p] := rfl
@[simp] theorem OnErrorIf_eq (d : Decoder) (b : Bool) (c : ErrorCode) (p : Nat) :
    d.OnErrorIf b c p = d.upd d.fHadError (if b = true then [Event.OnError c p] else []) := by
  cases b
  · simp [OnErrorIf, upd_self]
  · simp [OnErrorIf]
@[simp] theorem setHadError_eq (d : Decoder) : d.setHadError = d.upd true [] := by
  simp [setHadError, upd]
@[simp] theorem clearHadError_eq (d : Decoder) : d.clearHadError = d.upd false [] := by
  simp [clearHadError, upd]

end Decoder

@[simp] theorem hasError_nil : hasError [] = false := rfl

@[simp] theorem hasError_append (s t : List Event) :
    hasError (s ++ t) = (hasError s || hasError t) := by
  simp [hasError]

@[simp] theorem hasError_cons (e : Event) (t : List Event) :
    hasError (e :: t) = (e.isError || hasError t) := by
  simp [hasError]

/-! ## Bus patch payload -/

theorem wordsEvents_hasError (send : Bool) (ws : List Nat) (p : Nat) :
    hasError (wordsEvents send p ws) = ws.any (fun w => !evenParity w) := by
  induction ws generalizing p with
  | nil => rfl
  | cons w ws ih =>
    simp only [wordsEvents, hasError_append, ih, List.any_cons]
    cases hw : evenParity w <;> cases send <;> simp [wordEvents, hw, Event.isError]

/-- The data loop when the decoder does not exit on errors: it returns `true`
after the callbacks `wordsEvents`, and `fHadError` is set when a word failed
the parity test. -/
theorem DecodeBusPatchData_noExit (buffer : List Nat) (n : Nat) :
    ∀ (fuel : Nat) (d : Decoder) (start : Nat), d.fExitOnError = false → n < fuel →
      DecodeBusPatchData buffer fuel d start (start + 4 * n)
        = (some true,
            d.upd (d.fHadError || hasError
                (wordsEvents d.fSendDataOnParityError start (payloadWords buffer start n)))
              (wordsEvents d.fSendDataOnParityError start (payloadWords buffer start n))) := by
  induction n with
  | zero =>
    intro fuel d start _ hf
    obtain ⟨m, rfl⟩ : ∃ m, fuel = m + 1 := ⟨fuel - 1, by omega⟩
    simp [DecodeBusPatchData, payloadWords, wordsEvents, Decoder.upd_self]
  | succ n ih =>
    intro fuel d start hd hf
    obtain ⟨m, rfl⟩ : ∃ m, fuel = m + 1 := ⟨fuel - 1, by omega⟩
    have hm : n < m := by omega
    have hlt : start < start + 4 * (n + 1) := by omega
    have hend : start + 4 * (n + 1) = (start + 4) + 4 * n := by omega
    rw [DecodeBusPatchData]
    simp only [hlt, if_true]
    rw [hend, ParityIsOk_eq_evenParity]
    by_cases hw : evenParity (readUInt buffer start) = true
    · simp only [hw, if_true]
      rw [Decoder.OnData_eq, ih m _ (start + 4) (by simpa using hd) hm]
      simp [payloadWords, wordsEvents, wordEvents, hw, Event.isError]
    · simp only [hw]
      simp only [Decoder.OnError_eq, Decoder.setHadError_eq, Decoder.upd_upd,
        Decoder.upd_fExitOnError, hd, Decoder.upd_fSendDataOnParityError]
      cases hs : d.fSendDataOnParityError
      · simp only [Bool.false_eq_true, if_false]
        rw [ih m _ (start + 4) (by simpa using hd) hm]
        simp [payloadWords, wordsEvents, wordEvents, hw, hs, Event.isError]
      · simp only [if_true, Bool.false_eq_true, if_false]
        rw [Decoder.OnData_eq, ih m _ (start + 4) (by simpa using hd) hm]
        simp [payloadWords, wordsEvents, wordEvents, hw, hs, Event.isError]

theorem wordsEvents_countError (send : Bool) (ws : List Nat) (p : Nat) :
    countError ErrorCode.kParityError (wordsEvents send p ws)
      = ws.countP (fun w => !evenParity w) := by
  induction ws generalizing p with
  | nil => rfl
  | cons w ws ih =>
    have h := ih (p + 4)
    unfold countError at h ⊢
    simp only [wordsEvents, List.countP_append, h, List.countP_cons]
    cases hw : evenParity w <;> cases send <;>
      simp [wordEvents, hw, Event.isErrorCode, Nat.add_comm]

theorem wordsEvents_data_even (ws : List Nat) (p w : Nat)
    (h : Event.OnData w ∈ wordsEvents false p ws) : evenParity w = true := by
  induction ws generalizing p with
  | nil => simp [wordsEvents] at h
  | cons v ws ih =>
    simp only [wordsEvents, List.mem_append] at h
    rcases h with h | h
    · cases hv : evenParity v
      · simp [wordEvents, hv] at h
      · simp [wordEvents, hv] at h
        rw [h]
        exact hv
    · exact ih (p + 4) h

/-- C7: with `ExitOnError = false`, `DecodeBusPatchData` on a payload of `n`
words returns `true` (for every iteration budget above `n`) after emitting, for
each word in order, `OnData` if the word has even parity and otherwise
`OnError(kParityError)`, followed by `OnData` exactly when
`SendDataOnParityError` is set.  The number of `kParityError` reports is the
number of words of odd parity, and with `SendDataOnParityError = false` every
word delivered by `OnData` has an even number of set bits. -/
theorem decodeBusPatchData_noExit_events (buffer : List Nat) (d : Decoder)
    (start n fuel : Nat) (hExit : d.fExitOnError = false) (hfuel : n < fuel) :
    DecodeBusPatchData buffer fuel d start (start + 4 * n)
        = (some true,
            d.upd (d.fHadError || (payloadWords buffer start n).any (fun w => !evenParity w))
              (wordsEvents d.fSendDataOnParityError start (payloadWords buffer start n)))
      ∧ countError ErrorCode.kParityError
          (wordsEvents d.fSendDataOnParityError start (payloadWords buffer start n))
          = (payloadWords buffer start n).countP (fun w => !evenParity w)
      ∧ (d.fSendDataOnParityError = false →
          ∀ w, Event.OnData w ∈
              wordsEvents d.fSendDataOnParityError start (payloadWords buffer start n) →
            Even (popCount32 w)) := by
  refine ⟨?_, wordsEvents_countError _ _ _, ?_⟩
  · rw [DecodeBusPatchData_noExit buffer n fuel d start hExit hfuel, wordsEvents_hasError]
  · intro hs w hw
    rw [hs] at hw
    exact (evenParity_iff w).1 (wordsEvents_data_even _ _ _ hw)

/-- C7 on the three words `3, 4, 5` (the second of odd parity), with the
default `SendDataOnParityError = false`. -/
theorem decodeBusPatchData_noExit_events_witness :
    DecodeBusPatchData [3, 0, 0, 0, 4, 0, 0, 0, 5, 0, 0, 0] 4 noExitDecoder 0 12
      = (some true, noExitDecoder.upd true
          [Event.OnData 3, Event.OnError ErrorCode.kParityError 4, Event.OnData 5]) :=
  (decodeBusPatchData_noExit_events [3, 0, 0, 0, 4, 0, 0, 0, 5, 0, 0, 0] noExitDecoder
    0 3 4 rfl (by decide)).1

/-! ## Error reporting on every path -/

theorem reports_isError (l : List (Bool × ErrorCode × Nat)) :
    ∀ e ∈ reports l, e.isError = true := by
  intro e he
  simp only [reports, List.mem_map] at he
  obtain ⟨x, _, rfl⟩ := he
  rfl

theorem reports_length (l : List (Bool × ErrorCode × Nat)) :
    (reports l).length ≤ l.length := by
  simp only [reports, List.length_map]
  exact List.length_filter_le _ _

theorem reports_hasError (l : List (Bool × ErrorCode × Nat)) :
    hasError (reports l) = l.any (fun x => x.1) := by
  induction l with
  | nil => rfl
  | cons x l ih =>
    obtain ⟨c, k, p⟩ := x
    cases c
    · simpa [reports, List.filter_cons] using ih
    · simp [reports, List.filter_cons, Event.isError]

theorem reports_ne_nil (l : List (Bool × ErrorCode × Nat)) (h : l.any (fun x => x.1) = true) :
    reports l ≠ [] := by
  intro h0
  have := reports_hasError l
  rw [h0, h] at this
  simp at this

theorem Decoder.OnErrorIf_reports (d : Decoder) (b : Bool) (c : ErrorCode) (p : Nat) :
    d.OnErrorIf b c p = d.upd d.fHadError (reports [(b, c, p)]) := by
  cases b
  · simp [Decoder.OnErrorIf, reports, Decoder.upd_self]
  · simp [Decoder.OnErrorIf, reports]

theorem reports_append (l1 l2 : List (Bool × ErrorCode × Nat)) :
    reports l1 ++ reports l2 = reports (l1 ++ l2) := by
  simp [reports]


theorem ErrorTail_nil (P : Prop) : ErrorTail [] P :=
  ⟨[], [], rfl, rfl, by simp, by simp, by simp⟩

theorem ErrorTail_errors {t : List Event} {P : Prop} (h : ∀ e ∈ t, e.isError = true)
    (hl : t.length ≤ 4) (hP : P) : ErrorTail t P :=
  ⟨[], t, by simp, rfl, h, hl, fun _ => hP⟩

theorem ErrorTail_prepend {s t : List Event} {P : Prop} (hs : hasError s = false)
    (ht : ErrorTail t P) : ErrorTail (s ++ t) P := by
  obtain ⟨pre, errs, rfl, h1, h2, h3, h4⟩ := ht
  exact ⟨s ++ pre, errs, by simp, by simp [hs, h1], h2, h3, h4⟩

theorem ErrorTail_hasError_false {t : List Event} {P : Prop} (ht : ErrorTail t P) (hP : ¬ P) :
    hasError t = false := by
  obtain ⟨pre, errs, rfl, h1, _, _, h4⟩ := ht
  have : errs = [] := by
    by_contra h
    exact hP (h4 h)
  simp [this, h1]

theorem SubPost_prepend {d : Decoder} {h1 : Bool} {t1 : List Event} {res : Option Bool × Decoder}
    (hh : h1 = (d.fHadError || hasError t1))
    (hc : d.fExitOnError = true → hasError t1 = false)
    (hp : SubPost (d.upd h1 t1) res) : SubPost d res := by
  obtain ⟨t, e1, e2, e3⟩ := hp
  refine ⟨t1 ++ t, ?_, ?_, ?_⟩
  · rw [e1, hh]
    simp [Bool.or_assoc]
  · intro h
    simp [e2 h]
  · intro h
    exact ErrorTail_prepend (hc h) (e3 (by simpa using h))

theorem StepPost_prepend {d : Decoder} {h1 : Bool} {t1 : List Event} {s : Step}
    (hh : h1 = (d.fHadError || hasError t1))
    (hc : d.fExitOnError = true → hasError t1 = false)
    (hp : StepPost (d.upd h1 t1) s) : StepPost d s := by
  cases s with
  | exit ret d2 =>
    exact ⟨hp.1, SubPost_prepend hh hc hp.2⟩
  | next d2 c n =>
    obtain ⟨t, e1, e2⟩ := hp
    refine ⟨t1 ++ t, ?_, ?_⟩
    · rw [e1, hh]
      simp [Bool.or_assoc]
    · intro h
      simp [hc h, e2 (by simpa using h)]

/-- A step that leaves with `false` after callbacks `pre` without `OnError`
followed by the `OnError` callbacks `errs`. -/
theorem StepPost_exit_errors {d : Decoder} {h1 : Bool} {t : List Event}
    (pre errs : List Event) (ht : t = pre ++ errs)
    (hh : h1 = true) (hpre : hasError pre = false) (herr : ∀ e ∈ errs, e.isError = true)
    (hne : errs ≠ []) (hl : errs.length ≤ 4) :
    StepPost d (Step.exit (some false) (d.upd h1 t)) := by
  have he : hasError errs = true := by
    cases errs with
    | nil => exact absurd rfl hne
    | cons e t => simp [herr e (by simp)]
  refine ⟨by simp, t, ?_, fun _ => by simp [ht, he],
    fun _ => ⟨pre, errs, ht, hpre, herr, hl, fun _ => rfl⟩⟩
  simp [hh, ht, he]

/-- A step that goes on after `OnError` callbacks, "exit on error" being off. -/
theorem StepPost_next_errors {d : Decoder} {t : List Event} (current count : Nat)
    (hx : ¬ d.fExitOnError = true) (he : hasError t = true) :
    StepPost d (Step.next (d.upd true t) current count) :=
  ⟨t, by simp [he], fun h => absurd h hx⟩

/-- A step that leaves with `false` after callbacks with an `OnError`, "exit
on error" being off. -/
theorem StepPost_exit_noExit {d : Decoder} {t : List Event}
    (hx : ¬ d.fExitOnError = true) (he : hasError t = true) :
    StepPost d (Step.exit (some false) (d.upd true t)) :=
  ⟨by simp, t, by simp [he], fun _ => he, fun h => absurd h hx⟩

/-- The callee's result is handed on by the caller. -/
theorem StepPost_afterCall {d : Decoder} {res : Option Bool × Decoder} (current count : Nat)
    (hp : SubPost d res) : StepPost d (Step.afterCall res current count) := by
  obtain ⟨r, d2⟩ := res
  obtain ⟨t, e1, e2, e3⟩ := hp
  simp only at e1 e2 e3
  unfold Step.afterCall
  cases r with
  | none => exact ⟨by simp, t, e1, by simp, e3⟩
  | some b =>
    cases b with
    | true =>
      refine ⟨t, e1, fun h => ?_⟩
      exact ErrorTail_hasError_false (e3 h) (by simp)
    | false =>
      have hx : d2.fExitOnError = d.fExitOnError := by rw [e1]; rfl
      by_cases hd : d.fExitOnError = true
      · simp only [hx, hd, if_true]
        exact ⟨by simp, t, e1, e2, e3⟩
      · simp only [hx, hd, if_false]
        exact ⟨t, e1, fun h => absurd h hd⟩

theorem DecodeBusPatchData_post (buffer : List Nat) (fuel : Nat) :
    ∀ (d : Decoder) (data dataEnd : Nat),
      SubPost d (DecodeBusPatchData buffer fuel d data dataEnd) := by
  induction fuel with
  | zero =>
    intro d data dataEnd
    exact ⟨[], by simp [DecodeBusPatchData, Decoder.upd_self], by simp [DecodeBusPatchData],
      fun _ => ErrorTail_nil _⟩
  | succ fuel ih =>
    intro d data dataEnd
    rw [DecodeBusPatchData]
    simp only [Decoder.setHadError_eq, Decoder.OnError_eq, Decoder.OnData_eq,
      Decoder.upd_upd, Decoder.upd_fHadError, Decoder.upd_fExitOnError,
      Decoder.upd_fSendDataOnParityError, List.nil_append, List.append_nil,
      List.singleton_append]
    split_ifs with h1 h2 h3 h4
    · exact SubPost_prepend (by simp [Event.isError]) (by simp [Event.isError]) (ih _ _ _)
    · exact ⟨[Event.OnError ErrorCode.kParityError data], by simp [Event.isError],
        by simp [Event.isError],
        fun _ => ErrorTail_errors (by simp [Event.isError]) (by simp) rfl⟩
    · exact SubPost_prepend (by simp [Event.isError]) (fun h => absurd h h3) (ih _ _ _)
    · exact SubPost_prepend (by simp [Event.isError]) (fun h => absurd h h3) (ih _ _ _)
    · exact ⟨[], by simp [Decoder.upd_self], by simp, fun _ => ErrorTail_nil _⟩


theorem DecodeDSPData_accept_post (buffer : List Nat) (fuel : Nat) (d : Decoder)
    (busPatchStart dataStart dataEnd current busPatchCount : Nat) :
    StepPost d (DecodeDSPData.accept buffer fuel d busPatchStart dataStart dataEnd current
      busPatchCount) := by
  unfold DecodeDSPData.accept
  simp only [Decoder.setHadError_eq, Decoder.OnError_eq, Decoder.OnNewBusPatch_eq,
    Decoder.upd_upd, List.nil_append, List.append_nil]
  split_ifs with h1
  · exact StepPost_exit_errors [] _ rfl rfl rfl (by simp [Event.isError]) (by simp) (by simp)
  · exact StepPost_prepend (by simp [Event.isError]) (by simp [Event.isError])
      (StepPost_afterCall _ _ (DecodeBusPatchData_post buffer fuel _ _ _))

theorem DecodeDSPData_body_post (L : Layout) (buffer : List Nat) (fuel : Nat) (d : Decoder)
    (end_ current busPatchCount : Nat) :
    StepPost d (DecodeDSPData.body L buffer fuel d end_ current busPatchCount) := by
  unfold DecodeDSPData.body
  simp only [Decoder.setHadError_eq, Decoder.OnError_eq, Decoder.OnErrorIf_reports,
    Decoder.upd_upd, Decoder.upd_fHadError, Decoder.upd_fExitOnError, List.nil_append,
    List.append_nil, reports_append, List.singleton_append, List.cons_append]
  split_ifs with h1 h2 h3
  · exact StepPost_exit_errors [] _ rfl rfl rfl (by simp [Event.isError]) (by simp) (by simp)
  · exact StepPost_exit_errors [] _ rfl rfl rfl (reports_isError _)
      (reports_ne_nil _ (by rcases h2 with h | h | h | h <;> simp [h])) (reports_length _)
  · have he : ∀ l : List (Bool × ErrorCode × Nat), l.any (fun x => x.1) = true →
        hasError (reports l) = true := fun l hl => (reports_hasError l).trans hl
    split
    · exact StepPost_next_errors _ _ h3 (he _ (by rcases h2 with h | h | h | h <;> simp [h]))
    · exact StepPost_exit_noExit h3 (he _ (by rcases h2 with h | h | h | h <;> simp [h]))
    · exact StepPost_prepend
        (by rw [he _ (by rcases h2 with h | h | h | h <;> simp [h])]; simp)
        (fun h => absurd h h3) (DecodeDSPData_accept_post _ _ _ _ _ _ _ _)
  · exact DecodeDSPData_accept_post _ _ _ _ _ _ _ _

theorem DecodeDSPData_loop_post (L : Layout) (buffer : List Nat) (end_ : Nat) (fuel : Nat) :
    ∀ (d : Decoder) (current busPatchCount : Nat),
      SubPost d (DecodeDSPData.loop L buffer end_ fuel d current busPatchCount) := by
  induction fuel with
  | zero =>
    intro d current n
    exact ⟨[], by simp [DecodeDSPData.loop, Decoder.upd_self], by simp [DecodeDSPData.loop],
      fun _ => ErrorTail_nil _⟩
  | succ fuel ih =>
    intro d current n
    rw [DecodeDSPData.loop]
    split_ifs with h1
    · have hb := DecodeDSPData_body_post L buffer fuel d end_ current n
      revert hb
      cases DecodeDSPData.body L buffer fuel d end_ current n with
      | exit ret d2 => exact fun hb => hb.2
      | next d2 c2 n2 =>
        rintro ⟨t, e1, e2⟩
        rw [e1]
        exact SubPost_prepend rfl e2 (ih _ _ _)
    · exact ⟨[], by simp [Decoder.upd_self], by simp, fun _ => ErrorTail_nil _⟩


theorem DecodeDSPData_post (L : Layout) (buffer : List Nat) (fuel : Nat) (d : Decoder)
    (start end_ : Nat) : SubPost d (DecodeDSPData L buffer fuel d start end_) :=
  DecodeDSPData_loop_post L buffer end_ fuel d start 0

theorem DecodeBlockData_decodeDSP_post (L : Layout) (buffer : List Nat) (fuel : Nat)
    (d : Decoder) (dataStart dataEnd current dspCount : Nat) :
    StepPost d (DecodeBlockData.decodeDSP L buffer fuel d dataStart dataEnd current dspCount) :=
  StepPost_afterCall _ _ (DecodeDSPData_post L buffer fuel d dataStart dataEnd)

theorem DecodeBlockData_padding_post (L : Layout) (buffer : List Nat) (fuel : Nat)
    (d : Decoder) (dspStart dataStart dataEnd current dspCount : Nat) :
    StepPost d (DecodeBlockData.padding L buffer fuel d dspStart dataStart dataEnd current
      dspCount) := by
  unfold DecodeBlockData.padding
  simp only [Decoder.setHadError_eq, Decoder.OnError_eq, Decoder.upd_upd,
    Decoder.upd_fExitOnError, List.nil_append, List.append_nil]
  split_ifs with h1 h2 h3
  · exact StepPost_exit_errors [] _ rfl rfl rfl (by simp [Event.isError]) (by simp) (by simp)
  · exact StepPost_prepend (by simp [Event.isError]) (fun h => absurd h h3)
      (DecodeBlockData_decodeDSP_post _ _ _ _ _ _ _ _)
  · exact DecodeBlockData_decodeDSP_post _ _ _ _ _ _ _ _
  · exact DecodeBlockData_decodeDSP_post _ _ _ _ _ _ _ _

theorem DecodeBlockData_accept_post (L : Layout) (buffer : List Nat) (fuel : Nat)
    (d : Decoder) (blockHeader dspStart dataStart dataEnd current dspCount : Nat) :
    StepPost d (DecodeBlockData.accept L buffer fuel d blockHeader dspStart dataStart dataEnd
      current dspCount) := by
  unfold DecodeBlockData.accept
  simp only [Decoder.setHadError_eq, Decoder.OnError_eq, Decoder.OnNewDSP_eq, Decoder.upd_upd,
    Decoder.upd_fExitOnError, Decoder.upd_fTryRecover, List.nil_append, List.append_nil,
    List.singleton_append]
  split_ifs with h1 h2 h3 h4
  · exact StepPost_exit_errors [] _ rfl rfl rfl (by simp [Event.isError]) (by simp) (by simp)
  · exact StepPost_exit_errors [Event.OnNewDSP dspStart dataStart]
      [Event.OnError ErrorCode.kGlitchFound (dspStart + L.dspErrorWord)] rfl rfl
      (by simp [Event.isError]) (by simp [Event.isError]) (by simp) (by simp)
  · exact StepPost_next_errors _ _ h3 (by simp [Event.isError])
  · exact StepPost_prepend (by simp [Event.isError]) (fun h => absurd h h3)
      (DecodeBlockData_padding_post _ _ _ _ _ _ _ _ _)
  · exact StepPost_prepend (by simp [Event.isError]) (by simp [Event.isError])
      (DecodeBlockData_padding_post _ _ _ _ _ _ _ _ _)

theorem DecodeBlockData_body_post (L : Layout) (buffer : List Nat) (fuel : Nat) (d : Decoder)
    (blockHeader end_ current dspCount : Nat) :
    StepPost d (DecodeBlockData.body L buffer fuel d blockHeader end_ current dspCount) := by
  unfold DecodeBlockData.body
  simp only [Decoder.setHadError_eq, Decoder.OnError_eq, Decoder.OnErrorIf_reports,
    Decoder.upd_upd, Decoder.upd_fHadError, Decoder.upd_fExitOnError, List.nil_append,
    List.append_nil, reports_append, List.singleton_append, List.cons_append]
  split_ifs with h1 h2 h3
  · exact StepPost_exit_errors [] _ rfl rfl rfl (by simp [Event.isError]) (by simp) (by simp)
  · exact StepPost_exit_errors [] _ rfl rfl rfl (reports_isError _)
      (reports_ne_nil _ (by rcases h2 with h | h | h | h <;> simp [h])) (reports_length _)
  · have he : ∀ l : List (Bool × ErrorCode × Nat), l.any (fun x => x.1) = true →
        hasError (reports l) = true := fun l hl => (reports_hasError l).trans hl
    split
    · exact StepPost_next_errors _ _ h3 (he _ (by rcases h2 with h | h | h | h <;> simp [h]))
    · exact StepPost_exit_noExit h3 (he _ (by rcases h2 with h | h | h | h <;> simp [h]))
    · exact StepPost_prepend
        (by rw [he _ (by rcases h2 with h | h | h | h <;> simp [h])]; simp)
        (fun h => absurd h h3) (DecodeBlockData_accept_post _ _ _ _ _ _ _ _ _ _)
  · exact DecodeBlockData_accept_post _ _ _ _ _ _ _ _ _ _

theorem DecodeBlockData_loop_post (L : Layout) (buffer : List Nat) (blockHeader end_ : Nat)
    (fuel : Nat) :
    ∀ (d : Decoder) (current dspCount : Nat),
      SubPost d (DecodeBlockData.loop L buffer blockHeader end_ fuel d current dspCount) := by
  induction fuel with
  | zero =>
    intro d current n
    exact ⟨[], by simp [DecodeBlockData.loop, Decoder.upd_self], by simp [DecodeBlockData.loop],
      fun _ => ErrorTail_nil _⟩
  | succ fuel ih =>
    intro d current n
    rw [DecodeBlockData.loop]
    split_ifs with h1
    · have hb := DecodeBlockData_body_post L buffer fuel d blockHeader end_ current n
      revert hb
      cases DecodeBlockData.body L buffer fuel d blockHeader end_ current n with
      | exit ret d2 => exact fun hb => hb.2
      | next d2 c2 n2 =>
        rintro ⟨t, e1, e2⟩
        rw [e1]
        exact SubPost_prepend rfl e2 (ih _ _ _)
    · exact ⟨[], by simp [Decoder.upd_self], by simp, fun _ => ErrorTail_nil _⟩

theorem DecodeBlockData_post (L : Layout) (buffer : List Nat) (fuel : Nat) (d : Decoder)
    (blockHeader start end_ : Nat) :
    SubPost d (DecodeBlockData L buffer fuel d blockHeader start end_) :=
  DecodeBlockData_loop_post L buffer blockHeader end_ fuel d start 0

theorem StepPost_toTop {d : Decoder} {s : Step} (h : StepPost d s) : TopStepPost d s := by
  cases s with
  | exit ret d2 =>
    obtain ⟨h1, t, e1, e2, e3⟩ := h
    exact ⟨h1, _, t, e1, e2, e3⟩
  | next d2 c n => exact h

theorem TopStepPost_prepend {d : Decoder} {h1 : Bool} {t1 : List Event} {s : Step}
    (hh : h1 = (d.fHadError || hasError t1))
    (hc : d.fExitOnError = true → hasError t1 = false)
    (hp : TopStepPost (d.upd h1 t1) s) : TopStepPost d s := by
  cases s with
  | exit ret d2 =>
    obtain ⟨h0, h, t, e1, e2, e3⟩ := hp
    refine ⟨h0, h, t1 ++ t, by rw [e1]; simp, fun hr => by simp [e2 hr], fun hx => ?_⟩
    exact ErrorTail_prepend (hc hx) (e3 (by simpa using hx))
  | next d2 c n =>
    obtain ⟨t, e1, e2⟩ := hp
    refine ⟨t1 ++ t, ?_, ?_⟩
    · rw [e1, hh]
      simp [Bool.or_assoc]
    · intro h
      simp [hc h, e2 (by simpa using h)]

/-- A step of `Decode` that leaves with `false` after `OnError` callbacks. -/
theorem TopStepPost_exit_errors {d : Decoder} {h1 : Bool} {t : List Event}
    (ht : ∀ e ∈ t, e.isError = true) (hne : t ≠ []) (hl : t.length ≤ 4) :
    TopStepPost d (Step.exit (some false) (d.upd h1 t)) := by
  have he : hasError t = true := by
    cases t with
    | nil => exact absurd rfl hne
    | cons e t => simp [ht e (by simp)]
  exact ⟨by simp, h1, t, rfl, fun _ => he, fun _ => ErrorTail_errors ht hl rfl⟩

theorem Decode_accept_post (L : Layout) (buffer : List Nat) (fuel : Nat) (d : Decoder)
    (blockStart dataStart dataEnd current blockCount : Nat) :
    TopStepPost d (Decode.accept L buffer fuel d blockStart dataStart dataEnd current
      blockCount) := by
  unfold Decode.accept
  simp only [Decoder.OnError_eq, Decoder.OnNewBlock_eq]
  split_ifs with h1
  · exact TopStepPost_exit_errors (by simp [Event.isError]) (by simp) (by simp)
  · exact TopStepPost_prepend (by simp [Event.isError]) (by simp [Event.isError])
      (StepPost_toTop (StepPost_afterCall _ _ (DecodeBlockData_post L buffer fuel _ _ _ _)))

theorem Decode_body_post (L : Layout) (buffer : List Nat) (fuel : Nat) (d : Decoder)
    (end_ current blockCount : Nat) :
    TopStepPost d (Decode.body L buffer fuel d end_ current blockCount) := by
  unfold Decode.body
  simp only [Decoder.setHadError_eq, Decoder.OnError_eq, Decoder.OnErrorIf_reports,
    Decoder.upd_upd, Decoder.upd_fHadError, Decoder.upd_fExitOnError, List.nil_append,
    List.append_nil, reports_append, List.singleton_append, List.cons_append]
  split_ifs with h1 h2 h3 h4 h5
  · exact TopStepPost_exit_errors (by simp [Event.isError]) (by simp) (by simp)
  · exact TopStepPost_exit_errors (by simp [Event.isError]) (by simp) (by simp)
  · exact TopStepPost_exit_errors (by simp [Event.isError]) (by simp) (by simp)
  · exact TopStepPost_exit_errors (reports_isError _)
      (reports_ne_nil _ (by rcases h3 with h | h | h | h <;> simp [h])) (reports_length _)
  · have he : ∀ l : List (Bool × ErrorCode × Nat), l.any (fun x => x.1) = true →
        hasError (reports l) = true := fun l hl => (reports_hasError l).trans hl
    split
    · exact StepPost_toTop (StepPost_next_errors _ _ h5
        (he _ (by rcases h3 with h | h | h | h <;> simp [h])))
    · exact StepPost_toTop (StepPost_exit_noExit h5
        (he _ (by rcases h3 with h | h | h | h <;> simp [h])))
    · exact TopStepPost_prepend
        (by rw [he _ (by rcases h3 with h | h | h | h <;> simp [h])]; simp)
        (fun h => absurd h h5) (Decode_accept_post _ _ _ _ _ _ _ _ _)
  · exact Decode_accept_post _ _ _ _ _ _ _ _ _

theorem Decode_loop_post (L : Layout) (buffer : List Nat) (end_ : Nat) (fuel : Nat) :
    ∀ (d : Decoder) (current blockCount : Nat),
      TopPost d (Decode.loop L buffer end_ fuel d current blockCount) := by
  induction fuel with
  | zero =>
    intro d current n
    exact ⟨d.fHadError, [], by simp [Decode.loop, Decoder.upd_self], by simp [Decode.loop],
      fun _ => ErrorTail_nil _⟩
  | succ fuel ih =>
    intro d current n
    rw [Decode.loop]
    split_ifs with h1
    · have hb := Decode_body_post L buffer fuel d end_ current n
      revert hb
      cases Decode.body L buffer fuel d end_ current n with
      | exit ret d2 =>
        rintro ⟨h0, h, t, e1, e2, e3⟩
        refine ⟨h, t, e1, ?_, e3⟩
        intro b hb
        cases b with
        | true => exact absurd hb h0
        | false => simp [e2 hb]
      | next d2 c2 n2 =>
        rintro ⟨t, e1, e2⟩
        obtain ⟨h, t2, f1, f2, f3⟩ := ih d2 c2 n2
        refine ⟨h, t ++ t2, by rw [f1, e1]; simp, ?_, fun hx => ?_⟩
        · intro b hb
          rw [f2 b hb, e1]
          simp [Bool.or_assoc]
        · exact ErrorTail_prepend (e2 hx) (f3 (by rw [e1]; simpa using hx))
    · exact ⟨d.fHadError, [], by simp [Decoder.upd_self], by simp, fun _ => ErrorTail_nil _⟩

theorem Decode_post (L : Layout) (buffer : List Nat) (fuel : Nat) (d : Decoder)
    (bufferSize : Nat) :
    ∃ h t, (Decode L buffer fuel d bufferSize).2 = d.upd h t
      ∧ (∀ b, (Decode L buffer fuel d bufferSize).1 = some b → b = !(hasError t))
      ∧ (d.fExitOnError = true →
          ErrorTail t ((Decode L buffer fuel d bufferSize).1 = some false)) := by
  unfold Decode
  simp only [Decoder.clearHadError_eq, Decoder.OnNewBuffer_eq, Decoder.upd_upd,
    Decoder.upd_fHadError, List.nil_append, Nat.zero_add]
  obtain ⟨h, t, e1, e2, e3⟩ := Decode_loop_post L buffer bufferSize fuel
    (d.upd false [Event.OnNewBuffer 0 bufferSize]) 0 0
  refine ⟨h, Event.OnNewBuffer 0 bufferSize :: t, by rw [e1]; simp, ?_, fun hx => ?_⟩
  · intro b hb
    rw [e2 b hb]
    simp [Event.isError]
  · exact ErrorTail_prepend (s := [Event.OnNewBuffer 0 bufferSize]) (by simp [Event.isError])
      (e3 (by simpa using hx))

theorem hasError_eq_false_iff (t : List Event) :
    hasError t = false ↔ ∀ e ∈ t, e.isError = false := by
  simp [hasError]

/-! ## Termination without recovery -/

theorem upd_noRecovery (d : Decoder) (h : Bool) (t : List Event) :
    (d.upd h t).noRecovery ↔ d.noRecovery := Iff.rfl

theorem DecodeBusPatchData_returns (buffer : List Nat) (fuel : Nat) :
    ∀ (d : Decoder) (data dataEnd : Nat), dataEnd - data < fuel →
      (DecodeBusPatchData buffer fuel d data dataEnd).1 ≠ none := by
  induction fuel with
  | zero => intro d data dataEnd h; omega
  | succ fuel ih =>
    intro d data dataEnd h
    rw [DecodeBusPatchData]
    split_ifs with h1 h2
    · exact ih _ _ _ (by omega)
    · simp only []
      split_ifs
      · simp
      · exact ih _ _ _ (by omega)
      · exact ih _ _ _ (by omega)
    · simp

theorem TryRecoverStruct_off (d : Decoder) (buffer : List Nat)
    (expectedKey headerSize totalLength length structStart bufferEnd : Nat)
    (dataEnd structEnd current : Nat) (h : d.fTryRecover = false) :
    TryRecoverStruct d buffer expectedKey headerSize totalLength length structStart bufferEnd
        dataEnd structEnd current
      = ⟨RecoverResult.kContinueToNextStruct, dataEnd, structEnd, current⟩ := by
  unfold TryRecoverStruct
  rw [if_pos h]

theorem Step_afterCall_progress (res : Option Bool × Decoder) (current current2 count : Nat)
    (h1 : res.1 ≠ none) (h2 : current < current2) (h3 : res.2.noRecovery) :
    (Step.afterCall res current2 count).progress current := by
  obtain ⟨r, d⟩ := res
  cases r with
  | none => exact absurd rfl h1
  | some b =>
    cases b
    · unfold Step.afterCall
      simp only
      split_ifs
      · simp [Step.progress]
      · exact ⟨h2, h3⟩
    · exact ⟨h2, h3⟩

theorem SubPost_noRecovery {d : Decoder} {res : Option Bool × Decoder} (hp : SubPost d res)
    (h : d.noRecovery) : res.2.noRecovery := by
  obtain ⟨t, e, _⟩ := hp
  rw [e]
  exact h

theorem DecodeDSPData_accept_progress (buffer : List Nat) (fuel : Nat) (d : Decoder)
    (busPatchStart dataStart dataEnd current current0 count : Nat) (hd : d.noRecovery)
    (hf : dataEnd - dataStart < fuel) (hc : current0 < current) :
    (DecodeDSPData.accept buffer fuel d busPatchStart dataStart dataEnd current count).progress
      current0 := by
  unfold DecodeDSPData.accept
  simp only []
  split_ifs
  · simp [Step.progress]
  · exact Step_afterCall_progress _ _ _ _ (DecodeBusPatchData_returns buffer fuel _ _ _ hf) hc
      (SubPost_noRecovery (DecodeBusPatchData_post buffer fuel _ _ _) hd)

theorem DecodeDSPData_body_progress (L : Layout) (buffer : List Nat) (fuel : Nat) (d : Decoder)
    (end_ current count : Nat) (hpos : 0 < L.sizeofBusPatchHeader) (hd : d.noRecovery)
    (hf : end_ - current ≤ fuel) (hlt : current < end_) :
    (DecodeDSPData.body L buffer fuel d end_ current count).progress current := by
  unfold DecodeDSPData.body
  simp only [Decoder.setHadError_eq, Decoder.OnError_eq, Decoder.OnErrorIf_reports,
    Decoder.upd_upd, Decoder.upd_fHadError, Decoder.upd_fExitOnError, List.nil_append,
    List.append_nil, reports_append, List.singleton_append, List.cons_append]
  split_ifs with h1 h2 h3
  · simp [Step.progress]
  · simp [Step.progress]
  · have hr : d.fTryRecover = false := by
      rcases hd with hd | hd
      · exact absurd hd h3
      · exact hd
    rw [TryRecoverStruct_off _ _ _ _ _ _ _ _ _ _ _ (by simpa using hr)]
    simp only [Step.progress, upd_noRecovery]
    exact ⟨by omega, Or.inr hr⟩
  · exact DecodeDSPData_accept_progress buffer fuel d _ _ _ _ _ _ hd (by omega) (by omega)


theorem DecodeDSPData_loop_returns (L : Layout) (buffer : List Nat) (end_ : Nat)
    (hpos : 0 < L.sizeofBusPatchHeader) (fuel : Nat) :
    ∀ (d : Decoder) (current count : Nat), d.noRecovery → end_ - current < fuel →
      (DecodeDSPData.loop L buffer end_ fuel d current count).1 ≠ none := by
  induction fuel with
  | zero => intro d current count _ h; omega
  | succ fuel ih =>
    intro d current count hd hf
    rw [DecodeDSPData.loop]
    split_ifs with h1
    · have hb := DecodeDSPData_body_progress L buffer fuel d end_ current count hpos hd
        (by omega) h1
      revert hb
      cases DecodeDSPData.body L buffer fuel d end_ current count with
      | exit ret d2 => exact fun hb => hb
      | next d2 c2 n2 => exact fun hb => ih _ _ _ hb.2 (by have := hb.1; omega)
    · simp

theorem DecodeBlockData_accept_progress (L : Layout) (buffer : List Nat) (fuel : Nat)
    (d : Decoder) (blockHeader dspStart dataStart dataEnd current current0 count : Nat)
    (hpos : 0 < L.sizeofBusPatchHeader) (hd : d.noRecovery)
    (hf : dataEnd - dataStart < fuel) (hc : current0 < current) :
    (DecodeBlockData.accept L buffer fuel d blockHeader dspStart dataStart dataEnd current
      count).progress current0 := by
  have hcall : ∀ (d1 : Decoder) (e : Nat), d1.noRecovery → e ≤ dataEnd →
      (DecodeBlockData.decodeDSP L buffer fuel d1 dataStart e current
        ((count + 1) % 2 ^ 32)).progress current0 := fun d1 e h1 h2 =>
    Step_afterCall_progress _ _ _ _
      (DecodeDSPData_loop_returns L buffer e hpos fuel d1 dataStart 0 h1 (by omega)) hc
      (SubPost_noRecovery (DecodeDSPData_post L buffer fuel d1 dataStart e) h1)
  have hpad : ∀ d1 : Decoder, d1.noRecovery →
      (DecodeBlockData.padding L buffer fuel d1 dspStart dataStart dataEnd current
        ((count + 1) % 2 ^ 32)).progress current0 := by
    intro d1 h1
    unfold DecodeBlockData.padding
    simp only []
    split_ifs
    · simp [Step.progress]
    · exact hcall _ _ h1 (by omega)
    · exact hcall _ _ h1 (by omega)
    · exact hcall _ _ h1 (Nat.le_refl _)
  unfold DecodeBlockData.accept
  simp only []
  split_ifs with h1 h2 h3 h4
  · simp [Step.progress]
  · simp [Step.progress]
  · rcases hd with hd | hd
    · exact absurd (by simpa using hd) h3
    · exact absurd h4 (by simpa using hd)
  · exact hpad _ hd
  · exact hpad _ hd

theorem DecodeBlockData_body_progress (L : Layout) (buffer : List Nat) (fuel : Nat)
    (d : Decoder) (blockHeader end_ current count : Nat) (hpos : 0 < L.sizeofDSPHeader)
    (hpos2 : 0 < L.sizeofBusPatchHeader) (hd : d.noRecovery)
    (hf : end_ - current ≤ fuel) (hlt : current < end_) :
    (DecodeBlockData.body L buffer fuel d blockHeader end_ current count).progress current := by
  unfold DecodeBlockData.body
  simp only [Decoder.setHadError_eq, Decoder.OnError_eq, Decoder.OnErrorIf_reports,
    Decoder.upd_upd, Decoder.upd_fHadError, Decoder.upd_fExitOnError, List.nil_append,
    List.append_nil, reports_append, List.singleton_append, List.cons_append]
  split_ifs with h1 h2 h3
  · simp [Step.progress]
  · simp [Step.progress]
  · have hr : d.fTryRecover = false := by
      rcases hd with hd | hd
      · exact absurd hd h3
      · exact hd
    rw [TryRecoverStruct_off _ _ _ _ _ _ _ _ _ _ _ (by simpa using hr)]
    simp only [Step.progress, upd_noRecovery]
    exact ⟨by omega, Or.inr hr⟩
  · exact DecodeBlockData_accept_progress L buffer fuel d _ _ _ _ _ _ _ hpos2 hd (by omega)
      (by omega)

theorem DecodeBlockData_loop_returns (L : Layout) (buffer : List Nat) (blockHeader end_ : Nat)
    (hpos : 0 < L.sizeofDSPHeader) (hpos2 : 0 < L.sizeofBusPatchHeader) (fuel : Nat) :
    ∀ (d : Decoder) (current count : Nat), d.noRecovery → end_ - current < fuel →
      (DecodeBlockData.loop L buffer blockHeader end_ fuel d current count).1 ≠ none := by
  induction fuel with
  | zero => intro d current count _ h; omega
  | succ fuel ih =>
    intro d current count hd hf
    rw [DecodeBlockData.loop]
    split_ifs with h1
    · have hb := DecodeBlockData_body_progress L buffer fuel d blockHeader end_ current count
        hpos hpos2 hd (by omega) h1
      revert hb
      cases DecodeBlockData.body L buffer fuel d blockHeader end_ current count with
      | exit ret d2 => exact fun hb => hb
      | next d2 c2 n2 => exact fun hb => ih _ _ _ hb.2 (by have := hb.1; omega)
    · simp

theorem Decode_accept_progress (L : Layout) (buffer : List Nat) (fuel : Nat)
    (d : Decoder) (blockStart dataStart dataEnd current current0 count : Nat)
    (hpos : 0 < L.sizeofDSPHeader) (hpos2 : 0 < L.sizeofBusPatchHeader) (hd : d.noRecovery)
    (hf : dataEnd - dataStart < fuel) (hc : current0 < current) :
    (Decode.accept L buffer fuel d blockStart dataStart dataEnd current count).progress
      current0 := by
  unfold Decode.accept
  simp only []
  split_ifs
  · simp [Step.progress]
  · exact Step_afterCall_progress _ _ _ _
      (DecodeBlockData_loop_returns L buffer blockStart dataEnd hpos hpos2 fuel _ dataStart 0
        hd hf) hc
      (SubPost_noRecovery (DecodeBlockData_post L buffer fuel _ blockStart dataStart dataEnd)
        hd)

theorem Decode_body_progress (L : Layout) (buffer : List Nat) (fuel : Nat)
    (d : Decoder) (end_ current count : Nat) (hL : 0 < L.sizeofBlockHeader
      ∧ 0 < L.sizeofDSPHeader ∧ 0 < L.sizeofBusPatchHeader) (hd : d.noRecovery)
    (hf : end_ - current ≤ fuel) (hlt : current < end_) :
    (Decode.body L buffer fuel d end_ current count).progress current := by
  unfold Decode.body
  simp only [Decoder.setHadError_eq, Decoder.OnError_eq, Decoder.OnErrorIf_reports,
    Decoder.upd_upd, Decoder.upd_fHadError, Decoder.upd_fExitOnError, List.nil_append,
    List.append_nil, reports_append, List.singleton_append, List.cons_append]
  split_ifs with h1 h2 h3 h4 h5
  · simp [Step.progress]
  · simp [Step.progress]
  · simp [Step.progress]
  · simp [Step.progress]
  · have hr : d.fTryRecover = false := by
      rcases hd with hd | hd
      · exact absurd hd h5
      · exact hd
    rw [TryRecoverStruct_off _ _ _ _ _ _ _ _ _ _ _ (by simpa using hr)]
    simp only [Step.progress, upd_noRecovery]
    exact ⟨by omega, Or.inr hr⟩
  · exact Decode_accept_progress L buffer fuel d _ _ _ _ _ _ hL.2.1 hL.2.2 hd (by omega)
      (by omega)

theorem Decode_loop_returns (L : Layout) (buffer : List Nat) (end_ : Nat)
    (hL : 0 < L.sizeofBlockHeader ∧ 0 < L.sizeofDSPHeader ∧ 0 < L.sizeofBusPatchHeader)
    (fuel : Nat) :
    ∀ (d : Decoder) (current count : Nat), d.noRecovery → end_ - current < fuel →
      (Decode.loop L buffer end_ fuel d current count).1 ≠ none := by
  induction fuel with
  | zero => intro d current count _ h; omega
  | succ fuel ih =>
    intro d current count hd hf
    rw [Decode.loop]
    split_ifs with h1
    · have hb := Decode_body_progress L buffer fuel d end_ current count hL hd (by omega) h1
      revert hb
      cases Decode.body L buffer fuel d end_ current count with
      | exit ret d2 => exact fun hb => hb
      | next d2 c2 n2 => exact fun hb => ih _ _ _ hb.2 (by have := hb.1; omega)
    · simp

/-- Without recovery (the decoder exits on the first error, or "try recover"
is off) and with header sizes that are not zero, `Decode` returns a value
whenever the iteration budget exceeds the buffer size. -/
theorem Decode_returns_noRecovery (L : Layout) (buffer : List Nat) (fuel : Nat) (d : Decoder)
    (bufferSize : Nat)
    (hL : 0 < L.sizeofBlockHeader ∧ 0 < L.sizeofDSPHeader ∧ 0 < L.sizeofBusPatchHeader)
    (hd : d.noRecovery) (hf : bufferSize < fuel) :
    (Decode L buffer fuel d bufferSize).1 ≠ none := by
  unfold Decode
  exact Decode_loop_returns L buffer _ hL fuel _ 0 0 hd (by omega)

/-- C8: with `ExitOnError = true`, for every buffer and iteration budget, the
callbacks issued by `Decode` are callbacks `pre` none of which is an `OnError`,
followed by at most four callbacks `errs` that are all `OnError`; and if there
is an `OnError` at all, `Decode` returns `false`. -/
theorem decode_exitOnError_stops (L : Layout) (buffer : List Nat) (fuel : Nat) (d : Decoder)
    (bufferSize : Nat) (hExit : d.fExitOnError = true) :
    ∃ pre errs, (Decode L buffer fuel d bufferSize).2.fHandler = d.fHandler ++ (pre ++ errs)
      ∧ (∀ e ∈ pre, e.isError = false)
      ∧ (∀ e ∈ errs, e.isError = true)
      ∧ errs.length ≤ 4
      ∧ (errs ≠ [] → (Decode L buffer fuel d bufferSize).1 = some false) := by
  obtain ⟨h, t, e1, _, e3⟩ := Decode_post L buffer fuel d bufferSize
  obtain ⟨pre, errs, rfl, h1, h2, h3, h4⟩ := e3 hExit
  exact ⟨pre, errs, by rw [e1]; rfl, (hasError_eq_false_iff pre).1 h1, h2, h3, h4⟩

/-- C8 on a buffer with one block, one DSP and one bus patch holding the words
`3` and `4`, the second of odd parity, with the default configuration. -/
theorem decode_exitOnError_stops_witness :
    ∃ pre errs, (Decode specLayout (chainBuffer [3, 4]) 10 Decoder.init 60).2.fHandler
        = Decoder.init.fHandler ++ (pre ++ errs)
      ∧ (∀ e ∈ pre, e.isError = false)
      ∧ (∀ e ∈ errs, e.isError = true)
      ∧ errs.length ≤ 4
      ∧ (errs ≠ [] → (Decode specLayout (chainBuffer [3, 4]) 10 Decoder.init 60).1
          = some false) :=
  decode_exitOnError_stops specLayout (chainBuffer [3, 4]) 10 Decoder.init 60 rfl

/-! ## Decoding well-formed structures -/

theorem Returns_mk_succ {f : Nat → Option Bool × Decoder} {ret : Bool} {d : Decoder} (n : Nat)
    (h : ∀ fuel, n ≤ fuel → f (fuel + 1) = (some ret, d)) : Returns f ret d := by
  refine ⟨n + 1, fun fuel hf => ?_⟩
  obtain ⟨m, rfl⟩ : ∃ m, fuel = m + 1 := ⟨fuel - 1, by omega⟩
  exact h m (by omega)

/-- The data loop on `n` words of even parity. -/
theorem DecodeBusPatchData_even (buffer : List Nat) (ws : List Nat) :
    ∀ (fuel : Nat) (d : Decoder) (start : Nat), wordsAt buffer start ws →
      (∀ w ∈ ws, evenParity w = true) → ws.length < fuel →
      DecodeBusPatchData buffer fuel d start (start + 4 * ws.length)
        = (some true, d.upd d.fHadError (ws.map Event.OnData)) := by
  induction ws with
  | nil =>
    intro fuel d start _ _ hf
    obtain ⟨m, rfl⟩ : ∃ m, fuel = m + 1 := ⟨fuel - 1, by omega⟩
    simp [DecodeBusPatchData, Decoder.upd_self]
  | cons w ws ih =>
    intro fuel d start hw he hf
    obtain ⟨m, rfl⟩ : ∃ m, fuel = m + 1 := ⟨fuel - 1, by omega⟩
    simp only [List.length_cons] at hf ⊢
    have hlt : start < start + 4 * (ws.length + 1) := by omega
    have hend : start + 4 * (ws.length + 1) = (start + 4) + 4 * ws.length := by omega
    rw [DecodeBusPatchData]
    simp only [hlt, if_true, hw.1, ParityIsOk_eq_evenParity, he w (by simp)]
    rw [hend, ih m _ (start + 4) hw.2 (fun v hv => he v (by simp [hv])) (by omega)]
    simp


theorem headerAt_ends {buffer : List Nat} {p key size sizeofHeader oKey oLength oTotal : Nat}
    (h4 : sizeofHeader % 4 = 0)
    (hh : headerAt buffer p key size sizeofHeader oKey oLength oTotal) :
    readUInt buffer (p + oKey) = key
      ∧ p + sizeofHeader + readUInt buffer (p + oLength) * 4 = p + sizeofHeader + size
      ∧ p + readUInt buffer (p + oTotal) * 4 = p + sizeofHeader + size := by
  obtain ⟨h1, h2, h3⟩ := hh
  refine ⟨h1, by omega, ?_⟩
  rw [h3]
  omega

/-! ## Steps on well-formed headers -/

theorem DecodeDSPData_body_valid (L : Layout) (buffer : List Nat) (fuel : Nat) (d : Decoder)
    (end_ p count size : Nat) (h4 : L.sizeofBusPatchHeader % 4 = 0)
    (hh : headerAt buffer p fgkBusPatchDataKey size L.sizeofBusPatchHeader
      L.busPatchDataKey L.busPatchLength L.busPatchTotalLength)
    (hend : p + L.sizeofBusPatchHeader + size ≤ end_) :
    DecodeDSPData.body L buffer fuel d end_ p count
      = DecodeDSPData.accept buffer fuel d p (p + L.sizeofBusPatchHeader)
          (p + L.sizeofBusPatchHeader + size) (p + L.sizeofBusPatchHeader + size) count := by
  obtain ⟨h1, h2, h3⟩ := headerAt_ends h4 hh
  unfold DecodeDSPData.body
  simp only [h1, h2, h3]
  have c1 : ¬ p + L.sizeofBusPatchHeader > end_ := by omega
  have c2 : ¬ (fgkBusPatchDataKey ≠ fgkBusPatchDataKey
      ∨ p + L.sizeofBusPatchHeader + size > end_ ∨ p + L.sizeofBusPatchHeader + size > end_
      ∨ p + L.sizeofBusPatchHeader + size ≠ p + L.sizeofBusPatchHeader + size) := by
    simp
    omega
  rw [if_neg c1, if_neg c2]

theorem DecodeDSPData_accept_ok (buffer : List Nat) (fuel : Nat) (d : Decoder)
    (busPatchStart dataStart dataEnd current count : Nat)
    (hc : count + 1 ≤ d.fMaxBusPatches) (hm : d.fMaxBusPatches < 2 ^ 32) :
    DecodeDSPData.accept buffer fuel d busPatchStart dataStart dataEnd current count
      = Step.afterCall (DecodeBusPatchData buffer fuel
          (d.upd d.fHadError [Event.OnNewBusPatch busPatchStart dataStart]) dataStart dataEnd)
          current (count + 1) := by
  unfold DecodeDSPData.accept
  have h1 : (count + 1) % 2 ^ 32 = count + 1 := Nat.mod_eq_of_lt (by omega)
  simp only [h1, Decoder.OnNewBusPatch_eq]
  rw [if_neg (by omega)]

theorem DecodeDSPData_accept_tooMany (buffer : List Nat) (fuel : Nat) (d : Decoder)
    (busPatchStart dataStart dataEnd current count : Nat)
    (hc : d.fMaxBusPatches < count + 1) (hm : count + 1 < 2 ^ 32) :
    DecodeDSPData.accept buffer fuel d busPatchStart dataStart dataEnd current count
      = Step.exit (some false)
          (d.upd true [Event.OnError ErrorCode.kTooManyBusPatches current]) := by
  unfold DecodeDSPData.accept
  have h1 : (count + 1) % 2 ^ 32 = count + 1 := Nat.mod_eq_of_lt hm
  simp only [h1, Decoder.OnError_eq, Decoder.setHadError_eq, Decoder.upd_upd, List.append_nil]
  rw [if_pos (by omega)]

/-! ## Loops, one step at a time -/

theorem DecodeDSPData_isLoop (L : Layout) (buffer : List Nat) (end_ : Nat) :
    IsLoop (DecodeDSPData.loop L buffer end_)
      (fun fuel d current count => DecodeDSPData.body L buffer fuel d end_ current count)
      end_ (fun _ => true) := by
  refine ⟨fun _ _ _ => rfl, fun fuel d current count => ?_⟩
  rw [DecodeDSPData.loop]
  cases DecodeDSPData.body L buffer fuel d end_ current count <;> rfl

theorem DecodeBlockData_isLoop (L : Layout) (buffer : List Nat) (blockHeader end_ : Nat) :
    IsLoop (DecodeBlockData.loop L buffer blockHeader end_)
      (fun fuel d current count =>
        DecodeBlockData.body L buffer fuel d blockHeader end_ current count)
      end_ (fun _ => true) := by
  refine ⟨fun _ _ _ => rfl, fun fuel d current count => ?_⟩
  rw [DecodeBlockData.loop]
  cases DecodeBlockData.body L buffer fuel d blockHeader end_ current count <;> rfl

theorem Decode_isLoop (L : Layout) (buffer : List Nat) (end_ : Nat) :
    IsLoop (Decode.loop L buffer end_)
      (fun fuel d current count => Decode.body L buffer fuel d end_ current count)
      end_ (fun d => !d.fHadError) := by
  refine ⟨fun _ _ _ => rfl, fun fuel d current count => ?_⟩
  rw [Decode.loop]
  cases Decode.body L buffer fuel d end_ current count <;> rfl

variable {loop : Nat → Decoder → Nat → Nat → Option Bool × Decoder}
  {body : Nat → Decoder → Nat → Nat → Step} {end_ : Nat} {last : Decoder → Bool}

/-- The loop condition fails. -/
theorem IsLoop_done (hl : IsLoop loop body end_ last) (d : Decoder) (current count : Nat)
    (h : ¬ current < end_) :
    Returns (fun fuel => loop fuel d current count) (last d) d :=
  Returns_mk_succ 0 (fun fuel _ => by simp only [hl.succ, if_neg h])

/-- The body returns. -/
theorem IsLoop_exit (hl : IsLoop loop body end_ last) (d : Decoder) (current count : Nat)
    (ret : Bool) (d1 : Decoder) (h : current < end_)
    (hbody : ∀ fuel, body fuel d current count = Step.exit (some ret) d1) :
    Returns (fun fuel => loop fuel d current count) ret d1 :=
  Returns_mk_succ 0 (fun fuel _ => by simp only [hl.succ, if_pos h, hbody, Step.run])

/-- The body ends with the call `g` of the next level, which returns `true`,
or returns `false` while "exit on error" is off. -/
theorem IsLoop_call (hl : IsLoop loop body end_ last) (d : Decoder) (current count : Nat)
    (g : Nat → Option Bool × Decoder) (b : Bool) (d1 : Decoder) (current1 count1 : Nat)
    (ret : Bool) (d2 : Decoder) (h : current < end_)
    (hbody : ∀ fuel, body fuel d current count = Step.afterCall (g fuel) current1 count1)
    (hg : Returns g b d1) (hb : b = true ∨ d1.fExitOnError = false)
    (hrest : Returns (fun fuel => loop fuel d1 current1 count1) ret d2) :
    Returns (fun fuel => loop fuel d current count) ret d2 := by
  obtain ⟨n1, h1⟩ := hg
  obtain ⟨n2, h2⟩ := hrest
  refine Returns_mk_succ (max n1 n2) (fun fuel hf => ?_)
  have e1 := h1 fuel (le_trans (le_max_left _ _) hf)
  have e2 := h2 fuel (le_trans (le_max_right _ _) hf)
  simp only at e2
  simp only [hl.succ, if_pos h, hbody, e1]
  rcases hb with hb | hb
  · subst hb
    simpa only [Step.afterCall, Step.run] using e2
  · cases b
    · simpa only [Step.afterCall, Step.run, hb, Bool.false_eq_true, if_false] using e2
    · simpa only [Step.afterCall, Step.run] using e2

/-- The body ends with the call `g` of the next level, which returns `false`
while "exit on error" is on. -/
theorem IsLoop_call_exit (hl : IsLoop loop body end_ last) (d : Decoder) (current count : Nat)
    (g : Nat → Option Bool × Decoder) (d1 : Decoder) (current1 count1 : Nat)
    (h : current < end_)
    (hbody : ∀ fuel, body fuel d current count = Step.afterCall (g fuel) current1 count1)
    (hg : Returns g false d1) (hb : d1.fExitOnError = true) :
    Returns (fun fuel => loop fuel d current count) false d1 := by
  obtain ⟨n1, h1⟩ := hg
  refine Returns_mk_succ n1 (fun fuel hf => ?_)
  simp only [hl.succ, if_pos h, hbody, h1 fuel hf, Step.afterCall, Step.run, hb, if_true]


/-! ## Well-formed bus patches -/

theorem DecodeBusPatchData_returns_even (L : Layout) (buffer : List Nat) (d : Decoder)
    (p : Nat) (bp : BusPatch) (hw : wordsAt buffer (p + L.sizeofBusPatchHeader) bp.data)
    (he : ∀ w ∈ bp.data, evenParity w = true) :
    Returns (fun fuel => DecodeBusPatchData buffer fuel
        (d.upd d.fHadError [Event.OnNewBusPatch p (p + L.sizeofBusPatchHeader)])
        (p + L.sizeofBusPatchHeader) (p + L.sizeofBusPatchHeader + 4 * bp.data.length))
      true (d.upd d.fHadError (busPatchEvents L p bp)) := by
  refine ⟨bp.data.length + 1, fun fuel hf => ?_⟩
  simp only
  rw [DecodeBusPatchData_even buffer bp.data fuel _ _ hw he (by omega)]
  simp [busPatchEvents]

/-- The loop of `DecodeDSPData` over well-formed bus patches with words of even
parity, within the limit: it goes on behind them. -/
theorem DecodeDSPData_loop_busPatches (L : Layout) (buffer : List Nat) (end_ : Nat)
    (hL : L.wordSized) (bps : List BusPatch) :
    ∀ (d : Decoder) (p count : Nat) (ret : Bool) (d2 : Decoder),
      busPatchesAt L buffer p bps →
      (∀ bp ∈ bps, ∀ w ∈ bp.data, evenParity w = true) →
      count + bps.length ≤ d.fMaxBusPatches → d.fMaxBusPatches < 2 ^ 32 →
      p + busPatchesSize L bps ≤ end_ →
      Returns (fun fuel => DecodeDSPData.loop L buffer end_ fuel
        (d.upd d.fHadError (busPatchesEvents L p bps)) (p + busPatchesSize L bps)
        (count + bps.length)) ret d2 →
      Returns (fun fuel => DecodeDSPData.loop L buffer end_ fuel d p count) ret d2 := by
  induction bps with
  | nil =>
    intro d p count ret d2 _ _ _ _ _ h
    simpa [busPatchesEvents, busPatchesSize, Decoder.upd_self] using h
  | cons bp bps ih =>
    intro d p count ret d2 hat he hc hm hend h
    obtain ⟨⟨hh, hw⟩, hrest⟩ := hat
    simp only [busPatchesSize, List.length_cons] at hend hc h
    have hpos := hL.2.2.1
    have hsz : bp.size L = L.sizeofBusPatchHeader + 4 * bp.data.length := rfl
    refine IsLoop_call (DecodeDSPData_isLoop L buffer end_) d p count _ true
      (d.upd d.fHadError (busPatchEvents L p bp)) (p + bp.size L) (count + 1) ret d2
      (by omega) (fun fuel => ?_)
      (DecodeBusPatchData_returns_even L buffer d p bp hw (fun w hw => he bp (by simp) w hw))
      (Or.inl rfl) ?_
    · rw [DecodeDSPData_body_valid L buffer fuel d end_ p count (4 * bp.data.length) hL.2.2.2 hh
        (by omega), DecodeDSPData_accept_ok _ _ _ _ _ _ _ _ (by omega) hm, hsz, Nat.add_assoc]
    · refine ih _ _ _ _ _ hrest (fun b hb => he b (by simp [hb])) (by simpa using by omega)
        (by simpa using hm) (by omega) ?_
      simpa [busPatchesEvents, Nat.add_assoc, Nat.add_comm 1] using h


/-- The result of `DecodeDSPData` on a payload of well-formed bus patches with words of even
parity, within the limit. -/
theorem DecodeDSPData_returns (L : Layout) (buffer : List Nat) (hL : L.wordSized)
    (bps : List BusPatch) (d : Decoder) (p : Nat) (hat : busPatchesAt L buffer p bps)
    (he : ∀ bp ∈ bps, ∀ w ∈ bp.data, evenParity w = true)
    (hc : bps.length ≤ d.fMaxBusPatches) (hm : d.fMaxBusPatches < 2 ^ 32) :
    Returns (fun fuel => DecodeDSPData L buffer fuel d p (p + busPatchesSize L bps)) true
      (d.upd d.fHadError (busPatchesEvents L p bps)) := by
  unfold DecodeDSPData
  exact DecodeDSPData_loop_busPatches L buffer _ hL bps d p 0 true _ hat he (by omega) hm
    (Nat.le_refl _) (IsLoop_done (DecodeDSPData_isLoop L buffer _) _ _ _ (Nat.lt_irrefl _))

/-! ## Well-formed DSP structures -/

theorem DecodeBlockData_body_valid (L : Layout) (buffer : List Nat) (fuel : Nat) (d : Decoder)
    (blockHeader end_ p count size : Nat) (h4 : L.sizeofDSPHeader % 4 = 0)
    (hh : headerAt buffer p fgkDSPDataKey size L.sizeofDSPHeader
      L.dspDataKey L.dspLength L.dspTotalLength)
    (hend : p + L.sizeofDSPHeader + size ≤ end_) :
    DecodeBlockData.body L buffer fuel d blockHeader end_ p count
      = DecodeBlockData.accept L buffer fuel d blockHeader p (p + L.sizeofDSPHeader)
          (p + L.sizeofDSPHeader + size) (p + L.sizeofDSPHeader + size) count := by
  obtain ⟨h1, h2, h3⟩ := headerAt_ends h4 hh
  unfold DecodeBlockData.body
  simp only [h1, h2, h3]
  have c1 : ¬ p + L.sizeofDSPHeader > end_ := by omega
  have c2 : ¬ (fgkDSPDataKey ≠ fgkDSPDataKey
      ∨ p + L.sizeofDSPHeader + size > end_ ∨ p + L.sizeofDSPHeader + size > end_
      ∨ p + L.sizeofDSPHeader + size ≠ p + L.sizeofDSPHeader + size) := by
    simp
    omega
  rw [if_neg c1, if_neg c2]

theorem DecodeBlockData_accept_ok (L : Layout) (buffer : List Nat) (fuel : Nat) (d : Decoder)
    (blockHeader dspStart dataStart dataEnd current count : Nat)
    (hc : count + 1 ≤ d.fMaxDSPs) (hm : d.fMaxDSPs < 2 ^ 32)
    (hg1 : readUInt buffer (dspStart + L.dspErrorWord)
      ≠ (0x000000B1 ||| readUInt buffer (blockHeader + L.blockDSPId)))
    (hg2 : readUInt buffer (dspStart + L.dspErrorWord)
      ≠ (0x00000091 ||| readUInt buffer (blockHeader + L.blockDSPId)))
    (hp : readUInt buffer (dspStart + L.dspPaddingWord) ≠ 1) :
    DecodeBlockData.accept L buffer fuel d blockHeader dspStart dataStart dataEnd current count
      = Step.afterCall (DecodeDSPData L buffer fuel
          (d.upd d.fHadError [Event.OnNewDSP dspStart dataStart]) dataStart dataEnd)
          current (count + 1) := by
  unfold DecodeBlockData.accept
  have h1 : (count + 1) % 2 ^ 32 = count + 1 := Nat.mod_eq_of_lt (by omega)
  simp only [h1, Decoder.OnNewDSP_eq]
  rw [if_neg (by omega), if_neg (by simp [hg1, hg2])]
  unfold DecodeBlockData.padding
  rw [if_neg hp]
  rfl

theorem DecodeBlockData_accept_tooMany (L : Layout) (buffer : List Nat) (fuel : Nat)
    (d : Decoder) (blockHeader dspStart dataStart dataEnd current count : Nat)
    (hc : d.fMaxDSPs < count + 1) (hm : count + 1 < 2 ^ 32) :
    DecodeBlockData.accept L buffer fuel d blockHeader dspStart dataStart dataEnd current count
      = Step.exit (some false) (d.upd true [Event.OnError ErrorCode.kTooManyDSPs current]) := by
  unfold DecodeBlockData.accept
  have h1 : (count + 1) % 2 ^ 32 = count + 1 := Nat.mod_eq_of_lt hm
  simp only [h1, Decoder.OnError_eq, Decoder.setHadError_eq, Decoder.upd_upd, List.append_nil]
  rw [if_pos (by omega)]

/-- One pass of the loop of `DecodeBlockData` over a well-formed DSP header,
within the limit: the body is the call of `DecodeDSPData` on the payload. -/
theorem DecodeBlockData_body_dsp (L : Layout) (buffer : List Nat) (fuel : Nat) (d : Decoder)
    (blockHeader end_ p count : Nat) (hL : L.wordSized) (dsp : DSP)
    (hat : dspAt L buffer blockHeader p dsp) (hend : p + dsp.size L ≤ end_)
    (hc : count + 1 ≤ d.fMaxDSPs) (hm : d.fMaxDSPs < 2 ^ 32) :
    DecodeBlockData.body L buffer fuel d blockHeader end_ p count
      = Step.afterCall (DecodeDSPData L buffer fuel
          (d.upd d.fHadError [Event.OnNewDSP p (p + L.sizeofDSPHeader)])
          (p + L.sizeofDSPHeader) (p + L.sizeofDSPHeader + busPatchesSize L dsp.busPatches))
          (p + dsp.size L) (count + 1) := by
  obtain ⟨hh, hg1, hg2, hp, _⟩ := hat
  have hsz : dsp.size L = L.sizeofDSPHeader + busPatchesSize L dsp.busPatches := rfl
  rw [DecodeBlockData_body_valid L buffer fuel d blockHeader end_ p count _ hL.2.1.2 hh
    (by omega), DecodeBlockData_accept_ok _ _ _ _ _ _ _ _ _ _ hc hm hg1 hg2 hp, hsz,
    Nat.add_assoc]

/-- The loop of `DecodeBlockData` over well-formed DSP structures, within the
limits: it goes on behind them. -/
theorem DecodeBlockData_loop_dsps (L : Layout) (buffer : List Nat) (blockHeader end_ : Nat)
    (hL : L.wordSized) (dsps : List DSP) :
    ∀ (d : Decoder) (p count : Nat) (ret : Bool) (d2 : Decoder),
      dspsAt L buffer blockHeader p dsps →
      (∀ dsp ∈ dsps, ∀ bp ∈ dsp.busPatches, ∀ w ∈ bp.data, evenParity w = true) →
      count + dsps.length ≤ d.fMaxDSPs → d.fMaxDSPs < 2 ^ 32 →
      (∀ dsp ∈ dsps, dsp.busPatches.length ≤ d.fMaxBusPatches) → d.fMaxBusPatches < 2 ^ 32 →
      p + dspsSize L dsps ≤ end_ →
      Returns (fun fuel => DecodeBlockData.loop L buffer blockHeader end_ fuel
        (d.upd d.fHadError (dspsEvents L p dsps)) (p + dspsSize L dsps)
        (count + dsps.length)) ret d2 →
      Returns (fun fuel => DecodeBlockData.loop L buffer blockHeader end_ fuel d p count)
        ret d2 := by
  induction dsps with
  | nil =>
    intro d p count ret d2 _ _ _ _ _ _ _ h
    simpa [dspsEvents, dspsSize, Decoder.upd_self] using h
  | cons dsp dsps ih =>
    intro d p count ret d2 hat he hc hm hbc hbm hend h
    obtain ⟨hdsp, hrest⟩ := hat
    simp only [dspsSize, List.length_cons] at hend hc h
    have hpos := hL.2.1.1
    have hsz : dsp.size L = L.sizeofDSPHeader + busPatchesSize L dsp.busPatches := rfl
    have hcall := DecodeDSPData_returns L buffer hL dsp.busPatches
      (d.upd d.fHadError [Event.OnNewDSP p (p + L.sizeofDSPHeader)]) (p + L.sizeofDSPHeader)
      hdsp.2.2.2.2 (he dsp (by simp)) (by simpa using hbc dsp (by simp)) (by simpa using hbm)
    refine IsLoop_call (DecodeBlockData_isLoop L buffer blockHeader end_) d p count _ true
      (d.upd d.fHadError (dspEvents L p dsp)) (p + dsp.size L) (count + 1) ret d2
      (by omega) (fun fuel => DecodeBlockData_body_dsp L buffer fuel d blockHeader end_ p count
        hL dsp hdsp (by omega) (by omega) hm)
      (by simpa [dspEvents] using hcall) (Or.inl rfl) ?_
    refine ih _ _ _ _ _ hrest (fun b hb => he b (by simp [hb])) (by simpa using by omega)
      (by simpa using hm) (fun b hb => by simpa using hbc b (by simp [hb]))
      (by simpa using hbm) (by omega) ?_
    simpa [dspsEvents, Nat.add_assoc, Nat.add_comm 1] using h

/-- The result of `DecodeBlockData` on a payload of well-formed DSP structures, within the
limits. -/
theorem DecodeBlockData_returns (L : Layout) (buffer : List Nat) (hL : L.wordSized)
    (dsps : List DSP) (d : Decoder) (blockHeader p : Nat)
    (hat : dspsAt L buffer blockHeader p dsps)
    (he : ∀ dsp ∈ dsps, ∀ bp ∈ dsp.busPatches, ∀ w ∈ bp.data, evenParity w = true)
    (hc : dsps.length ≤ d.fMaxDSPs) (hm : d.fMaxDSPs < 2 ^ 32)
    (hbc : ∀ dsp ∈ dsps, dsp.busPatches.length ≤ d.fMaxBusPatches)
    (hbm : d.fMaxBusPatches < 2 ^ 32) :
    Returns (fun fuel => DecodeBlockData L buffer fuel d blockHeader p (p + dspsSize L dsps))
      true (d.upd d.fHadError (dspsEvents L p dsps)) := by
  unfold DecodeBlockData
  exact DecodeBlockData_loop_dsps L buffer blockHeader _ hL dsps d p 0 true _ hat he
    (by omega) hm hbc hbm (Nat.le_refl _)
    (IsLoop_done (DecodeBlockData_isLoop L buffer blockHeader _) _ _ _ (Nat.lt_irrefl _))

/-! ## Well-formed block structures -/

theorem Decode_body_valid (L : Layout) (buffer : List Nat) (fuel : Nat) (d : Decoder)
    (end_ p count size : Nat) (h4 : L.sizeofBlockHeader % 4 = 0)
    (hh : headerAt buffer p fgkBlockDataKey size L.sizeofBlockHeader
      L.blockDataKey L.blockLength L.blockTotalLength)
    (hend : p + L.sizeofBlockHeader + size ≤ end_) :
    Decode.body L buffer fuel d end_ p count
      = Decode.accept L buffer fuel d p (p + L.sizeofBlockHeader)
          (p + L.sizeofBlockHeader + size) (p + L.sizeofBlockHeader + size) count := by
  obtain ⟨h1, h2, h3⟩ := headerAt_ends h4 hh
  unfold Decode.body
  simp only [h1, h2, h3]
  have c1 : ¬ p + L.sizeofBlockHeader > end_ := by omega
  have c2 : ¬ (fgkBlockDataKey ≠ fgkBlockDataKey
      ∨ p + L.sizeofBlockHeader + size > end_ ∨ p + L.sizeofBlockHeader + size > end_
      ∨ p + L.sizeofBlockHeader + size ≠ p + L.sizeofBlockHeader + size) := by
    simp
    omega
  rw [if_neg c1, if_neg c2]

theorem Decode_accept_ok (L : Layout) (buffer : List Nat) (fuel : Nat) (d : Decoder)
    (blockStart dataStart dataEnd current count : Nat)
    (hc : count + 1 ≤ d.fMaxBlocks) (hm : d.fMaxBlocks < 2 ^ 32) :
    Decode.accept L buffer fuel d blockStart dataStart dataEnd current count
      = Step.afterCall (DecodeBlockData L buffer fuel
          (d.upd d.fHadError [Event.OnNewBlock blockStart dataStart]) blockStart dataStart
          dataEnd) current (count + 1) := by
  unfold Decode.accept
  have h1 : (count + 1) % 2 ^ 32 = count + 1 := Nat.mod_eq_of_lt (by omega)
  simp only [h1, Decoder.OnNewBlock_eq]
  rw [if_neg (by omega)]

/-- One pass of the loop of `Decode` over a well-formed block header, within
the limit: the body is the call of `DecodeBlockData` on the payload. -/
theorem Decode_body_block (L : Layout) (buffer : List Nat) (fuel : Nat) (d : Decoder)
    (end_ p count : Nat) (hL : L.wordSized) (b : Block)
    (hat : blockAt L buffer p b) (hend : p + b.size L ≤ end_)
    (hc : count + 1 ≤ d.fMaxBlocks) (hm : d.fMaxBlocks < 2 ^ 32) :
    Decode.body L buffer fuel d end_ p count
      = Step.afterCall (DecodeBlockData L buffer fuel
          (d.upd d.fHadError [Event.OnNewBlock p (p + L.sizeofBlockHeader)]) p
          (p + L.sizeofBlockHeader) (p + L.sizeofBlockHeader + dspsSize L b.dsps))
          (p + b.size L) (count + 1) := by
  have hsz : b.size L = L.sizeofBlockHeader + dspsSize L b.dsps := rfl
  rw [Decode_body_valid L buffer fuel d end_ p count _ hL.1.2 hat.1 (by omega),
    Decode_accept_ok _ _ _ _ _ _ _ _ _ hc hm, hsz, Nat.add_assoc]

/-- The loop of `Decode` over well-formed block structures, within the limits:
it goes on behind them. -/
theorem Decode_loop_blocks (L : Layout) (buffer : List Nat) (end_ : Nat)
    (hL : L.wordSized) (bs : List Block) :
    ∀ (d : Decoder) (p count : Nat) (ret : Bool) (d2 : Decoder),
      blocksAt L buffer p bs → evenWords bs →
      count + bs.length ≤ d.fMaxBlocks → d.limitsAreUInt →
      (∀ b ∈ bs, b.dsps.length ≤ d.fMaxDSPs
        ∧ ∀ dsp ∈ b.dsps, dsp.busPatches.length ≤ d.fMaxBusPatches) →
      p + blocksSize L bs ≤ end_ →
      Returns (fun fuel => Decode.loop L buffer end_ fuel
        (d.upd d.fHadError (blocksEvents L p bs)) (p + blocksSize L bs)
        (count + bs.length)) ret d2 →
      Returns (fun fuel => Decode.loop L buffer end_ fuel d p count) ret d2 := by
  induction bs with
  | nil =>
    intro d p count ret d2 _ _ _ _ _ _ h
    simpa [blocksEvents, blocksSize, Decoder.upd_self] using h
  | cons b bs ih =>
    intro d p count ret d2 hat he hc hm hlim hend h
    obtain ⟨hb, hrest⟩ := hat
    simp only [blocksSize, List.length_cons] at hend hc h
    have hpos := hL.1.1
    have hsz : b.size L = L.sizeofBlockHeader + dspsSize L b.dsps := rfl
    have hcall := DecodeBlockData_returns L buffer hL b.dsps
      (d.upd d.fHadError [Event.OnNewBlock p (p + L.sizeofBlockHeader)]) p
      (p + L.sizeofBlockHeader) hb.2 (he b (by simp))
      (by simpa using (hlim b (by simp)).1) (by simpa using hm.2.1)
      (by simpa using (hlim b (by simp)).2) (by simpa using hm.2.2)
    refine IsLoop_call (Decode_isLoop L buffer end_) d p count _ true
      (d.upd d.fHadError (blockEvents L p b)) (p + b.size L) (count + 1) ret d2
      (by omega) (fun fuel => Decode_body_block L buffer fuel d end_ p count
        hL b hb (by omega) (by omega) hm.1)
      (by simpa [blockEvents] using hcall) (Or.inl rfl) ?_
    refine ih _ _ _ _ _ hrest (fun c hc => he c (by simp [hc])) (by simpa using by omega)
      (by simpa [Decoder.limitsAreUInt] using hm) (fun c hc => by simpa using hlim c (by simp [hc]))
      (by omega) ?_
    simpa [blocksEvents, Nat.add_assoc, Nat.add_comm 1] using h

/-- The result of `Decode` on a buffer of well-formed block structures, within the limits. -/
theorem Decode_returns_wellFormed (L : Layout) (buffer : List Nat) (hL : L.wordSized)
    (bs : List Block) (d : Decoder) (hat : blocksAt L buffer 0 bs) (he : evenWords bs)
    (hm : d.limitsAreUInt) (hlim : withinLimits d bs) :
    Returns (fun fuel => Decode L buffer fuel d (blocksSize L bs)) true
      (d.upd false (Event.OnNewBuffer 0 (blocksSize L bs) :: blocksEvents L 0 bs)) := by
  unfold Decode
  simp only [Decoder.clearHadError_eq, Decoder.OnNewBuffer_eq, Decoder.upd_upd,
    Decoder.upd_fHadError, List.nil_append, Nat.zero_add]
  refine Decode_loop_blocks L buffer _ hL bs _ 0 0 true _ hat he (by simpa using hlim.1)
    (by simpa [Decoder.limitsAreUInt] using hm) (by simpa using hlim.2) (by omega) ?_
  have := IsLoop_done (Decode_isLoop L buffer (blocksSize L bs))
    (d.upd false (Event.OnNewBuffer 0 (blocksSize L bs) :: blocksEvents L 0 bs))
    (0 + blocksSize L bs) (0 + bs.length) (by omega)
  simpa using this


/-! ## Counting callbacks -/

theorem countKind_append (k : Nat) (s t : List Event) :
    countKind k (s ++ t) = countKind k s + countKind k t := by
  simp [countKind]

theorem countKind_cons (k : Nat) (e : Event) (t : List Event) :
    countKind k (e :: t) = (if e.kind = k then 1 else 0) + countKind k t := by
  simp only [countKind, List.countP_cons, beq_iff_eq]
  omega

theorem countKind_data (k : Nat) (ws : List Nat) :
    countKind k (ws.map Event.OnData) = if k = 4 then ws.length else 0 := by
  induction ws with
  | nil => simp [countKind]
  | cons w ws ih =>
    rw [List.map_cons, countKind_cons, ih]
    by_cases h : k = 4
    · subst h
      simp [Event.kind, Nat.add_comm]
    · have h2 : ¬ 4 = k := fun e => h e.symm
      simp [Event.kind, h, h2]

theorem countKind_busPatchesEvents (L : Layout) (k : Nat) (bps : List BusPatch) (p : Nat) :
    countKind k (busPatchesEvents L p bps)
      = (if k = 3 then bps.length else 0) + (if k = 4 then busPatchesWords bps else 0) := by
  induction bps generalizing p with
  | nil => simp [busPatchesEvents, countKind, busPatchesWords]
  | cons bp bps ih =>
    rw [busPatchesEvents, countKind_append, ih, busPatchEvents, countKind_cons, countKind_data]
    simp only [Event.kind, busPatchesWords, List.length_cons]
    by_cases h3 : k = 3
    · subst h3
      simp
      omega
    · by_cases h4 : k = 4
      · subst h4
        simp
      · have h3b : ¬ 3 = k := fun e => h3 e.symm
        simp [h3, h4, h3b]

theorem countKind_dspsEvents (L : Layout) (k : Nat) (dsps : List DSP) (p : Nat) :
    countKind k (dspsEvents L p dsps)
      = (if k = 2 then dsps.length else 0) + (if k = 3 then dspsBusPatches dsps else 0)
        + (if k = 4 then dspsWords dsps else 0) := by
  induction dsps generalizing p with
  | nil => simp [dspsEvents, countKind, dspsBusPatches, dspsWords]
  | cons dsp dsps ih =>
    rw [dspsEvents, countKind_append, ih, dspEvents, countKind_cons,
      countKind_busPatchesEvents]
    simp only [Event.kind, dspsBusPatches, dspsWords, List.length_cons]
    by_cases h2 : k = 2
    · subst h2
      simp
      omega
    · have h2b : ¬ 2 = k := fun e => h2 e.symm
      by_cases h3 : k = 3
      · subst h3
        simp
      · by_cases h4 : k = 4
        · subst h4
          simp
        · simp [h2, h3, h4, h2b]

theorem countKind_blocksEvents (L : Layout) (k : Nat) (bs : List Block) (p : Nat) :
    countKind k (blocksEvents L p bs)
      = (if k = 1 then bs.length else 0) + (if k = 2 then blocksDSPs bs else 0)
        + (if k = 3 then blocksBusPatches bs else 0)
        + (if k = 4 then blocksWords bs else 0) := by
  induction bs generalizing p with
  | nil => simp [blocksEvents, countKind, blocksDSPs, blocksBusPatches, blocksWords]
  | cons b bs ih =>
    rw [blocksEvents, countKind_append, ih, blockEvents, countKind_cons, countKind_dspsEvents]
    simp only [Event.kind, blocksDSPs, blocksBusPatches, blocksWords, List.length_cons]
    by_cases h1 : k = 1
    · subst h1
      simp
      omega
    · have h1b : ¬ 1 = k := fun e => h1 e.symm
      by_cases h2 : k = 2
      · subst h2
        simp
      · by_cases h3 : k = 3
        · subst h3
          simp
        · by_cases h4 : k = 4
          · subst h4
            simp
          · simp [h1, h2, h3, h4, h1b]

/-- C2: for every well-formed buffer (a sequence of at most `MaxBlocks`
blocks, each a sequence of at most `MaxDSPs` DSP structures, each a sequence
of at most `MaxBusPatches` bus patches; every header with its level's key and
`totalLength = length + header words`; no glitch pattern, no padding flag,
every data word of even parity), for header sizes that are positive multiples
of four and limits of type `UInt_t`: given enough iteration budget, `Decode`
returns `true` and the callbacks issued are `OnNewBuffer` followed, in buffer
order, by one `OnNewBlock` / `OnNewDSP` / `OnNewBusPatch` per structure and
one `OnData` per data word, with no `OnError`. -/
theorem decode_wellFormed (L : Layout) (buffer : List Nat) (bs : List Block) (d : Decoder)
    (hL : L.wordSized) (hm : d.limitsAreUInt) (hat : blocksAt L buffer 0 bs)
    (he : evenWords bs) (hlim : withinLimits d bs) :
    (∃ n, ∀ fuel, n ≤ fuel →
      Decode L buffer fuel d (blocksSize L bs)
        = (some true,
            d.upd false (Event.OnNewBuffer 0 (blocksSize L bs) :: blocksEvents L 0 bs)))
      ∧ countKind 1 (blocksEvents L 0 bs) = bs.length
      ∧ countKind 2 (blocksEvents L 0 bs) = blocksDSPs bs
      ∧ countKind 3 (blocksEvents L 0 bs) = blocksBusPatches bs
      ∧ countKind 4 (blocksEvents L 0 bs) = blocksWords bs
      ∧ countKind 5 (blocksEvents L 0 bs) = 0 := by
  refine ⟨Decode_returns_wellFormed L buffer hL bs d hat he hm hlim, ?_, ?_, ?_, ?_, ?_⟩ <;>
    simp [countKind_blocksEvents]


theorem specLayout_wordSized : specLayout.wordSized := by
  unfold Layout.wordSized
  decide

theorem init_limitsAreUInt : Decoder.init.limitsAreUInt := by
  unfold Decoder.limitsAreUInt
  decide

/-- C2 on one block wrapping one DSP wrapping one bus patch with the two data
words `3` and `5`: one `OnNewBlock`, one `OnNewDSP`, one `OnNewBusPatch`, two
`OnData`, no `OnError`. -/
theorem decode_wellFormed_witness :
    (∃ n, ∀ fuel, n ≤ fuel →
      Decode specLayout (chainBuffer [3, 5]) fuel Decoder.init 60
        = (some true,
            Decoder.init.upd false [Event.OnNewBuffer 0 60, Event.OnNewBlock 0 16,
              Event.OnNewDSP 16 40, Event.OnNewBusPatch 40 52, Event.OnData 3,
              Event.OnData 5]))
      ∧ countKind 1 (blocksEvents specLayout 0 (chainBlocks [3, 5])) = 1
      ∧ countKind 2 (blocksEvents specLayout 0 (chainBlocks [3, 5])) = 1
      ∧ countKind 3 (blocksEvents specLayout 0 (chainBlocks [3, 5])) = 1
      ∧ countKind 4 (blocksEvents specLayout 0 (chainBlocks [3, 5])) = 2
      ∧ countKind 5 (blocksEvents specLayout 0 (chainBlocks [3, 5])) = 0 :=
  decode_wellFormed specLayout (chainBuffer [3, 5]) (chainBlocks [3, 5]) Decoder.init
    specLayout_wordSized init_limitsAreUInt
    (by simp only [blocksAt, blockAt, dspsAt, dspAt, busPatchesAt, busPatchAt, headerAt,
          wordsAt, chainBlocks]; decide)
    (by simp only [evenWords, chainBlocks]; decide)
    (by simp only [withinLimits, chainBlocks]; decide)

/-! ## A parity error in the last word of a bus patch -/

theorem wordsAt_append (buffer : List Nat) (ws vs : List Nat) (p : Nat) :
    wordsAt buffer p (ws ++ vs)
      ↔ wordsAt buffer p ws ∧ wordsAt buffer (p + 4 * ws.length) vs := by
  induction ws generalizing p with
  | nil => simp [wordsAt]
  | cons w ws ih =>
    have e : p + 4 + 4 * ws.length = p + 4 * (ws.length + 1) := by omega
    show (readUInt buffer p = w ∧ wordsAt buffer (p + 4) (ws ++ vs)) ↔ _
    rw [ih, e]
    simp only [wordsAt, List.length_cons, and_assoc]

/-- The data loop passes over words of even parity. -/
theorem DecodeBusPatchData_skip_even (buffer : List Nat) (ws : List Nat) :
    ∀ (fuel : Nat) (d : Decoder) (start end_ : Nat), wordsAt buffer start ws →
      (∀ w ∈ ws, evenParity w = true) → start + 4 * ws.length ≤ end_ →
      DecodeBusPatchData buffer (fuel + ws.length) d start end_
        = DecodeBusPatchData buffer fuel (d.upd d.fHadError (ws.map Event.OnData))
            (start + 4 * ws.length) end_ := by
  induction ws with
  | nil =>
    intro fuel d start end_ _ _ _
    simp [Decoder.upd_self]
  | cons w ws ih =>
    intro fuel d start end_ hw he hend
    simp only [List.length_cons] at hend ⊢
    have hlt : start < end_ := by omega
    rw [← Nat.add_assoc, DecodeBusPatchData]
    simp only [hlt, if_true, hw.1, ParityIsOk_eq_evenParity, he w (by simp)]
    rw [ih fuel _ (start + 4) end_ hw.2 (fun v hv => he v (by simp [hv])) (by omega)]
    simp only [Decoder.OnData_eq, Decoder.upd_upd, Decoder.upd_fHadError, List.map_cons,
      List.singleton_append]
    have e : start + 4 + 4 * ws.length = start + 4 * (ws.length + 1) := by omega
    rw [e]

/-- The data loop on words of even parity followed by a last word of odd
parity. -/
theorem DecodeBusPatchData_lastOdd (buffer : List Nat) (ws : List Nat) (w : Nat) (d : Decoder)
    (start : Nat) (hat : wordsAt buffer start (ws ++ [w]))
    (he : ∀ v ∈ ws, evenParity v = true) (hw : evenParity w = false) :
    Returns (fun fuel => DecodeBusPatchData buffer fuel d start
        (start + 4 * (ws ++ [w]).length))
      (!d.fExitOnError)
      (d.upd true (ws.map Event.OnData
        ++ Event.OnError ErrorCode.kParityError (start + 4 * ws.length)
        :: (if d.fExitOnError = false ∧ d.fSendDataOnParityError = true then [Event.OnData w]
            else []))) := by
  obtain ⟨h1, h2, _⟩ := (wordsAt_append buffer ws [w] start).1 hat
  refine ⟨ws.length + 2, fun fuel hf => ?_⟩
  obtain ⟨m, rfl⟩ : ∃ m, fuel = (m + 2) + ws.length := ⟨fuel - ws.length - 2, by omega⟩
  simp only [List.length_append, List.length_singleton]
  rw [DecodeBusPatchData_skip_even buffer ws (m + 2) d start _ h1 he (by omega)]
  have hlt : start + 4 * ws.length < start + 4 * (ws.length + 1) := by omega
  rw [DecodeBusPatchData]
  simp only [hlt, if_true, h2, ParityIsOk_eq_evenParity, hw, Bool.false_eq_true, if_false,
    Decoder.OnError_eq, Decoder.setHadError_eq, Decoder.OnData_eq, Decoder.upd_upd,
    Decoder.upd_fExitOnError, Decoder.upd_fSendDataOnParityError, Decoder.upd_fHadError,
    List.append_nil]
  have hge : ¬ start + 4 * ws.length + 4 < start + 4 * (ws.length + 1) := by omega
  cases hx : d.fExitOnError <;> cases hs : d.fSendDataOnParityError <;>
    simp [DecodeBusPatchData, hge]


/-- The result of `DecodeDSPData` on a payload that is one well-formed bus patch, in terms of
the result of the call of `DecodeBusPatchData`. -/
theorem DecodeDSPData_one (L : Layout) (buffer : List Nat) (hL : L.wordSized) (d : Decoder)
    (p size : Nat) (b : Bool) (d1 : Decoder)
    (hh : headerAt buffer p fgkBusPatchDataKey size L.sizeofBusPatchHeader
      L.busPatchDataKey L.busPatchLength L.busPatchTotalLength)
    (hc : 1 ≤ d.fMaxBusPatches) (hm : d.fMaxBusPatches < 2 ^ 32)
    (hg : Returns (fun fuel => DecodeBusPatchData buffer fuel
        (d.upd d.fHadError [Event.OnNewBusPatch p (p + L.sizeofBusPatchHeader)])
        (p + L.sizeofBusPatchHeader) (p + L.sizeofBusPatchHeader + size)) b d1) :
    Returns (fun fuel => DecodeDSPData L buffer fuel d p (p + L.sizeofBusPatchHeader + size))
      (b || !d1.fExitOnError) d1 := by
  unfold DecodeDSPData
  have hpos := hL.2.2.1
  have hbody : ∀ fuel, DecodeDSPData.body L buffer fuel d (p + L.sizeofBusPatchHeader + size)
      p 0 = Step.afterCall (DecodeBusPatchData buffer fuel
        (d.upd d.fHadError [Event.OnNewBusPatch p (p + L.sizeofBusPatchHeader)])
        (p + L.sizeofBusPatchHeader) (p + L.sizeofBusPatchHeader + size))
        (p + L.sizeofBusPatchHeader + size) (0 + 1) := fun fuel => by
    rw [DecodeDSPData_body_valid L buffer fuel d _ p 0 size hL.2.2.2 hh (Nat.le_refl _),
      DecodeDSPData_accept_ok _ _ _ _ _ _ _ _ (by omega) hm]
  by_cases hb : b = true ∨ d1.fExitOnError = false
  · have hr : (b || !d1.fExitOnError) = true := by
      rcases hb with hb | hb <;> simp [hb]
    rw [hr]
    exact IsLoop_call (DecodeDSPData_isLoop L buffer _) d p 0 _ b d1 _ _ true d1 (by omega)
      hbody hg hb (IsLoop_done (DecodeDSPData_isLoop L buffer _) _ _ _ (Nat.lt_irrefl _))
  · have hb1 : b = false := by
      cases b
      · rfl
      · exact absurd (Or.inl rfl) hb
    have hb2 : d1.fExitOnError = true := by
      cases hx : d1.fExitOnError
      · exact absurd (Or.inr hx) hb
      · rfl
    subst hb1
    rw [hb2]
    exact IsLoop_call_exit (DecodeDSPData_isLoop L buffer _) d p 0 _ d1 _ _ (by omega)
      hbody hg hb2

/-- The result of `DecodeBlockData` on a payload that is one well-formed DSP header with
its payload, in terms of the result of the call of `DecodeDSPData`. -/
theorem DecodeBlockData_one (L : Layout) (buffer : List Nat) (hL : L.wordSized) (d : Decoder)
    (blockHeader p : Nat) (dsp : DSP) (b : Bool) (d1 : Decoder)
    (hat : dspAt L buffer blockHeader p dsp)
    (hc : 1 ≤ d.fMaxDSPs) (hm : d.fMaxDSPs < 2 ^ 32)
    (hg : Returns (fun fuel => DecodeDSPData L buffer fuel
        (d.upd d.fHadError [Event.OnNewDSP p (p + L.sizeofDSPHeader)])
        (p + L.sizeofDSPHeader) (p + L.sizeofDSPHeader + busPatchesSize L dsp.busPatches))
        b d1) :
    Returns (fun fuel => DecodeBlockData L buffer fuel d blockHeader p (p + dsp.size L))
      (b || !d1.fExitOnError) d1 := by
  unfold DecodeBlockData
  have hpos := hL.2.1.1
  have hsz : dsp.size L = L.sizeofDSPHeader + busPatchesSize L dsp.busPatches := rfl
  have hbody := fun fuel => DecodeBlockData_body_dsp L buffer fuel d blockHeader
    (p + dsp.size L) p 0 hL dsp hat (Nat.le_refl _) (by omega) hm
  by_cases hb : b = true ∨ d1.fExitOnError = false
  · have hr : (b || !d1.fExitOnError) = true := by
      rcases hb with hb | hb <;> simp [hb]
    rw [hr]
    exact IsLoop_call (DecodeBlockData_isLoop L buffer blockHeader _) d p 0 _ b d1 _ _ true d1
      (by omega) hbody hg hb
      (IsLoop_done (DecodeBlockData_isLoop L buffer blockHeader _) _ _ _ (Nat.lt_irrefl _))
  · have hb1 : b = false := by
      cases b
      · rfl
      · exact absurd (Or.inl rfl) hb
    have hb2 : d1.fExitOnError = true := by
      cases hx : d1.fExitOnError
      · exact absurd (Or.inr hx) hb
      · rfl
    subst hb1
    rw [hb2]
    exact IsLoop_call_exit (DecodeBlockData_isLoop L buffer blockHeader _) d p 0 _ d1 _ _
      (by omega) hbody hg hb2

/-- The result of `Decode` on a buffer that is one well-formed block header with its
payload, in terms of the result of the call of `DecodeBlockData`. -/
theorem Decode_one (L : Layout) (buffer : List Nat) (hL : L.wordSized) (d : Decoder)
    (blk : Block) (b : Bool) (d1 : Decoder)
    (hat : blockAt L buffer 0 blk)
    (hc : 1 ≤ d.fMaxBlocks) (hm : d.fMaxBlocks < 2 ^ 32)
    (hg : Returns (fun fuel => DecodeBlockData L buffer fuel
        (d.upd false [Event.OnNewBuffer 0 (blk.size L),
          Event.OnNewBlock 0 (0 + L.sizeofBlockHeader)])
        0 (0 + L.sizeofBlockHeader) (0 + L.sizeofBlockHeader + dspsSize L blk.dsps))
        b d1) :
    Returns (fun fuel => Decode L buffer fuel d (blk.size L))
      ((b || !d1.fExitOnError) && !d1.fHadError) d1 := by
  unfold Decode
  simp only [Decoder.clearHadError_eq, Decoder.OnNewBuffer_eq, Decoder.upd_upd,
    Decoder.upd_fHadError, List.nil_append, Nat.zero_add]
  have hpos := hL.1.1
  have hsz : blk.size L = L.sizeofBlockHeader + dspsSize L blk.dsps := rfl
  have hbody := fun fuel => Decode_body_block L buffer fuel
    (d.upd false [Event.OnNewBuffer 0 (blk.size L)]) (blk.size L) 0 0 hL blk hat
    (by omega) (by simpa using hc) (by simpa using hm)
  simp only [Decoder.upd_upd, Decoder.upd_fHadError, List.singleton_append] at hbody
  by_cases hb : b = true ∨ d1.fExitOnError = false
  · have hr : (b || !d1.fExitOnError) = true := by
      rcases hb with hb | hb <;> simp [hb]
    rw [hr, Bool.true_and]
    have hdone := IsLoop_done (Decode_isLoop L buffer (blk.size L)) d1 (0 + blk.size L) (0 + 1)
      (by omega)
    exact IsLoop_call (Decode_isLoop L buffer _) _ 0 0 _ b d1 _ _ _ d1 (by omega)
      hbody (by simpa using hg) hb hdone
  · have hb1 : b = false := by
      cases b
      · rfl
      · exact absurd (Or.inl rfl) hb
    have hb2 : d1.fExitOnError = true := by
      cases hx : d1.fExitOnError
      · exact absurd (Or.inr hx) hb
      · rfl
    subst hb1
    rw [hb2]
    exact IsLoop_call_exit (Decode_isLoop L buffer _) _ 0 0 _ d1 _ _ (by omega)
      hbody (by simpa using hg) hb2

/-- The result of `Decode` on one block, one DSP and one bus patch whose last data word has
odd parity, the words before it even parity. -/
theorem Decode_lastWordOdd (L : Layout) (buffer : List Nat) (ws : List Nat) (w : Nat)
    (d : Decoder) (hL : L.wordSized) (hm : d.limitsAreUInt)
    (hlim : 1 ≤ d.fMaxBlocks ∧ 1 ≤ d.fMaxDSPs ∧ 1 ≤ d.fMaxBusPatches)
    (hat : blocksAt L buffer 0 (chainBlocks (ws ++ [w])))
    (he : ∀ v ∈ ws, evenParity v = true) (hw : evenParity w = false) :
    Returns (fun fuel => Decode L buffer fuel d (blocksSize L (chainBlocks (ws ++ [w]))))
      false (d.upd true (lastWordOddEvents L d ws w)) := by
  obtain ⟨⟨hbh, hdsp, _⟩, _⟩ := hat
  have hdsp2 := hdsp
  obtain ⟨_, _, _, _, ⟨hph, hwords⟩, _⟩ := hdsp2
  simp only [chainBlocks] at hbh hdsp hph hwords
  have h1 := DecodeBusPatchData_lastOdd buffer ws w
    (d.upd false [Event.OnNewBuffer 0 (blocksSize L (chainBlocks (ws ++ [w]))),
      Event.OnNewBlock 0 (0 + L.sizeofBlockHeader),
      Event.OnNewDSP (0 + L.sizeofBlockHeader) (0 + L.sizeofBlockHeader + L.sizeofDSPHeader),
      Event.OnNewBusPatch (0 + L.sizeofBlockHeader + L.sizeofDSPHeader)
        (0 + L.sizeofBlockHeader + L.sizeofDSPHeader + L.sizeofBusPatchHeader)])
    (0 + L.sizeofBlockHeader + L.sizeofDSPHeader + L.sizeofBusPatchHeader) hwords he hw
  have h2 := DecodeDSPData_one L buffer hL
    (d.upd false [Event.OnNewBuffer 0 (blocksSize L (chainBlocks (ws ++ [w]))),
      Event.OnNewBlock 0 (0 + L.sizeofBlockHeader),
      Event.OnNewDSP (0 + L.sizeofBlockHeader) (0 + L.sizeofBlockHeader + L.sizeofDSPHeader)])
    (0 + L.sizeofBlockHeader + L.sizeofDSPHeader) _ _ _ hph (by simpa using hlim.2.2)
    (by simpa using hm.2.2) (by simpa using h1)
  have h3 := DecodeBlockData_one L buffer hL
    (d.upd false [Event.OnNewBuffer 0 (blocksSize L (chainBlocks (ws ++ [w]))),
      Event.OnNewBlock 0 (0 + L.sizeofBlockHeader)])
    0 (0 + L.sizeofBlockHeader) _ _ _ hdsp (by simpa using hlim.2.1)
    (by simpa using hm.2.1)
    (by simpa [busPatchesSize, BusPatch.size, Nat.add_assoc] using h2)
  have h4 := Decode_one L buffer hL d _ _ _ ⟨hbh, hdsp, trivial⟩ hlim.1 hm.1
    (by simpa [dspsSize, DSP.size, busPatchesSize, BusPatch.size, blocksSize, Block.size,
      chainBlocks, Nat.add_assoc] using h3)
  have e : blocksSize L (chainBlocks (ws ++ [w]))
      = Block.size L { dsps := [{ busPatches := [{ data := ws ++ [w] }] }] } := by
    simp [blocksSize, chainBlocks]
  rw [e]
  cases hx : d.fExitOnError <;>
    simpa [hx, lastWordOddEvents, blocksEvents, blockEvents, dspsEvents, dspEvents,
      busPatchesEvents, busPatchEvents, chainBlocks, blocksSize, Block.size, dspsSize,
      DSP.size, busPatchesSize, BusPatch.size, Nat.add_assoc] using h4


theorem countError_cons (c : ErrorCode) (e : Event) (t : List Event) :
    countError c (e :: t) = (if e.isErrorCode c = true then 1 else 0) + countError c t := by
  simp only [countError, List.countP_cons]
  omega

theorem countError_append (c : ErrorCode) (s t : List Event) :
    countError c (s ++ t) = countError c s + countError c t := by
  simp [countError]

theorem countError_eq_zero (c : ErrorCode) (t : List Event) (h : countKind 5 t = 0) :
    countError c t = 0 := by
  induction t with
  | nil => rfl
  | cons e t ih =>
    rw [countKind_cons] at h
    rw [countError_cons, ih (by omega)]
    cases e <;> simp_all [Event.kind, Event.isErrorCode]

theorem lastWordOddEvents_counts (L : Layout) (d : Decoder) (ws : List Nat) (w : Nat) :
    countError ErrorCode.kParityError (lastWordOddEvents L d ws w) = 1
      ∧ countKind 5 (lastWordOddEvents L d ws w) = 1
      ∧ countKind 4 (lastWordOddEvents L d ws w)
          = if d.fExitOnError = false ∧ d.fSendDataOnParityError = true then ws.length + 1
            else ws.length := by
  have h0 : countError ErrorCode.kParityError (blocksEvents L 0 (chainBlocks ws)) = 0 :=
    countError_eq_zero _ _ (by simp [countKind_blocksEvents])
  unfold lastWordOddEvents
  by_cases hc : d.fExitOnError = false ∧ d.fSendDataOnParityError = true
  · rw [if_pos hc, if_pos hc]
    refine ⟨?_, ?_, ?_⟩
    · rw [countError_append, countError_cons, h0, countError_cons, countError_cons]
      simp [Event.isErrorCode, countError]
    · rw [countKind_append, countKind_cons, countKind_blocksEvents, countKind_cons,
        countKind_cons]
      simp [Event.kind, countKind]
    · rw [countKind_append, countKind_cons, countKind_blocksEvents, countKind_cons,
        countKind_cons]
      simp [Event.kind, countKind, chainBlocks, blocksWords, dspsWords, busPatchesWords]
  · rw [if_neg hc, if_neg hc]
    refine ⟨?_, ?_, ?_⟩
    · rw [countError_append, countError_cons, h0, countError_cons]
      simp [Event.isErrorCode, countError]
    · rw [countKind_append, countKind_cons, countKind_blocksEvents, countKind_cons]
      simp [Event.kind, countKind]
    · rw [countKind_append, countKind_cons, countKind_blocksEvents, countKind_cons]
      simp [Event.kind, countKind, chainBlocks, blocksWords, dspsWords, busPatchesWords]

/-- C5: in a buffer that is one block, one DSP and one bus patch with
`N = ws.length + 1` data words, the last of which is a word `v` of even parity
with bit `i` flipped and the others of even parity, with
`SendDataOnParityError = false`: given enough iteration budget, `Decode`
returns `false` after exactly one `OnError`, which is `kParityError`, and
exactly `N - 1` calls of `OnData`, whether `ExitOnError` is set or not. -/
theorem decode_lastWordFlipped_noSend (L : Layout) (buffer : List Nat) (ws : List Nat)
    (v i : Nat) (d : Decoder) (hL : L.wordSized) (hm : d.limitsAreUInt)
    (hlim : 1 ≤ d.fMaxBlocks ∧ 1 ≤ d.fMaxDSPs ∧ 1 ≤ d.fMaxBusPatches)
    (hat : blocksAt L buffer 0 (chainBlocks (ws ++ [v ^^^ 2 ^ i])))
    (he : ∀ w ∈ ws, evenParity w = true) (hv : evenParity v = true) (hi : i < 32)
    (hsend : d.fSendDataOnParityError = false) :
    ∃ t, (∃ n, ∀ fuel, n ≤ fuel →
          Decode L buffer fuel d (blocksSize L (chainBlocks (ws ++ [v ^^^ 2 ^ i])))
            = (some false, d.upd true t))
      ∧ countError ErrorCode.kParityError t = 1
      ∧ countKind 5 t = 1
      ∧ countKind 4 t = ws.length := by
  have hw : evenParity (v ^^^ 2 ^ i) = false := by
    rw [← ParityIsOk_eq_evenParity, ParityIsOk_flip v i hi, ParityIsOk_eq_evenParity, hv]
    rfl
  obtain ⟨c1, c2, c3⟩ := lastWordOddEvents_counts L d ws (v ^^^ 2 ^ i)
  refine ⟨lastWordOddEvents L d ws (v ^^^ 2 ^ i),
    Decode_lastWordOdd L buffer ws _ d hL hm hlim hat he hw, c1, c2, ?_⟩
  rw [c3, hsend]
  simp

/-- C5 on the data words `3` and `4 = 5 xor 1`, with the default
configuration. -/
theorem decode_lastWordFlipped_noSend_witness :
    ∃ t, (∃ n, ∀ fuel, n ≤ fuel →
          Decode specLayout (chainBuffer [3, 4]) fuel Decoder.init 60
            = (some false, Decoder.init.upd true t))
      ∧ countError ErrorCode.kParityError t = 1
      ∧ countKind 5 t = 1
      ∧ countKind 4 t = 1 :=
  decode_lastWordFlipped_noSend specLayout (chainBuffer [3, 4]) [3] 5 0 Decoder.init
    specLayout_wordSized init_limitsAreUInt (by decide)
    (by simp only [blocksAt, blockAt, dspsAt, dspAt, busPatchesAt, busPatchAt, headerAt,
          wordsAt, chainBlocks]; decide)
    (by decide) (by decide) (by decide) rfl

/-- C6 fails under the default `ExitOnError = true`: on one block, one DSP and
one bus patch with the `N = 2` data words `3` and `4` (`5` with bit 0
flipped), with `SendDataOnParityError = true`, `Decode` returns `false` after
one `OnData` only. -/
theorem decode_send_exit_counterexample :
    Decode specLayout (chainBuffer [3, 4]) 10 sendDecoder 60
        = (some false, sendDecoder.upd true
            [Event.OnNewBuffer 0 60, Event.OnNewBlock 0 16, Event.OnNewDSP 16 40,
              Event.OnNewBusPatch 40 52, Event.OnData 3,
              Event.OnError ErrorCode.kParityError 56])
      ∧ countKind 4 (Decode specLayout (chainBuffer [3, 4]) 10 sendDecoder 60).2.fHandler ≠ 2 := by
  decide

/-- C6, amended: in a buffer that is one block, one DSP and one bus patch with
`N = ws.length + 1` data words, the last of which is a word `v` of even parity
with bit `i` flipped and the others of even parity, with
`SendDataOnParityError = true`: given enough iteration budget, `Decode`
returns `false` after exactly one `OnError(kParityError)` and exactly `N`
calls of `OnData` when `ExitOnError = false`, and exactly `N - 1` calls of
`OnData` when `ExitOnError = true`. -/
theorem decode_lastWordFlipped_send (L : Layout) (buffer : List Nat) (ws : List Nat)
    (v i : Nat) (d : Decoder) (hL : L.wordSized) (hm : d.limitsAreUInt)
    (hlim : 1 ≤ d.fMaxBlocks ∧ 1 ≤ d.fMaxDSPs ∧ 1 ≤ d.fMaxBusPatches)
    (hat : blocksAt L buffer 0 (chainBlocks (ws ++ [v ^^^ 2 ^ i])))
    (he : ∀ w ∈ ws, evenParity w = true) (hv : evenParity v = true) (hi : i < 32)
    (hsend : d.fSendDataOnParityError = true) :
    ∃ t, (∃ n, ∀ fuel, n ≤ fuel →
          Decode L buffer fuel d (blocksSize L (chainBlocks (ws ++ [v ^^^ 2 ^ i])))
            = (some false, d.upd true t))
      ∧ countError ErrorCode.kParityError t = 1
      ∧ countKind 5 t = 1
      ∧ countKind 4 t = if d.fExitOnError = true then ws.length else ws.length + 1 := by
  have hw : evenParity (v ^^^ 2 ^ i) = false := by
    rw [← ParityIsOk_eq_evenParity, ParityIsOk_flip v i hi, ParityIsOk_eq_evenParity, hv]
    rfl
  obtain ⟨c1, c2, c3⟩ := lastWordOddEvents_counts L d ws (v ^^^ 2 ^ i)
  refine ⟨lastWordOddEvents L d ws (v ^^^ 2 ^ i),
    Decode_lastWordOdd L buffer ws _ d hL hm hlim hat he hw, c1, c2, ?_⟩
  rw [c3, hsend]
  cases d.fExitOnError <;> simp

/-- C6, amended, on the data words `3` and `4 = 5 xor 1`, with
`SendDataOnParityError = true` and `ExitOnError = true`. -/
theorem decode_lastWordFlipped_send_witness :
    ∃ t, (∃ n, ∀ fuel, n ≤ fuel →
          Decode specLayout (chainBuffer [3, 4]) fuel sendDecoder 60
            = (some false, sendDecoder.upd true t))
      ∧ countError ErrorCode.kParityError t = 1
      ∧ countKind 5 t = 1
      ∧ countKind 4 t = 1 :=
  decode_lastWordFlipped_send specLayout (chainBuffer [3, 4]) [3] 5 0 sendDecoder
    specLayout_wordSized (by unfold Decoder.limitsAreUInt; decide) (by decide)
    (by simp only [blocksAt, blockAt, dspsAt, dspAt, busPatchesAt, busPatchAt, headerAt,
          wordsAt, chainBlocks]; decide)
    (by decide) (by decide) (by decide) rfl

/-! ## Too many bus patches in a DSP structure -/

theorem readByte_lt (buffer : List Nat) (p : Nat) : readByte buffer p < 256 :=
  Nat.mod_lt _ (by decide)

theorem readUInt_lt (buffer : List Nat) (p : Nat) : readUInt buffer p < 2 ^ 32 := by
  have h0 := readByte_lt buffer p
  have h1 := readByte_lt buffer (p + 1)
  have h2 := readByte_lt buffer (p + 2)
  have h3 := readByte_lt buffer (p + 3)
  unfold readUInt
  omega

theorem busPatchesSize_append (L : Layout) (a b : List BusPatch) :
    busPatchesSize L (a ++ b) = busPatchesSize L a + busPatchesSize L b := by
  induction a with
  | nil => simp [busPatchesSize]
  | cons x a ih =>
    show x.size L + busPatchesSize L (a ++ b) = _
    rw [ih, busPatchesSize]
    omega

theorem dspsSize_append (L : Layout) (a b : List DSP) :
    dspsSize L (a ++ b) = dspsSize L a + dspsSize L b := by
  induction a with
  | nil => simp [dspsSize]
  | cons x a ih =>
    show x.size L + dspsSize L (a ++ b) = _
    rw [ih, dspsSize]
    omega

theorem blocksSize_append (L : Layout) (a b : List Block) :
    blocksSize L (a ++ b) = blocksSize L a + blocksSize L b := by
  induction a with
  | nil => simp [blocksSize]
  | cons x a ih =>
    show x.size L + blocksSize L (a ++ b) = _
    rw [ih, blocksSize]
    omega

theorem busPatchesAt_append (L : Layout) (buffer : List Nat) (a b : List BusPatch) (p : Nat) :
    busPatchesAt L buffer p (a ++ b)
      ↔ busPatchesAt L buffer p a ∧ busPatchesAt L buffer (p + busPatchesSize L a) b := by
  induction a generalizing p with
  | nil => simp [busPatchesAt, busPatchesSize]
  | cons x a ih =>
    show (busPatchAt L buffer p x ∧ busPatchesAt L buffer (p + x.size L) (a ++ b)) ↔ _
    rw [ih]
    simp only [busPatchesAt, busPatchesSize, and_assoc, Nat.add_assoc]

theorem dspsAt_append (L : Layout) (buffer : List Nat) (h : Nat) (a b : List DSP) (p : Nat) :
    dspsAt L buffer h p (a ++ b)
      ↔ dspsAt L buffer h p a ∧ dspsAt L buffer h (p + dspsSize L a) b := by
  induction a generalizing p with
  | nil => simp [dspsAt, dspsSize]
  | cons x a ih =>
    show (dspAt L buffer h p x ∧ dspsAt L buffer h (p + x.size L) (a ++ b)) ↔ _
    rw [ih]
    simp only [dspsAt, dspsSize, and_assoc, Nat.add_assoc]

theorem blocksAt_append (L : Layout) (buffer : List Nat) (a b : List Block) (p : Nat) :
    blocksAt L buffer p (a ++ b)
      ↔ blocksAt L buffer p a ∧ blocksAt L buffer (p + blocksSize L a) b := by
  induction a generalizing p with
  | nil => simp [blocksAt, blocksSize]
  | cons x a ih =>
    show (blockAt L buffer p x ∧ blocksAt L buffer (p + x.size L) (a ++ b)) ↔ _
    rw [ih]
    simp only [blocksAt, blocksSize, and_assoc, Nat.add_assoc]

theorem busPatchesSize_ge (L : Layout) (hL : L.wordSized) (bps : List BusPatch) :
    4 * bps.length ≤ busPatchesSize L bps := by
  have h1 := hL.2.2.1
  have h2 := hL.2.2.2
  induction bps with
  | nil => simp
  | cons x a ih =>
    simp only [busPatchesSize, BusPatch.size, List.length_cons]
    omega

/-- The result of `DecodeDSPData` on well-formed bus patches of which `first` fill the
limit and `extra` exceeds it. -/
theorem DecodeDSPData_tooMany (L : Layout) (buffer : List Nat) (hL : L.wordSized)
    (first : List BusPatch) (extra : BusPatch) (rest : List BusPatch) (d : Decoder) (p : Nat)
    (hat : busPatchesAt L buffer p (first ++ extra :: rest))
    (he : ∀ bp ∈ first, ∀ w ∈ bp.data, evenParity w = true)
    (hc : first.length = d.fMaxBusPatches) (hm : d.fMaxBusPatches + 1 < 2 ^ 32) :
    Returns (fun fuel => DecodeDSPData L buffer fuel d p
        (p + busPatchesSize L (first ++ extra :: rest))) false
      (d.upd true (busPatchesEvents L p first
        ++ [Event.OnError ErrorCode.kTooManyBusPatches
              (p + busPatchesSize L first + extra.size L)])) := by
  unfold DecodeDSPData
  obtain ⟨h1, ⟨hh, _⟩, _⟩ := (busPatchesAt_append L buffer first (extra :: rest) p).1 hat
  have hpos := hL.2.2.1
  have hsz : extra.size L = L.sizeofBusPatchHeader + 4 * extra.data.length := rfl
  rw [busPatchesSize_append]
  simp only [busPatchesSize]
  refine DecodeDSPData_loop_busPatches L buffer _ hL first d p 0 false _ h1 he (by omega)
    (by omega) (by omega) ?_
  refine IsLoop_exit (DecodeDSPData_isLoop L buffer _) _ _ _ false _ (by omega)
    (fun fuel => ?_)
  rw [DecodeDSPData_body_valid L buffer fuel _ _ _ _ (4 * extra.data.length) hL.2.2.2 hh
    (by omega), DecodeDSPData_accept_tooMany _ _ _ _ _ _ _ _ (by simp; omega) (by omega)]
  simp [hsz, Nat.add_assoc]


/-- The result of `DecodeBlockData` on well-formed DSP structures of which one holds too
many bus patches. -/
theorem DecodeBlockData_overfull (L : Layout) (buffer : List Nat) (hL : L.wordSized)
    (dpre : List DSP) (first : List BusPatch) (extra : BusPatch) (rest : List BusPatch)
    (dpost : List DSP) (d : Decoder) (blockHeader p : Nat)
    (hat : dspsAt L buffer blockHeader p
      (dpre ++ { busPatches := first ++ extra :: rest } :: dpost))
    (he : ∀ dsp ∈ dpre ++ { busPatches := first ++ extra :: rest } :: dpost,
      ∀ bp ∈ dsp.busPatches, ∀ w ∈ bp.data, evenParity w = true)
    (hc : (dpre ++ ({ busPatches := first ++ extra :: rest } : DSP) :: dpost).length
      ≤ d.fMaxDSPs)
    (hm : d.fMaxDSPs < 2 ^ 32)
    (hbc : ∀ dsp ∈ dpre ++ dpost, dsp.busPatches.length ≤ d.fMaxBusPatches)
    (hf : first.length = d.fMaxBusPatches) (hbm : d.fMaxBusPatches < 2 ^ 32) :
    Returns (fun fuel => DecodeBlockData L buffer fuel d blockHeader p
        (p + dspsSize L (dpre ++ { busPatches := first ++ extra :: rest } :: dpost)))
      (!d.fExitOnError)
      (d.upd true (dspsEvents L p dpre
        ++ Event.OnNewDSP (p + dspsSize L dpre) (p + dspsSize L dpre + L.sizeofDSPHeader)
          :: busPatchesEvents L (p + dspsSize L dpre + L.sizeofDSPHeader) first
        ++ Event.OnError ErrorCode.kTooManyBusPatches
            (p + dspsSize L dpre + L.sizeofDSPHeader + busPatchesSize L first + extra.size L)
          :: (if d.fExitOnError = true then []
              else dspsEvents L
                (p + dspsSize L dpre + DSP.size L { busPatches := first ++ extra :: rest })
                dpost))) := by
  unfold DecodeBlockData
  obtain ⟨h1, hdsp, h2⟩ := (dspsAt_append L buffer blockHeader dpre _ p).1 hat
  have hpos := hL.2.1.1
  have hlen : (dpre ++ ({ busPatches := first ++ extra :: rest } : DSP) :: dpost).length
      = dpre.length + 1 + dpost.length := by
    simp
    omega
  rw [hlen] at hc
  -- the limit is below `2 ^ 32 - 1`: the length field of the DSP header counts the bus patches
  have hlt : d.fMaxBusPatches + 1 < 2 ^ 32 := by
    have hsize : readUInt buffer (p + dspsSize L dpre + L.dspLength) * 4
        = busPatchesSize L (first ++ extra :: rest) := hdsp.1.2.1
    have hge := busPatchesSize_ge L hL (first ++ extra :: rest)
    have hrd := readUInt_lt buffer (p + dspsSize L dpre + L.dspLength)
    simp only [List.length_append, List.length_cons] at hge
    omega
  have hcall := DecodeDSPData_tooMany L buffer hL first extra rest
    ((d.upd d.fHadError (dspsEvents L p dpre)).upd
      (d.upd d.fHadError (dspsEvents L p dpre)).fHadError
      [Event.OnNewDSP (p + dspsSize L dpre) (p + dspsSize L dpre + L.sizeofDSPHeader)])
    (p + dspsSize L dpre + L.sizeofDSPHeader) hdsp.2.2.2.2
    (fun bp hbp => he { busPatches := first ++ extra :: rest } (by simp) bp (by simp [hbp]))
    (by simpa using hf) (by simpa using hlt)
  have hbody := fun fuel => DecodeBlockData_body_dsp L buffer fuel
    (d.upd d.fHadError (dspsEvents L p dpre)) blockHeader
    (p + dspsSize L (dpre ++ { busPatches := first ++ extra :: rest } :: dpost))
    (p + dspsSize L dpre) (0 + dpre.length) hL _ hdsp
    (by rw [dspsSize_append]; simp only [dspsSize]; omega) (by simpa using by omega)
    (by simpa using hm)
  refine DecodeBlockData_loop_dsps L buffer blockHeader _ hL dpre d p 0 _ _ h1
    (fun x hx => he x (by simp [hx])) (by omega) hm
    (fun x hx => hbc x (by simp [hx])) hbm
    (by rw [dspsSize_append]; omega) ?_
  cases hx : d.fExitOnError
  · -- the loop goes on with the DSP structures behind
    refine IsLoop_call (DecodeBlockData_isLoop L buffer blockHeader _) _ _ _ _ false _ _ _ _ _
      (by rw [dspsSize_append]; simp only [dspsSize, DSP.size]; omega)
      hbody hcall (Or.inr (by simpa using hx)) ?_
    refine DecodeBlockData_loop_dsps L buffer blockHeader _ hL dpost _ _ _ _ _ h2
      (fun x hx => he x (by simp [hx])) (by simpa using by omega) (by simpa using hm)
      (fun x hx => by simpa using hbc x (by simp [hx])) (by simpa using hbm)
      (by rw [dspsSize_append]; simp only [dspsSize]; omega) ?_
    have hdone := IsLoop_done (DecodeBlockData_isLoop L buffer blockHeader
      (p + dspsSize L (dpre ++ { busPatches := first ++ extra :: rest } :: dpost)))
      (d.upd true (dspsEvents L p dpre
        ++ Event.OnNewDSP (p + dspsSize L dpre) (p + dspsSize L dpre + L.sizeofDSPHeader)
          :: busPatchesEvents L (p + dspsSize L dpre + L.sizeofDSPHeader) first
        ++ Event.OnError ErrorCode.kTooManyBusPatches
            (p + dspsSize L dpre + L.sizeofDSPHeader + busPatchesSize L first + extra.size L)
          :: dspsEvents L
                (p + dspsSize L dpre + DSP.size L { busPatches := first ++ extra :: rest })
                dpost))
      (p + dspsSize L dpre + DSP.size L { busPatches := first ++ extra :: rest }
        + dspsSize L dpost) (0 + dpre.length + 1 + dpost.length)
      (by rw [dspsSize_append]; simp only [dspsSize]; omega)
    simpa [Nat.add_assoc] using hdone
  · refine IsLoop_call_exit (DecodeBlockData_isLoop L buffer blockHeader _) _ _ _ _ _ _ _
      (by rw [dspsSize_append]; simp only [dspsSize, DSP.size]; omega)
      hbody ?_ (by simpa using hx)
    simpa [Nat.add_assoc] using hcall


/-- The result of `Decode` on an otherwise well-formed buffer in which one DSP structure
holds too many bus patches. -/
theorem Decode_overfull (L : Layout) (buffer : List Nat) (o : Overfull) (d : Decoder)
    (hL : L.wordSized) (hm : d.limitsAreUInt) (hlim : o.withinLimits d)
    (hat : blocksAt L buffer 0 o.blocks) (he : evenWords o.blocks) :
    Returns (fun fuel => Decode L buffer fuel d (blocksSize L o.blocks)) false
      (d.upd true (o.before L
        ++ Event.OnError ErrorCode.kTooManyBusPatches (o.errorAt L)
          :: (if d.fExitOnError = true then [] else o.behind L))) := by
  obtain ⟨hl1, hl2, hl3, hl4, hl5⟩ := hlim
  obtain ⟨h1, hblk, h2⟩ := (blocksAt_append L buffer o.pre _ 0).1 hat
  have hpos := hL.1.1
  have hlen : o.blocks.length = o.pre.length + 1 + o.post.length := by
    simp only [Overfull.blocks, List.length_append, List.length_cons]
    omega
  have hsize : blocksSize L o.blocks
      = blocksSize L o.pre + o.block.size L + blocksSize L o.post := by
    simp only [Overfull.blocks, blocksSize_append, blocksSize]
    omega
  have hbsz : o.block.size L = L.sizeofBlockHeader + dspsSize L o.block.dsps := rfl
  rw [hlen] at hl1
  unfold Decode
  simp only [Decoder.clearHadError_eq, Decoder.OnNewBuffer_eq, Decoder.upd_upd,
    Decoder.upd_fHadError, List.nil_append, Nat.zero_add]
  have hcall := DecodeBlockData_overfull L buffer hL o.dpre o.first o.extra o.rest o.dpost
    (d.upd false (Event.OnNewBuffer 0 (blocksSize L o.blocks) :: blocksEvents L 0 o.pre
      ++ [Event.OnNewBlock (0 + blocksSize L o.pre)
            (0 + blocksSize L o.pre + L.sizeofBlockHeader)]))
    (0 + blocksSize L o.pre) (0 + blocksSize L o.pre + L.sizeofBlockHeader) hblk.2
    (he o.block (by simp [Overfull.blocks]))
    (by simpa [Overfull.block, Overfull.dsp] using hl2 o.block (by simp [Overfull.blocks]))
    (by simpa using hm.2.1)
    (by simpa using hl4) (by simpa using hl5) (by simpa using hm.2.2)
  simp only [Decoder.upd_fExitOnError] at hcall
  have hbody := fun fuel => Decode_body_block L buffer fuel
    (d.upd false (Event.OnNewBuffer 0 (blocksSize L o.blocks) :: blocksEvents L 0 o.pre))
    (blocksSize L o.blocks) (0 + blocksSize L o.pre) (0 + o.pre.length) hL o.block hblk
    (by omega) (by simpa using by omega) (by simpa using hm.1)
  have hstep := Decode_loop_blocks L buffer (blocksSize L o.blocks) hL o.pre
    (d.upd false [Event.OnNewBuffer 0 (blocksSize L o.blocks)]) 0 0 false
    (d.upd true (o.before L
        ++ Event.OnError ErrorCode.kTooManyBusPatches (o.errorAt L)
          :: (if d.fExitOnError = true then [] else o.behind L)))
    h1 (fun b hb => he b (by simp [Overfull.blocks, hb])) (by simpa using by omega)
    (by simpa [Decoder.limitsAreUInt] using hm)
    (fun b hb => ⟨by simpa using hl2 b (by simp [Overfull.blocks, hb]),
      by simpa using hl3 b (by simp [hb])⟩) (by omega)
  apply hstep
  simp only [Decoder.upd_upd, Decoder.upd_fHadError, List.singleton_append]
  cases hx : d.fExitOnError
  · -- `DecodeBlockData` returns `true`; the loop goes on with the blocks behind
    simp only [hx, Bool.not_false, Bool.false_eq_true, if_false] at hcall ⊢
    refine IsLoop_call (Decode_isLoop L buffer _) _ _ _ _ true _ _ _ _ _ (by omega)
      hbody (by simpa [Overfull.block, Overfull.dsp] using hcall) (Or.inl rfl) ?_
    refine Decode_loop_blocks L buffer _ hL o.post _ _ _ _ _ h2
      (fun b hb => he b (by simp [Overfull.blocks, hb])) (by simpa using by omega)
      (by simpa [Decoder.limitsAreUInt] using hm)
      (fun b hb => ⟨by simpa using hl2 b (by simp [Overfull.blocks, hb]),
        by simpa using hl3 b (by simp [hb])⟩) (by omega) ?_
    have hdone := IsLoop_done (Decode_isLoop L buffer (blocksSize L o.blocks))
      (d.upd true (o.before L
        ++ Event.OnError ErrorCode.kTooManyBusPatches (o.errorAt L) :: o.behind L))
      (0 + blocksSize L o.pre + o.block.size L + blocksSize L o.post)
      (0 + o.pre.length + 1 + o.post.length) (by omega)
    simpa [Overfull.before, Overfull.behind, Overfull.errorAt, Overfull.dspStart,
      Overfull.blockStart, Overfull.block, Overfull.dsp, Nat.add_assoc] using hdone
  · simp only [hx, Bool.not_true, if_true] at hcall ⊢
    have hexit := IsLoop_call_exit (Decode_isLoop L buffer (blocksSize L o.blocks)) _ _ _ _ _
      _ _ (by omega) hbody (by simpa [Overfull.block, Overfull.dsp] using hcall)
      (by simpa using hx)
    simpa [Overfull.before, Overfull.behind, Overfull.errorAt, Overfull.dspStart,
      Overfull.blockStart, Overfull.block, Overfull.dsp, Nat.add_assoc] using hexit


theorem mem_busPatchesEvents (L : Layout) (bps : List BusPatch) (p w : Nat)
    (h : w ∈ wordsOfBusPatches bps) : Event.OnData w ∈ busPatchesEvents L p bps := by
  induction bps generalizing p with
  | nil => simp [wordsOfBusPatches] at h
  | cons bp bps ih =>
    simp only [wordsOfBusPatches, List.flatMap_cons, List.mem_append] at h
    simp only [busPatchesEvents, busPatchEvents, List.mem_append, List.mem_cons, List.mem_map]
    rcases h with h | h
    · exact Or.inl (Or.inr ⟨w, h, rfl⟩)
    · exact Or.inr (ih _ h)

theorem mem_dspsEvents (L : Layout) (dsps : List DSP) (p w : Nat)
    (h : w ∈ wordsOfDSPs dsps) : Event.OnData w ∈ dspsEvents L p dsps := by
  induction dsps generalizing p with
  | nil => simp [wordsOfDSPs] at h
  | cons dsp dsps ih =>
    simp only [wordsOfDSPs, List.flatMap_cons, List.mem_append] at h
    simp only [dspsEvents, dspEvents, List.mem_append, List.mem_cons]
    rcases h with h | h
    · exact Or.inl (Or.inr (mem_busPatchesEvents L _ _ _ h))
    · exact Or.inr (ih _ h)

theorem mem_blocksEvents (L : Layout) (bs : List Block) (p w : Nat)
    (h : w ∈ wordsOfBlocks bs) : Event.OnData w ∈ blocksEvents L p bs := by
  induction bs generalizing p with
  | nil => simp [wordsOfBlocks] at h
  | cons b bs ih =>
    simp only [wordsOfBlocks, List.flatMap_cons, List.mem_append] at h
    simp only [blocksEvents, blockEvents, List.mem_append, List.mem_cons]
    rcases h with h | h
    · exact Or.inl (Or.inr (mem_dspsEvents L _ _ _ h))
    · exact Or.inr (ih _ h)

/-- C10: for an otherwise well-formed buffer in which one DSP structure holds
more than `MaxBusPatches` bus patches (header sizes positive multiples of
four, limits of type `UInt_t`): given enough iteration budget, `Decode`
returns `false`; the callbacks issued are those of all structures before that
DSP structure and of its first `MaxBusPatches` bus patches (`before`), then
one `OnError(kTooManyBusPatches)`, then - only when `ExitOnError = false` -
those of the structures behind that DSP structure (`behind`); there is no
other `OnError`, and every data word of the structures before and of the first
`MaxBusPatches` bus patches is delivered by an `OnData` in `before`. -/
theorem decode_tooManyBusPatches (L : Layout) (buffer : List Nat) (o : Overfull) (d : Decoder)
    (hL : L.wordSized) (hm : d.limitsAreUInt) (hlim : o.withinLimits d)
    (hat : blocksAt L buffer 0 o.blocks) (he : evenWords o.blocks) :
    (∃ n, ∀ fuel, n ≤ fuel →
        Decode L buffer fuel d (blocksSize L o.blocks)
          = (some false,
              d.upd true (o.before L
                ++ Event.OnError ErrorCode.kTooManyBusPatches (o.errorAt L)
                  :: (if d.fExitOnError = true then [] else o.behind L))))
      ∧ countKind 5 (o.before L) = 0
      ∧ countKind 5 (o.behind L) = 0
      ∧ (∀ w, w ∈ wordsOfBlocks o.pre ∨ w ∈ wordsOfDSPs o.dpre
            ∨ w ∈ wordsOfBusPatches o.first →
          Event.OnData w ∈ o.before L) := by
  refine ⟨Decode_overfull L buffer o d hL hm hlim hat he, ?_, ?_, ?_⟩
  · simp [Overfull.before, countKind_append, countKind_cons, countKind_blocksEvents,
      countKind_dspsEvents, countKind_busPatchesEvents, Event.kind]
  · simp [Overfull.behind, countKind_append, countKind_blocksEvents, countKind_dspsEvents]
  · intro w hw
    simp only [Overfull.before, List.mem_append, List.mem_cons]
    rcases hw with hw | hw | hw
    · exact Or.inl (Or.inl (Or.inr (mem_blocksEvents L _ _ _ hw)))
    · exact Or.inl (Or.inr (Or.inr (mem_dspsEvents L _ _ _ hw)))
    · exact Or.inr (Or.inr (mem_busPatchesEvents L _ _ _ hw))

/-- C10 on one block with one DSP structure with six bus patches, with the
default configuration (at most five bus patches, exit on error). -/
theorem decode_tooManyBusPatches_witness :
    (∃ n, ∀ fuel, n ≤ fuel →
        Decode specLayout sixBusPatchesBuffer fuel Decoder.init 116
          = (some false,
              Decoder.init.upd true
                [Event.OnNewBuffer 0 116, Event.OnNewBlock 0 16, Event.OnNewDSP 16 40,
                  Event.OnNewBusPatch 40 52, Event.OnData 3, Event.OnNewBusPatch 56 68,
                  Event.OnNewBusPatch 68 80, Event.OnNewBusPatch 80 92,
                  Event.OnNewBusPatch 92 104,
                  Event.OnError ErrorCode.kTooManyBusPatches 116]))
      ∧ countKind 5 (sixBusPatches.before specLayout) = 0
      ∧ countKind 5 (sixBusPatches.behind specLayout) = 0
      ∧ (∀ w, w ∈ wordsOfBlocks sixBusPatches.pre ∨ w ∈ wordsOfDSPs sixBusPatches.dpre
            ∨ w ∈ wordsOfBusPatches sixBusPatches.first →
          Event.OnData w ∈ sixBusPatches.before specLayout) :=
  decode_tooManyBusPatches specLayout sixBusPatchesBuffer sixBusPatches Decoder.init
    specLayout_wordSized init_limitsAreUInt
    (by simp only [Overfull.withinLimits, Overfull.blocks, Overfull.block, Overfull.dsp,
          sixBusPatches]; decide)
    (by simp only [blocksAt, blockAt, dspsAt, dspAt, busPatchesAt, busPatchAt, headerAt,
          wordsAt, Overfull.blocks, Overfull.block, Overfull.dsp, sixBusPatches,
          List.nil_append]; decide)
    (by simp only [evenWords, Overfull.blocks, Overfull.block, Overfull.dsp, sixBusPatches];
        decide)

/-! ## The counter of DSP structures wraps around -/

theorem stuck_recover (d : Decoder) (h : d.fTryRecover = true) :
    TryRecoverStruct d stuckBuffer fgkDSPDataKey 24 0 1000 16 40 4040 16 4040
      = ⟨RecoverResult.kStructRecovered, 16, 16, 16⟩ := by
  unfold TryRecoverStruct
  rw [if_neg (by simp [h])]
  decide

theorem stuck_body (fuel : Nat) (d : Decoder) (count : Nat)
    (hx : d.fExitOnError = false) (hr : d.fTryRecover = true)
    (hm : d.fMaxDSPs = 2 ^ 32 - 1) :
    DecodeBlockData.body specLayout stuckBuffer (fuel + 1) d 0 40 16 count
      = Step.next (d.upd true (stuckEvents 1)) 16 ((count + 1) % 2 ^ 32) := by
  have hlt : ¬ (count + 1) % 2 ^ 32 > d.fMaxDSPs := by
    have := Nat.mod_lt (count + 1) (show 0 < 2 ^ 32 by norm_num)
    omega
  have k1 : readUInt stuckBuffer (16 + specLayout.dspDataKey) = fgkDSPDataKey := by decide
  have k2 : readUInt stuckBuffer (16 + specLayout.dspLength) = 1000 := by decide
  have k3 : readUInt stuckBuffer (16 + specLayout.dspTotalLength) = 0 := by decide
  have k4 : readUInt stuckBuffer (16 + specLayout.dspErrorWord) = 0 := by decide
  have k5 : readUInt stuckBuffer (0 + specLayout.blockDSPId) = 0 := by decide
  have k6 : readUInt stuckBuffer (16 + specLayout.dspPaddingWord) = 0 := by decide
  have s1 : specLayout.sizeofDSPHeader = 24 := rfl
  have s2 : specLayout.dspTotalLength = 8 := rfl
  have s3 : specLayout.dspLength = 4 := rfl
  have s4 : specLayout.dspDataKey = 0 := rfl
  unfold DecodeBlockData.body
  simp only [k1, k2, k3, s1]
  rw [if_neg (by decide), if_pos (by decide)]
  simp only [Decoder.OnErrorIf_eq, Decoder.setHadError_eq, Decoder.upd_upd,
    Decoder.upd_fExitOnError, hx, Bool.false_eq_true, if_false]
  rw [stuck_recover _ (by simpa using hr)]
  simp only [DecodeBlockData.accept, Decoder.upd_fMaxDSPs, if_neg hlt, Decoder.OnNewDSP_eq,
    Decoder.upd_upd, Decoder.upd_fHadError, k4, k5]
  rw [if_neg (by decide)]
  simp only [DecodeBlockData.padding, k6]
  rw [if_neg (by decide)]
  simp only [DecodeBlockData.decodeDSP, DecodeDSPData, DecodeDSPData.loop]
  rw [if_neg (by decide)]
  simp [Step.afterCall, stuckEvents, s2, s3, s4]


theorem stuck_body_zero (d : Decoder) (count : Nat)
    (hx : d.fExitOnError = false) (hr : d.fTryRecover = true)
    (hm : d.fMaxDSPs = 2 ^ 32 - 1) :
    DecodeBlockData.body specLayout stuckBuffer 0 d 0 40 16 count
      = Step.exit none (d.upd true (stuckEvents 1)) := by
  have hlt : ¬ (count + 1) % 2 ^ 32 > d.fMaxDSPs := by
    have := Nat.mod_lt (count + 1) (show 0 < 2 ^ 32 by norm_num)
    omega
  have k1 : readUInt stuckBuffer (16 + specLayout.dspDataKey) = fgkDSPDataKey := by decide
  have k2 : readUInt stuckBuffer (16 + specLayout.dspLength) = 1000 := by decide
  have k3 : readUInt stuckBuffer (16 + specLayout.dspTotalLength) = 0 := by decide
  have k4 : readUInt stuckBuffer (16 + specLayout.dspErrorWord) = 0 := by decide
  have k5 : readUInt stuckBuffer (0 + specLayout.blockDSPId) = 0 := by decide
  have k6 : readUInt stuckBuffer (16 + specLayout.dspPaddingWord) = 0 := by decide
  have s1 : specLayout.sizeofDSPHeader = 24 := rfl
  have s2 : specLayout.dspTotalLength = 8 := rfl
  have s3 : specLayout.dspLength = 4 := rfl
  have s4 : specLayout.dspDataKey = 0 := rfl
  unfold DecodeBlockData.body
  simp only [k1, k2, k3, s1]
  rw [if_neg (by decide), if_pos (by decide)]
  simp only [Decoder.OnErrorIf_eq, Decoder.setHadError_eq, Decoder.upd_upd,
    Decoder.upd_fExitOnError, hx, Bool.false_eq_true, if_false]
  rw [stuck_recover _ (by simpa using hr)]
  simp only [DecodeBlockData.accept, Decoder.upd_fMaxDSPs, if_neg hlt, Decoder.OnNewDSP_eq,
    Decoder.upd_upd, Decoder.upd_fHadError, k4, k5]
  rw [if_neg (by decide)]
  simp only [DecodeBlockData.padding, k6]
  rw [if_neg (by decide)]
  simp [DecodeBlockData.decodeDSP, DecodeDSPData, DecodeDSPData.loop, Step.afterCall,
    stuckEvents, s2, s3, s4]

theorem stuckEvents_add (m n : Nat) : stuckEvents m ++ stuckEvents n = stuckEvents (m + n) := by
  induction m with
  | zero => simp [stuckEvents]
  | succ m ih =>
    rw [Nat.add_right_comm]
    simp [stuckEvents, ih]

/-- The loop of `DecodeBlockData` over the DSP header of `stuckBuffer` does
not end: each pass accepts the same header again. -/
theorem stuck_loop (n : Nat) :
    ∀ (d : Decoder) (count : Nat), d.fExitOnError = false → d.fTryRecover = true →
      d.fMaxDSPs = 2 ^ 32 - 1 →
      DecodeBlockData.loop specLayout stuckBuffer 0 40 (n + 1) d 16 count
        = (none, d.upd true (stuckEvents (n + 1))) := by
  induction n with
  | zero =>
    intro d count hx hr hm
    rw [DecodeBlockData.loop, if_pos (by decide), stuck_body_zero d count hx hr hm]
  | succ n ih =>
    intro d count hx hr hm
    rw [DecodeBlockData.loop, if_pos (by decide), stuck_body n d count hx hr hm]
    simp only
    rw [ih _ _ (by simpa using hx) (by simpa using hr) (by simpa using hm)]
    simp [stuckEvents_add, Nat.add_comm]

theorem stuck_decode (n : Nat) :
    Decode specLayout stuckBuffer (n + 2) wrapDecoder 40
      = (none, wrapDecoder.upd true
          (Event.OnNewBuffer 0 40 :: Event.OnNewBlock 0 16 :: stuckEvents (n + 1))) := by
  have hh : headerAt stuckBuffer 0 fgkBlockDataKey 24 specLayout.sizeofBlockHeader
      specLayout.blockDataKey specLayout.blockLength specLayout.blockTotalLength := by
    unfold headerAt
    decide
  unfold Decode
  simp only [Decoder.clearHadError_eq, Decoder.OnNewBuffer_eq, Decoder.upd_upd,
    Decoder.upd_fHadError, List.nil_append, Nat.zero_add]
  rw [Decode.loop, if_pos (by decide),
    Decode_body_valid specLayout stuckBuffer (n + 1) _ 40 0 0 24 rfl hh (by decide),
    Decode_accept_ok _ _ _ _ _ _ _ _ _ (by decide) (by decide)]
  unfold DecodeBlockData
  have e : 0 + specLayout.sizeofBlockHeader = 16 := rfl
  have e2 : (16 : Nat) + 24 = 40 := rfl
  rw [e, e2, stuck_loop n _ 0 rfl rfl rfl]
  simp [Step.afterCall]

theorem countKind_stuckEvents (n : Nat) : countKind 2 (stuckEvents n) = n := by
  induction n with
  | zero => rfl
  | succ n ih =>
    simp only [stuckEvents, countKind_cons, ih, Event.kind]
    simp
    omega

theorem countError_stuckEvents (n : Nat) :
    countError ErrorCode.kTooManyDSPs (stuckEvents n) = 0 := by
  induction n with
  | zero => rfl
  | succ n ih =>
    simp only [stuckEvents, countError_cons, ih, Event.isErrorCode]
    simp

/-- C9 fails at the limit `MaxDSPs = 2 ^ 32 - 1` with recovery enabled: on
`stuckBuffer` the DSP header is recovered with `totalLength = 0`, the cursor
stays on it and the 32-bit counter wraps around, so the check
`++dspCount > fMaxDSPs` never fires.  After `2 ^ 32 + 1` passes through the
loops `Decode` is still running (no value returned), has issued one
`OnNewBlock` and `2 ^ 32` calls of `OnNewDSP`, more than `MaxDSPs`, and no
`kTooManyDSPs`. -/
theorem decode_dspCount_wraps :
    (Decode specLayout stuckBuffer (2 ^ 32 + 1) wrapDecoder 40).1 = none
      ∧ countKind 1 (Decode specLayout stuckBuffer (2 ^ 32 + 1) wrapDecoder 40).2.fHandler = 1
      ∧ countKind 2 (Decode specLayout stuckBuffer (2 ^ 32 + 1) wrapDecoder 40).2.fHandler
          = 2 ^ 32
      ∧ wrapDecoder.fMaxDSPs < 2 ^ 32
      ∧ countError ErrorCode.kTooManyDSPs
          (Decode specLayout stuckBuffer (2 ^ 32 + 1) wrapDecoder 40).2.fHandler = 0 := by
  have e : (2 : Nat) ^ 32 + 1 = (2 ^ 32 - 1) + 2 := by norm_num
  have c2 := countKind_stuckEvents (2 ^ 32 - 1 + 1)
  have c5 := countError_stuckEvents (2 ^ 32 - 1 + 1)
  have c1 : ∀ n, countKind 1 (stuckEvents n) = 0 := by
    intro n
    induction n with
    | zero => rfl
    | succ n ih => simp [stuckEvents, countKind_cons, ih, Event.kind]
  rw [e, stuck_decode]
  refine ⟨rfl, ?_, ?_, by decide, ?_⟩
  · show countKind 1 (Event.OnNewBuffer 0 40 :: Event.OnNewBlock 0 16
      :: stuckEvents (2 ^ 32 - 1 + 1)) = 1
    rw [countKind_cons, countKind_cons, c1]
    simp [Event.kind]
  · show countKind 2 (Event.OnNewBuffer 0 40 :: Event.OnNewBlock 0 16
      :: stuckEvents (2 ^ 32 - 1 + 1)) = 2 ^ 32
    rw [countKind_cons, countKind_cons, c2]
    simp [Event.kind]
  · show countError ErrorCode.kTooManyDSPs (Event.OnNewBuffer 0 40 :: Event.OnNewBlock 0 16
      :: stuckEvents (2 ^ 32 - 1 + 1)) = 0
    rw [countError_cons, countError_cons, c5]
    simp [Event.isErrorCode]

/-! ## Key search -/

/-- The bound on the iterations of the loop of `FindKey` is never reached: a
larger bound gives the same result. -/
theorem FindKey_loop_bound (buffer : List Nat) (key end_ : Nat) (n : Nat) :
    ∀ (m current : Nat), end_ - current ≤ n → end_ - current ≤ m →
      FindKey.loop buffer key end_ n current = FindKey.loop buffer key end_ m current := by
  induction n with
  | zero =>
    intro m current hn _
    cases m with
    | zero => rfl
    | succ m =>
      rw [FindKey.loop, FindKey.loop, if_neg (by omega)]
  | succ n ih =>
    intro m current hn hm
    cases m with
    | zero =>
      rw [FindKey.loop, FindKey.loop, if_neg (by omega)]
    | succ m =>
      rw [FindKey.loop, FindKey.loop]
      split_ifs with h1 h2
      · rfl
      · exact ih m (current + 1) (by omega) (by omega)
      · rfl

/-- A position returned by the loop of `FindKey` holds the key, a whole word
fits before `end_` there, and no position from `current` up to it holds the
key. -/
theorem FindKey_loop_some (buffer : List Nat) (key end_ : Nat) (n : Nat) :
    ∀ (current p : Nat), FindKey.loop buffer key end_ n current = some p →
      current ≤ p ∧ p + 4 ≤ end_ ∧ readUInt buffer p = key
        ∧ ∀ q, current ≤ q → q < p → readUInt buffer q ≠ key := by
  induction n with
  | zero => intro current p h; simp [FindKey.loop] at h
  | succ n ih =>
    intro current p h
    rw [FindKey.loop] at h
    split_ifs at h with h1 h2
    · cases h
      exact ⟨Nat.le_refl _, h1, h2, fun q hq hlt => absurd hlt (by omega)⟩
    · obtain ⟨a, b, c, e⟩ := ih (current + 1) p h
      refine ⟨by omega, b, c, fun q hq hlt => ?_⟩
      by_cases hqc : q = current
      · rw [hqc]; exact h2
      · exact e q (by omega) hlt

/-- When the loop of `FindKey` finds nothing within a bound that covers the
range, no position of the range holds the key. -/
theorem FindKey_loop_none (buffer : List Nat) (key end_ : Nat) (n : Nat) :
    ∀ (current : Nat), end_ - current ≤ n →
      FindKey.loop buffer key end_ n current = none →
      ∀ p, current ≤ p → p + 4 ≤ end_ → readUInt buffer p ≠ key := by
  induction n with
  | zero => intro current hn _ p hp hpe; omega
  | succ n ih =>
    intro current hn h p hp hpe
    rw [FindKey.loop] at h
    split_ifs at h with h1 h2
    · by_cases hpc : p = current
      · rw [hpc]; exact h2
      · exact ih (current + 1) (by omega) h p (by omega) hpe
    · omega

/-- The result of `FindKey` is the first position of the range that holds the
key, if there is one. -/
theorem FindKey_eq_some_iff (buffer : List Nat) (key start end_ p : Nat) :
    FindKey buffer key start end_ = some p ↔
      (start ≤ p ∧ p + 4 ≤ end_ ∧ readUInt buffer p = key
        ∧ ∀ q, start ≤ q → q < p → readUInt buffer q ≠ key) := by
  constructor
  · exact FindKey_loop_some buffer key end_ _ start p
  · rintro ⟨h1, h2, h3, h4⟩
    cases hf : FindKey buffer key start end_ with
    | none =>
      exact absurd h3 (FindKey_loop_none buffer key end_ _ start (Nat.le_refl _) hf p h1 h2)
    | some r =>
      obtain ⟨a, b, c, e⟩ := FindKey_loop_some buffer key end_ _ start r hf
      rcases Nat.lt_trichotomy r p with hlt | heq | hgt
      · exact absurd c (h4 r a hlt)
      · rw [heq]
      · exact absurd h3 (e p h1 hgt)

/-- The result of `FindKey` is `NULL` exactly when no position of the range
holds the key. -/
theorem FindKey_eq_none_iff (buffer : List Nat) (key start end_ : Nat) :
    FindKey buffer key start end_ = none ↔
      ∀ p, start ≤ p → p + 4 ≤ end_ → readUInt buffer p ≠ key := by
  constructor
  · exact FindKey_loop_none buffer key end_ _ start (Nat.le_refl _)
  · intro h
    cases hf : FindKey buffer key start end_ with
    | none => rfl
    | some r =>
      obtain ⟨a, b, c, _⟩ := FindKey_loop_some buffer key end_ _ start r hf
      exact absurd c (h r a b)

/-- C20: `FindKey(key, start, end)` returns the smallest byte position
`p` with `start ≤ p` and `p + 4 ≤ end` at which the 32-bit word of the bytes
`p .. p+3` equals `key`, whatever the alignment of `p`; it returns `NULL`
exactly when there is no such position, in particular whenever fewer than four
bytes lie between `start` and `end`. -/
theorem findKey_first_occurrence (buffer : List Nat) (key start end_ : Nat) :
    (∀ p, FindKey buffer key start end_ = some p ↔
        (start ≤ p ∧ p + 4 ≤ end_ ∧ readUInt buffer p = key
          ∧ ∀ q, start ≤ q → q < p → readUInt buffer q ≠ key))
      ∧ (FindKey buffer key start end_ = none ↔
          ∀ p, start ≤ p → p + 4 ≤ end_ → readUInt buffer p ≠ key)
      ∧ (end_ < start + 4 → FindKey buffer key start end_ = none) := by
  refine ⟨fun p => FindKey_eq_some_iff buffer key start end_ p,
    FindKey_eq_none_iff buffer key start end_, fun h => ?_⟩
  rw [FindKey_eq_none_iff]
  intro p hp hpe
  omega

/-! ## One pass through a loop body, by the state of the header -/

theorem Level_framing_ne_nil (v : Level) (buffer : List Nat) (p end_ : Nat)
    (h : ¬ v.wellFormed buffer p end_) : v.framing buffer p end_ ≠ [] := by
  unfold Level.wellFormed at h
  apply reports_ne_nil
  simp only [List.any_cons, List.any_nil, Bool.or_false, Bool.or_eq_true, decide_eq_true_eq]
  by_cases h1 : v.fDataKey buffer p = v.key
  · by_cases h2 : v.dataEnd buffer p ≤ end_
    · by_cases h3 : v.structEnd buffer p ≤ end_
      · by_cases h4 : v.dataEnd buffer p = v.structEnd buffer p
        · exact absurd ⟨h1, h2, h3, h4⟩ h
        · exact Or.inr (Or.inr (Or.inr h4))
      · exact Or.inr (Or.inl (Nat.lt_of_not_le h3))
    · exact Or.inr (Or.inr (Or.inl (Nat.lt_of_not_le h2)))
  · exact Or.inl h1

theorem Level_framing_nil (v : Level) (buffer : List Nat) (p end_ : Nat)
    (h : v.wellFormed buffer p end_) : v.framing buffer p end_ = [] := by
  obtain ⟨h1, h2, h3, h4⟩ := h
  simp [Level.framing, reports, h1, h2, h3, h4]

theorem Level_framing_isError (v : Level) (buffer : List Nat) (p end_ : Nat) :
    ∀ e ∈ v.framing buffer p end_, e.isError = true :=
  reports_isError _

theorem Level_framing_hasError (v : Level) (buffer : List Nat) (p end_ : Nat)
    (h : ¬ v.wellFormed buffer p end_) : hasError (v.framing buffer p end_) = true := by
  have hne := Level_framing_ne_nil v buffer p end_ h
  have hall := Level_framing_isError v buffer p end_
  cases ht : v.framing buffer p end_ with
  | nil => exact absurd ht hne
  | cons e t =>
    rw [ht] at hall
    simp [hall e (List.mem_cons_self _ _)]

theorem Level_framing_isFraming (v : Level) (buffer : List Nat) (p end_ : Nat) :
    ∀ e ∈ v.framing buffer p end_, v.isFraming e = true := by
  intro e he
  simp only [Level.framing, reports, List.mem_map, List.mem_filter] at he
  obtain ⟨x, ⟨hx, _⟩, rfl⟩ := he
  simp only [List.mem_cons, List.mem_singleton, List.not_mem_nil, or_false] at hx
  rcases hx with rfl | rfl | rfl | rfl <;> simp [Level.isFraming]

theorem Step_ofRecovery_continue {r : Recovery} (d : Decoder) (count : Nat)
    (accept : Nat → Nat → Step) (h : r.result = RecoverResult.kContinueToNextStruct) :
    Step.ofRecovery r d count accept = Step.next d r.current count := by
  simp [Step.ofRecovery, h]

theorem Step_ofRecovery_failed {r : Recovery} (d : Decoder) (count : Nat)
    (accept : Nat → Nat → Step) (h : r.result = RecoverResult.kRecoverFailed) :
    Step.ofRecovery r d count accept = Step.exit (some false) d := by
  simp [Step.ofRecovery, h]

theorem Step_ofRecovery_recovered {r : Recovery} (d : Decoder) (count : Nat)
    (accept : Nat → Nat → Step) (h : r.result = RecoverResult.kStructRecovered) :
    Step.ofRecovery r d count accept = accept r.dataEnd r.current := by
  simp [Step.ofRecovery, h]

/-- Lines 678-687: fewer bytes than a bus patch header are left. -/
theorem DecodeDSPData_body_noHeader (L : Layout) (buffer : List Nat) (fuel : Nat) (d : Decoder)
    (end_ p count : Nat) (h : end_ < p + L.sizeofBusPatchHeader) :
    DecodeDSPData.body L buffer fuel d end_ p count
      = Step.exit (some false) (d.upd true [Event.OnError ErrorCode.kNoBusPatchHeader p]) := by
  unfold DecodeDSPData.body
  simp only [Decoder.setHadError_eq, Decoder.OnError_eq, Decoder.upd_upd, List.append_nil]
  rw [if_pos h]

/-- Lines 689-752 for a bus patch header that passes the four checks. -/
theorem DecodeDSPData_body_wellFormed (L : Layout) (buffer : List Nat) (fuel : Nat)
    (d : Decoder) (end_ p count : Nat) (hfit : p + L.sizeofBusPatchHeader ≤ end_)
    (hw : L.busPatchLevel.wellFormed buffer p end_) :
    DecodeDSPData.body L buffer fuel d end_ p count
      = DecodeDSPData.accept buffer fuel d p (L.busPatchLevel.dataStart p)
          (L.busPatchLevel.dataEnd buffer p) (L.busPatchLevel.dataEnd buffer p) count := by
  obtain ⟨h1, h2, h3, h4⟩ := hw
  simp only [Level.fDataKey, Level.dataEnd, Level.structEnd, Level.dataStart, Level.fLength,
    Level.fTotalLength, Layout.busPatchLevel] at h1 h2 h3 h4 ⊢
  unfold DecodeDSPData.body
  simp only
  rw [if_neg (by omega), if_neg]
  rintro (h | h | h | h)
  · exact h h1
  · omega
  · omega
  · exact h h4

/-- Lines 689-732 for a bus patch header that fails one of the four checks:
the errors are reported, then the decoder exits or tries to recover. -/
theorem DecodeDSPData_body_malformed (L : Layout) (buffer : List Nat) (fuel : Nat)
    (d : Decoder) (end_ p count : Nat) (hfit : p + L.sizeofBusPatchHeader ≤ end_)
    (hw : ¬ L.busPatchLevel.wellFormed buffer p end_) :
    DecodeDSPData.body L buffer fuel d end_ p count
      = if d.fExitOnError = true then
          Step.exit (some false) (d.upd true (L.busPatchLevel.framing buffer p end_))
        else
          Step.ofRecovery
            (L.busPatchLevel.recover (d.upd true (L.busPatchLevel.framing buffer p end_))
              buffer p end_)
            (d.upd true (L.busPatchLevel.framing buffer p end_)) count
            (fun dataEnd current => DecodeDSPData.accept buffer fuel
              (d.upd true (L.busPatchLevel.framing buffer p end_)) p
              (L.busPatchLevel.dataStart p) dataEnd current count) := by
  simp only [Level.wellFormed, Level.fDataKey, Level.dataEnd, Level.structEnd, Level.dataStart,
    Level.fLength, Level.fTotalLength, Level.framing, Level.recover, Layout.busPatchLevel] at hw ⊢
  unfold DecodeDSPData.body
  simp only [Decoder.setHadError_eq, Decoder.OnErrorIf_reports,
    Decoder.upd_upd, Decoder.upd_fHadError, Decoder.upd_fExitOnError, List.nil_append,
    List.append_nil, reports_append, List.singleton_append, List.cons_append]
  rw [if_neg (by omega), if_pos]
  · split_ifs with hx
    · rfl
    · unfold Step.ofRecovery
      split <;> rename_i hr <;> simp only [hr]
  · by_contra hc
    apply hw
    simp only [not_or, not_not, Nat.not_lt, gt_iff_lt] at hc
    exact ⟨hc.1, hc.2.1, hc.2.2.1, hc.2.2.2⟩

/-- Lines 528-536: fewer bytes than a DSP header are left. -/
theorem DecodeBlockData_body_noHeader (L : Layout) (buffer : List Nat) (fuel : Nat)
    (d : Decoder) (blockHeader end_ p count : Nat) (h : end_ < p + L.sizeofDSPHeader) :
    DecodeBlockData.body L buffer fuel d blockHeader end_ p count
      = Step.exit (some false) (d.upd true [Event.OnError ErrorCode.kNoDSPHeader p]) := by
  unfold DecodeBlockData.body
  simp only [Decoder.setHadError_eq, Decoder.OnError_eq, Decoder.upd_upd, List.append_nil]
  rw [if_pos h]

/-- Lines 538-597 for a DSP header that passes the four checks. -/
theorem DecodeBlockData_body_wellFormed (L : Layout) (buffer : List Nat) (fuel : Nat)
    (d : Decoder) (blockHeader end_ p count : Nat) (hfit : p + L.sizeofDSPHeader ≤ end_)
    (hw : L.dspLevel.wellFormed buffer p end_) :
    DecodeBlockData.body L buffer fuel d blockHeader end_ p count
      = DecodeBlockData.accept L buffer fuel d blockHeader p (L.dspLevel.dataStart p)
          (L.dspLevel.dataEnd buffer p) (L.dspLevel.dataEnd buffer p) count := by
  obtain ⟨h1, h2, h3, h4⟩ := hw
  simp only [Level.fDataKey, Level.dataEnd, Level.structEnd, Level.dataStart, Level.fLength,
    Level.fTotalLength, Layout.dspLevel] at h1 h2 h3 h4 ⊢
  unfold DecodeBlockData.body
  simp only
  rw [if_neg (by omega), if_neg]
  rintro (h | h | h | h)
  · exact h h1
  · omega
  · omega
  · exact h h4

/-- Lines 538-579 for a DSP header that fails one of the four checks: the
errors are reported, then the decoder exits or tries to recover. -/
theorem DecodeBlockData_body_malformed (L : Layout) (buffer : List Nat) (fuel : Nat)
    (d : Decoder) (blockHeader end_ p count : Nat) (hfit : p + L.sizeofDSPHeader ≤ end_)
    (hw : ¬ L.dspLevel.wellFormed buffer p end_) :
    DecodeBlockData.body L buffer fuel d blockHeader end_ p count
      = if d.fExitOnError = true then
          Step.exit (some false) (d.upd true (L.dspLevel.framing buffer p end_))
        else
          Step.ofRecovery
            (L.dspLevel.recover (d.upd true (L.dspLevel.framing buffer p end_)) buffer p end_)
            (d.upd true (L.dspLevel.framing buffer p end_)) count
            (fun dataEnd current => DecodeBlockData.accept L buffer fuel
              (d.upd true (L.dspLevel.framing buffer p end_)) blockHeader p
              (L.dspLevel.dataStart p) dataEnd current count) := by
  simp only [Level.wellFormed, Level.fDataKey, Level.dataEnd, Level.structEnd, Level.dataStart,
    Level.fLength, Level.fTotalLength, Level.framing, Level.recover, Layout.dspLevel] at hw ⊢
  unfold DecodeBlockData.body
  simp only [Decoder.setHadError_eq, Decoder.OnErrorIf_reports,
    Decoder.upd_upd, Decoder.upd_fHadError, Decoder.upd_fExitOnError, List.nil_append,
    List.append_nil, reports_append, List.singleton_append, List.cons_append]
  rw [if_neg (by omega), if_pos]
  · split_ifs with hx
    · rfl
    · unfold Step.ofRecovery
      split <;> rename_i hr <;> simp only [hr]
  · by_contra hc
    apply hw
    simp only [not_or, not_not, Nat.not_lt, gt_iff_lt] at hc
    exact ⟨hc.1, hc.2.1, hc.2.2.1, hc.2.2.2⟩

/-- Lines 401-412: fewer bytes than a block header are left. -/
theorem Decode_body_noHeader (L : Layout) (buffer : List Nat) (fuel : Nat) (d : Decoder)
    (end_ p count : Nat) (h : end_ < p + L.sizeofBlockHeader) :
    Decode.body L buffer fuel d end_ p count
      = Step.exit (some false) (d.upd d.fHadError [Event.OnError
          (if count = d.fMaxBlocks then ErrorCode.kBufferTooBig else ErrorCode.kNoBlockHeader)
          p]) := by
  unfold Decode.body
  simp only [Decoder.OnError_eq]
  rw [if_pos h]
  split_ifs <;> rfl

/-- Lines 414-482 for a block header that passes the four checks. -/
theorem Decode_body_wellFormed (L : Layout) (buffer : List Nat) (fuel : Nat)
    (d : Decoder) (end_ p count : Nat) (hfit : p + L.sizeofBlockHeader ≤ end_)
    (hw : L.blockLevel.wellFormed buffer p end_) :
    Decode.body L buffer fuel d end_ p count
      = Decode.accept L buffer fuel d p (L.blockLevel.dataStart p)
          (L.blockLevel.dataEnd buffer p) (L.blockLevel.dataEnd buffer p) count := by
  obtain ⟨h1, h2, h3, h4⟩ := hw
  simp only [Level.fDataKey, Level.dataEnd, Level.structEnd, Level.dataStart, Level.fLength,
    Level.fTotalLength, Layout.blockLevel] at h1 h2 h3 h4 ⊢
  unfold Decode.body
  simp only
  rw [if_neg (by omega), if_neg]
  rintro (h | h | h | h)
  · exact h h1
  · omega
  · omega
  · exact h h4

/-- Lines 429-440 for a block header that fails one of the four checks when
all the expected blocks were found already. -/
theorem Decode_body_tooBig (L : Layout) (buffer : List Nat) (fuel : Nat)
    (d : Decoder) (end_ p count : Nat) (hfit : p + L.sizeofBlockHeader ≤ end_)
    (hw : ¬ L.blockLevel.wellFormed buffer p end_) (hc : count = d.fMaxBlocks) :
    Decode.body L buffer fuel d end_ p count
      = Step.exit (some false)
          (d.upd d.fHadError [Event.OnError ErrorCode.kBufferTooBig p]) := by
  simp only [Level.wellFormed, Level.fDataKey, Level.dataEnd, Level.structEnd, Level.dataStart,
    Level.fLength, Level.fTotalLength, Layout.blockLevel] at hw
  unfold Decode.body
  simp only [Decoder.OnError_eq]
  rw [if_neg (by omega), if_pos, if_pos hc]
  by_contra hc
  apply hw
  simp only [not_or, not_not, Nat.not_lt, gt_iff_lt] at hc
  exact ⟨hc.1, hc.2.1, hc.2.2.1, hc.2.2.2⟩

/-- Lines 429-467 for a block header that fails one of the four checks before
all the expected blocks were found: the errors are reported, then the decoder
exits or tries to recover. -/
theorem Decode_body_malformed (L : Layout) (buffer : List Nat) (fuel : Nat)
    (d : Decoder) (end_ p count : Nat) (hfit : p + L.sizeofBlockHeader ≤ end_)
    (hw : ¬ L.blockLevel.wellFormed buffer p end_) (hc : count ≠ d.fMaxBlocks) :
    Decode.body L buffer fuel d end_ p count
      = if d.fExitOnError = true then
          Step.exit (some false) (d.upd d.fHadError (L.blockLevel.framing buffer p end_))
        else
          Step.ofRecovery
            (L.blockLevel.recover (d.upd true (L.blockLevel.framing buffer p end_)) buffer p end_)
            (d.upd true (L.blockLevel.framing buffer p end_)) count
            (fun dataEnd current => Decode.accept L buffer fuel
              (d.upd true (L.blockLevel.framing buffer p end_)) p
              (L.blockLevel.dataStart p) dataEnd current count) := by
  simp only [Level.wellFormed, Level.fDataKey, Level.dataEnd, Level.structEnd, Level.dataStart,
    Level.fLength, Level.fTotalLength, Level.framing, Level.recover, Layout.blockLevel] at hw ⊢
  unfold Decode.body
  simp only [Decoder.setHadError_eq, Decoder.OnErrorIf_reports,
    Decoder.upd_upd, Decoder.upd_fHadError, Decoder.upd_fExitOnError, List.nil_append,
    List.append_nil, reports_append, List.singleton_append, List.cons_append]
  rw [if_neg (by omega), if_pos, if_neg hc]
  · split_ifs with hx
    · rfl
    · unfold Step.ofRecovery
      split <;> rename_i hr <;> simp only [hr]
  · by_contra hc
    apply hw
    simp only [not_or, not_not, Nat.not_lt, gt_iff_lt] at hc
    exact ⟨hc.1, hc.2.1, hc.2.2.1, hc.2.2.2⟩

/-! ## Truncated headers -/

/-- C13: at a position `p` before the end of the enclosing structure
where fewer bytes than a header of the level are left, the loop of the level
reports the level's missing-header error at `p` and nothing else, and returns
`false`, whatever the configuration and the buffer contents (no recovery is
tried): `kNoBlockHeader` in `Decode` unless all expected blocks were found,
`kNoDSPHeader` in `DecodeBlockData`, `kNoBusPatchHeader` in `DecodeDSPData`.
In particular `Decode` on a buffer shorter than a block header, with a limit
of at least one block, returns `false` after `OnNewBuffer` and
`kNoBlockHeader`. -/
theorem decode_truncated_header (L : Layout) (buffer : List Nat) (fuel : Nat) (d : Decoder)
    (end_ p count blockHeader : Nat) (hlt : p < end_) :
    (end_ < p + L.sizeofBlockHeader → count ≠ d.fMaxBlocks →
        Decode.loop L buffer end_ (fuel + 1) d p count
          = (some false, d.upd d.fHadError [Event.OnError ErrorCode.kNoBlockHeader p]))
      ∧ (end_ < p + L.sizeofDSPHeader →
          DecodeBlockData.loop L buffer blockHeader end_ (fuel + 1) d p count
            = (some false, d.upd true [Event.OnError ErrorCode.kNoDSPHeader p]))
      ∧ (end_ < p + L.sizeofBusPatchHeader →
          DecodeDSPData.loop L buffer end_ (fuel + 1) d p count
            = (some false, d.upd true [Event.OnError ErrorCode.kNoBusPatchHeader p]))
      ∧ (end_ < L.sizeofBlockHeader → d.fMaxBlocks ≠ 0 →
          Decode L buffer (fuel + 1) d end_
            = (some false, d.upd false
                [Event.OnNewBuffer 0 end_, Event.OnError ErrorCode.kNoBlockHeader 0])) := by
  refine ⟨fun h hc => ?_, fun h => ?_, fun h => ?_, fun h hc => ?_⟩
  · rw [Decode.loop, if_pos hlt, Decode_body_noHeader L buffer fuel d end_ p count h, if_neg hc]
  · rw [DecodeBlockData.loop, if_pos hlt,
      DecodeBlockData_body_noHeader L buffer fuel d blockHeader end_ p count h]
  · rw [DecodeDSPData.loop, if_pos hlt, DecodeDSPData_body_noHeader L buffer fuel d end_ p count h]
  · have h0 : 0 < end_ := by omega
    unfold Decode
    simp only [Decoder.clearHadError_eq, Decoder.OnNewBuffer_eq, Decoder.upd_upd,
      Decoder.upd_fHadError, List.nil_append, Nat.zero_add]
    rw [Decode.loop, if_pos h0, Decode_body_noHeader L buffer fuel _ end_ 0 0 (by omega),
      if_neg (by simpa using hc.symm)]
    simp

/-- C13 at position 16 of a structure that ends at position 21, five bytes
further, with "exit on error" off and "try recover" on, and on a buffer of
five bytes. -/
theorem decode_truncated_header_witness :
    Decode.loop specLayout [] 21 1 recoverDecoder 16 1
        = (some false, recoverDecoder.upd false [Event.OnError ErrorCode.kNoBlockHeader 16])
      ∧ DecodeBlockData.loop specLayout [] 0 21 1 recoverDecoder 16 1
        = (some false, recoverDecoder.upd true [Event.OnError ErrorCode.kNoDSPHeader 16])
      ∧ DecodeDSPData.loop specLayout [] 21 1 recoverDecoder 16 1
        = (some false, recoverDecoder.upd true [Event.OnError ErrorCode.kNoBusPatchHeader 16])
      ∧ Decode specLayout [] 1 recoverDecoder 5
        = (some false, recoverDecoder.upd false
            [Event.OnNewBuffer 0 5, Event.OnError ErrorCode.kNoBlockHeader 0]) :=
  ⟨(decode_truncated_header specLayout [] 0 recoverDecoder 21 16 1 0 (by decide)).1
      (by decide) (by decide),
    (decode_truncated_header specLayout [] 0 recoverDecoder 21 16 1 0 (by decide)).2.1
      (by decide),
    (decode_truncated_header specLayout [] 0 recoverDecoder 21 16 1 0 (by decide)).2.2.1
      (by decide),
    (decode_truncated_header specLayout [] 0 recoverDecoder 5 0 0 0 (by decide)).2.2.2
      (by decide) (by decide)⟩

/-! ## Recovery, by the rows of its decision table -/

theorem keyAt_eq_true_iff (buffer : List Nat) (p bufferEnd key1 key2 : Nat) :
    TryRecoverStruct.keyAt buffer p bufferEnd key1 key2 = true ↔
      (p = bufferEnd
        ∨ (p + 4 ≤ bufferEnd ∧ (readUInt buffer p = key1 ∨ readUInt buffer p = key2))) := by
  unfold TryRecoverStruct.keyAt
  split_ifs with h1 h2 h3
  · simp [h1]
  · simp [h1, h2, h3]
  · simp [h1, h2, h3]
  · simp [h1, h2]

/-- With "try recover" on, `TryRecoverStruct` called with the key of one of
the three levels goes through the three rows of its decision table, then
searches the key from `structStart + 4` on. -/
theorem TryRecoverStruct_rows (L : Layout) (v : Level) (hv : v.ofLayout L) (d : Decoder)
    (buffer : List Nat)
    (headerSize totalLength length structStart bufferEnd dataEnd structEnd current : Nat)
    (hrec : d.fTryRecover = true) :
    TryRecoverStruct d buffer v.key headerSize totalLength length structStart bufferEnd
        dataEnd structEnd current
      = if readUInt buffer structStart = v.key ∧ v.trusts buffer dataEnd bufferEnd then
          ⟨RecoverResult.kStructRecovered, dataEnd, dataEnd, dataEnd⟩
        else if readUInt buffer structStart = v.key ∧ v.trusts buffer structEnd bufferEnd then
          ⟨RecoverResult.kStructRecovered, structEnd, structEnd, structEnd⟩
        else if totalLength = (length + headerSize) % 2 ^ 32
            ∧ v.trusts buffer dataEnd bufferEnd ∧ v.trusts buffer structEnd bufferEnd then
          ⟨RecoverResult.kStructRecovered, dataEnd, structEnd, current⟩
        else
          Recovery.scan (FindKey buffer v.key (structStart + 4) bufferEnd)
            dataEnd structEnd current := by
  have hk : ∀ p, (if v.key = fgkBlockDataKey then
          TryRecoverStruct.keyAt buffer p bufferEnd fgkBlockDataKey fgkBlockDataKey
        else if v.key = fgkDSPDataKey then
          TryRecoverStruct.keyAt buffer p bufferEnd fgkBlockDataKey fgkDSPDataKey
        else if v.key = fgkBusPatchDataKey then
          TryRecoverStruct.keyAt buffer p bufferEnd fgkDSPDataKey fgkBusPatchDataKey
        else false) = decide (v.trusts buffer p bufferEnd) := by
    intro p
    rw [Bool.eq_iff_iff]
    rcases hv with rfl | rfl | rfl
    · simp [Layout.blockLevel, Level.trusts, keyAt_eq_true_iff]
    · have h1 : fgkDSPDataKey ≠ fgkBlockDataKey := by decide
      simp [Layout.dspLevel, Level.trusts, keyAt_eq_true_iff, h1, or_comm]
    · have h1 : fgkBusPatchDataKey ≠ fgkBlockDataKey := by decide
      have h2 : fgkBusPatchDataKey ≠ fgkDSPDataKey := by decide
      simp [Layout.busPatchLevel, Level.trusts, keyAt_eq_true_iff, h1, h2, or_comm]
  have e : (v.key = readUInt buffer structStart) = (readUInt buffer structStart = v.key) :=
    propext eq_comm
  unfold TryRecoverStruct
  simp only [hrec, hk, e, Bool.true_eq_false, if_false, Bool.and_eq_true, decide_eq_true_eq]
  by_cases a1 : readUInt buffer structStart = v.key ∧ v.trusts buffer dataEnd bufferEnd
  · rw [if_pos a1, if_pos a1]
  · rw [if_neg a1, if_neg a1]
    by_cases a2 : readUInt buffer structStart = v.key ∧ v.trusts buffer structEnd bufferEnd
    · rw [if_pos a2, if_pos a2]
    · rw [if_neg a2, if_neg a2]
      by_cases a3 : totalLength = (length + headerSize) % 2 ^ 32
          ∧ v.trusts buffer dataEnd bufferEnd ∧ v.trusts buffer structEnd bufferEnd
      · rw [if_pos a3, if_pos (by simpa [and_assoc] using a3)]
      · rw [if_neg a3, if_neg (by simpa [and_assoc] using a3)]
        unfold Recovery.scan
        split <;> rename_i hr <;> simp [hr]

theorem Recovery_scan_first {buffer : List Nat} {key start end_ p : Nat}
    (h : firstKeyFrom buffer key start end_ p) (dataEnd structEnd current : Nat) :
    Recovery.scan (FindKey buffer key start end_) dataEnd structEnd current
      = ⟨RecoverResult.kContinueToNextStruct, dataEnd, structEnd, p⟩ := by
  rw [(FindKey_eq_some_iff buffer key start end_ p).mpr h]
  rfl

theorem Recovery_scan_none {buffer : List Nat} {key start end_ : Nat}
    (h : noKeyFrom buffer key start end_) (dataEnd structEnd current : Nat) :
    Recovery.scan (FindKey buffer key start end_) dataEnd structEnd current
      = ⟨RecoverResult.kRecoverFailed, dataEnd, structEnd, current⟩ := by
  rw [(FindKey_eq_none_iff buffer key start end_).mpr h]
  rfl

/-- The comparison `totalLength == length + headerSize` of `TryRecoverStruct`
(line 911) fails whenever the two fields are consistent, that is whenever
`totalLength` counts the words of the header and of the payload: the header
size is added in bytes. -/
theorem lengthsMatch_false (headerSize totalLength length : Nat) (h0 : 0 < headerSize)
    (hs : headerSize < 2 ^ 32) (hl : totalLength = length + headerSize / 4) :
    totalLength ≠ (length + headerSize) % 2 ^ 32 := by
  have e : (2 : Nat) ^ 32 = 4294967296 := by norm_num
  rw [e] at hs ⊢
  intro heq
  have hmod := Nat.mod_add_div (length + headerSize) 4294967296
  rcases Nat.eq_zero_or_pos ((length + headerSize) / 4294967296) with hk | hk
  · rw [hk] at hmod
    omega
  · have hge : 4294967296 * 1 ≤ 4294967296 * ((length + headerSize) / 4294967296) :=
      Nat.mul_le_mul_left _ hk
    omega

/-- With "try recover" on, a header whose key is wrong and whose length fields
are consistent is never recovered: `TryRecoverStruct` searches for the next
key. -/
theorem TryRecoverStruct_badKey (L : Layout) (v : Level) (hv : v.ofLayout L) (d : Decoder)
    (buffer : List Nat)
    (headerSize totalLength length structStart bufferEnd dataEnd structEnd current : Nat)
    (hrec : d.fTryRecover = true) (hkey : readUInt buffer structStart ≠ v.key)
    (h0 : 0 < headerSize) (hs : headerSize < 2 ^ 32)
    (hl : totalLength = length + headerSize / 4) :
    TryRecoverStruct d buffer v.key headerSize totalLength length structStart bufferEnd
        dataEnd structEnd current
      = Recovery.scan (FindKey buffer v.key (structStart + 4) bufferEnd)
          dataEnd structEnd current := by
  rw [TryRecoverStruct_rows L v hv d buffer _ _ _ _ _ _ _ _ hrec, if_neg (fun h => hkey h.1),
    if_neg (fun h => hkey h.1),
    if_neg (fun h => lengthsMatch_false headerSize totalLength length h0 hs hl h.1)]

/-! ## The rows of the decision table -/

/-- C15: the code at the failing input `badKeyBuffer`, decoded with
"exit on error" off and "try recover" on: the block header has a wrong key,
its length fields are consistent (`totalLength = length + headerSize / 4`, so
`dataEnd = structEnd`) and that end is the end of the buffer; yet
`TryRecoverStruct` returns `kRecoverFailed`, and `Decode` returns `false`
after reporting `kBadBlockKey`, without announcing the block. -/
theorem tryRecoverStruct_badKey_not_recovered :
    readUInt badKeyBuffer 0 ≠ fgkBlockDataKey
      ∧ specLayout.blockLevel.fTotalLength badKeyBuffer 0
          = specLayout.blockLevel.fLength badKeyBuffer 0 + specLayout.sizeofBlockHeader / 4
      ∧ specLayout.blockLevel.dataEnd badKeyBuffer 0 = 16
      ∧ specLayout.blockLevel.structEnd badKeyBuffer 0 = 16
      ∧ specLayout.blockLevel.trusts badKeyBuffer 16 16
      ∧ TryRecoverStruct recoverDecoder badKeyBuffer fgkBlockDataKey 16 4 0 0 16 16 16 16
          = ⟨RecoverResult.kRecoverFailed, 16, 16, 16⟩
      ∧ ∀ fuel, Decode specLayout badKeyBuffer (fuel + 1) recoverDecoder 16
          = (some false, recoverDecoder.upd true
              [Event.OnNewBuffer 0 16, Event.OnError ErrorCode.kBadBlockKey 0]) := by
  refine ⟨by decide, by decide, by decide, by decide, by decide, by decide, fun fuel => ?_⟩
  unfold Decode
  simp only [Decoder.clearHadError_eq, Decoder.OnNewBuffer_eq, Decoder.upd_upd,
    List.nil_append, Nat.zero_add]
  rw [Decode.loop, if_pos (by decide),
    Decode_body_malformed _ _ _ _ _ _ _ (by decide) (by decide) (by decide),
    if_neg (by decide), Step_ofRecovery_failed _ _ _ (by decide)]
  rfl

/-- C16: with "try recover" on, when the key word at the start of the
structure is the expected key and the end `dataEnd` computed from the length
field is trustworthy (it is the end of the enclosing structure, or a whole
word lies before that end at `dataEnd` and is the key of the level or of the
enclosing level), `TryRecoverStruct` returns `kStructRecovered` with
`structEnd` and `current` set to `dataEnd` and `dataEnd` unchanged, whether or
not the total length is trustworthy. -/
theorem tryRecoverStruct_trusts_length (L : Layout) (v : Level) (hv : v.ofLayout L)
    (d : Decoder) (buffer : List Nat)
    (headerSize totalLength length structStart bufferEnd dataEnd structEnd current : Nat)
    (hrec : d.fTryRecover = true) (hkey : readUInt buffer structStart = v.key)
    (hlen : v.trusts buffer dataEnd bufferEnd) :
    TryRecoverStruct d buffer v.key headerSize totalLength length structStart bufferEnd
        dataEnd structEnd current
      = ⟨RecoverResult.kStructRecovered, dataEnd, dataEnd, dataEnd⟩ := by
  rw [TryRecoverStruct_rows L v hv d buffer _ _ _ _ _ _ _ _ hrec, if_pos ⟨hkey, hlen⟩]

/-- C16 on `badTotalLengthBuffer`: the end computed from the length field, 24,
holds the key of the next DSP header; the end computed from the total length
field, 396, is not trustworthy. -/
theorem tryRecoverStruct_trusts_length_witness :
    ¬ specLayout.dspLevel.trusts badTotalLengthBuffer 396 28
      ∧ TryRecoverStruct recoverDecoder badTotalLengthBuffer fgkDSPDataKey 24 99 0 0 28 24 396 24
        = ⟨RecoverResult.kStructRecovered, 24, 24, 24⟩ :=
  ⟨by decide,
    tryRecoverStruct_trusts_length specLayout specLayout.dspLevel (Or.inr (Or.inl rfl))
      recoverDecoder badTotalLengthBuffer 24 99 0 0 28 24 396 24 rfl (by decide)
      (by decide)⟩

/-! ## The key scan of the recovery -/

theorem Level_recover_scan (L : Layout) (v : Level) (hv : v.ofLayout L) (d : Decoder)
    (buffer : List Nat) (p end_ : Nat) (hrec : d.fTryRecover = true)
    (hrow : v.noRow buffer p end_) :
    v.recover d buffer p end_
      = Recovery.scan (FindKey buffer v.key (p + 4) end_) (v.dataEnd buffer p)
          (v.structEnd buffer p) (v.dataEnd buffer p) := by
  unfold Level.recover
  rw [TryRecoverStruct_rows L v hv d buffer _ _ _ _ _ _ _ _ hrec, if_neg hrow.1,
    if_neg hrow.2.1, if_neg hrow.2.2]

/-- C18 fails on `scanBuffer`, read as a bus patch
header at position 0 of a DSP payload of 16 bytes, with "try recover" on: no
row of the decision table applies and the first occurrence of the bus patch
key strictly after the start of the structure is at position 1, but
`TryRecoverStruct` sets `current` to 12. -/
theorem tryRecoverStruct_scan_counterexample :
    specLayout.busPatchLevel.noRow scanBuffer 0 16
      ∧ firstKeyFrom scanBuffer fgkBusPatchDataKey (0 + 1) 16 1
      ∧ TryRecoverStruct recoverDecoder scanBuffer fgkBusPatchDataKey 12 0 176 0 16 716 0 716
        = ⟨RecoverResult.kContinueToNextStruct, 716, 0, 12⟩ := by
  refine ⟨by decide, ⟨by decide, by decide, by decide, fun q h1 h2 => ?_⟩, by decide⟩
  omega

/-- C18, amended: with "try recover" on, when no row of the decision
table applies, `TryRecoverStruct` sets `current` to the first position `q`
from `structStart + 4` on (the word behind the key word of the header) at
which a whole word before the end of the enclosing structure equals the
expected key and returns `kContinueToNextStruct`, `dataEnd` and `structEnd`
untouched; with "exit on error" off the loop of each level then goes on at `q`
with only the errors of the header reported and the count unchanged.  When
there is no such position it returns `kRecoverFailed` and the loop of the
level returns `false`. -/
theorem tryRecoverStruct_scan (L : Layout) (buffer : List Nat) (d : Decoder) (fuel : Nat)
    (end_ p count blockHeader : Nat) (hrec : d.fTryRecover = true) :
    (∀ v : Level, v.ofLayout L →
      ∀ headerSize totalLength length dataEnd structEnd current : Nat,
        ¬ (readUInt buffer p = v.key ∧ v.trusts buffer dataEnd end_) →
        ¬ (readUInt buffer p = v.key ∧ v.trusts buffer structEnd end_) →
        ¬ (totalLength = (length + headerSize) % 2 ^ 32
            ∧ v.trusts buffer dataEnd end_ ∧ v.trusts buffer structEnd end_) →
        (∀ q, firstKeyFrom buffer v.key (p + 4) end_ q →
          TryRecoverStruct d buffer v.key headerSize totalLength length p end_
              dataEnd structEnd current
            = ⟨RecoverResult.kContinueToNextStruct, dataEnd, structEnd, q⟩)
        ∧ (noKeyFrom buffer v.key (p + 4) end_ →
          TryRecoverStruct d buffer v.key headerSize totalLength length p end_
              dataEnd structEnd current
            = ⟨RecoverResult.kRecoverFailed, dataEnd, structEnd, current⟩))
      ∧ (d.fExitOnError = false → p < end_ → p + L.sizeofBlockHeader ≤ end_ →
          ¬ L.blockLevel.wellFormed buffer p end_ → count ≠ d.fMaxBlocks →
          L.blockLevel.noRow buffer p end_ →
          (∀ q, firstKeyFrom buffer fgkBlockDataKey (p + 4) end_ q →
            Decode.loop L buffer end_ (fuel + 1) d p count
              = Decode.loop L buffer end_ fuel
                  (d.upd true (L.blockLevel.framing buffer p end_)) q count)
          ∧ (noKeyFrom buffer fgkBlockDataKey (p + 4) end_ →
            Decode.loop L buffer end_ (fuel + 1) d p count
              = (some false, d.upd true (L.blockLevel.framing buffer p end_))))
      ∧ (d.fExitOnError = false → p < end_ → p + L.sizeofDSPHeader ≤ end_ →
          ¬ L.dspLevel.wellFormed buffer p end_ → L.dspLevel.noRow buffer p end_ →
          (∀ q, firstKeyFrom buffer fgkDSPDataKey (p + 4) end_ q →
            DecodeBlockData.loop L buffer blockHeader end_ (fuel + 1) d p count
              = DecodeBlockData.loop L buffer blockHeader end_ fuel
                  (d.upd true (L.dspLevel.framing buffer p end_)) q count)
          ∧ (noKeyFrom buffer fgkDSPDataKey (p + 4) end_ →
            DecodeBlockData.loop L buffer blockHeader end_ (fuel + 1) d p count
              = (some false, d.upd true (L.dspLevel.framing buffer p end_))))
      ∧ (d.fExitOnError = false → p < end_ → p + L.sizeofBusPatchHeader ≤ end_ →
          ¬ L.busPatchLevel.wellFormed buffer p end_ → L.busPatchLevel.noRow buffer p end_ →
          (∀ q, firstKeyFrom buffer fgkBusPatchDataKey (p + 4) end_ q →
            DecodeDSPData.loop L buffer end_ (fuel + 1) d p count
              = DecodeDSPData.loop L buffer end_ fuel
                  (d.upd true (L.busPatchLevel.framing buffer p end_)) q count)
          ∧ (noKeyFrom buffer fgkBusPatchDataKey (p + 4) end_ →
            DecodeDSPData.loop L buffer end_ (fuel + 1) d p count
              = (some false, d.upd true (L.busPatchLevel.framing buffer p end_)))) := by
  refine ⟨fun v hv hs tl len de se cur h1 h2 h3 => ?_, fun hx hlt hfit hw hc hrow => ?_,
    fun hx hlt hfit hw hrow => ?_, fun hx hlt hfit hw hrow => ?_⟩
  · rw [TryRecoverStruct_rows L v hv d buffer _ _ _ _ _ _ _ _ hrec, if_neg h1, if_neg h2,
      if_neg h3]
    exact ⟨fun q hq => Recovery_scan_first hq _ _ _, fun hn => Recovery_scan_none hn _ _ _⟩
  · have hr := Level_recover_scan L L.blockLevel (Or.inl rfl)
      (d.upd true (L.blockLevel.framing buffer p end_)) buffer p end_ hrec hrow
    have hb := Decode_body_malformed L buffer fuel d end_ p count hfit hw hc
    rw [if_neg (by simp [hx]), hr] at hb
    refine ⟨fun q hq => ?_, fun hn => ?_⟩
    · have hq2 : firstKeyFrom buffer L.blockLevel.key (p + 4) end_ q := hq
      rw [Decode.loop, if_pos hlt, hb, Recovery_scan_first hq2,
        Step_ofRecovery_continue _ _ _ rfl]
    · have hn2 : noKeyFrom buffer L.blockLevel.key (p + 4) end_ := hn
      rw [Decode.loop, if_pos hlt, hb, Recovery_scan_none hn2,
        Step_ofRecovery_failed _ _ _ rfl]
  · have hr := Level_recover_scan L L.dspLevel (Or.inr (Or.inl rfl))
      (d.upd true (L.dspLevel.framing buffer p end_)) buffer p end_ hrec hrow
    have hb := DecodeBlockData_body_malformed L buffer fuel d blockHeader end_ p count hfit hw
    rw [if_neg (by simp [hx]), hr] at hb
    refine ⟨fun q hq => ?_, fun hn => ?_⟩
    · have hq2 : firstKeyFrom buffer L.dspLevel.key (p + 4) end_ q := hq
      rw [DecodeBlockData.loop, if_pos hlt, hb, Recovery_scan_first hq2,
        Step_ofRecovery_continue _ _ _ rfl]
    · have hn2 : noKeyFrom buffer L.dspLevel.key (p + 4) end_ := hn
      rw [DecodeBlockData.loop, if_pos hlt, hb, Recovery_scan_none hn2,
        Step_ofRecovery_failed _ _ _ rfl]
  · have hr := Level_recover_scan L L.busPatchLevel (Or.inr (Or.inr rfl))
      (d.upd true (L.busPatchLevel.framing buffer p end_)) buffer p end_ hrec hrow
    have hb := DecodeDSPData_body_malformed L buffer fuel d end_ p count hfit hw
    rw [if_neg (by simp [hx]), hr] at hb
    refine ⟨fun q hq => ?_, fun hn => ?_⟩
    · have hq2 : firstKeyFrom buffer L.busPatchLevel.key (p + 4) end_ q := hq
      rw [DecodeDSPData.loop, if_pos hlt, hb, Recovery_scan_first hq2,
        Step_ofRecovery_continue _ _ _ rfl]
    · have hn2 : noKeyFrom buffer L.busPatchLevel.key (p + 4) end_ := hn
      rw [DecodeDSPData.loop, if_pos hlt, hb, Recovery_scan_none hn2,
        Step_ofRecovery_failed _ _ _ rfl]

/-- C18, amended, on `scanBuffer`: the search starts at position 4 and finds
the bus patch key at position 12, where the loop of `DecodeDSPData` goes
on. -/
theorem tryRecoverStruct_scan_witness :
    firstKeyFrom scanBuffer fgkBusPatchDataKey (0 + 4) 16 12
      ∧ TryRecoverStruct recoverDecoder scanBuffer fgkBusPatchDataKey 12 0 176 0 16 716 0 716
        = ⟨RecoverResult.kContinueToNextStruct, 716, 0, 12⟩
      ∧ DecodeDSPData.loop specLayout scanBuffer 16 (1 + 1) recoverDecoder 0 0
        = DecodeDSPData.loop specLayout scanBuffer 16 1
            (recoverDecoder.upd true (specLayout.busPatchLevel.framing scanBuffer 0 16)) 12 0 := by
  have hq : firstKeyFrom scanBuffer fgkBusPatchDataKey (0 + 4) 16 12 :=
    ⟨by decide, by decide, by decide, fun q h1 h2 => by
      have h : q = 4 ∨ q = 5 ∨ q = 6 ∨ q = 7 ∨ q = 8 ∨ q = 9 ∨ q = 10 ∨ q = 11 := by omega
      rcases h with rfl | rfl | rfl | rfl | rfl | rfl | rfl | rfl <;> decide⟩
  have h := tryRecoverStruct_scan specLayout scanBuffer recoverDecoder 1 16 0 0 0 rfl
  exact ⟨hq,
    (h.1 specLayout.busPatchLevel (Or.inr (Or.inr rfl)) 12 0 176 716 0 716
      (by decide) (by decide) (by decide)).1 12 hq,
    (h.2.2.2 rfl (by decide) (by decide) (by decide) (by decide)).1 12 hq⟩

/-! ## Malformed headers without recovery -/

theorem Level_recover_off (v : Level) (d : Decoder) (buffer : List Nat) (p end_ : Nat)
    (h : d.fTryRecover = false) :
    v.recover d buffer p end_
      = ⟨RecoverResult.kContinueToNextStruct, v.dataEnd buffer p, v.structEnd buffer p,
          v.dataEnd buffer p⟩ :=
  TryRecoverStruct_off d buffer _ _ _ _ _ _ _ _ _ h

/-- C19 fails on `skipBuffer`, decoded with "exit on
error" and "try recover" both off: after `kBadBusPatchKey` for the first bus
patch header (position 40) the second bus patch (position 56) is announced and
its data word delivered, and `DecodeDSPData` returns `true`; `Decode` returns
`false` at the end. -/
theorem decode_noRecover_counterexample :
    DecodeDSPData specLayout skipBuffer 10 noExitDecoder 40 72
        = (some true, noExitDecoder.upd true
            [Event.OnError ErrorCode.kBadBusPatchKey 40, Event.OnNewBusPatch 56 68,
              Event.OnData 5])
      ∧ Decode specLayout skipBuffer 10 noExitDecoder 72
        = (some false, noExitDecoder.upd true
            [Event.OnNewBuffer 0 72, Event.OnNewBlock 0 16, Event.OnNewDSP 16 40,
              Event.OnError ErrorCode.kBadBusPatchKey 40, Event.OnNewBusPatch 56 68,
              Event.OnData 5]) := by
  constructor <;> decide

/-- C19, amended: with "try recover" and "exit on error" both off, a
malformed header (at block level: before all expected blocks were found) is
skipped after its errors are reported: the structure is neither announced nor
counted, and the loop of the level goes on at `dataEnd`, the end computed from
the length field, where the next header is read if `dataEnd` is before the end
of the enclosing structure.  If `dataEnd` is not before that end, the loop
ends there: `DecodeBlockData` and `DecodeDSPData` return `true`, and `Decode`
returns `false` because the error was recorded. -/
theorem decode_noRecover_skips (L : Layout) (buffer : List Nat) (d : Decoder) (fuel : Nat)
    (end_ p count blockHeader : Nat) (hrec : d.fTryRecover = false)
    (hexit : d.fExitOnError = false) (hlt : p < end_) :
    (p + L.sizeofBlockHeader ≤ end_ → ¬ L.blockLevel.wellFormed buffer p end_ →
        count ≠ d.fMaxBlocks →
        Decode.loop L buffer end_ (fuel + 1) d p count
            = Decode.loop L buffer end_ fuel (d.upd true (L.blockLevel.framing buffer p end_))
                (L.blockLevel.dataEnd buffer p) count
          ∧ (end_ ≤ L.blockLevel.dataEnd buffer p →
              Decode.loop L buffer end_ (fuel + 2) d p count
                = (some false, d.upd true (L.blockLevel.framing buffer p end_))))
      ∧ (p + L.sizeofDSPHeader ≤ end_ → ¬ L.dspLevel.wellFormed buffer p end_ →
        DecodeBlockData.loop L buffer blockHeader end_ (fuel + 1) d p count
            = DecodeBlockData.loop L buffer blockHeader end_ fuel
                (d.upd true (L.dspLevel.framing buffer p end_)) (L.dspLevel.dataEnd buffer p) count
          ∧ (end_ ≤ L.dspLevel.dataEnd buffer p →
              DecodeBlockData.loop L buffer blockHeader end_ (fuel + 2) d p count
                = (some true, d.upd true (L.dspLevel.framing buffer p end_))))
      ∧ (p + L.sizeofBusPatchHeader ≤ end_ → ¬ L.busPatchLevel.wellFormed buffer p end_ →
        DecodeDSPData.loop L buffer end_ (fuel + 1) d p count
            = DecodeDSPData.loop L buffer end_ fuel
                (d.upd true (L.busPatchLevel.framing buffer p end_))
                (L.busPatchLevel.dataEnd buffer p) count
          ∧ (end_ ≤ L.busPatchLevel.dataEnd buffer p →
              DecodeDSPData.loop L buffer end_ (fuel + 2) d p count
                = (some true, d.upd true (L.busPatchLevel.framing buffer p end_)))) := by
  have hx : ¬ d.fExitOnError = true := by simp [hexit]
  refine ⟨fun hfit hw hc => ?_, fun hfit hw => ?_, fun hfit hw => ?_⟩
  · have hb : ∀ f, Decode.body L buffer f d end_ p count
        = Step.next (d.upd true (L.blockLevel.framing buffer p end_))
            (L.blockLevel.dataEnd buffer p) count := by
      intro f
      rw [Decode_body_malformed L buffer f d end_ p count hfit hw hc, if_neg hx,
        Level_recover_off _ _ _ _ _ (by simpa using hrec), Step_ofRecovery_continue _ _ _ rfl]
    have hl : ∀ f, Decode.loop L buffer end_ (f + 1) d p count
        = Decode.loop L buffer end_ f (d.upd true (L.blockLevel.framing buffer p end_))
            (L.blockLevel.dataEnd buffer p) count := by
      intro f
      rw [Decode.loop, if_pos hlt, hb]
    refine ⟨hl fuel, fun he => ?_⟩
    rw [hl (fuel + 1), Decode.loop, if_neg (by omega)]
    rfl
  · have hb : ∀ f, DecodeBlockData.body L buffer f d blockHeader end_ p count
        = Step.next (d.upd true (L.dspLevel.framing buffer p end_))
            (L.dspLevel.dataEnd buffer p) count := by
      intro f
      rw [DecodeBlockData_body_malformed L buffer f d blockHeader end_ p count hfit hw, if_neg hx,
        Level_recover_off _ _ _ _ _ (by simpa using hrec), Step_ofRecovery_continue _ _ _ rfl]
    have hl : ∀ f, DecodeBlockData.loop L buffer blockHeader end_ (f + 1) d p count
        = DecodeBlockData.loop L buffer blockHeader end_ f
            (d.upd true (L.dspLevel.framing buffer p end_)) (L.dspLevel.dataEnd buffer p)
            count := by
      intro f
      rw [DecodeBlockData.loop, if_pos hlt, hb]
    refine ⟨hl fuel, fun he => ?_⟩
    rw [hl (fuel + 1), DecodeBlockData.loop, if_neg (by omega)]
  · have hb : ∀ f, DecodeDSPData.body L buffer f d end_ p count
        = Step.next (d.upd true (L.busPatchLevel.framing buffer p end_))
            (L.busPatchLevel.dataEnd buffer p) count := by
      intro f
      rw [DecodeDSPData_body_malformed L buffer f d end_ p count hfit hw, if_neg hx,
        Level_recover_off _ _ _ _ _ (by simpa using hrec), Step_ofRecovery_continue _ _ _ rfl]
    have hl : ∀ f, DecodeDSPData.loop L buffer end_ (f + 1) d p count
        = DecodeDSPData.loop L buffer end_ f
            (d.upd true (L.busPatchLevel.framing buffer p end_))
            (L.busPatchLevel.dataEnd buffer p) count := by
      intro f
      rw [DecodeDSPData.loop, if_pos hlt, hb]
    refine ⟨hl fuel, fun he => ?_⟩
    rw [hl (fuel + 1), DecodeDSPData.loop, if_neg (by omega)]

/-- C19, amended, on `skipBuffer`: after `kBadBusPatchKey` for the header at
position 40 the loop of `DecodeDSPData` goes on at position 56. -/
theorem decode_noRecover_skips_witness :
    DecodeDSPData.loop specLayout skipBuffer 72 (9 + 1) noExitDecoder 40 0
      = DecodeDSPData.loop specLayout skipBuffer 72 9
          (noExitDecoder.upd true (specLayout.busPatchLevel.framing skipBuffer 40 72))
          (specLayout.busPatchLevel.dataEnd skipBuffer 40) 0
      ∧ specLayout.busPatchLevel.dataEnd skipBuffer 40 = 56
      ∧ specLayout.busPatchLevel.framing skipBuffer 40 72
        = [Event.OnError ErrorCode.kBadBusPatchKey 40] :=
  ⟨((decode_noRecover_skips specLayout skipBuffer noExitDecoder 9 72 40 0 0 rfl rfl
      (by decide)).2.2 (by decide) (by decide)).1, by decide, by decide⟩

/-! ## Which error is reported for which field -/

/-- For a header with the right key whose length field points past the end of
the enclosing structure while its total length field does not, the errors
reported are the level's `kBad...TotalLength`, with the position of the total
length field, and the length mismatch. -/
theorem Level_framing_long_length (v : Level) (buffer : List Nat) (p end_ : Nat)
    (hk : v.fDataKey buffer p = v.key) (hl : end_ < v.dataEnd buffer p)
    (ht : v.structEnd buffer p ≤ end_) :
    v.framing buffer p end_
      = [Event.OnError v.kBadTotalLength (p + v.totalLength),
          Event.OnError v.kLengthMismatch p] := by
  have h1 : ¬ end_ < v.structEnd buffer p := by omega
  have h2 : v.dataEnd buffer p ≠ v.structEnd buffer p := by omega
  simp [Level.framing, reports, hk, hl, h1, h2]

/-- For a header with the right key whose total length field points past the
end of the enclosing structure while its length field does not, the errors
reported are the level's `kBad...Length`, with the position of the length
field, and the length mismatch. -/
theorem Level_framing_long_totalLength (v : Level) (buffer : List Nat) (p end_ : Nat)
    (hk : v.fDataKey buffer p = v.key) (hl : v.dataEnd buffer p ≤ end_)
    (ht : end_ < v.structEnd buffer p) :
    v.framing buffer p end_
      = [Event.OnError v.kBadLength (p + v.length), Event.OnError v.kLengthMismatch p] := by
  have h1 : ¬ end_ < v.dataEnd buffer p := by omega
  have h2 : v.dataEnd buffer p ≠ v.structEnd buffer p := by omega
  simp [Level.framing, reports, hk, ht, h1, h2]

/-- C12: the code at the failing inputs `longBlockBuffer`,
`longDSPBuffer` and `longBusPatchBuffer`, decoded with "exit on error" and
"try recover" off: in each header the end computed from the length field lies
past the end of the enclosing structure and the end computed from the total
length field does not; the decoder reports `kBad...TotalLength` at the total
length field (and the length mismatch), and does not report `kBad...Length`. -/
theorem decode_badLength_reported_as_badTotalLength :
    (16 < specLayout.blockLevel.dataEnd longBlockBuffer 0
        ∧ specLayout.blockLevel.structEnd longBlockBuffer 0 ≤ 16
        ∧ Decode specLayout longBlockBuffer 3 noExitDecoder 16
          = (some false, noExitDecoder.upd true
              [Event.OnNewBuffer 0 16, Event.OnError ErrorCode.kBadBlockTotalLength 8,
                Event.OnError ErrorCode.kBlockLengthMismatch 0]))
      ∧ (24 < specLayout.dspLevel.dataEnd longDSPBuffer 0
        ∧ specLayout.dspLevel.structEnd longDSPBuffer 0 ≤ 24
        ∧ DecodeBlockData specLayout longDSPBuffer 3 noExitDecoder 0 0 24
          = (some true, noExitDecoder.upd true
              [Event.OnError ErrorCode.kBadDSPTotalLength 8,
                Event.OnError ErrorCode.kDSPLengthMismatch 0]))
      ∧ (12 < specLayout.busPatchLevel.dataEnd longBusPatchBuffer 0
        ∧ specLayout.busPatchLevel.structEnd longBusPatchBuffer 0 ≤ 12
        ∧ DecodeDSPData specLayout longBusPatchBuffer 3 noExitDecoder 0 12
          = (some true, noExitDecoder.upd true
              [Event.OnError ErrorCode.kBadBusPatchTotalLength 8,
                Event.OnError ErrorCode.kBusPatchLengthMismatch 0])) := by
  refine ⟨⟨?_, ?_, ?_⟩, ⟨?_, ?_, ?_⟩, ⟨?_, ?_, ?_⟩⟩ <;> decide

/-! ## A block header with a corrupted length field -/

/-- C17 fails on `lengthToEndBuffer` and on
`thirdBlockBuffer`, decoded with "exit on error" off and "try recover" on.  In
both the corrupted header has the right key, a right total length and too
large a length, and the true end of the block is trustworthy.  In the first
the end computed from the corrupted length is the end of the buffer, hence
trustworthy as well: recovery keeps it, the first block is announced with the
whole rest of the buffer as payload and the second block is never announced.
In the second the corrupted header comes after the two blocks that the decoder
expects: `kBufferTooBig` is reported and the block is not announced. -/
theorem decode_corruptLength_counterexample :
    (specLayout.blockLevel.fDataKey lengthToEndBuffer 0 = fgkBlockDataKey
        ∧ specLayout.blockLevel.structEnd lengthToEndBuffer 0 = 16
        ∧ specLayout.blockLevel.structEnd lengthToEndBuffer 0
            < specLayout.blockLevel.dataEnd lengthToEndBuffer 0
        ∧ specLayout.blockLevel.trusts lengthToEndBuffer 16 32
        ∧ Decode specLayout lengthToEndBuffer 5 recoverDecoder 32
          = (some false, recoverDecoder.upd true
              [Event.OnNewBuffer 0 32, Event.OnError ErrorCode.kBlockLengthMismatch 0,
                Event.OnNewBlock 0 16, Event.OnError ErrorCode.kNoDSPHeader 16]))
      ∧ (specLayout.blockLevel.fDataKey thirdBlockBuffer 32 = fgkBlockDataKey
        ∧ specLayout.blockLevel.structEnd thirdBlockBuffer 32 = 48
        ∧ specLayout.blockLevel.structEnd thirdBlockBuffer 32
            < specLayout.blockLevel.dataEnd thirdBlockBuffer 32
        ∧ specLayout.blockLevel.trusts thirdBlockBuffer 48 48
        ∧ Decode specLayout thirdBlockBuffer 5 recoverDecoder 48
          = (some false, recoverDecoder.upd false
              [Event.OnNewBuffer 0 48, Event.OnNewBlock 0 16, Event.OnNewBlock 16 32,
                Event.OnError ErrorCode.kBufferTooBig 32])) := by
  refine ⟨⟨?_, ?_, ?_, ?_, ?_⟩, ⟨?_, ?_, ?_, ?_, ?_⟩⟩ <;> decide

theorem Step_afterCall_noExit (b : Bool) (d : Decoder) (current count : Nat)
    (h : d.fExitOnError = false) :
    Step.afterCall (some b, d) current count = Step.next d current count := by
  cases b <;> simp [Step.afterCall, h]

theorem SubPost_fExitOnError {d : Decoder} {res : Option Bool × Decoder} (hp : SubPost d res) :
    res.2.fExitOnError = d.fExitOnError := by
  obtain ⟨t, e, _⟩ := hp
  rw [e]
  rfl

/-- C17, amended: with "exit on error" off and "try recover" on, for a
block header read before all expected blocks were found that has the right
key, whose total length field gives a trustworthy end `structEnd` (the end of
the buffer, or the position of a block key) and whose length field gives a
later end `dataEnd` that is not trustworthy (neither the end of the buffer nor
the position of a block key): the block is announced after the errors of its
header, `DecodeBlockData` is called for the payload from `dataStart` to
`structEnd`, and when it returns the loop goes on at `structEnd` with the
block counted. -/
theorem decode_corruptLength_recovered (L : Layout) (buffer : List Nat) (d : Decoder)
    (fuel end_ p count : Nat) (hexit : d.fExitOnError = false) (hrec : d.fTryRecover = true)
    (hlt : p < end_) (hfit : p + L.sizeofBlockHeader ≤ end_) (hoff : L.blockDataKey = 0)
    (hkey : L.blockLevel.fDataKey buffer p = fgkBlockDataKey)
    (htot : L.blockLevel.trusts buffer (L.blockLevel.structEnd buffer p) end_)
    (hlen : L.blockLevel.structEnd buffer p < L.blockLevel.dataEnd buffer p)
    (hbad : ¬ L.blockLevel.trusts buffer (L.blockLevel.dataEnd buffer p) end_)
    (hc : count + 1 ≤ d.fMaxBlocks) (hm : d.fMaxBlocks < 2 ^ 32) :
    Decode.body L buffer fuel d end_ p count
        = Step.afterCall
            (DecodeBlockData L buffer fuel
              (d.upd true (L.blockLevel.framing buffer p end_
                ++ [Event.OnNewBlock p (L.blockLevel.dataStart p)]))
              p (L.blockLevel.dataStart p) (L.blockLevel.structEnd buffer p))
            (L.blockLevel.structEnd buffer p) (count + 1)
      ∧ ∀ b d2,
          DecodeBlockData L buffer fuel
              (d.upd true (L.blockLevel.framing buffer p end_
                ++ [Event.OnNewBlock p (L.blockLevel.dataStart p)]))
              p (L.blockLevel.dataStart p) (L.blockLevel.structEnd buffer p) = (some b, d2) →
          Decode.loop L buffer end_ (fuel + 1) d p count
            = Decode.loop L buffer end_ fuel d2 (L.blockLevel.structEnd buffer p) (count + 1) := by
  have hw : ¬ L.blockLevel.wellFormed buffer p end_ := fun h => by
    have := h.2.2.2
    omega
  have hk0 : readUInt buffer p = L.blockLevel.key := by
    have h := hkey
    simp only [Level.fDataKey, Layout.blockLevel, hoff, Nat.add_zero] at h
    exact h
  have hr : L.blockLevel.recover (d.upd true (L.blockLevel.framing buffer p end_)) buffer p end_
      = ⟨RecoverResult.kStructRecovered, L.blockLevel.structEnd buffer p,
          L.blockLevel.structEnd buffer p, L.blockLevel.structEnd buffer p⟩ := by
    unfold Level.recover
    rw [TryRecoverStruct_rows L L.blockLevel (Or.inl rfl) _ buffer _ _ _ _ _ _ _ _
      (by simpa using hrec), if_neg (fun h => hbad h.2), if_pos ⟨hk0, htot⟩]
  have hb : Decode.body L buffer fuel d end_ p count
        = Step.afterCall
            (DecodeBlockData L buffer fuel
              (d.upd true (L.blockLevel.framing buffer p end_
                ++ [Event.OnNewBlock p (L.blockLevel.dataStart p)]))
              p (L.blockLevel.dataStart p) (L.blockLevel.structEnd buffer p))
            (L.blockLevel.structEnd buffer p) (count + 1) := by
    rw [Decode_body_malformed L buffer fuel d end_ p count hfit hw (by omega),
      if_neg (by simp [hexit]), hr, Step_ofRecovery_recovered _ _ _ rfl,
      Decode_accept_ok L buffer fuel _ _ _ _ _ _ (by simpa using hc) (by simpa using hm)]
    simp
  refine ⟨hb, fun b d2 hd => ?_⟩
  have hx : d2.fExitOnError = false := by
    have h := SubPost_fExitOnError (DecodeBlockData_post L buffer fuel
      (d.upd true (L.blockLevel.framing buffer p end_
        ++ [Event.OnNewBlock p (L.blockLevel.dataStart p)]))
      p (L.blockLevel.dataStart p) (L.blockLevel.structEnd buffer p))
    rw [hd] at h
    simpa [hexit] using h
  rw [Decode.loop, if_pos hlt, hb, hd, Step_afterCall_noExit b d2 _ _ hx]

/-- C17, amended, on `longLengthBuffer`: the first block is announced and
decoded up to position 16, where the second block is read and announced. -/
theorem decode_corruptLength_recovered_witness :
    Decode.body specLayout longLengthBuffer 4 recoverDecoder 32 0 0
        = Step.afterCall
            (DecodeBlockData specLayout longLengthBuffer 4
              (recoverDecoder.upd true (specLayout.blockLevel.framing longLengthBuffer 0 32
                ++ [Event.OnNewBlock 0 (specLayout.blockLevel.dataStart 0)]))
              0 (specLayout.blockLevel.dataStart 0)
              (specLayout.blockLevel.structEnd longLengthBuffer 0))
            (specLayout.blockLevel.structEnd longLengthBuffer 0) (0 + 1)
      ∧ specLayout.blockLevel.structEnd longLengthBuffer 0 = 16
      ∧ Decode specLayout longLengthBuffer 5 recoverDecoder 32
        = (some false, recoverDecoder.upd true
            [Event.OnNewBuffer 0 32, Event.OnError ErrorCode.kBadBlockTotalLength 8,
              Event.OnError ErrorCode.kBlockLengthMismatch 0, Event.OnNewBlock 0 16,
              Event.OnNewBlock 16 32]) :=
  ⟨(decode_corruptLength_recovered specLayout longLengthBuffer recoverDecoder 4 32 0 0 rfl rfl
      (by decide) (by decide) rfl (by decide) (by decide) (by decide) (by decide) (by decide)
      (by decide)).1, by decide, by decide⟩

/-! ## Where a callback is issued -/

theorem Adds_refl (k : Nat) (d : Decoder) : Adds k d d :=
  ⟨d.fHadError, [], (Decoder.upd_self d).symm, by simp⟩

theorem Adds_upd {k : Nat} (d : Decoder) (h : Bool) {t : List Event}
    (ht : ∀ e ∈ t, k ≤ e.rank) : Adds k d (d.upd h t) :=
  ⟨h, t, rfl, ht⟩

theorem Adds_trans {k : Nat} {d d1 d2 : Decoder} (h1 : Adds k d d1) (h2 : Adds k d1 d2) :
    Adds k d d2 := by
  obtain ⟨a, s, rfl, hs⟩ := h1
  obtain ⟨b, t, rfl, ht⟩ := h2
  refine ⟨b, s ++ t, by simp, fun e he => ?_⟩
  rcases List.mem_append.mp he with h | h
  · exact hs e h
  · exact ht e h

theorem Adds_mono {j k : Nat} {d d2 : Decoder} (hjk : j ≤ k) (h : Adds k d d2) : Adds j d d2 := by
  obtain ⟨a, s, e, hs⟩ := h
  exact ⟨a, s, e, fun x hx => Nat.le_trans hjk (hs x hx)⟩

theorem Adds_afterCall {k : Nat} {d : Decoder} {res : Option Bool × Decoder}
    (current count : Nat) (h : Adds k d res.2) :
    Adds k d (Step.afterCall res current count).decoder := by
  obtain ⟨r, d2⟩ := res
  unfold Step.afterCall
  cases r with
  | none => exact h
  | some b =>
    cases b with
    | true => exact h
    | false =>
      simp only
      split_ifs <;> exact h

theorem Level_framing_rank (v : Level) (buffer : List Nat) (p end_ : Nat) (k : Nat)
    (h1 : k ≤ v.kBadKey.rank) (h2 : k ≤ v.kBadLength.rank) (h3 : k ≤ v.kBadTotalLength.rank)
    (h4 : k ≤ v.kLengthMismatch.rank) :
    ∀ e ∈ v.framing buffer p end_, k ≤ e.rank := by
  intro e he
  simp only [Level.framing, reports, List.mem_map, List.mem_filter] at he
  obtain ⟨x, ⟨hx, _⟩, rfl⟩ := he
  simp only [List.mem_cons, List.mem_singleton, List.not_mem_nil, or_false] at hx
  rcases hx with rfl | rfl | rfl | rfl <;> assumption

theorem DecodeBusPatchData_adds (buffer : List Nat) (fuel : Nat) :
    ∀ (d : Decoder) (data dataEnd : Nat),
      Adds 7 d (DecodeBusPatchData buffer fuel d data dataEnd).2 := by
  induction fuel with
  | zero => intro d data dataEnd; exact Adds_refl _ _
  | succ fuel ih =>
    intro d data dataEnd
    rw [DecodeBusPatchData]
    simp only [Decoder.setHadError_eq, Decoder.OnError_eq, Decoder.OnData_eq,
      Decoder.upd_upd, Decoder.upd_fHadError, Decoder.upd_fExitOnError,
      Decoder.upd_fSendDataOnParityError, List.nil_append, List.append_nil,
      List.singleton_append]
    split_ifs with h1 h2 h3 h4
    · exact Adds_trans (Adds_upd d _ (by simp [Event.rank])) (ih _ _ _)
    · exact Adds_upd d _ (by simp [Event.rank, ErrorCode.rank])
    · exact Adds_trans (Adds_upd d _ (by simp [Event.rank, ErrorCode.rank])) (ih _ _ _)
    · exact Adds_trans (Adds_upd d _ (by simp [Event.rank, ErrorCode.rank])) (ih _ _ _)
    · exact Adds_refl _ _

theorem DecodeDSPData_accept_adds (buffer : List Nat) (fuel : Nat) (d : Decoder)
    (busPatchStart dataStart dataEnd current count : Nat) :
    Adds 6 d (DecodeDSPData.accept buffer fuel d busPatchStart dataStart dataEnd current
      count).decoder := by
  unfold DecodeDSPData.accept
  simp only [Decoder.setHadError_eq, Decoder.OnError_eq, Decoder.OnNewBusPatch_eq,
    Decoder.upd_upd, List.nil_append, List.append_nil]
  split_ifs with h1
  · exact Adds_upd d _ (by simp [Event.rank, ErrorCode.rank])
  · exact Adds_trans (Adds_upd d _ (by simp [Event.rank]))
      (Adds_afterCall _ _ (Adds_mono (by decide) (DecodeBusPatchData_adds buffer fuel _ _ _)))

theorem Adds_ofRecovery {k : Nat} {d d1 : Decoder} (r : Recovery) (count : Nat)
    (accept : Nat → Nat → Step) (h1 : Adds k d d1)
    (h2 : ∀ a b, Adds k d1 (accept a b).decoder) :
    Adds k d (Step.ofRecovery r d1 count accept).decoder := by
  unfold Step.ofRecovery
  split
  · exact h1
  · exact h1
  · exact Adds_trans h1 (h2 _ _)

theorem DecodeDSPData_body_adds (L : Layout) (buffer : List Nat) (fuel : Nat) (d : Decoder)
    (end_ p count : Nat) :
    Adds 5 d (DecodeDSPData.body L buffer fuel d end_ p count).decoder := by
  have hf : ∀ e ∈ L.busPatchLevel.framing buffer p end_, 5 ≤ e.rank :=
    Level_framing_rank _ _ _ _ _ (Nat.le_refl 5) (Nat.le_refl 5) (Nat.le_refl 5) (Nat.le_refl 5)
  by_cases hfit : p + L.sizeofBusPatchHeader ≤ end_
  · by_cases hw : L.busPatchLevel.wellFormed buffer p end_
    · rw [DecodeDSPData_body_wellFormed L buffer fuel d end_ p count hfit hw]
      exact Adds_mono (by decide) (DecodeDSPData_accept_adds _ _ _ _ _ _ _ _)
    · rw [DecodeDSPData_body_malformed L buffer fuel d end_ p count hfit hw]
      split_ifs
      · exact Adds_upd d _ hf
      · exact Adds_ofRecovery _ _ _ (Adds_upd d _ hf)
          (fun a b => Adds_mono (by decide) (DecodeDSPData_accept_adds _ _ _ _ _ _ _ _))
  · rw [DecodeDSPData_body_noHeader L buffer fuel d end_ p count (by omega)]
    exact Adds_upd d _ (by simp [Event.rank, ErrorCode.rank])

theorem DecodeDSPData_loop_adds (L : Layout) (buffer : List Nat) (end_ : Nat) (fuel : Nat) :
    ∀ (d : Decoder) (current count : Nat),
      Adds 5 d (DecodeDSPData.loop L buffer end_ fuel d current count).2 := by
  induction fuel with
  | zero => intro d current count; exact Adds_refl _ _
  | succ fuel ih =>
    intro d current count
    rw [DecodeDSPData.loop]
    split_ifs with h1
    · have hb := DecodeDSPData_body_adds L buffer fuel d end_ current count
      revert hb
      cases DecodeDSPData.body L buffer fuel d end_ current count with
      | exit ret d2 => exact fun hb => hb
      | next d2 c2 n2 => exact fun hb => Adds_trans hb (ih _ _ _)
    · exact Adds_refl _ _

theorem DecodeBlockData_padding_adds (L : Layout) (buffer : List Nat) (fuel : Nat)
    (d : Decoder) (dspStart dataStart dataEnd current count : Nat) :
    Adds 4 d (DecodeBlockData.padding L buffer fuel d dspStart dataStart dataEnd current
      count).decoder := by
  have hc : ∀ (d2 : Decoder) (a b : Nat),
      Adds 4 d2 (DecodeBlockData.decodeDSP L buffer fuel d2 a b current count).decoder :=
    fun d2 a b => Adds_afterCall _ _
      (Adds_mono (by decide) (DecodeDSPData_loop_adds L buffer b fuel d2 a 0))
  unfold DecodeBlockData.padding
  simp only [Decoder.setHadError_eq, Decoder.OnError_eq, Decoder.upd_upd,
    Decoder.upd_fExitOnError, List.nil_append, List.append_nil]
  split_ifs with h1 h2 h3
  · exact Adds_upd d _ (by simp [Event.rank, ErrorCode.rank])
  · exact Adds_trans (Adds_upd d _ (by simp [Event.rank, ErrorCode.rank])) (hc _ _ _)
  · exact hc _ _ _
  · exact hc _ _ _

theorem DecodeBlockData_accept_adds (L : Layout) (buffer : List Nat) (fuel : Nat)
    (d : Decoder) (blockHeader dspStart dataStart dataEnd current count : Nat) :
    Adds 4 d (DecodeBlockData.accept L buffer fuel d blockHeader dspStart dataStart dataEnd
      current count).decoder := by
  unfold DecodeBlockData.accept
  simp only [Decoder.setHadError_eq, Decoder.OnError_eq, Decoder.OnNewDSP_eq,
    Decoder.upd_upd, Decoder.upd_fExitOnError, Decoder.upd_fTryRecover, List.nil_append,
    List.append_nil, List.singleton_append]
  split_ifs with h1 h2 h3 h4
  · exact Adds_upd d _ (by simp [Event.rank, ErrorCode.rank])
  · exact Adds_upd d _ (by simp [Event.rank, ErrorCode.rank])
  · exact Adds_upd d _ (by simp [Event.rank, ErrorCode.rank])
  · exact Adds_trans (Adds_upd d _ (by simp [Event.rank, ErrorCode.rank]))
      (DecodeBlockData_padding_adds _ _ _ _ _ _ _ _ _)
  · exact Adds_trans (Adds_upd d _ (by simp [Event.rank]))
      (DecodeBlockData_padding_adds _ _ _ _ _ _ _ _ _)

theorem DecodeBlockData_body_adds (L : Layout) (buffer : List Nat) (fuel : Nat) (d : Decoder)
    (blockHeader end_ p count : Nat) :
    Adds 3 d (DecodeBlockData.body L buffer fuel d blockHeader end_ p count).decoder := by
  have hf : ∀ e ∈ L.dspLevel.framing buffer p end_, 3 ≤ e.rank :=
    Level_framing_rank _ _ _ _ _ (Nat.le_refl 3) (Nat.le_refl 3) (Nat.le_refl 3) (Nat.le_refl 3)
  by_cases hfit : p + L.sizeofDSPHeader ≤ end_
  · by_cases hw : L.dspLevel.wellFormed buffer p end_
    · rw [DecodeBlockData_body_wellFormed L buffer fuel d blockHeader end_ p count hfit hw]
      exact Adds_mono (by decide) (DecodeBlockData_accept_adds _ _ _ _ _ _ _ _ _ _)
    · rw [DecodeBlockData_body_malformed L buffer fuel d blockHeader end_ p count hfit hw]
      split_ifs
      · exact Adds_upd d _ hf
      · exact Adds_ofRecovery _ _ _ (Adds_upd d _ hf)
          (fun a b => Adds_mono (by decide) (DecodeBlockData_accept_adds _ _ _ _ _ _ _ _ _ _))
  · rw [DecodeBlockData_body_noHeader L buffer fuel d blockHeader end_ p count (by omega)]
    exact Adds_upd d _ (by simp [Event.rank, ErrorCode.rank])

theorem DecodeBlockData_loop_adds (L : Layout) (buffer : List Nat) (blockHeader end_ : Nat)
    (fuel : Nat) :
    ∀ (d : Decoder) (current count : Nat),
      Adds 3 d (DecodeBlockData.loop L buffer blockHeader end_ fuel d current count).2 := by
  induction fuel with
  | zero => intro d current count; exact Adds_refl _ _
  | succ fuel ih =>
    intro d current count
    rw [DecodeBlockData.loop]
    split_ifs with h1
    · have hb := DecodeBlockData_body_adds L buffer fuel d blockHeader end_ current count
      revert hb
      cases DecodeBlockData.body L buffer fuel d blockHeader end_ current count with
      | exit ret d2 => exact fun hb => hb
      | next d2 c2 n2 => exact fun hb => Adds_trans hb (ih _ _ _)
    · exact Adds_refl _ _

theorem Decode_accept_adds (L : Layout) (buffer : List Nat) (fuel : Nat) (d : Decoder)
    (blockStart dataStart dataEnd current count : Nat) :
    Adds 2 d (Decode.accept L buffer fuel d blockStart dataStart dataEnd current
      count).decoder := by
  unfold Decode.accept
  simp only [Decoder.OnError_eq, Decoder.OnNewBlock_eq]
  split_ifs with h1
  · exact Adds_upd d _ (by simp [Event.rank, ErrorCode.rank])
  · exact Adds_trans (Adds_upd d _ (by simp [Event.rank]))
      (Adds_afterCall _ _ (Adds_mono (by decide)
        (DecodeBlockData_loop_adds L buffer blockStart dataEnd fuel _ dataStart 0)))

/-! ## Well-formed headers and the span of the payload -/

theorem DecodeBlockData_accept_padded (L : Layout) (buffer : List Nat) (fuel : Nat)
    (d : Decoder) (blockHeader dspStart dataStart dataEnd current count : Nat)
    (hc : count + 1 ≤ d.fMaxDSPs) (hm : d.fMaxDSPs < 2 ^ 32)
    (hg1 : readUInt buffer (dspStart + L.dspErrorWord)
      ≠ (0x000000B1 ||| readUInt buffer (blockHeader + L.blockDSPId)))
    (hg2 : readUInt buffer (dspStart + L.dspErrorWord)
      ≠ (0x00000091 ||| readUInt buffer (blockHeader + L.blockDSPId)))
    (hp : readUInt buffer (dspStart + L.dspPaddingWord) = 1)
    (hw : readUInt buffer (dataEnd - 4) = fgkPaddingWord) :
    DecodeBlockData.accept L buffer fuel d blockHeader dspStart dataStart dataEnd current count
      = Step.afterCall (DecodeDSPData L buffer fuel
          (d.upd d.fHadError [Event.OnNewDSP dspStart dataStart]) dataStart (dataEnd - 4))
          current (count + 1) := by
  unfold DecodeBlockData.accept
  have h1 : (count + 1) % 2 ^ 32 = count + 1 := Nat.mod_eq_of_lt (by omega)
  simp only [h1, Decoder.OnNewDSP_eq]
  rw [if_neg (by omega), if_neg (by simp [hg1, hg2])]
  unfold DecodeBlockData.padding
  simp only
  rw [if_pos hp, if_neg (by simp [hw])]
  rfl

/-- C11 fails on `paddedBuffer`, decoded with the
default configuration: the DSP header at position 16 passes the four checks
and its payload is `[40, 60)`, but `DecodeDSPData` is called for `[40, 56)`,
without the padding word, and not for `[40, 60)` (which would end in
`kNoBusPatchHeader`); `Decode` returns `true`. -/
theorem decode_payloadSpan_counterexample :
    specLayout.dspLevel.wellFormed paddedBuffer 16 60
      ∧ specLayout.dspLevel.dataStart 16 = 40
      ∧ specLayout.dspLevel.dataEnd paddedBuffer 16 = 60
      ∧ DecodeBlockData.body specLayout paddedBuffer 5 Decoder.init 0 60 16 0
        = Step.afterCall
            (DecodeDSPData specLayout paddedBuffer 5 (Decoder.init.OnNewDSP 16 40) 40 56) 60 1
      ∧ DecodeBlockData.body specLayout paddedBuffer 5 Decoder.init 0 60 16 0
        ≠ Step.afterCall
            (DecodeDSPData specLayout paddedBuffer 5 (Decoder.init.OnNewDSP 16 40) 40 60) 60 1
      ∧ Decode specLayout paddedBuffer 5 Decoder.init 60
        = (some true, Decoder.init.upd false
            [Event.OnNewBuffer 0 60, Event.OnNewBlock 0 16, Event.OnNewDSP 16 40,
              Event.OnNewBusPatch 40 52, Event.OnData 3]) := by
  refine ⟨?_, ?_, ?_, ?_, ?_, ?_⟩ <;> decide

theorem Level_blockLevel_isFraming (L : Layout) (e : Event) (h : 2 ≤ e.rank) :
    L.blockLevel.isFraming e = false := by
  cases e with
  | OnError c q =>
    cases c <;> simp [Level.isFraming, Layout.blockLevel] <;>
      simp [Event.rank, ErrorCode.rank] at h
  | _ => rfl

theorem Level_dspLevel_isFraming (L : Layout) (e : Event) (h : 4 ≤ e.rank) :
    L.dspLevel.isFraming e = false := by
  cases e with
  | OnError c q =>
    cases c <;> simp [Level.isFraming, Layout.dspLevel] <;>
      simp [Event.rank, ErrorCode.rank] at h
  | _ => rfl

theorem Level_busPatchLevel_isFraming (L : Layout) (e : Event) (h : 6 ≤ e.rank) :
    L.busPatchLevel.isFraming e = false := by
  cases e with
  | OnError c q =>
    cases c <;> simp [Level.isFraming, Layout.busPatchLevel] <;>
      simp [Event.rank, ErrorCode.rank] at h
  | _ => rfl

/-- The callbacks of a pass that starts with the errors of a malformed header,
or issues only callbacks of the ranks behind a header: one of the level's four
errors is among them exactly when the header is malformed. -/
theorem framing_iff_of (v : Level) (buffer : List Nat) (p end_ : Nat) (d d2 : Decoder) (k : Nat)
    (hrank : ∀ e : Event, k ≤ e.rank → v.isFraming e = false)
    (hwf : v.wellFormed buffer p end_ → Adds k d d2)
    (hbad : ¬ v.wellFormed buffer p end_ → ∃ h t, d2 = d.upd h (v.framing buffer p end_ ++ t)) :
    ∃ t, d2.fHandler = d.fHandler ++ t
      ∧ ((∀ e ∈ t, v.isFraming e = false) ↔ v.wellFormed buffer p end_) := by
  by_cases hw : v.wellFormed buffer p end_
  · obtain ⟨h, t, e, ht⟩ := hwf hw
    exact ⟨t, by rw [e]; rfl, fun _ => hw, fun _ x hx => hrank x (ht x hx)⟩
  · obtain ⟨h, t, e⟩ := hbad hw
    refine ⟨v.framing buffer p end_ ++ t, by rw [e]; rfl, fun hall => ?_, fun h => absurd h hw⟩
    exfalso
    have hne := Level_framing_ne_nil v buffer p end_ hw
    cases hf : v.framing buffer p end_ with
    | nil => exact hne hf
    | cons x xs =>
      have h1 : v.isFraming x = true :=
        Level_framing_isFraming v buffer p end_ x (by rw [hf]; exact List.mem_cons_self _ _)
      have h2 : v.isFraming x = false :=
        hall x (by rw [hf]; exact List.mem_append_left _ (List.mem_cons_self _ _))
      rw [h1] at h2
      exact Bool.noConfusion h2

theorem Adds_exists_append {k : Nat} {d d1 d2 : Decoder} {h1 : Bool} {s : List Event}
    (e1 : d1 = d.upd h1 s) (h : Adds k d1 d2) : ∃ h t, d2 = d.upd h (s ++ t) := by
  obtain ⟨a, t, e, _⟩ := h
  exact ⟨a, t, by rw [e, e1]; simp⟩

/-- C11, amended: for a header that fits before the end of the
enclosing structure (at block level: before all expected blocks were found),
one of the level's four errors bad key, bad length, bad total length, length
mismatch is among the callbacks of the pass through the loop body exactly when
the header fails one of the four checks.  When it passes them and the
structure is within the level's limit, the next level is called for the span
from `dataStart` to `dataStart + 4 * length`: `DecodeBlockData` for a block,
`DecodeBusPatchData` for a bus patch, and `DecodeDSPData` for a DSP structure
without glitch whose padding flag is not `1`; for a DSP structure whose
padding flag is `1` and whose padding word is right, `DecodeDSPData` is called
for the span without its last word. -/
theorem decode_framing_iff_malformed (L : Layout) (buffer : List Nat) (fuel : Nat)
    (d : Decoder) (end_ p count blockHeader : Nat) :
    (p + L.sizeofBlockHeader ≤ end_ → count ≠ d.fMaxBlocks →
      (∃ t, (Decode.body L buffer fuel d end_ p count).decoder.fHandler = d.fHandler ++ t
        ∧ ((∀ e ∈ t, L.blockLevel.isFraming e = false) ↔ L.blockLevel.wellFormed buffer p end_))
      ∧ (L.blockLevel.wellFormed buffer p end_ → count + 1 ≤ d.fMaxBlocks →
          d.fMaxBlocks < 2 ^ 32 →
          Decode.body L buffer fuel d end_ p count
            = Step.afterCall
                (DecodeBlockData L buffer fuel (d.OnNewBlock p (L.blockLevel.dataStart p)) p
                  (L.blockLevel.dataStart p) (L.blockLevel.dataStart p
                    + 4 * L.blockLevel.fLength buffer p))
                (L.blockLevel.dataStart p + 4 * L.blockLevel.fLength buffer p) (count + 1)))
      ∧ (p + L.sizeofDSPHeader ≤ end_ →
        (∃ t, (DecodeBlockData.body L buffer fuel d blockHeader end_ p count).decoder.fHandler
            = d.fHandler ++ t
          ∧ ((∀ e ∈ t, L.dspLevel.isFraming e = false) ↔ L.dspLevel.wellFormed buffer p end_))
        ∧ (L.dspLevel.wellFormed buffer p end_ → count + 1 ≤ d.fMaxDSPs → d.fMaxDSPs < 2 ^ 32 →
            readUInt buffer (p + L.dspErrorWord)
              ≠ (0x000000B1 ||| readUInt buffer (blockHeader + L.blockDSPId)) →
            readUInt buffer (p + L.dspErrorWord)
              ≠ (0x00000091 ||| readUInt buffer (blockHeader + L.blockDSPId)) →
            (readUInt buffer (p + L.dspPaddingWord) ≠ 1 →
              DecodeBlockData.body L buffer fuel d blockHeader end_ p count
                = Step.afterCall
                    (DecodeDSPData L buffer fuel (d.OnNewDSP p (L.dspLevel.dataStart p))
                      (L.dspLevel.dataStart p)
                      (L.dspLevel.dataStart p + 4 * L.dspLevel.fLength buffer p))
                    (L.dspLevel.dataStart p + 4 * L.dspLevel.fLength buffer p) (count + 1))
            ∧ (readUInt buffer (p + L.dspPaddingWord) = 1 →
              readUInt buffer (L.dspLevel.dataStart p + 4 * L.dspLevel.fLength buffer p - 4)
                = fgkPaddingWord →
              DecodeBlockData.body L buffer fuel d blockHeader end_ p count
                = Step.afterCall
                    (DecodeDSPData L buffer fuel (d.OnNewDSP p (L.dspLevel.dataStart p))
                      (L.dspLevel.dataStart p)
                      (L.dspLevel.dataStart p + 4 * L.dspLevel.fLength buffer p - 4))
                    (L.dspLevel.dataStart p + 4 * L.dspLevel.fLength buffer p) (count + 1))))
      ∧ (p + L.sizeofBusPatchHeader ≤ end_ →
        (∃ t, (DecodeDSPData.body L buffer fuel d end_ p count).decoder.fHandler
            = d.fHandler ++ t
          ∧ ((∀ e ∈ t, L.busPatchLevel.isFraming e = false)
              ↔ L.busPatchLevel.wellFormed buffer p end_))
        ∧ (L.busPatchLevel.wellFormed buffer p end_ → count + 1 ≤ d.fMaxBusPatches →
            d.fMaxBusPatches < 2 ^ 32 →
            DecodeDSPData.body L buffer fuel d end_ p count
              = Step.afterCall
                  (DecodeBusPatchData buffer fuel
                    (d.OnNewBusPatch p (L.busPatchLevel.dataStart p))
                    (L.busPatchLevel.dataStart p)
                    (L.busPatchLevel.dataStart p + 4 * L.busPatchLevel.fLength buffer p))
                  (L.busPatchLevel.dataStart p + 4 * L.busPatchLevel.fLength buffer p)
                  (count + 1))) := by
  have e1 : ∀ v : Level, v.dataStart p + 4 * v.fLength buffer p = v.dataEnd buffer p :=
    fun v => by simp only [Level.dataEnd]; omega
  simp only [e1]
  refine ⟨fun hfit hc => ⟨?_, fun hw hn hm => ?_⟩,
    fun hfit => ⟨?_, fun hw hn hm hg1 hg2 => ⟨fun hp => ?_, fun hp hpad => ?_⟩⟩,
    fun hfit => ⟨?_, fun hw hn hm => ?_⟩⟩
  · refine framing_iff_of _ buffer p end_ d _ 2 (Level_blockLevel_isFraming L) (fun hw => ?_)
      (fun hw => ?_)
    · rw [Decode_body_wellFormed L buffer fuel d end_ p count hfit hw]
      exact Decode_accept_adds _ _ _ _ _ _ _ _ _
    · rw [Decode_body_malformed L buffer fuel d end_ p count hfit hw hc]
      split_ifs with hx
      · exact ⟨_, [], by rw [List.append_nil]; rfl⟩
      · exact Adds_exists_append rfl (Adds_ofRecovery _ _ _ (Adds_refl 0 _)
          (fun a b => Adds_mono (Nat.zero_le _) (Decode_accept_adds _ _ _ _ _ _ _ _ _)))
  · rw [Decode_body_wellFormed L buffer fuel d end_ p count hfit hw]
    exact Decode_accept_ok L buffer fuel d _ _ _ _ _ hn hm
  · refine framing_iff_of _ buffer p end_ d _ 4 (Level_dspLevel_isFraming L) (fun hw => ?_)
      (fun hw => ?_)
    · rw [DecodeBlockData_body_wellFormed L buffer fuel d blockHeader end_ p count hfit hw]
      exact DecodeBlockData_accept_adds _ _ _ _ _ _ _ _ _ _
    · rw [DecodeBlockData_body_malformed L buffer fuel d blockHeader end_ p count hfit hw]
      split_ifs with hx
      · exact ⟨_, [], by rw [List.append_nil]; rfl⟩
      · exact Adds_exists_append rfl (Adds_ofRecovery _ _ _ (Adds_refl 0 _)
          (fun a b => Adds_mono (Nat.zero_le _)
            (DecodeBlockData_accept_adds _ _ _ _ _ _ _ _ _ _)))
  · rw [DecodeBlockData_body_wellFormed L buffer fuel d blockHeader end_ p count hfit hw]
    exact DecodeBlockData_accept_ok L buffer fuel d _ _ _ _ _ _ hn hm hg1 hg2 hp
  · rw [DecodeBlockData_body_wellFormed L buffer fuel d blockHeader end_ p count hfit hw]
    exact DecodeBlockData_accept_padded L buffer fuel d _ _ _ _ _ _ hn hm hg1 hg2 hp hpad
  · refine framing_iff_of _ buffer p end_ d _ 6 (Level_busPatchLevel_isFraming L) (fun hw => ?_)
      (fun hw => ?_)
    · rw [DecodeDSPData_body_wellFormed L buffer fuel d end_ p count hfit hw]
      exact DecodeDSPData_accept_adds _ _ _ _ _ _ _ _
    · rw [DecodeDSPData_body_malformed L buffer fuel d end_ p count hfit hw]
      split_ifs with hx
      · exact ⟨_, [], by rw [List.append_nil]; rfl⟩
      · exact Adds_exists_append rfl (Adds_ofRecovery _ _ _ (Adds_refl 0 _)
          (fun a b => Adds_mono (Nat.zero_le _) (DecodeDSPData_accept_adds _ _ _ _ _ _ _ _)))
  · rw [DecodeDSPData_body_wellFormed L buffer fuel d end_ p count hfit hw]
    exact DecodeDSPData_accept_ok buffer fuel d _ _ _ _ _ hn hm

/-- C11, amended, on `paddedBuffer`: the block header at position 0, the DSP
header at position 16 with its padding flag, and the bus patch header at
position 40. -/
theorem decode_framing_iff_malformed_witness :
    (∃ t, (Decode.body specLayout paddedBuffer 5 Decoder.init 60 0 0).decoder.fHandler
        = Decoder.init.fHandler ++ t
      ∧ ((∀ e ∈ t, specLayout.blockLevel.isFraming e = false)
          ↔ specLayout.blockLevel.wellFormed paddedBuffer 0 60))
      ∧ DecodeBlockData.body specLayout paddedBuffer 5 Decoder.init 0 60 16 0
        = Step.afterCall
            (DecodeDSPData specLayout paddedBuffer 5
              (Decoder.init.OnNewDSP 16 (specLayout.dspLevel.dataStart 16))
              (specLayout.dspLevel.dataStart 16)
              (specLayout.dspLevel.dataStart 16
                + 4 * specLayout.dspLevel.fLength paddedBuffer 16 - 4))
            (specLayout.dspLevel.dataStart 16 + 4 * specLayout.dspLevel.fLength paddedBuffer 16)
            (0 + 1)
      ∧ DecodeDSPData.body specLayout paddedBuffer 5 Decoder.init 56 40 0
        = Step.afterCall
            (DecodeBusPatchData paddedBuffer 5
              (Decoder.init.OnNewBusPatch 40 (specLayout.busPatchLevel.dataStart 40))
              (specLayout.busPatchLevel.dataStart 40)
              (specLayout.busPatchLevel.dataStart 40
                + 4 * specLayout.busPatchLevel.fLength paddedBuffer 40))
            (specLayout.busPatchLevel.dataStart 40
              + 4 * specLayout.busPatchLevel.fLength paddedBuffer 40)
            (0 + 1) :=
  ⟨((decode_framing_iff_malformed specLayout paddedBuffer 5 Decoder.init 60 0 0 0).1
      (by decide) (by decide)).1,
    ((((decode_framing_iff_malformed specLayout paddedBuffer 5 Decoder.init 60 16 0 0).2.1
      (by decide)).2 (by decide) (by decide) (by decide) (by decide) (by decide)).2
      (by decide) (by decide)),
    ((decode_framing_iff_malformed specLayout paddedBuffer 5 Decoder.init 56 40 0 0).2.2
      (by decide)).2 (by decide) (by decide) (by decide)⟩

/-! ## After the expected number of blocks -/

theorem Decode_Reach_loop {L : Layout} {buffer : List Nat} {d0 : Decoder}
    {bufferSize f0 fuel : Nat} {d : Decoder} {p n : Nat}
    (h : Decode.Reach L buffer d0 bufferSize f0 fuel d p n) :
    Decode L buffer f0 d0 bufferSize = Decode.loop L buffer bufferSize fuel d p n := by
  induction h with
  | start =>
    unfold Decode
    simp only [Nat.zero_add]
  | step _ hlt hb ih =>
    rw [ih, Decode.loop, if_pos hlt, hb]

theorem Level_recover_congr (v : Level) (d d2 : Decoder) (buffer : List Nat) (p end_ : Nat)
    (h : d.fTryRecover = d2.fTryRecover) :
    v.recover d buffer p end_ = v.recover d2 buffer p end_ := by
  unfold Level.recover TryRecoverStruct
  rw [h]

/-- The cursor that `TryRecoverStruct` leaves is the start of the structure or
at least four bytes behind it. -/
theorem Level_recover_current (L : Layout) (v : Level) (hv : v.ofLayout L) (d : Decoder)
    (buffer : List Nat) (p end_ : Nat) (h4 : 4 ≤ v.sizeofHeader) :
    (v.recover d buffer p end_).current = p ∨ p + 4 ≤ (v.recover d buffer p end_).current := by
  have hde : p + 4 ≤ v.dataEnd buffer p := by
    simp only [Level.dataEnd, Level.dataStart]
    omega
  have hse : v.structEnd buffer p = p ∨ p + 4 ≤ v.structEnd buffer p := by
    simp only [Level.structEnd]
    omega
  by_cases hrec : d.fTryRecover = true
  · unfold Level.recover
    rw [TryRecoverStruct_rows L v hv d buffer _ _ _ _ _ _ _ _ hrec]
    split_ifs
    · exact Or.inr hde
    · exact hse
    · exact Or.inr hde
    · cases hf : FindKey buffer v.key (p + 4) end_ with
      | none => exact Or.inr hde
      | some l => exact Or.inr ((FindKey_eq_some_iff buffer v.key (p + 4) end_ l).mp hf).1
  · rw [Level_recover_off v d buffer p end_ (by simpa using hrec)]
    exact Or.inr hde

theorem Step_afterCall_next {res : Option Bool × Decoder} {current count : Nat}
    {d2 : Decoder} {p2 n2 : Nat}
    (h : Step.afterCall res current count = Step.next d2 p2 n2) : p2 = current ∧ n2 = count := by
  obtain ⟨r, d⟩ := res
  unfold Step.afterCall at h
  cases r with
  | none => simp at h
  | some b =>
    cases b with
    | true =>
      simp only [Step.next.injEq] at h
      exact ⟨h.2.1.symm, h.2.2.symm⟩
    | false =>
      simp only at h
      split_ifs at h
      simp only [Step.next.injEq] at h
      exact ⟨h.2.1.symm, h.2.2.symm⟩

theorem Decode_accept_next {L : Layout} {buffer : List Nat} {fuel : Nat} {d : Decoder}
    {blockStart dataStart dataEnd current count : Nat} {d2 : Decoder} {p2 n2 : Nat}
    (h : Decode.accept L buffer fuel d blockStart dataStart dataEnd current count
      = Step.next d2 p2 n2) : p2 = current ∧ n2 ≤ count + 1 := by
  unfold Decode.accept at h
  simp only at h
  split_ifs at h
  obtain ⟨h1, h2⟩ := Step_afterCall_next h
  exact ⟨h1, by rw [h2]; exact Nat.mod_le _ _⟩

/-- One pass through the loop body of `Decode`: if the blocks counted so far
take four bytes each before the cursor, or the cursor is stuck on a malformed
header, the same holds after the pass. -/
theorem Decode_body_next_inv (L : Layout) (buffer : List Nat) (fuel : Nat) (d : Decoder)
    (end_ p n : Nat) (d2 : Decoder) (p2 n2 : Nat) (h4 : 4 ≤ L.sizeofBlockHeader)
    (hb : Decode.body L buffer fuel d end_ p n = Step.next d2 p2 n2)
    (hinv : 4 * n ≤ p ∨ L.blockLevel.stuckAt d buffer p end_) :
    4 * n2 ≤ p2 ∨ L.blockLevel.stuckAt d buffer p2 end_ := by
  have hde : p + 4 ≤ L.blockLevel.dataEnd buffer p := by
    simp only [Level.dataEnd, Level.dataStart, Layout.blockLevel]
    omega
  by_cases hfit : p + L.sizeofBlockHeader ≤ end_
  · by_cases hw : L.blockLevel.wellFormed buffer p end_
    · rw [Decode_body_wellFormed L buffer fuel d end_ p n hfit hw] at hb
      obtain ⟨e1, e2⟩ := Decode_accept_next hb
      rcases hinv with hi | hi
      · exact Or.inl (by omega)
      · exact absurd hw hi.1
    · by_cases hc : n = d.fMaxBlocks
      · rw [Decode_body_tooBig L buffer fuel d end_ p n hfit hw hc] at hb
        simp at hb
      · rw [Decode_body_malformed L buffer fuel d end_ p n hfit hw hc] at hb
        have hr : L.blockLevel.recover (d.upd true (L.blockLevel.framing buffer p end_)) buffer
            p end_ = L.blockLevel.recover d buffer p end_ :=
          Level_recover_congr _ _ _ _ _ _ rfl
        rw [hr] at hb
        have key : p2 = (L.blockLevel.recover d buffer p end_).current ∧ n2 ≤ n + 1 := by
          split_ifs at hb
          unfold Step.ofRecovery at hb
          split at hb
          · simp only [Step.next.injEq] at hb
            exact ⟨hb.2.1.symm, by omega⟩
          · simp at hb
          · exact Decode_accept_next hb
        obtain ⟨e1, e2⟩ := key
        rcases Level_recover_current L L.blockLevel (Or.inl rfl) d buffer p end_ h4 with hcur | hcur
        · right
          rw [e1, hcur]
          exact ⟨hw, hcur⟩
        · rcases hinv with hi | hi
          · exact Or.inl (by omega)
          · exfalso
            have := hi.2
            omega
  · rw [Decode_body_noHeader L buffer fuel d end_ p n (by omega)] at hb
    simp at hb

theorem Decode_Reach_inv {L : Layout} {buffer : List Nat} {d0 : Decoder}
    {bufferSize f0 fuel : Nat} {d : Decoder} {p n : Nat} (h4 : 4 ≤ L.sizeofBlockHeader)
    (h : Decode.Reach L buffer d0 bufferSize f0 fuel d p n) :
    (∃ a t, d = d0.upd a t)
      ∧ (4 * n ≤ p ∨ L.blockLevel.stuckAt d0 buffer p bufferSize) := by
  induction h with
  | start =>
    exact ⟨⟨false, [Event.OnNewBuffer 0 bufferSize], by simp⟩, Or.inl (Nat.le_refl _)⟩
  | step _ hlt hb ih =>
    rename_i fuel d d2 p n p2 n2 _
    obtain ⟨⟨a, t, e⟩, hinv⟩ := ih
    have hrec : ∀ q, L.blockLevel.stuckAt d buffer q bufferSize
        ↔ L.blockLevel.stuckAt d0 buffer q bufferSize := by
      intro q
      unfold Level.stuckAt
      rw [Level_recover_congr L.blockLevel d d0 buffer q bufferSize (by rw [e]; rfl)]
    have hpost := Decode_body_post L buffer fuel d bufferSize p n
    rw [hb] at hpost
    obtain ⟨t2, e2, _⟩ := hpost
    refine ⟨⟨a || hasError t2, t ++ t2, by rw [e2, e]; simp⟩, ?_⟩
    have := Decode_body_next_inv L buffer fuel d bufferSize p n d2 p2 n2 h4 hb
      (hinv.imp id (hrec p).mpr)
    exact this.imp id (hrec p2).mp

/-- C14: in a run of `Decode` on a buffer of fewer than `2 ^ 32` bytes,
whenever the loop condition is tested with `blockCount = fMaxBlocks` and
`current` before the end of the buffer, `Decode` returns `false` after exactly
one more callback: `kTooManyBlocks` (at the end of the block) if a whole block
header lies at `current` and passes the four checks, and `kBufferTooBig` (at
`current`) if the header is truncated or fails a check; this holds for every
configuration, and no other error is reported and no recovery tried. -/
theorem decode_after_maxBlocks (L : Layout) (buffer : List Nat) (d0 : Decoder)
    (bufferSize f0 fuel : Nat) (d : Decoder) (p n : Nat) (hL : 4 ≤ L.sizeofBlockHeader)
    (hsize : bufferSize < 2 ^ 32)
    (hr : Decode.Reach L buffer d0 bufferSize f0 (fuel + 1) d p n)
    (hn : n = d.fMaxBlocks) (hp : p < bufferSize) :
    Decode L buffer f0 d0 bufferSize
      = (some false, d.upd d.fHadError
          [if p + L.sizeofBlockHeader ≤ bufferSize ∧ L.blockLevel.wellFormed buffer p bufferSize
            then Event.OnError ErrorCode.kTooManyBlocks (L.blockLevel.dataEnd buffer p)
            else Event.OnError ErrorCode.kBufferTooBig p]) := by
  rw [Decode_Reach_loop hr, Decode.loop, if_pos hp]
  by_cases hfit : p + L.sizeofBlockHeader ≤ bufferSize
  · by_cases hw : L.blockLevel.wellFormed buffer p bufferSize
    · rw [if_pos ⟨hfit, hw⟩, Decode_body_wellFormed L buffer fuel d bufferSize p n hfit hw]
      have hinv := (Decode_Reach_inv hL hr).2
      have h4n : 4 * n ≤ p := by
        rcases hinv with hi | hi
        · exact hi
        · exact absurd hw hi.1
      have e : (2 : Nat) ^ 32 = 4294967296 := by norm_num
      rw [e] at hsize
      unfold Decode.accept
      simp only [Decoder.OnError_eq, e]
      rw [Nat.mod_eq_of_lt (by omega), if_pos (by omega)]
    · rw [if_neg (fun h => hw h.2), Decode_body_tooBig L buffer fuel d bufferSize p n hfit hw hn]
  · rw [if_neg (fun h => hfit h.1),
      Decode_body_noHeader L buffer fuel d bufferSize p n (by omega), if_pos hn]

/-- C14 on `thirdBlockBuffer` and on `threeBlocksBuffer`, decoded with the
default limit of two blocks: after two blocks the third header is malformed in
the first buffer and well-formed in the second. -/
theorem decode_after_maxBlocks_witness :
    Decode specLayout thirdBlockBuffer 5 recoverDecoder 48
        = (some false, recoverDecoder.upd false
            [Event.OnNewBuffer 0 48, Event.OnNewBlock 0 16, Event.OnNewBlock 16 32,
              Event.OnError ErrorCode.kBufferTooBig 32])
      ∧ Decode specLayout threeBlocksBuffer 5 recoverDecoder 48
        = (some false, recoverDecoder.upd false
            [Event.OnNewBuffer 0 48, Event.OnNewBlock 0 16, Event.OnNewBlock 16 32,
              Event.OnError ErrorCode.kTooManyBlocks 48]) := by
  have a0 : Decode.Reach specLayout thirdBlockBuffer recoverDecoder 48 5 (4 + 1)
      ((recoverDecoder.clearHadError).OnNewBuffer 0 48) 0 0 := Decode.Reach.start
  have a1 : Decode.Reach specLayout thirdBlockBuffer recoverDecoder 48 5 (3 + 1)
      (recoverDecoder.upd false [Event.OnNewBuffer 0 48, Event.OnNewBlock 0 16]) 16 1 :=
    Decode.Reach.step a0 (by decide) (by decide)
  have r1 : Decode.Reach specLayout thirdBlockBuffer recoverDecoder 48 5 (2 + 1)
      (recoverDecoder.upd false
        [Event.OnNewBuffer 0 48, Event.OnNewBlock 0 16, Event.OnNewBlock 16 32]) 32 2 :=
    Decode.Reach.step a1 (by decide) (by decide)
  have b0 : Decode.Reach specLayout threeBlocksBuffer recoverDecoder 48 5 (4 + 1)
      ((recoverDecoder.clearHadError).OnNewBuffer 0 48) 0 0 := Decode.Reach.start
  have b1 : Decode.Reach specLayout threeBlocksBuffer recoverDecoder 48 5 (3 + 1)
      (recoverDecoder.upd false [Event.OnNewBuffer 0 48, Event.OnNewBlock 0 16]) 16 1 :=
    Decode.Reach.step b0 (by decide) (by decide)
  have r2 : Decode.Reach specLayout threeBlocksBuffer recoverDecoder 48 5 (2 + 1)
      (recoverDecoder.upd false
        [Event.OnNewBuffer 0 48, Event.OnNewBlock 0 16, Event.OnNewBlock 16 32]) 32 2 :=
    Decode.Reach.step b1 (by decide) (by decide)
  exact ⟨decode_after_maxBlocks specLayout thirdBlockBuffer recoverDecoder 48 5 2 _ 32 2
      (by decide) (by decide) r1 rfl (by decide),
    decode_after_maxBlocks specLayout threeBlocksBuffer recoverDecoder 48 5 2 _ 32 2
      (by decide) (by decide) r2 rfl (by decide)⟩

/-! ## The accessors of the decoder -/

/-- C24: a newly constructed decoder has `ExitOnError = true`,
`TryRecover = false`, `SendDataOnParityError = false` and the positive limits
`MaxBlocks = 2`, `MaxDSPs = 5`, `MaxBusPatches = 5`; after a call of a setter
the matching getter returns the value set, the five other getters return what
they returned before, and the error flag and the event handler are
untouched. -/
theorem decoder_defaults_and_accessors :
    Decoder.init.config = (true, false, false, 2, 5, 5)
      ∧ 0 < Decoder.init.MaxBlocks ∧ 0 < Decoder.init.MaxDSPs
      ∧ 0 < Decoder.init.MaxBusPatches
      ∧ ∀ (d : Decoder) (value : Bool) (n : Nat),
        ((d.setExitOnError value).config
            = (value, d.TryRecover, d.SendDataOnParityError, d.MaxBlocks, d.MaxDSPs,
                d.MaxBusPatches)
          ∧ (d.setExitOnError value).fHadError = d.fHadError
          ∧ (d.setExitOnError value).GetHandler = d.GetHandler)
        ∧ ((d.setTryRecover value).config
            = (d.ExitOnError, value, d.SendDataOnParityError, d.MaxBlocks, d.MaxDSPs,
                d.MaxBusPatches)
          ∧ (d.setTryRecover value).fHadError = d.fHadError
          ∧ (d.setTryRecover value).GetHandler = d.GetHandler)
        ∧ ((d.setSendDataOnParityError value).config
            = (d.ExitOnError, d.TryRecover, value, d.MaxBlocks, d.MaxDSPs, d.MaxBusPatches)
          ∧ (d.setSendDataOnParityError value).fHadError = d.fHadError
          ∧ (d.setSendDataOnParityError value).GetHandler = d.GetHandler)
        ∧ ((d.setMaxBlocks n).config
            = (d.ExitOnError, d.TryRecover, d.SendDataOnParityError, n, d.MaxDSPs,
                d.MaxBusPatches)
          ∧ (d.setMaxBlocks n).fHadError = d.fHadError
          ∧ (d.setMaxBlocks n).GetHandler = d.GetHandler)
        ∧ ((d.setMaxDSPs n).config
            = (d.ExitOnError, d.TryRecover, d.SendDataOnParityError, d.MaxBlocks, n,
                d.MaxBusPatches)
          ∧ (d.setMaxDSPs n).fHadError = d.fHadError
          ∧ (d.setMaxDSPs n).GetHandler = d.GetHandler)
        ∧ ((d.setMaxBusPatches n).config
            = (d.ExitOnError, d.TryRecover, d.SendDataOnParityError, d.MaxBlocks, d.MaxDSPs, n)
          ∧ (d.setMaxBusPatches n).fHadError = d.fHadError
          ∧ (d.setMaxBusPatches n).GetHandler = d.GetHandler) := by
  refine ⟨rfl, by decide, by decide, by decide, fun d value n => ?_⟩
  exact ⟨⟨rfl, rfl, rfl⟩, ⟨rfl, rfl, rfl⟩, ⟨rfl, rfl, rfl⟩, ⟨rfl, rfl, rfl⟩, ⟨rfl, rfl, rfl⟩,
    ⟨rfl, rfl, rfl⟩⟩

/-! ## Recovery that breaks the invariants of the loops -/

/-- C26: the code at the failing input `stuckBuffer`, decoded with "exit on
error" off, "try recover" on and `MaxDSPs = 2 ^ 32 - 1`: whatever the
iteration budget, `Decode` does not return.  The DSP header is recovered with
`totalLength = 0`, the cursor stays on it, and the counter of DSP structures
wraps around before it exceeds the limit. -/
theorem decode_stuck_never_returns :
    ∀ fuel, (Decode specLayout stuckBuffer fuel wrapDecoder 40).1 = none := by
  intro fuel
  match fuel with
  | 0 => decide
  | 1 => decide
  | n + 2 => rw [stuck_decode n]

/-- C29: the code at the failing input `twiceBuffer`, decoded with "exit on
error" off, "try recover" on and the default limits: the block header is
recovered with `totalLength = 0`, the cursor stays on it, and the same header
is announced by `OnNewBlock` a second time before `kBufferTooBig` ends the
decoding. -/
theorem decode_announces_block_twice :
    specLayout.blockLevel.recover recoverDecoder twiceBuffer 0 16
        = ⟨RecoverResult.kStructRecovered, 0, 0, 0⟩
      ∧ Decode specLayout twiceBuffer 4 recoverDecoder 16
        = (some false, recoverDecoder.upd true
            [Event.OnNewBuffer 0 16,
              Event.OnError ErrorCode.kBadBlockTotalLength 8,
              Event.OnError ErrorCode.kBlockLengthMismatch 0, Event.OnNewBlock 0 16,
              Event.OnError ErrorCode.kBadBlockTotalLength 8,
              Event.OnError ErrorCode.kBlockLengthMismatch 0, Event.OnNewBlock 0 16,
              Event.OnError ErrorCode.kBufferTooBig 0]) := by
  constructor <;> decide

/-- C28: the code at the failing input `mixedUnitsBuffer`, decoded with "exit
on error" off and "try recover" on: for the bus patch header at position 40
`TryRecoverStruct` returns `kStructRecovered` through its third row
(`totalLength = length + 12`, the header size in bytes) and leaves
`dataEnd = 52` and `structEnd = 88` different; the bus patch is announced and
the loop goes on at 52. -/
theorem decode_recovered_ends_differ :
    specLayout.busPatchLevel.recover recoverDecoder mixedUnitsBuffer 40 88
        = ⟨RecoverResult.kStructRecovered, 52, 88, 52⟩
      ∧ Decode specLayout mixedUnitsBuffer 10 recoverDecoder 88
        = (some false, recoverDecoder.upd true
            [Event.OnNewBuffer 0 88, Event.OnNewBlock 0 16, Event.OnNewDSP 16 40,
              Event.OnError ErrorCode.kBadBusPatchKey 40,
              Event.OnError ErrorCode.kBusPatchLengthMismatch 40,
              Event.OnNewBusPatch 40 52, Event.OnNewBusPatch 52 64,
              Event.OnNewBusPatch 64 76, Event.OnNewBusPatch 76 88]) := by
  constructor <;> decide

/-! ## `TryRecoverStruct` with "try recover" off -/

theorem Decode_loop_noRecover (L : Layout) (buffer : List Nat) (d : Decoder)
    (fuel end_ p count : Nat) (hrec : d.fTryRecover = false) (hexit : d.fExitOnError = false)
    (hlt : p < end_) (hfit : p + L.sizeofBlockHeader ≤ end_)
    (hw : ¬ L.blockLevel.wellFormed buffer p end_) (hc : count ≠ d.fMaxBlocks) :
    Decode.loop L buffer end_ (fuel + 1) d p count
      = Decode.loop L buffer end_ fuel (d.upd true (L.blockLevel.framing buffer p end_))
          (L.blockLevel.dataEnd buffer p) count := by
  rw [Decode.loop, if_pos hlt, Decode_body_malformed L buffer fuel d end_ p count hfit hw hc,
    if_neg (by simp [hexit]), Level_recover_off _ _ _ _ _ (by simpa using hrec),
    Step_ofRecovery_continue _ _ _ rfl]

theorem DecodeBlockData_loop_noRecover (L : Layout) (buffer : List Nat) (d : Decoder)
    (fuel blockHeader end_ p count : Nat) (hrec : d.fTryRecover = false)
    (hexit : d.fExitOnError = false) (hlt : p < end_) (hfit : p + L.sizeofDSPHeader ≤ end_)
    (hw : ¬ L.dspLevel.wellFormed buffer p end_) :
    DecodeBlockData.loop L buffer blockHeader end_ (fuel + 1) d p count
      = DecodeBlockData.loop L buffer blockHeader end_ fuel
          (d.upd true (L.dspLevel.framing buffer p end_)) (L.dspLevel.dataEnd buffer p) count := by
  rw [DecodeBlockData.loop, if_pos hlt,
    DecodeBlockData_body_malformed L buffer fuel d blockHeader end_ p count hfit hw,
    if_neg (by simp [hexit]), Level_recover_off _ _ _ _ _ (by simpa using hrec),
    Step_ofRecovery_continue _ _ _ rfl]

theorem DecodeDSPData_loop_noRecover (L : Layout) (buffer : List Nat) (d : Decoder)
    (fuel end_ p count : Nat) (hrec : d.fTryRecover = false) (hexit : d.fExitOnError = false)
    (hlt : p < end_) (hfit : p + L.sizeofBusPatchHeader ≤ end_)
    (hw : ¬ L.busPatchLevel.wellFormed buffer p end_) :
    DecodeDSPData.loop L buffer end_ (fuel + 1) d p count
      = DecodeDSPData.loop L buffer end_ fuel
          (d.upd true (L.busPatchLevel.framing buffer p end_))
          (L.busPatchLevel.dataEnd buffer p) count := by
  rw [DecodeDSPData.loop, if_pos hlt,
    DecodeDSPData_body_malformed L buffer fuel d end_ p count hfit hw,
    if_neg (by simp [hexit]), Level_recover_off _ _ _ _ _ (by simpa using hrec),
    Step_ofRecovery_continue _ _ _ rfl]

/-- C30: with "try recover" off, `TryRecoverStruct` returns
`kContinueToNextStruct` with `dataEnd`, `structEnd` and `current` as they were
passed, whatever the buffer holds and whatever the other arguments are.  With
"exit on error" off as well, the loop of each level, having reported the
errors of a malformed header at `p` (at block level: before all expected
blocks were found), goes on at `p + headerSize + 4 * length` with the count of
structures unchanged and nothing but those errors added to the callbacks. -/
theorem tryRecoverStruct_off_continues (L : Layout) (buffer : List Nat) (d : Decoder)
    (fuel end_ p count blockHeader : Nat) (hrec : d.fTryRecover = false) :
    (∀ (buffer2 : List Nat)
        (expectedKey headerSize totalLength length structStart bufferEnd : Nat)
        (dataEnd structEnd current : Nat),
        TryRecoverStruct d buffer2 expectedKey headerSize totalLength length structStart
            bufferEnd dataEnd structEnd current
          = ⟨RecoverResult.kContinueToNextStruct, dataEnd, structEnd, current⟩)
      ∧ (d.fExitOnError = false → p < end_ →
        (p + L.sizeofBlockHeader ≤ end_ → ¬ L.blockLevel.wellFormed buffer p end_ →
          count ≠ d.fMaxBlocks →
          Decode.loop L buffer end_ (fuel + 1) d p count
            = Decode.loop L buffer end_ fuel (d.upd true (L.blockLevel.framing buffer p end_))
                (p + L.sizeofBlockHeader + 4 * L.blockLevel.fLength buffer p) count)
        ∧ (p + L.sizeofDSPHeader ≤ end_ → ¬ L.dspLevel.wellFormed buffer p end_ →
          DecodeBlockData.loop L buffer blockHeader end_ (fuel + 1) d p count
            = DecodeBlockData.loop L buffer blockHeader end_ fuel
                (d.upd true (L.dspLevel.framing buffer p end_))
                (p + L.sizeofDSPHeader + 4 * L.dspLevel.fLength buffer p) count)
        ∧ (p + L.sizeofBusPatchHeader ≤ end_ → ¬ L.busPatchLevel.wellFormed buffer p end_ →
          DecodeDSPData.loop L buffer end_ (fuel + 1) d p count
            = DecodeDSPData.loop L buffer end_ fuel
                (d.upd true (L.busPatchLevel.framing buffer p end_))
                (p + L.sizeofBusPatchHeader + 4 * L.busPatchLevel.fLength buffer p) count)) := by
  have e : ∀ v : Level, p + v.sizeofHeader + 4 * v.fLength buffer p = v.dataEnd buffer p :=
    fun v => by simp only [Level.dataEnd, Level.dataStart]; omega
  refine ⟨fun buffer2 k hs tl len s be de se cur =>
      TryRecoverStruct_off d buffer2 k hs tl len s be de se cur hrec,
    fun hexit hlt => ⟨fun hfit hw hc => ?_, fun hfit hw => ?_, fun hfit hw => ?_⟩⟩
  · rw [Decode_loop_noRecover L buffer d fuel end_ p count hrec hexit hlt hfit hw hc]
    exact congrArg (fun x => Decode.loop L buffer end_ fuel _ x count) (e L.blockLevel).symm
  · rw [DecodeBlockData_loop_noRecover L buffer d fuel blockHeader end_ p count hrec hexit hlt
      hfit hw]
    exact congrArg (fun x => DecodeBlockData.loop L buffer blockHeader end_ fuel _ x count)
      (e L.dspLevel).symm
  · rw [DecodeDSPData_loop_noRecover L buffer d fuel end_ p count hrec hexit hlt hfit hw]
    exact congrArg (fun x => DecodeDSPData.loop L buffer end_ fuel _ x count)
      (e L.busPatchLevel).symm

/-- C30 on `skipBuffer`: for the bus patch header with the wrong key at
position 40, with length field 1, the loop of `DecodeDSPData` goes on at
position `40 + 12 + 4 * 1 = 56`. -/
theorem tryRecoverStruct_off_continues_witness :
    TryRecoverStruct noExitDecoder skipBuffer fgkBusPatchDataKey 12 4 1 40 72 56 56 56
        = ⟨RecoverResult.kContinueToNextStruct, 56, 56, 56⟩
      ∧ DecodeDSPData.loop specLayout skipBuffer 72 (9 + 1) noExitDecoder 40 0
        = DecodeDSPData.loop specLayout skipBuffer 72 9
            (noExitDecoder.upd true (specLayout.busPatchLevel.framing skipBuffer 40 72))
            (40 + specLayout.sizeofBusPatchHeader
              + 4 * specLayout.busPatchLevel.fLength skipBuffer 40) 0
      ∧ 40 + specLayout.sizeofBusPatchHeader
          + 4 * specLayout.busPatchLevel.fLength skipBuffer 40 = 56 :=
  ⟨(tryRecoverStruct_off_continues specLayout skipBuffer noExitDecoder 9 72 40 0 0 rfl).1
      skipBuffer fgkBusPatchDataKey 12 4 1 40 72 56 56 56,
    ((tryRecoverStruct_off_continues specLayout skipBuffer noExitDecoder 9 72 40 0 0 rfl).2
      rfl (by decide)).2.2 (by decide) (by decide), by decide⟩

/-! ## The glitch and the padding word of a DSP structure -/

theorem countError_of_rank (c : ErrorCode) (k : Nat) (hc : c.rank < k) (t : List Event)
    (h : ∀ e ∈ t, k ≤ e.rank) : countError c t = 0 := by
  induction t with
  | nil => rfl
  | cons e t ih =>
    rw [countError_cons, ih (fun x hx => h x (List.mem_cons_of_mem _ hx))]
    have he := h e (List.mem_cons_self _ _)
    cases e with
    | OnError c2 q =>
      have : c2 ≠ c := fun hcc => by
        simp only [Event.rank, hcc] at he
        omega
      simp [Event.isErrorCode, this]
    | _ => simp [Event.isErrorCode]

/-- Lines 584-597 and 599-618 for a DSP header within the limit: `OnNewDSP`,
then the glitch check and what follows it. -/
theorem DecodeBlockData_accept_eq (L : Layout) (buffer : List Nat) (fuel : Nat) (d : Decoder)
    (blockHeader dspStart dataStart dataEnd current count : Nat)
    (hc : count + 1 ≤ d.fMaxDSPs) (hm : d.fMaxDSPs < 2 ^ 32) :
    DecodeBlockData.accept L buffer fuel d blockHeader dspStart dataStart dataEnd current count
      = if isGlitch L buffer blockHeader dspStart then
          if d.fExitOnError = true then
            Step.exit (some false) (d.upd true [Event.OnNewDSP dspStart dataStart,
              Event.OnError ErrorCode.kGlitchFound (dspStart + L.dspErrorWord)])
          else if d.fTryRecover = true then
            Step.next (d.upd true [Event.OnNewDSP dspStart dataStart,
              Event.OnError ErrorCode.kGlitchFound (dspStart + L.dspErrorWord)])
              current (count + 1)
          else
            DecodeBlockData.padding L buffer fuel
              (d.upd true [Event.OnNewDSP dspStart dataStart,
                Event.OnError ErrorCode.kGlitchFound (dspStart + L.dspErrorWord)])
              dspStart dataStart dataEnd current (count + 1)
        else
          DecodeBlockData.padding L buffer fuel
            (d.upd d.fHadError [Event.OnNewDSP dspStart dataStart])
            dspStart dataStart dataEnd current (count + 1) := by
  unfold DecodeBlockData.accept isGlitch
  have h1 : (count + 1) % 2 ^ 32 = count + 1 := Nat.mod_eq_of_lt (by omega)
  simp only [h1, Decoder.OnNewDSP_eq, Decoder.OnError_eq, Decoder.setHadError_eq,
    Decoder.upd_upd, Decoder.upd_fExitOnError, Decoder.upd_fTryRecover, List.append_nil,
    List.singleton_append]
  rw [if_neg (by omega)]

/-- Lines 620-642: the padding word, then the bus patches. -/
theorem DecodeBlockData_padding_eq (L : Layout) (buffer : List Nat) (fuel : Nat) (d : Decoder)
    (dspStart dataStart dataEnd current count : Nat) :
    DecodeBlockData.padding L buffer fuel d dspStart dataStart dataEnd current count
      = if readUInt buffer (dspStart + L.dspPaddingWord) = 1 then
          if readUInt buffer (dataEnd - 4) = fgkPaddingWord then
            Step.afterCall (DecodeDSPData L buffer fuel d dataStart (dataEnd - 4)) current count
          else if d.fExitOnError = true then
            Step.exit (some false)
              (d.upd true [Event.OnError ErrorCode.kBadPaddingWord (dataEnd - 4)])
          else
            Step.afterCall
              (DecodeDSPData L buffer fuel
                (d.upd true [Event.OnError ErrorCode.kBadPaddingWord (dataEnd - 4)])
                dataStart (dataEnd - 4)) current count
        else
          Step.afterCall (DecodeDSPData L buffer fuel d dataStart dataEnd) current count := by
  unfold DecodeBlockData.padding DecodeBlockData.decodeDSP
  simp only [Decoder.OnError_eq, Decoder.setHadError_eq, Decoder.upd_upd,
    Decoder.upd_fExitOnError, List.append_nil, ne_eq, ite_not]

theorem DecodeBlockData_padding_noGlitch (L : Layout) (buffer : List Nat) (fuel : Nat)
    (d : Decoder) (dspStart dataStart dataEnd current count : Nat) :
    ∃ h t, (DecodeBlockData.padding L buffer fuel d dspStart dataStart dataEnd current
        count).decoder = d.upd h t ∧ countError ErrorCode.kGlitchFound t = 0 := by
  have hc : ∀ (d2 : Decoder) (a b : Nat), ∃ h t,
      (Step.afterCall (DecodeDSPData L buffer fuel d2 a b) current count).decoder = d2.upd h t
        ∧ countError ErrorCode.kGlitchFound t = 0 := by
    intro d2 a b
    obtain ⟨h, t, e, ht⟩ := Adds_afterCall current count
      (DecodeDSPData_loop_adds L buffer b fuel d2 a 0)
    exact ⟨h, t, e, countError_of_rank _ 5 (by decide) t ht⟩
  rw [DecodeBlockData_padding_eq]
  split_ifs with h1 h2 h3
  · exact hc _ _ _
  · exact ⟨true, _, rfl, by simp [countError, Event.isErrorCode]⟩
  · obtain ⟨h, t, e, ht⟩ := hc (d.upd true
      [Event.OnError ErrorCode.kBadPaddingWord (dataEnd - 4)]) dataStart (dataEnd - 4)
    refine ⟨h, Event.OnError ErrorCode.kBadPaddingWord (dataEnd - 4) :: t, ?_, ?_⟩
    · rw [e]; simp
    · rw [countError_cons, ht]; simp [Event.isErrorCode]
  · exact hc _ _ _

/-- C21 fails on `xorGlitchBuffer` and on `orGlitchBuffer`, decoded with the
default configuration: with the DSP id `1`, the error word `0xB0`, which is
`0xB1` "xor" the id, raises no `kGlitchFound`, and the error word `0xB1`,
which is neither `0xB1` "xor" the id nor `0x91` "xor" the id, raises it: the
code combines the pattern and the id by a bitwise "or". -/
theorem decode_glitch_xor_counterexample :
    (readUInt xorGlitchBuffer (16 + specLayout.dspErrorWord)
        = (0xB1 ^^^ readUInt xorGlitchBuffer (0 + specLayout.blockDSPId))
      ∧ Decode specLayout xorGlitchBuffer 5 Decoder.init 40
        = (some true, Decoder.init.upd false
            [Event.OnNewBuffer 0 40, Event.OnNewBlock 0 16, Event.OnNewDSP 16 40]))
      ∧ (readUInt orGlitchBuffer (16 + specLayout.dspErrorWord)
          ≠ (0xB1 ^^^ readUInt orGlitchBuffer (0 + specLayout.blockDSPId))
        ∧ readUInt orGlitchBuffer (16 + specLayout.dspErrorWord)
          ≠ (0x91 ^^^ readUInt orGlitchBuffer (0 + specLayout.blockDSPId))
        ∧ Decode specLayout orGlitchBuffer 5 Decoder.init 40
          = (some false, Decoder.init.upd true
              [Event.OnNewBuffer 0 40, Event.OnNewBlock 0 16, Event.OnNewDSP 16 40,
                Event.OnError ErrorCode.kGlitchFound 32])) := by
  refine ⟨⟨?_, ?_⟩, ?_, ?_, ?_⟩ <;> decide

/-- C21, amended: for every DSP header that is accepted (directly or after
recovery, the count of DSP structures being within the limit), the callbacks
of the pass begin with `OnNewDSP`, and among the callbacks behind it
`OnError(kGlitchFound)` occurs exactly once, as the first of them and with the
position of the error word, if the error word equals `0xB1` or `0x91` combined
by a bitwise "or" with the DSP id of the enclosing block, and does not occur
otherwise.  The same holds of a pass through the loop body over a header that
passes the four checks. -/
theorem decode_glitch_once (L : Layout) (buffer : List Nat) (fuel : Nat) (d : Decoder)
    (blockHeader dspStart dataStart dataEnd current count end_ : Nat)
    (hc : count + 1 ≤ d.fMaxDSPs) (hm : d.fMaxDSPs < 2 ^ 32) :
    (∃ t, (DecodeBlockData.accept L buffer fuel d blockHeader dspStart dataStart dataEnd current
          count).decoder.fHandler = d.fHandler ++ Event.OnNewDSP dspStart dataStart :: t
        ∧ countError ErrorCode.kGlitchFound t
          = (if isGlitch L buffer blockHeader dspStart then 1 else 0)
        ∧ (isGlitch L buffer blockHeader dspStart →
          t.head? = some (Event.OnError ErrorCode.kGlitchFound (dspStart + L.dspErrorWord))))
      ∧ (dspStart + L.sizeofDSPHeader ≤ end_ → L.dspLevel.wellFormed buffer dspStart end_ →
        ∃ t, (DecodeBlockData.body L buffer fuel d blockHeader end_ dspStart
            count).decoder.fHandler
            = d.fHandler ++ Event.OnNewDSP dspStart (L.dspLevel.dataStart dspStart) :: t
          ∧ countError ErrorCode.kGlitchFound t
            = (if isGlitch L buffer blockHeader dspStart then 1 else 0)
          ∧ (isGlitch L buffer blockHeader dspStart →
            t.head?
              = some (Event.OnError ErrorCode.kGlitchFound (dspStart + L.dspErrorWord)))) := by
  have key : ∀ (ds de cur : Nat), ∃ t,
      (DecodeBlockData.accept L buffer fuel d blockHeader dspStart ds de cur
          count).decoder.fHandler = d.fHandler ++ Event.OnNewDSP dspStart ds :: t
        ∧ countError ErrorCode.kGlitchFound t
          = (if isGlitch L buffer blockHeader dspStart then 1 else 0)
        ∧ (isGlitch L buffer blockHeader dspStart →
          t.head? = some (Event.OnError ErrorCode.kGlitchFound (dspStart + L.dspErrorWord))) := by
    intro ds de cur
    rw [DecodeBlockData_accept_eq L buffer fuel d _ _ _ _ _ _ hc hm]
    by_cases hg : isGlitch L buffer blockHeader dspStart
    · rw [if_pos hg, if_pos hg]
      have hone : countError ErrorCode.kGlitchFound
          [Event.OnError ErrorCode.kGlitchFound (dspStart + L.dspErrorWord)] = 1 := by
        simp [countError, Event.isErrorCode]
      split_ifs with hx hr
      · exact ⟨[Event.OnError ErrorCode.kGlitchFound (dspStart + L.dspErrorWord)], rfl, hone,
          fun _ => rfl⟩
      · exact ⟨[Event.OnError ErrorCode.kGlitchFound (dspStart + L.dspErrorWord)], rfl, hone,
          fun _ => rfl⟩
      · obtain ⟨h, t, e, ht⟩ := DecodeBlockData_padding_noGlitch L buffer fuel
          (d.upd true [Event.OnNewDSP dspStart ds,
            Event.OnError ErrorCode.kGlitchFound (dspStart + L.dspErrorWord)])
          dspStart ds de cur (count + 1)
        refine ⟨Event.OnError ErrorCode.kGlitchFound (dspStart + L.dspErrorWord) :: t, ?_, ?_,
          fun _ => rfl⟩
        · rw [e]; simp
        · rw [countError_cons, ht]; simp [Event.isErrorCode]
    · rw [if_neg hg, if_neg hg]
      obtain ⟨h, t, e, ht⟩ := DecodeBlockData_padding_noGlitch L buffer fuel
        (d.upd d.fHadError [Event.OnNewDSP dspStart ds]) dspStart ds de cur (count + 1)
      exact ⟨t, by rw [e]; simp, ht, fun h => absurd h hg⟩
  refine ⟨key _ _ _, fun hfit hw => ?_⟩
  rw [DecodeBlockData_body_wellFormed L buffer fuel d blockHeader end_ dspStart count hfit hw]
  exact key _ _ _

/-- C21, amended, on `orGlitchBuffer`: the DSP header at position 16, whose
error word is `0xB1 "or" 1`. -/
theorem decode_glitch_once_witness :
    isGlitch specLayout orGlitchBuffer 0 16
      ∧ ∃ t, (DecodeBlockData.body specLayout orGlitchBuffer 4 Decoder.init 0 40 16
          0).decoder.fHandler
          = Decoder.init.fHandler ++ Event.OnNewDSP 16 (specLayout.dspLevel.dataStart 16) :: t
        ∧ countError ErrorCode.kGlitchFound t
          = (if isGlitch specLayout orGlitchBuffer 0 16 then 1 else 0)
        ∧ (isGlitch specLayout orGlitchBuffer 0 16 →
          t.head? = some (Event.OnError ErrorCode.kGlitchFound (16 + specLayout.dspErrorWord))) :=
  ⟨by decide,
    (decode_glitch_once specLayout orGlitchBuffer 4 Decoder.init 0 16 0 0 0 0 40 (by decide)
      (by decide)).2 (by decide) (by decide)⟩

/-- C22 fails on `glitchBuffer`, decoded with "exit on error" off and "try
recover" on: the first DSP structure, at 16 with its header up to 40, has a
glitch; the next occurrence of the DSP key after its header is its payload
word at 40, which is what a key search finds, from the end of the header as
from the second word of the header; but no DSP structure is announced at 40:
the loop goes on at 44, the end of the glitched DSP structure, where the next
header is read without any key search. -/
theorem decode_glitch_resume_counterexample :
    FindKey glitchBuffer fgkDSPDataKey 40 68 = some 40
      ∧ FindKey glitchBuffer fgkDSPDataKey (16 + 4) 68 = some 40
      ∧ Decode specLayout glitchBuffer 6 recoverDecoder 68
        = (some false, recoverDecoder.upd true
            [Event.OnNewBuffer 0 68, Event.OnNewBlock 0 16, Event.OnNewDSP 16 40,
              Event.OnError ErrorCode.kGlitchFound 32, Event.OnNewDSP 44 68]) := by
  refine ⟨?_, ?_, ?_⟩ <;> decide

/-- C22, amended: with ExitOnError = false and TryRecover = true, the pass
over an accepted DSP header with a glitch (the count of DSP structures being
within the limit) issues `OnNewDSP` and `OnError(kGlitchFound)` and nothing
else, so no bus patch and no data word of that DSP structure, and does not
leave `DecodeBlockData`: it goes to the next test of the loop condition with
the cursor where it was, at the end of the glitched DSP structure.  For a
header that passes the four checks the loop therefore goes on by reading the
header at the end computed from the length field; the key is searched only if
that header is malformed in its turn. -/
theorem decode_glitch_continues (L : Layout) (buffer : List Nat) (fuel : Nat) (d : Decoder)
    (blockHeader dspStart end_ count : Nat)
    (hx : d.fExitOnError = false) (hr : d.fTryRecover = true)
    (hc : count + 1 ≤ d.fMaxDSPs) (hm : d.fMaxDSPs < 2 ^ 32)
    (hg : isGlitch L buffer blockHeader dspStart) :
    (∀ dataStart dataEnd current : Nat,
        DecodeBlockData.accept L buffer fuel d blockHeader dspStart dataStart dataEnd current
            count
          = Step.next (d.upd true [Event.OnNewDSP dspStart dataStart,
              Event.OnError ErrorCode.kGlitchFound (dspStart + L.dspErrorWord)])
              current (count + 1))
      ∧ (dspStart < end_ → dspStart + L.sizeofDSPHeader ≤ end_ →
        L.dspLevel.wellFormed buffer dspStart end_ →
        DecodeBlockData.loop L buffer blockHeader end_ (fuel + 1) d dspStart count
          = DecodeBlockData.loop L buffer blockHeader end_ fuel
              (d.upd true [Event.OnNewDSP dspStart (L.dspLevel.dataStart dspStart),
                Event.OnError ErrorCode.kGlitchFound (dspStart + L.dspErrorWord)])
              (L.dspLevel.dataEnd buffer dspStart) (count + 1)) := by
  have key : ∀ dataStart dataEnd current : Nat,
      DecodeBlockData.accept L buffer fuel d blockHeader dspStart dataStart dataEnd current
          count
        = Step.next (d.upd true [Event.OnNewDSP dspStart dataStart,
            Event.OnError ErrorCode.kGlitchFound (dspStart + L.dspErrorWord)])
            current (count + 1) := by
    intro dataStart dataEnd current
    rw [DecodeBlockData_accept_eq L buffer fuel d _ _ _ _ _ _ hc hm, if_pos hg,
      if_neg (by simp [hx]), if_pos hr]
  refine ⟨key, fun hlt hfit hw => ?_⟩
  rw [DecodeBlockData.loop, if_pos hlt,
    DecodeBlockData_body_wellFormed L buffer fuel d blockHeader end_ dspStart count hfit hw,
    key]

/-- C22, amended, on `glitchBuffer`: the glitched DSP structure at 16 in the
block at 0, which ends at 68. -/
theorem decode_glitch_continues_witness :
    (∀ dataStart dataEnd current : Nat,
        DecodeBlockData.accept specLayout glitchBuffer 4 recoverDecoder 0 16 dataStart dataEnd
            current 0
          = Step.next (recoverDecoder.upd true [Event.OnNewDSP 16 dataStart,
              Event.OnError ErrorCode.kGlitchFound (16 + specLayout.dspErrorWord)])
              current (0 + 1))
      ∧ ((16 : Nat) < 68 → 16 + specLayout.sizeofDSPHeader ≤ 68 →
        specLayout.dspLevel.wellFormed glitchBuffer 16 68 →
        DecodeBlockData.loop specLayout glitchBuffer 0 68 (4 + 1) recoverDecoder 16 0
          = DecodeBlockData.loop specLayout glitchBuffer 0 68 4
              (recoverDecoder.upd true [Event.OnNewDSP 16 (specLayout.dspLevel.dataStart 16),
                Event.OnError ErrorCode.kGlitchFound (16 + specLayout.dspErrorWord)])
              (specLayout.dspLevel.dataEnd glitchBuffer 16) (0 + 1)) :=
  decode_glitch_continues specLayout glitchBuffer 4 recoverDecoder 0 16 68 0 (by decide)
    (by decide) (by decide) (by decide) (by decide)

/-! ## After the failure of a payload -/

theorem SubPost_failed {d : Decoder} {res : Option Bool × Decoder} (hp : SubPost d res)
    (hf : res.1 = some false) : res.2.fHadError = true := by
  obtain ⟨t, e, h, _⟩ := hp
  rw [e, Decoder.upd_fHadError, h hf, Bool.or_true]

theorem Decode_loop_hadError (L : Layout) (buffer : List Nat) (end_ fuel : Nat) (d : Decoder)
    (current count : Nat) (hd : d.fHadError = true) :
    (Decode.loop L buffer end_ fuel d current count).1 ≠ some true := by
  obtain ⟨h, t, _, e, _⟩ := Decode_loop_post L buffer end_ fuel d current count
  intro hc
  have := e true hc
  simp [hd] at this

/-- Lines 620-642 with "exit on error" off: the call of `DecodeDSPData` that
is made, and what follows it. -/
theorem DecodeBlockData_padding_call (L : Layout) (buffer : List Nat) (fuel : Nat)
    (d : Decoder) (dspStart dataStart dataEnd current count : Nat)
    (hx : d.fExitOnError = false) :
    DecodeBlockData.padding L buffer fuel d dspStart dataStart dataEnd current count
      = Step.afterCall
          (DecodeDSPData L buffer fuel
            (if readUInt buffer (dspStart + L.dspPaddingWord) = 1
                ∧ readUInt buffer (dataEnd - 4) ≠ fgkPaddingWord then
              d.upd true [Event.OnError ErrorCode.kBadPaddingWord (dataEnd - 4)]
            else d)
            dataStart
            (if readUInt buffer (dspStart + L.dspPaddingWord) = 1 then dataEnd - 4
              else dataEnd))
          current count := by
  rw [DecodeBlockData_padding_eq]
  by_cases h1 : readUInt buffer (dspStart + L.dspPaddingWord) = 1
  · by_cases h2 : readUInt buffer (dataEnd - 4) = fgkPaddingWord
    · simp [h1, h2]
    · simp [h1, h2, hx]
  · simp [h1]

theorem DecodeDSPData_failed (L : Layout) (buffer : List Nat) (fuel : Nat) (d1 : Decoder)
    (a e current count : Nat) (d2 : Decoder) (hx : d1.fExitOnError = false)
    (hres : DecodeDSPData L buffer fuel d1 a e = (some false, d2)) :
    Step.afterCall (DecodeDSPData L buffer fuel d1 a e) current count
        = Step.next d2 current count
      ∧ d2.fHadError = true := by
  have hp := DecodeDSPData_loop_post L buffer e fuel d1 a 0
  have hres2 : DecodeDSPData.loop L buffer e fuel d1 a 0 = (some false, d2) := hres
  rw [hres2] at hp
  have hx2 : d2.fExitOnError = false := by
    have := SubPost_fExitOnError hp
    simpa [hx] using this
  exact ⟨by rw [hres, Step_afterCall_noExit false d2 _ _ hx2], SubPost_failed hp rfl⟩

/-! ## The part of the memory that is read -/

theorem agreeOn_readUInt {lo hi : Nat} {b b2 : List Nat} (h : agreeOn lo hi b b2) (p : Nat)
    (h1 : lo ≤ p) (h2 : p + 4 ≤ hi) : readUInt b p = readUInt b2 p := by
  unfold readUInt
  rw [h p (by omega) h1, h (p + 1) (by omega) (by omega), h (p + 2) (by omega) (by omega),
    h (p + 3) (by omega) (by omega)]

theorem agreeOn_mono {lo hi lo2 hi2 : Nat} {b b2 : List Nat} (h : agreeOn lo hi b b2)
    (h1 : lo ≤ lo2) (h2 : hi2 ≤ hi) : agreeOn lo2 hi2 b b2 :=
  fun p hp hq => h p (by omega) (by omega)

theorem FindKey_loop_agree {lo hi : Nat} {b b2 : List Nat} (h : agreeOn lo hi b b2)
    (key end_ : Nat) (he : end_ ≤ hi) (n : Nat) :
    ∀ current, lo ≤ current →
      FindKey.loop b key end_ n current = FindKey.loop b2 key end_ n current := by
  induction n with
  | zero => intro current _; rfl
  | succ n ih =>
    intro current hc
    rw [FindKey.loop, FindKey.loop]
    by_cases h1 : current + 4 ≤ end_
    · rw [if_pos h1, if_pos h1, agreeOn_readUInt h current hc (by omega),
        ih (current + 1) (by omega)]
    · rw [if_neg h1, if_neg h1]

theorem FindKey_agree {lo hi : Nat} {b b2 : List Nat} (h : agreeOn lo hi b b2)
    (key start end_ : Nat) (hs : lo ≤ start) (he : end_ ≤ hi) :
    FindKey b key start end_ = FindKey b2 key start end_ :=
  FindKey_loop_agree h key end_ he _ start hs

theorem keyAt_agree {lo hi : Nat} {b b2 : List Nat} (h : agreeOn lo hi b b2)
    (p bufferEnd key1 key2 : Nat) (hp : lo ≤ p) (he : bufferEnd ≤ hi) :
    TryRecoverStruct.keyAt b p bufferEnd key1 key2
      = TryRecoverStruct.keyAt b2 p bufferEnd key1 key2 := by
  unfold TryRecoverStruct.keyAt
  by_cases h1 : p = bufferEnd
  · rw [if_pos h1, if_pos h1]
  · rw [if_neg h1, if_neg h1]
    by_cases h2 : p + 4 ≤ bufferEnd
    · rw [if_pos h2, if_pos h2, agreeOn_readUInt h p hp (by omega)]
    · rw [if_neg h2, if_neg h2]

/-- `TryRecoverStruct` reads the first word of the header, the words at
`dataEnd` and `structEnd` if they lie before `bufferEnd`, and the words of the
key search, all of them between `structStart`, `dataEnd` or `structEnd` and
`bufferEnd`. -/
theorem TryRecoverStruct_agree {lo hi : Nat} {b b2 : List Nat} (h : agreeOn lo hi b b2)
    (d : Decoder)
    (expectedKey headerSize totalLength length structStart bufferEnd : Nat)
    (dataEnd structEnd current : Nat)
    (hs : lo ≤ structStart) (hk : structStart + 4 ≤ bufferEnd) (he : bufferEnd ≤ hi)
    (hde : lo ≤ dataEnd) (hse : lo ≤ structEnd) :
    TryRecoverStruct d b expectedKey headerSize totalLength length structStart bufferEnd
        dataEnd structEnd current
      = TryRecoverStruct d b2 expectedKey headerSize totalLength length structStart bufferEnd
        dataEnd structEnd current := by
  unfold TryRecoverStruct
  rw [agreeOn_readUInt h structStart hs (by omega),
    FindKey_agree h expectedKey (structStart + 4) bufferEnd (by omega) he]
  simp only [keyAt_agree h dataEnd bufferEnd _ _ hde he,
    keyAt_agree h structEnd bufferEnd _ _ hse he]

/-- `DecodeBusPatchData` reads the words from `data` up to `dataEnd`, provided
`dataEnd` does not lie behind `data` or lies a whole number of words behind
it. -/
theorem DecodeBusPatchData_agree {lo hi : Nat} {b b2 : List Nat} (h : agreeOn lo hi b b2)
    (dataEnd : Nat) (he : dataEnd ≤ hi) (fuel : Nat) :
    ∀ (d : Decoder) (data : Nat), lo ≤ data → (dataEnd ≤ data ∨ (dataEnd - data) % 4 = 0) →
      DecodeBusPatchData b fuel d data dataEnd = DecodeBusPatchData b2 fuel d data dataEnd := by
  induction fuel with
  | zero => intro d data _ _; rfl
  | succ fuel ih =>
    intro d data hd ha
    rw [DecodeBusPatchData, DecodeBusPatchData]
    by_cases h1 : data < dataEnd
    · have h4 : data + 4 ≤ dataEnd := by omega
      have ha2 : dataEnd ≤ data + 4 ∨ (dataEnd - (data + 4)) % 4 = 0 := by omega
      rw [if_pos h1, if_pos h1, agreeOn_readUInt h data hd (by omega)]
      simp only [ih _ (data + 4) (by omega) ha2]
    · rw [if_neg h1, if_neg h1]

/-! ### The header of a structure and its recovery -/

theorem Level_header_agree {lo hi : Nat} {b b2 : List Nat} (h : agreeOn lo hi b b2) (v : Level)
    (hv : v.fieldsInside) (p : Nat) (hp : lo ≤ p) (he : p + v.sizeofHeader ≤ hi) :
    v.fDataKey b p = v.fDataKey b2 p ∧ v.fLength b p = v.fLength b2 p
      ∧ v.fTotalLength b p = v.fTotalLength b2 p := by
  obtain ⟨h1, h2, h3⟩ := hv
  exact ⟨agreeOn_readUInt h _ (by omega) (by omega), agreeOn_readUInt h _ (by omega) (by omega),
    agreeOn_readUInt h _ (by omega) (by omega)⟩

theorem Level_dataEnd_agree {lo hi : Nat} {b b2 : List Nat} (h : agreeOn lo hi b b2) (v : Level)
    (hv : v.fieldsInside) (p : Nat) (hp : lo ≤ p) (he : p + v.sizeofHeader ≤ hi) :
    v.dataEnd b p = v.dataEnd b2 p := by
  unfold Level.dataEnd
  rw [(Level_header_agree h v hv p hp he).2.1]

theorem Level_structEnd_agree {lo hi : Nat} {b b2 : List Nat} (h : agreeOn lo hi b b2)
    (v : Level) (hv : v.fieldsInside) (p : Nat) (hp : lo ≤ p) (he : p + v.sizeofHeader ≤ hi) :
    v.structEnd b p = v.structEnd b2 p := by
  unfold Level.structEnd
  rw [(Level_header_agree h v hv p hp he).2.2]

theorem Level_wellFormed_agree {lo hi : Nat} {b b2 : List Nat} (h : agreeOn lo hi b b2)
    (v : Level) (hv : v.fieldsInside) (p end_ : Nat) (hp : lo ≤ p)
    (he : p + v.sizeofHeader ≤ hi) :
    v.wellFormed b p end_ ↔ v.wellFormed b2 p end_ := by
  unfold Level.wellFormed
  rw [(Level_header_agree h v hv p hp he).1, Level_dataEnd_agree h v hv p hp he,
    Level_structEnd_agree h v hv p hp he]

theorem Level_framing_agree {lo hi : Nat} {b b2 : List Nat} (h : agreeOn lo hi b b2)
    (v : Level) (hv : v.fieldsInside) (p end_ : Nat) (hp : lo ≤ p)
    (he : p + v.sizeofHeader ≤ hi) :
    v.framing b p end_ = v.framing b2 p end_ := by
  unfold Level.framing
  rw [(Level_header_agree h v hv p hp he).1, Level_dataEnd_agree h v hv p hp he,
    Level_structEnd_agree h v hv p hp he]

theorem Level_recover_agree {lo hi : Nat} {b b2 : List Nat} (h : agreeOn lo hi b b2)
    (v : Level) (hv : v.fieldsInside) (d : Decoder) (p end_ : Nat) (hp : lo ≤ p)
    (hfit : p + v.sizeofHeader ≤ end_) (he : end_ ≤ hi) :
    v.recover d b p end_ = v.recover d b2 p end_ := by
  have h4 : 4 ≤ v.sizeofHeader := by
    have := hv.1
    omega
  unfold Level.recover
  rw [(Level_header_agree h v hv p hp (by omega)).2.1,
    (Level_header_agree h v hv p hp (by omega)).2.2,
    Level_dataEnd_agree h v hv p hp (by omega), Level_structEnd_agree h v hv p hp (by omega)]
  exact TryRecoverStruct_agree h d _ _ _ _ p end_ _ _ _ hp (by omega) he
    (by simp only [Level.dataEnd, Level.dataStart]; omega)
    (by simp only [Level.structEnd]; omega)

theorem Level_trusts_le {v : Level} {buffer : List Nat} {p bufferEnd : Nat}
    (h : v.trusts buffer p bufferEnd) : p ≤ bufferEnd := by
  rcases h with h | h
  · omega
  · omega

/-- The ends that `TryRecoverStruct` gives to a recovered structure: `dataEnd`
lies between the start of the structure and the end of the enclosing one, and
does not lie behind the start of the payload or lies a whole number of words
behind it; `current` lies at or behind the start of the structure. -/
theorem Level_recover_recovered (L : Layout) (v : Level) (hv : v.ofLayout L) (d : Decoder)
    (buffer : List Nat) (p end_ : Nat) (h4 : v.sizeofHeader % 4 = 0)
    (hr : (v.recover d buffer p end_).result = RecoverResult.kStructRecovered) :
    (v.recover d buffer p end_).dataEnd ≤ end_
      ∧ p ≤ (v.recover d buffer p end_).dataEnd
      ∧ ((v.recover d buffer p end_).dataEnd ≤ v.dataStart p
        ∨ ((v.recover d buffer p end_).dataEnd - v.dataStart p) % 4 = 0)
      ∧ p ≤ (v.recover d buffer p end_).current := by
  have hde : v.dataStart p ≤ v.dataEnd buffer p
      ∧ (v.dataEnd buffer p - v.dataStart p) % 4 = 0 := by
    simp only [Level.dataEnd]
    omega
  have hds : v.dataStart p = p + v.sizeofHeader := rfl
  have hse : p ≤ v.structEnd buffer p
      ∧ (v.structEnd buffer p ≤ v.dataStart p
        ∨ (v.structEnd buffer p - v.dataStart p) % 4 = 0) := by
    simp only [Level.structEnd, Level.dataStart]
    omega
  by_cases hrec : d.fTryRecover = true
  · unfold Level.recover at hr ⊢
    rw [TryRecoverStruct_rows L v hv d buffer _ _ _ _ _ _ _ _ hrec] at hr ⊢
    split_ifs at hr ⊢ with a1 a2 a3
    · dsimp only
      exact ⟨Level_trusts_le a1.2, by omega, Or.inr hde.2, by omega⟩
    · dsimp only
      exact ⟨Level_trusts_le a2.2, hse.1, hse.2, hse.1⟩
    · dsimp only
      exact ⟨Level_trusts_le a3.2.1, by omega, Or.inr hde.2, by omega⟩
    · exfalso
      revert hr
      unfold Recovery.scan
      cases FindKey buffer v.key (p + 4) end_ <;> simp
  · rw [Level_recover_off v d buffer p end_ (by simpa using hrec)] at hr
    simp at hr

theorem Level_recover_le (L : Layout) (v : Level) (hv : v.ofLayout L) (d : Decoder)
    (buffer : List Nat) (p end_ : Nat) (h4 : 4 ≤ v.sizeofHeader) :
    p ≤ (v.recover d buffer p end_).current := by
  rcases Level_recover_current L v hv d buffer p end_ h4 with h | h <;> omega

/-! ### The loop over bus patches -/

theorem DecodeDSPData_accept_agree {lo hi : Nat} {b b2 : List Nat} (h : agreeOn lo hi b b2)
    (fuel : Nat) (d : Decoder) (busPatchStart dataStart dataEnd current count : Nat)
    (hs : lo ≤ dataStart) (he : dataEnd ≤ hi)
    (ha : dataEnd ≤ dataStart ∨ (dataEnd - dataStart) % 4 = 0) :
    DecodeDSPData.accept b fuel d busPatchStart dataStart dataEnd current count
      = DecodeDSPData.accept b2 fuel d busPatchStart dataStart dataEnd current count := by
  unfold DecodeDSPData.accept
  simp only [DecodeBusPatchData_agree h dataEnd he fuel _ dataStart hs ha]

theorem DecodeDSPData_accept_next {buffer : List Nat} {fuel : Nat} {d : Decoder}
    {busPatchStart dataStart dataEnd current count : Nat} {d2 : Decoder} {p2 n2 : Nat}
    (h : DecodeDSPData.accept buffer fuel d busPatchStart dataStart dataEnd current count
      = Step.next d2 p2 n2) : p2 = current := by
  unfold DecodeDSPData.accept at h
  simp only at h
  split_ifs at h
  exact (Step_afterCall_next h).1

theorem Step_ofRecovery_le {r : Recovery} {d : Decoder} {count : Nat}
    {accept : Nat → Nat → Step} {p : Nat} {d2 : Decoder} {p2 n2 : Nat}
    (hr : p ≤ r.current)
    (ha : ∀ dataEnd current, accept dataEnd current = Step.next d2 p2 n2 → p2 = current)
    (h : Step.ofRecovery r d count accept = Step.next d2 p2 n2) : p ≤ p2 := by
  unfold Step.ofRecovery at h
  split at h
  · simp only [Step.next.injEq] at h
    omega
  · simp at h
  · rw [ha _ _ h]
    exact hr

/-- A pass through the body of the loop over bus patches does not move the
cursor backwards. -/
theorem DecodeDSPData_body_le (L : Layout) (buffer : List Nat) (fuel : Nat) (d : Decoder)
    (end_ p count : Nat) (h4 : 4 ≤ L.sizeofBusPatchHeader) {d2 : Decoder} {p2 n2 : Nat}
    (h : DecodeDSPData.body L buffer fuel d end_ p count = Step.next d2 p2 n2) : p ≤ p2 := by
  by_cases hfit : p + L.sizeofBusPatchHeader ≤ end_
  · by_cases hw : L.busPatchLevel.wellFormed buffer p end_
    · rw [DecodeDSPData_body_wellFormed L buffer fuel d end_ p count hfit hw] at h
      rw [DecodeDSPData_accept_next h]
      simp only [Level.dataEnd, Level.dataStart]
      omega
    · rw [DecodeDSPData_body_malformed L buffer fuel d end_ p count hfit hw] at h
      split_ifs at h
      exact Step_ofRecovery_le
        (Level_recover_le L L.busPatchLevel (Or.inr (Or.inr rfl)) _ buffer p end_ h4)
        (fun _ _ ha => DecodeDSPData_accept_next ha) h
  · rw [DecodeDSPData_body_noHeader L buffer fuel d end_ p count (by omega)] at h
    simp at h

/-- A pass through the body of the loop over bus patches reads the memory
between the cursor and the end of the DSP structure only. -/
theorem DecodeDSPData_body_agree {lo hi : Nat} {b b2 : List Nat} (h : agreeOn lo hi b b2)
    (L : Layout) (hL : L.sizeofBusPatchHeader % 4 = 0) (hF : L.busPatchLevel.fieldsInside)
    (fuel : Nat) (d : Decoder) (end_ p count : Nat) (hp : lo ≤ p) (he : end_ ≤ hi) :
    DecodeDSPData.body L b fuel d end_ p count = DecodeDSPData.body L b2 fuel d end_ p count := by
  by_cases hfit : p + L.sizeofBusPatchHeader ≤ end_
  · have hfit2 : p + L.busPatchLevel.sizeofHeader ≤ hi := by
      have : L.busPatchLevel.sizeofHeader = L.sizeofBusPatchHeader := rfl
      omega
    have hde := Level_dataEnd_agree h L.busPatchLevel hF p hp hfit2
    by_cases hw : L.busPatchLevel.wellFormed b p end_
    · have hw2 := (Level_wellFormed_agree h L.busPatchLevel hF p end_ hp hfit2).1 hw
      rw [DecodeDSPData_body_wellFormed L b fuel d end_ p count hfit hw,
        DecodeDSPData_body_wellFormed L b2 fuel d end_ p count hfit hw2, ← hde]
      exact DecodeDSPData_accept_agree h fuel d p _ _ _ count
        (by simp only [Level.dataStart]; omega) (le_trans hw.2.1 he)
        (Or.inr (by simp only [Level.dataEnd]; omega))
    · have hw2 : ¬ L.busPatchLevel.wellFormed b2 p end_ := fun hc =>
        hw ((Level_wellFormed_agree h L.busPatchLevel hF p end_ hp hfit2).2 hc)
      rw [DecodeDSPData_body_malformed L b fuel d end_ p count hfit hw,
        DecodeDSPData_body_malformed L b2 fuel d end_ p count hfit hw2,
        ← Level_framing_agree h L.busPatchLevel hF p end_ hp hfit2]
      by_cases hx : d.fExitOnError = true
      · rw [if_pos hx, if_pos hx]
      · rw [if_neg hx, if_neg hx,
          ← Level_recover_agree h L.busPatchLevel hF _ p end_ hp hfit he]
        cases hr : (L.busPatchLevel.recover
          (d.upd true (L.busPatchLevel.framing b p end_)) b p end_).result with
        | kRecoverFailed =>
          rw [Step_ofRecovery_failed _ _ _ hr, Step_ofRecovery_failed _ _ _ hr]
        | kContinueToNextStruct =>
          rw [Step_ofRecovery_continue _ _ _ hr, Step_ofRecovery_continue _ _ _ hr]
        | kStructRecovered =>
          rw [Step_ofRecovery_recovered _ _ _ hr, Step_ofRecovery_recovered _ _ _ hr]
          obtain ⟨r1, r2, r3, _⟩ := Level_recover_recovered L L.busPatchLevel
            (Or.inr (Or.inr rfl)) _ b p end_ hL hr
          exact DecodeDSPData_accept_agree h fuel _ p _ _ _ count
            (by simp only [Level.dataStart]; omega) (le_trans r1 he) r3
  · rw [DecodeDSPData_body_noHeader L b fuel d end_ p count (by omega),
      DecodeDSPData_body_noHeader L b2 fuel d end_ p count (by omega)]

/-- `DecodeDSPData` reads the memory between `start` and `end` only. -/
theorem DecodeDSPData_loop_agree {lo hi : Nat} {b b2 : List Nat} (h : agreeOn lo hi b b2)
    (L : Layout) (hL : L.sizeofBusPatchHeader % 4 = 0) (hF : L.busPatchLevel.fieldsInside)
    (end_ : Nat) (he : end_ ≤ hi) (fuel : Nat) :
    ∀ (d : Decoder) (current count : Nat), lo ≤ current →
      DecodeDSPData.loop L b end_ fuel d current count
        = DecodeDSPData.loop L b2 end_ fuel d current count := by
  have h4 : 4 ≤ L.sizeofBusPatchHeader := by
    have := hF.1
    have : L.busPatchLevel.sizeofHeader = L.sizeofBusPatchHeader := rfl
    omega
  induction fuel with
  | zero => intro d current count _; rfl
  | succ fuel ih =>
    intro d current count hc
    rw [DecodeDSPData.loop, DecodeDSPData.loop,
      ← DecodeDSPData_body_agree h L hL hF fuel d end_ current count hc he]
    by_cases h1 : current < end_
    · rw [if_pos h1, if_pos h1]
      cases hb : DecodeDSPData.body L b fuel d end_ current count with
      | exit ret d2 => rfl
      | next d2 c2 n2 =>
        exact ih d2 c2 n2 (le_trans hc (DecodeDSPData_body_le L b fuel d end_ current count h4 hb))
    · rw [if_neg h1, if_neg h1]

theorem DecodeDSPData_agree {lo hi : Nat} {b b2 : List Nat} (h : agreeOn lo hi b b2)
    (L : Layout) (hL : L.sizeofBusPatchHeader % 4 = 0) (hF : L.busPatchLevel.fieldsInside)
    (fuel : Nat) (d : Decoder) (start end_ : Nat) (hs : lo ≤ start) (he : end_ ≤ hi) :
    DecodeDSPData L b fuel d start end_ = DecodeDSPData L b2 fuel d start end_ :=
  DecodeDSPData_loop_agree h L hL hF end_ he fuel d start 0 hs

/-! ### The loop over DSP structures -/

/-- Lines 620-642 read the padding flag of the DSP header, the word before
`dataEnd`, and what `DecodeDSPData` reads. -/
theorem DecodeBlockData_padding_agree {lo hi : Nat} {b b2 : List Nat}
    (h : agreeOn lo hi b b2) (L : Layout) (hL : L.sizeofBusPatchHeader % 4 = 0)
    (hF : L.fieldsInside) (fuel : Nat) (d : Decoder)
    (dspStart dataStart dataEnd current count : Nat)
    (hs : lo ≤ dspStart) (hh : dspStart + L.sizeofDSPHeader ≤ hi) (hds : lo ≤ dataStart)
    (h4 : lo + 4 ≤ dataEnd) (he : dataEnd ≤ hi) :
    DecodeBlockData.padding L b fuel d dspStart dataStart dataEnd current count
      = DecodeBlockData.padding L b2 fuel d dspStart dataStart dataEnd current count := by
  have hpad := hF.2.1.2.1
  rw [DecodeBlockData_padding_eq, DecodeBlockData_padding_eq,
    agreeOn_readUInt h (dspStart + L.dspPaddingWord) (by omega) (by omega),
    agreeOn_readUInt h (dataEnd - 4) (by omega) (by omega)]
  simp only [DecodeDSPData_agree h L hL hF.2.2 fuel _ dataStart dataEnd hds he,
    DecodeDSPData_agree h L hL hF.2.2 fuel _ dataStart (dataEnd - 4) hds (by omega)]

theorem DecodeBlockData_accept_agree {lo hi : Nat} {b b2 : List Nat}
    (h : agreeOn lo hi b b2) (L : Layout) (hL : L.sizeofBusPatchHeader % 4 = 0)
    (hF : L.fieldsInside) (fuel : Nat) (d : Decoder)
    (blockHeader dspStart dataStart dataEnd current count : Nat)
    (hb : lo ≤ blockHeader) (hbh : blockHeader + L.sizeofBlockHeader ≤ hi)
    (hs : lo ≤ dspStart) (hh : dspStart + L.sizeofDSPHeader ≤ hi) (hds : lo ≤ dataStart)
    (h4 : lo + 4 ≤ dataEnd) (he : dataEnd ≤ hi) :
    DecodeBlockData.accept L b fuel d blockHeader dspStart dataStart dataEnd current count
      = DecodeBlockData.accept L b2 fuel d blockHeader dspStart dataStart dataEnd current
          count := by
  have hid := hF.1.2
  have herr := hF.2.1.2.2
  unfold DecodeBlockData.accept
  rw [agreeOn_readUInt h (dspStart + L.dspErrorWord) (by omega) (by omega),
    agreeOn_readUInt h (blockHeader + L.blockDSPId) (by omega) (by omega)]
  simp only [DecodeBlockData_padding_agree h L hL hF fuel _ dspStart dataStart dataEnd current
    _ hs hh hds h4 he]

theorem DecodeBlockData_padding_next {L : Layout} {buffer : List Nat} {fuel : Nat}
    {d : Decoder} {dspStart dataStart dataEnd current count : Nat} {d2 : Decoder} {p2 n2 : Nat}
    (h : DecodeBlockData.padding L buffer fuel d dspStart dataStart dataEnd current count
      = Step.next d2 p2 n2) : p2 = current := by
  rw [DecodeBlockData_padding_eq] at h
  split_ifs at h
  · exact (Step_afterCall_next h).1
  · exact (Step_afterCall_next h).1
  · exact (Step_afterCall_next h).1

theorem DecodeBlockData_accept_next {L : Layout} {buffer : List Nat} {fuel : Nat} {d : Decoder}
    {blockHeader dspStart dataStart dataEnd current count : Nat} {d2 : Decoder} {p2 n2 : Nat}
    (h : DecodeBlockData.accept L buffer fuel d blockHeader dspStart dataStart dataEnd current
      count = Step.next d2 p2 n2) : p2 = current := by
  unfold DecodeBlockData.accept at h
  simp only at h
  split_ifs at h
  · simp only [Step.next.injEq] at h
    exact h.2.1.symm
  · exact DecodeBlockData_padding_next h
  · exact DecodeBlockData_padding_next h

/-- A pass through the body of the loop over DSP structures does not move the
cursor backwards. -/
theorem DecodeBlockData_body_le (L : Layout) (buffer : List Nat) (fuel : Nat) (d : Decoder)
    (blockHeader end_ p count : Nat) (h4 : 4 ≤ L.sizeofDSPHeader) {d2 : Decoder} {p2 n2 : Nat}
    (h : DecodeBlockData.body L buffer fuel d blockHeader end_ p count = Step.next d2 p2 n2) :
    p ≤ p2 := by
  by_cases hfit : p + L.sizeofDSPHeader ≤ end_
  · by_cases hw : L.dspLevel.wellFormed buffer p end_
    · rw [DecodeBlockData_body_wellFormed L buffer fuel d blockHeader end_ p count hfit hw] at h
      rw [DecodeBlockData_accept_next h]
      simp only [Level.dataEnd, Level.dataStart]
      omega
    · rw [DecodeBlockData_body_malformed L buffer fuel d blockHeader end_ p count hfit hw] at h
      split_ifs at h
      exact Step_ofRecovery_le
        (Level_recover_le L L.dspLevel (Or.inr (Or.inl rfl)) _ buffer p end_ h4)
        (fun _ _ ha => DecodeBlockData_accept_next ha) h
  · rw [DecodeBlockData_body_noHeader L buffer fuel d blockHeader end_ p count (by omega)] at h
    simp at h

/-- A pass through the body of the loop over DSP structures reads the DSP id
of the block header and the memory between the word before the cursor and the
end of the block. -/
theorem DecodeBlockData_body_agree {lo hi : Nat} {b b2 : List Nat} (h : agreeOn lo hi b b2)
    (L : Layout) (hL : L.wordSized) (hF : L.fieldsInside)
    (fuel : Nat) (d : Decoder) (blockHeader end_ p count : Nat)
    (hb : lo ≤ blockHeader) (hbh : blockHeader + L.sizeofBlockHeader ≤ hi)
    (hp : lo + 4 ≤ p) (he : end_ ≤ hi) :
    DecodeBlockData.body L b fuel d blockHeader end_ p count
      = DecodeBlockData.body L b2 fuel d blockHeader end_ p count := by
  have hF2 := hF.2.1.1
  have hL3 := hL.2.2.2
  have hsz : L.dspLevel.sizeofHeader = L.sizeofDSPHeader := rfl
  by_cases hfit : p + L.sizeofDSPHeader ≤ end_
  · have hfit2 : p + L.dspLevel.sizeofHeader ≤ hi := by omega
    have hde := Level_dataEnd_agree h L.dspLevel hF2 p (by omega) hfit2
    by_cases hw : L.dspLevel.wellFormed b p end_
    · have hw2 := (Level_wellFormed_agree h L.dspLevel hF2 p end_ (by omega) hfit2).1 hw
      rw [DecodeBlockData_body_wellFormed L b fuel d blockHeader end_ p count hfit hw,
        DecodeBlockData_body_wellFormed L b2 fuel d blockHeader end_ p count hfit hw2, ← hde]
      exact DecodeBlockData_accept_agree h L hL3 hF fuel d blockHeader p _ _ _ count hb hbh
        (by omega) (by omega) (by simp only [Level.dataStart]; omega)
        (by simp only [Level.dataEnd, Level.dataStart]; omega) (le_trans hw.2.1 he)
    · have hw2 : ¬ L.dspLevel.wellFormed b2 p end_ := fun hc =>
        hw ((Level_wellFormed_agree h L.dspLevel hF2 p end_ (by omega) hfit2).2 hc)
      rw [DecodeBlockData_body_malformed L b fuel d blockHeader end_ p count hfit hw,
        DecodeBlockData_body_malformed L b2 fuel d blockHeader end_ p count hfit hw2,
        ← Level_framing_agree h L.dspLevel hF2 p end_ (by omega) hfit2]
      by_cases hx : d.fExitOnError = true
      · rw [if_pos hx, if_pos hx]
      · rw [if_neg hx, if_neg hx,
          ← Level_recover_agree h L.dspLevel hF2 _ p end_ (by omega) hfit he]
        cases hr : (L.dspLevel.recover
          (d.upd true (L.dspLevel.framing b p end_)) b p end_).result with
        | kRecoverFailed =>
          rw [Step_ofRecovery_failed _ _ _ hr, Step_ofRecovery_failed _ _ _ hr]
        | kContinueToNextStruct =>
          rw [Step_ofRecovery_continue _ _ _ hr, Step_ofRecovery_continue _ _ _ hr]
        | kStructRecovered =>
          rw [Step_ofRecovery_recovered _ _ _ hr, Step_ofRecovery_recovered _ _ _ hr]
          obtain ⟨r1, r2, _, _⟩ := Level_recover_recovered L L.dspLevel
            (Or.inr (Or.inl rfl)) _ b p end_ hL.2.1.2 hr
          exact DecodeBlockData_accept_agree h L hL3 hF fuel _ blockHeader p _ _ _ count hb hbh
            (by omega) (by omega) (by simp only [Level.dataStart]; omega)
            (by omega) (le_trans r1 he)
  · rw [DecodeBlockData_body_noHeader L b fuel d blockHeader end_ p count (by omega),
      DecodeBlockData_body_noHeader L b2 fuel d blockHeader end_ p count (by omega)]

/-- `DecodeBlockData` reads the DSP id of the block header and the memory
between the word before `start` and `end` only. -/
theorem DecodeBlockData_loop_agree {lo hi : Nat} {b b2 : List Nat} (h : agreeOn lo hi b b2)
    (L : Layout) (hL : L.wordSized) (hF : L.fieldsInside) (blockHeader end_ : Nat)
    (hb : lo ≤ blockHeader) (hbh : blockHeader + L.sizeofBlockHeader ≤ hi) (he : end_ ≤ hi)
    (fuel : Nat) :
    ∀ (d : Decoder) (current count : Nat), lo + 4 ≤ current →
      DecodeBlockData.loop L b blockHeader end_ fuel d current count
        = DecodeBlockData.loop L b2 blockHeader end_ fuel d current count := by
  have h4 : 4 ≤ L.sizeofDSPHeader := by
    have := hF.2.1.1.1
    have : L.dspLevel.sizeofHeader = L.sizeofDSPHeader := rfl
    omega
  induction fuel with
  | zero => intro d current count _; rfl
  | succ fuel ih =>
    intro d current count hc
    rw [DecodeBlockData.loop, DecodeBlockData.loop,
      ← DecodeBlockData_body_agree h L hL hF fuel d blockHeader end_ current count hb hbh hc he]
    by_cases h1 : current < end_
    · rw [if_pos h1, if_pos h1]
      cases hbd : DecodeBlockData.body L b fuel d blockHeader end_ current count with
      | exit ret d2 => rfl
      | next d2 c2 n2 =>
        exact ih d2 c2 n2 (le_trans hc
          (DecodeBlockData_body_le L b fuel d blockHeader end_ current count h4 hbd))
    · rw [if_neg h1, if_neg h1]

theorem DecodeBlockData_agree {lo hi : Nat} {b b2 : List Nat} (h : agreeOn lo hi b b2)
    (L : Layout) (hL : L.wordSized) (hF : L.fieldsInside) (fuel : Nat) (d : Decoder)
    (blockHeader start end_ : Nat) (hb : lo ≤ blockHeader)
    (hbh : blockHeader + L.sizeofBlockHeader ≤ hi) (hs : lo + 4 ≤ start) (he : end_ ≤ hi) :
    DecodeBlockData L b fuel d blockHeader start end_
      = DecodeBlockData L b2 fuel d blockHeader start end_ :=
  DecodeBlockData_loop_agree h L hL hF blockHeader end_ hb hbh he fuel d start 0 hs

/-! ### The loop over blocks -/

theorem Decode_accept_agree {lo hi : Nat} {b b2 : List Nat} (h : agreeOn lo hi b b2)
    (L : Layout) (hL : L.wordSized) (hF : L.fieldsInside) (fuel : Nat) (d : Decoder)
    (blockStart dataStart dataEnd current count : Nat) (hb : lo ≤ blockStart)
    (hbh : blockStart + L.sizeofBlockHeader ≤ hi) (hs : lo + 4 ≤ dataStart)
    (he : dataEnd ≤ hi) :
    Decode.accept L b fuel d blockStart dataStart dataEnd current count
      = Decode.accept L b2 fuel d blockStart dataStart dataEnd current count := by
  unfold Decode.accept
  simp only [DecodeBlockData_agree h L hL hF fuel _ blockStart dataStart dataEnd hb hbh hs he]

/-- A pass through the body of the loop over blocks does not move the cursor
backwards. -/
theorem Decode_body_le (L : Layout) (buffer : List Nat) (fuel : Nat) (d : Decoder)
    (end_ p count : Nat) (h4 : 4 ≤ L.sizeofBlockHeader) {d2 : Decoder} {p2 n2 : Nat}
    (h : Decode.body L buffer fuel d end_ p count = Step.next d2 p2 n2) : p ≤ p2 := by
  by_cases hfit : p + L.sizeofBlockHeader ≤ end_
  · by_cases hw : L.blockLevel.wellFormed buffer p end_
    · rw [Decode_body_wellFormed L buffer fuel d end_ p count hfit hw] at h
      rw [(Decode_accept_next h).1]
      simp only [Level.dataEnd, Level.dataStart]
      omega
    · by_cases hc : count = d.fMaxBlocks
      · rw [Decode_body_tooBig L buffer fuel d end_ p count hfit hw hc] at h
        simp at h
      · rw [Decode_body_malformed L buffer fuel d end_ p count hfit hw hc] at h
        split_ifs at h
        exact Step_ofRecovery_le
          (Level_recover_le L L.blockLevel (Or.inl rfl) _ buffer p end_ h4)
          (fun _ _ ha => (Decode_accept_next ha).1) h
  · rw [Decode_body_noHeader L buffer fuel d end_ p count (by omega)] at h
    simp at h

/-- A pass through the body of the loop over blocks reads the memory between
the cursor and the end of the buffer only. -/
theorem Decode_body_agree {lo hi : Nat} {b b2 : List Nat} (h : agreeOn lo hi b b2)
    (L : Layout) (hL : L.wordSized) (hF : L.fieldsInside)
    (fuel : Nat) (d : Decoder) (end_ p count : Nat) (hp : lo ≤ p) (he : end_ ≤ hi) :
    Decode.body L b fuel d end_ p count = Decode.body L b2 fuel d end_ p count := by
  have hF1 := hF.1.1
  have hsz : L.blockLevel.sizeofHeader = L.sizeofBlockHeader := rfl
  have h4 : 4 ≤ L.sizeofBlockHeader := by
    have := hF1.1
    omega
  by_cases hfit : p + L.sizeofBlockHeader ≤ end_
  · have hfit2 : p + L.blockLevel.sizeofHeader ≤ hi := by omega
    have hde := Level_dataEnd_agree h L.blockLevel hF1 p hp hfit2
    by_cases hw : L.blockLevel.wellFormed b p end_
    · have hw2 := (Level_wellFormed_agree h L.blockLevel hF1 p end_ hp hfit2).1 hw
      rw [Decode_body_wellFormed L b fuel d end_ p count hfit hw,
        Decode_body_wellFormed L b2 fuel d end_ p count hfit hw2, ← hde]
      exact Decode_accept_agree h L hL hF fuel d p _ _ _ count hp (by omega)
        (by simp only [Level.dataStart]; omega) (le_trans hw.2.1 he)
    · have hw2 : ¬ L.blockLevel.wellFormed b2 p end_ := fun hc =>
        hw ((Level_wellFormed_agree h L.blockLevel hF1 p end_ hp hfit2).2 hc)
      by_cases hc : count = d.fMaxBlocks
      · rw [Decode_body_tooBig L b fuel d end_ p count hfit hw hc,
          Decode_body_tooBig L b2 fuel d end_ p count hfit hw2 hc]
      · rw [Decode_body_malformed L b fuel d end_ p count hfit hw hc,
          Decode_body_malformed L b2 fuel d end_ p count hfit hw2 hc,
          ← Level_framing_agree h L.blockLevel hF1 p end_ hp hfit2]
        by_cases hx : d.fExitOnError = true
        · rw [if_pos hx, if_pos hx]
        · rw [if_neg hx, if_neg hx,
            ← Level_recover_agree h L.blockLevel hF1 _ p end_ hp hfit he]
          cases hr : (L.blockLevel.recover
            (d.upd true (L.blockLevel.framing b p end_)) b p end_).result with
          | kRecoverFailed =>
            rw [Step_ofRecovery_failed _ _ _ hr, Step_ofRecovery_failed _ _ _ hr]
          | kContinueToNextStruct =>
            rw [Step_ofRecovery_continue _ _ _ hr, Step_ofRecovery_continue _ _ _ hr]
          | kStructRecovered =>
            rw [Step_ofRecovery_recovered _ _ _ hr, Step_ofRecovery_recovered _ _ _ hr]
            obtain ⟨r1, _, _, _⟩ := Level_recover_recovered L L.blockLevel
              (Or.inl rfl) _ b p end_ hL.1.2 hr
            exact Decode_accept_agree h L hL hF fuel _ p _ _ _ count hp (by omega)
              (by simp only [Level.dataStart]; omega) (le_trans r1 he)
  · rw [Decode_body_noHeader L b fuel d end_ p count (by omega),
      Decode_body_noHeader L b2 fuel d end_ p count (by omega)]

/-- The loop of `Decode` reads the memory between the cursor and the end of
the buffer only. -/
theorem Decode_loop_agree {lo hi : Nat} {b b2 : List Nat} (h : agreeOn lo hi b b2)
    (L : Layout) (hL : L.wordSized) (hF : L.fieldsInside) (end_ : Nat) (he : end_ ≤ hi)
    (fuel : Nat) :
    ∀ (d : Decoder) (current count : Nat), lo ≤ current →
      Decode.loop L b end_ fuel d current count = Decode.loop L b2 end_ fuel d current count := by
  have h4 : 4 ≤ L.sizeofBlockHeader := by
    have := hF.1.1.1
    have : L.blockLevel.sizeofHeader = L.sizeofBlockHeader := rfl
    omega
  induction fuel with
  | zero => intro d current count _; rfl
  | succ fuel ih =>
    intro d current count hc
    rw [Decode.loop, Decode.loop,
      ← Decode_body_agree h L hL hF fuel d end_ current count hc he]
    by_cases h1 : current < end_
    · rw [if_pos h1, if_pos h1]
      cases hbd : Decode.body L b fuel d end_ current count with
      | exit ret d2 => rfl
      | next d2 c2 n2 =>
        exact ih d2 c2 n2 (le_trans hc (Decode_body_le L b fuel d end_ current count h4 hbd))
    · rw [if_neg h1, if_neg h1]

/-- C27: with header sizes that are positive multiples of the word size and
header fields that lie inside their headers, the value returned by `Decode`
and the callbacks it issues are the same for any two memories that hold the
same bytes from position 0 up to `bufferSize`: nothing outside the buffer is
read, whatever the length fields say.  The same holds of each part, for
memories that agree on the span given: the loop of `Decode` from any cursor
to the end; `DecodeBlockData` from the block header to the end;
`DecodeDSPData` and `DecodeBusPatchData` (called for a whole number of words,
or an empty span) from `start` to `end`; `TryRecoverStruct`, called for a
header that fits, from the start of the structure to the end of the enclosing
one; the key search from `start` to `end`. -/
theorem decode_reads_inside_buffer (L : Layout) (hL : L.wordSized) (hF : L.fieldsInside)
    (b b2 : List Nat) (fuel : Nat) (d : Decoder) :
    (∀ bufferSize, agreeOn 0 bufferSize b b2 →
        Decode L b fuel d bufferSize = Decode L b2 fuel d bufferSize)
      ∧ (∀ lo end_ current count, agreeOn lo end_ b b2 → lo ≤ current →
        Decode.loop L b end_ fuel d current count = Decode.loop L b2 end_ fuel d current count)
      ∧ (∀ blockHeader end_ hi, agreeOn blockHeader hi b b2 →
        blockHeader + L.sizeofBlockHeader ≤ hi → end_ ≤ hi →
        DecodeBlockData L b fuel d blockHeader (blockHeader + L.sizeofBlockHeader) end_
          = DecodeBlockData L b2 fuel d blockHeader (blockHeader + L.sizeofBlockHeader) end_)
      ∧ (∀ start end_, agreeOn start end_ b b2 →
        DecodeDSPData L b fuel d start end_ = DecodeDSPData L b2 fuel d start end_)
      ∧ (∀ start end_, agreeOn start end_ b b2 → (end_ ≤ start ∨ (end_ - start) % 4 = 0) →
        DecodeBusPatchData b fuel d start end_ = DecodeBusPatchData b2 fuel d start end_)
      ∧ (∀ (v : Level) (p end_ : Nat), v.ofLayout L → agreeOn p end_ b b2 →
        p + v.sizeofHeader ≤ end_ → v.recover d b p end_ = v.recover d b2 p end_)
      ∧ (∀ key start end_, agreeOn start end_ b b2 →
        FindKey b key start end_ = FindKey b2 key start end_) := by
  have h4 : 4 ≤ L.sizeofBlockHeader := by
    have := hF.1.1.1
    have : L.blockLevel.sizeofHeader = L.sizeofBlockHeader := rfl
    omega
  refine ⟨fun bufferSize h => ?_, fun lo end_ current count h hc => ?_,
    fun blockHeader end_ hi h hbh he => ?_, fun start end_ h => ?_, fun start end_ h ha => ?_,
    fun v p end_ hv h hfit => ?_, fun key start end_ h => ?_⟩
  · unfold Decode
    simp only [Nat.zero_add]
    exact Decode_loop_agree h L hL hF bufferSize (Nat.le_refl _) fuel _ 0 0 (Nat.le_refl _)
  · exact Decode_loop_agree h L hL hF end_ (Nat.le_refl _) fuel d current count hc
  · exact DecodeBlockData_agree h L hL hF fuel d blockHeader _ end_ (Nat.le_refl _) hbh
      (by omega) he
  · exact DecodeDSPData_agree h L hL.2.2.2 hF.2.2 fuel d start end_ (Nat.le_refl _)
      (Nat.le_refl _)
  · exact DecodeBusPatchData_agree h end_ (Nat.le_refl _) fuel d start (Nat.le_refl _) ha
  · refine Level_recover_agree h v ?_ d p end_ (Nat.le_refl _) hfit (Nat.le_refl _)
    rcases hv with rfl | rfl | rfl
    · exact hF.1.1
    · exact hF.2.1.1
    · exact hF.2.2
  · exact FindKey_agree h key start end_ (Nat.le_refl _) (Nat.le_refl _)

/-- C27 on `longLengthBuffer` and `overrunBuffer`, decoded as buffers of 32
bytes with "exit on error" off and "try recover" on: the two memories hold the
same 32 bytes; the length field of the first block header points to position
52, where only the second memory holds the block key; the results are the
same. -/
theorem decode_reads_inside_buffer_witness :
    agreeOn 0 32 longLengthBuffer overrunBuffer
      ∧ specLayout.blockLevel.dataEnd longLengthBuffer 0 = 52
      ∧ readUInt longLengthBuffer 52 ≠ readUInt overrunBuffer 52
      ∧ Decode specLayout longLengthBuffer 10 recoverDecoder 32
        = Decode specLayout overrunBuffer 10 recoverDecoder 32 :=
  ⟨by decide, by decide, by decide,
    (decode_reads_inside_buffer specLayout (by decide) (by decide) longLengthBuffer
      overrunBuffer 10 recoverDecoder).1 32 (by decide)⟩

/-! ## The padding word -/

/-- C23 fails on `padGlitchBuffer`: the DSP structure at 16 passes the four
checks and is announced, its padding flag is `1`, its payload has one word,
and that word is not `0xBEEFFACE`; but its error word is a glitch pattern, so
with "exit on error" on (the default), as with "exit on error" off and "try
recover" on, the pass ends at the glitch and `kBadPaddingWord` is not
reported. -/
theorem decode_padding_glitch_counterexample :
    specLayout.dspLevel.wellFormed padGlitchBuffer 16 44
      ∧ readUInt padGlitchBuffer (16 + specLayout.dspPaddingWord) = 1
      ∧ specLayout.dspLevel.dataStart 16 + 4 = specLayout.dspLevel.dataEnd padGlitchBuffer 16
      ∧ readUInt padGlitchBuffer (specLayout.dspLevel.dataEnd padGlitchBuffer 16 - 4)
        ≠ fgkPaddingWord
      ∧ Decode specLayout padGlitchBuffer 6 Decoder.init 44
        = (some false, Decoder.init.upd true
            [Event.OnNewBuffer 0 44, Event.OnNewBlock 0 16, Event.OnNewDSP 16 40,
              Event.OnError ErrorCode.kGlitchFound 32])
      ∧ Decode specLayout padGlitchBuffer 6 recoverDecoder 44
        = (some false, recoverDecoder.upd true
            [Event.OnNewBuffer 0 44, Event.OnNewBlock 0 16, Event.OnNewDSP 16 40,
              Event.OnError ErrorCode.kGlitchFound 32]) := by
  refine ⟨?_, ?_, ?_, ?_, ?_, ?_⟩ <;> decide

theorem DecodeBlockData_afterCall_noPadding (L : Layout) (buffer : List Nat) (fuel : Nat)
    (d2 : Decoder) (a b current count : Nat) :
    ∃ h t, (Step.afterCall (DecodeDSPData L buffer fuel d2 a b) current count).decoder
        = d2.upd h t ∧ countError ErrorCode.kBadPaddingWord t = 0 := by
  obtain ⟨h, t, e, ht⟩ := Adds_afterCall current count
    (DecodeDSPData_loop_adds L buffer b fuel d2 a 0)
  exact ⟨h, t, e, countError_of_rank _ 5 (by decide) t ht⟩

/-- C23, amended: for an accepted DSP structure (the count within the limit)
whose padding flag is `1`, whose payload has at least one word, and for which
no glitch ended the pass (no glitch pattern in the error word, or "exit on
error" and "try recover" both off): `DecodeDSPData` is called for the payload
without its last word, unless that word differs from `0xBEEFFACE` and "exit on
error" is on, in which case the pass returns `false` right after
`OnError(kBadPaddingWord)`; among the callbacks of the pass
`OnError(kBadPaddingWord)` occurs once if the last word differs from
`0xBEEFFACE`, and not at all otherwise; and what that call of `DecodeDSPData`
returns and issues does not depend on the last word, which lies behind the
span it is called for (header sizes being multiples of the word size and
fields lying inside the headers). -/
theorem decode_padding_word (L : Layout) (hL : L.wordSized) (hF : L.fieldsInside)
    (buffer : List Nat) (fuel : Nat) (d : Decoder)
    (blockHeader dspStart dataStart dataEnd current count : Nat)
    (hc : count + 1 ≤ d.fMaxDSPs) (hm : d.fMaxDSPs < 2 ^ 32)
    (hflag : readUInt buffer (dspStart + L.dspPaddingWord) = 1)
    (hlen : dataStart + 4 ≤ dataEnd)
    (hg : isGlitch L buffer blockHeader dspStart →
      d.fExitOnError = false ∧ d.fTryRecover = false) :
    ∃ d1 : Decoder,
      d1 = d.upd (d.fHadError || decide (isGlitch L buffer blockHeader dspStart))
          (Event.OnNewDSP dspStart dataStart ::
            if isGlitch L buffer blockHeader dspStart then
              [Event.OnError ErrorCode.kGlitchFound (dspStart + L.dspErrorWord)]
            else [])
      ∧ DecodeBlockData.accept L buffer fuel d blockHeader dspStart dataStart dataEnd current
          count
        = (if readUInt buffer (dataEnd - 4) = fgkPaddingWord then
            Step.afterCall (DecodeDSPData L buffer fuel d1 dataStart (dataEnd - 4)) current
              (count + 1)
          else if d.fExitOnError = true then
            Step.exit (some false)
              (d1.upd true [Event.OnError ErrorCode.kBadPaddingWord (dataEnd - 4)])
          else
            Step.afterCall
              (DecodeDSPData L buffer fuel
                (d1.upd true [Event.OnError ErrorCode.kBadPaddingWord (dataEnd - 4)])
                dataStart (dataEnd - 4)) current (count + 1))
      ∧ (∃ t, (DecodeBlockData.accept L buffer fuel d blockHeader dspStart dataStart dataEnd
            current count).decoder.fHandler = d.fHandler ++ t
          ∧ countError ErrorCode.kBadPaddingWord t
            = if readUInt buffer (dataEnd - 4) = fgkPaddingWord then 0 else 1)
      ∧ (dataStart ≤ dataEnd - 4 ∧ dataEnd - 4 + 4 = dataEnd)
      ∧ (∀ (b2 : List Nat) (dd : Decoder), agreeOn dataStart (dataEnd - 4) buffer b2 →
          DecodeDSPData L buffer fuel dd dataStart (dataEnd - 4)
            = DecodeDSPData L b2 fuel dd dataStart (dataEnd - 4)) := by
  have key : ∀ (h1 : Bool) (t1 : List Event), countError ErrorCode.kBadPaddingWord t1 = 0 →
      DecodeBlockData.accept L buffer fuel d blockHeader dspStart dataStart dataEnd current
          count
        = DecodeBlockData.padding L buffer fuel (d.upd h1 t1) dspStart dataStart dataEnd current
            (count + 1) →
      DecodeBlockData.accept L buffer fuel d blockHeader dspStart dataStart dataEnd current
          count
        = (if readUInt buffer (dataEnd - 4) = fgkPaddingWord then
            Step.afterCall (DecodeDSPData L buffer fuel (d.upd h1 t1) dataStart (dataEnd - 4))
              current (count + 1)
          else if d.fExitOnError = true then
            Step.exit (some false)
              ((d.upd h1 t1).upd true [Event.OnError ErrorCode.kBadPaddingWord (dataEnd - 4)])
          else
            Step.afterCall
              (DecodeDSPData L buffer fuel
                ((d.upd h1 t1).upd true [Event.OnError ErrorCode.kBadPaddingWord (dataEnd - 4)])
                dataStart (dataEnd - 4)) current (count + 1))
      ∧ (∃ t, (DecodeBlockData.accept L buffer fuel d blockHeader dspStart dataStart dataEnd
            current count).decoder.fHandler = d.fHandler ++ t
          ∧ countError ErrorCode.kBadPaddingWord t
            = if readUInt buffer (dataEnd - 4) = fgkPaddingWord then 0 else 1) := by
    intro h1 t1 ht hacc
    rw [hacc, DecodeBlockData_padding_eq, if_pos hflag]
    refine ⟨rfl, ?_⟩
    by_cases hp : readUInt buffer (dataEnd - 4) = fgkPaddingWord
    · rw [if_pos hp, if_pos hp]
      obtain ⟨h, t, e, ht2⟩ := DecodeBlockData_afterCall_noPadding L buffer fuel (d.upd h1 t1)
        dataStart (dataEnd - 4) current (count + 1)
      exact ⟨t1 ++ t, by rw [e]; simp, by rw [countError_append, ht, ht2]⟩
    · rw [if_neg hp, if_neg hp]
      have hone : countError ErrorCode.kBadPaddingWord
          [Event.OnError ErrorCode.kBadPaddingWord (dataEnd - 4)] = 1 := by
        simp [countError, Event.isErrorCode]
      by_cases hx : (d.upd h1 t1).fExitOnError = true
      · rw [if_pos hx]
        exact ⟨t1 ++ [Event.OnError ErrorCode.kBadPaddingWord (dataEnd - 4)],
          by simp [Step.decoder], by rw [countError_append, ht, hone]⟩
      · rw [if_neg hx]
        obtain ⟨h, t, e, ht2⟩ := DecodeBlockData_afterCall_noPadding L buffer fuel
          ((d.upd h1 t1).upd true [Event.OnError ErrorCode.kBadPaddingWord (dataEnd - 4)])
          dataStart (dataEnd - 4) current (count + 1)
        exact ⟨t1 ++ ([Event.OnError ErrorCode.kBadPaddingWord (dataEnd - 4)] ++ t),
          by rw [e]; simp, by rw [countError_append, countError_append, ht, hone, ht2]⟩
  have hacc := DecodeBlockData_accept_eq L buffer fuel d blockHeader dspStart dataStart dataEnd
    current count hc hm
  have hzero : ∀ e : Event, e.isErrorCode ErrorCode.kBadPaddingWord = false →
      countError ErrorCode.kBadPaddingWord [e] = 0 := by
    intro e he
    simp [countError, he]
  refine ⟨_, rfl, ?_⟩
  have hind : ∀ (dd : Decoder) (b2 : List Nat), agreeOn dataStart (dataEnd - 4) buffer b2 →
      DecodeDSPData L buffer fuel dd dataStart (dataEnd - 4)
        = DecodeDSPData L b2 fuel dd dataStart (dataEnd - 4) := fun dd b2 h =>
    DecodeDSPData_agree h L hL.2.2.2 hF.2.2 fuel dd dataStart (dataEnd - 4) (Nat.le_refl _)
      (Nat.le_refl _)
  by_cases hgl : isGlitch L buffer blockHeader dspStart
  · obtain ⟨hx, hr⟩ := hg hgl
    rw [if_pos hgl, if_neg (by simp [hx]), if_neg (by simp [hr])] at hacc
    obtain ⟨k1, k2⟩ := key true [Event.OnNewDSP dspStart dataStart,
      Event.OnError ErrorCode.kGlitchFound (dspStart + L.dspErrorWord)]
      (by simp [countError, Event.isErrorCode]) hacc
    simp only [hgl, decide_True, Bool.or_true, if_true]
    exact ⟨k1, k2, ⟨by omega, by omega⟩, fun b2 dd h => hind dd b2 h⟩
  · rw [if_neg hgl] at hacc
    obtain ⟨k1, k2⟩ := key d.fHadError [Event.OnNewDSP dspStart dataStart]
      (by simp [countError, Event.isErrorCode]) hacc
    simp only [hgl, decide_False, Bool.or_false, if_false]
    exact ⟨k1, k2, ⟨by omega, by omega⟩, fun b2 dd h => hind dd b2 h⟩

/-- C23, amended, on `badPaddingBuffer` with "exit on error" off: the DSP
structure at 16 has the padding flag `1` and the word `0` at 56 in the place
of the padding word; `kBadPaddingWord` is reported once, and the bus patch
before that word is decoded all the same. -/
theorem decode_padding_word_witness :
    Decode specLayout badPaddingBuffer 6 noExitDecoder 60
        = (some false, noExitDecoder.upd true
            [Event.OnNewBuffer 0 60, Event.OnNewBlock 0 16, Event.OnNewDSP 16 40,
              Event.OnError ErrorCode.kBadPaddingWord 56, Event.OnNewBusPatch 40 52,
              Event.OnData 3])
      ∧ ∃ t, (DecodeBlockData.accept specLayout badPaddingBuffer 4 noExitDecoder 0 16 40 60 60
            0).decoder.fHandler = noExitDecoder.fHandler ++ t
          ∧ countError ErrorCode.kBadPaddingWord t
            = if readUInt badPaddingBuffer (60 - 4) = fgkPaddingWord then 0 else 1 :=
  ⟨by decide,
    (decode_padding_word specLayout (by decide) (by decide) badPaddingBuffer 4 noExitDecoder
      0 16 40 60 60 0 (by decide) (by decide) (by decide) (by decide)
      (fun h => absurd h (by decide))).choose_spec.2.2.1⟩

/-! ## Termination with recovery, for limits below the largest `UInt_t` -/

theorem Step_afterCall_advances (res : Option Bool × Decoder) (p current count n max : Nat)
    (h1 : res.1 ≠ none) (h2 : p ≤ current) (h3 : n ≤ max) (h4 : n = count + 1) :
    (Step.afterCall res current n).advances p count max := by
  obtain ⟨r, d⟩ := res
  cases r with
  | none => exact absurd rfl h1
  | some b =>
    cases b
    · unfold Step.afterCall
      simp only
      split_ifs
      · simp [Step.advances]
      · exact ⟨h2, h3, Or.inr h4⟩
    · exact ⟨h2, h3, Or.inr h4⟩

/-- The cursor that `TryRecoverStruct` leaves with the result "continue to
the next structure" lies behind the start of the structure. -/
theorem Level_recover_continue (L : Layout) (v : Level) (hv : v.ofLayout L) (d : Decoder)
    (buffer : List Nat) (p end_ : Nat) (h4 : 0 < v.sizeofHeader)
    (hr : (v.recover d buffer p end_).result = RecoverResult.kContinueToNextStruct) :
    p < (v.recover d buffer p end_).current := by
  have hde : p < v.dataEnd buffer p := by
    simp only [Level.dataEnd, Level.dataStart]
    omega
  by_cases hrec : d.fTryRecover = true
  · unfold Level.recover at hr ⊢
    rw [TryRecoverStruct_rows L v hv d buffer _ _ _ _ _ _ _ _ hrec] at hr ⊢
    split_ifs at hr ⊢ with a1 a2 a3
    · cases hf : FindKey buffer v.key (p + 4) end_ with
      | none =>
        rw [hf] at hr
        simp [Recovery.scan] at hr
      | some l =>
        have := ((FindKey_eq_some_iff buffer v.key (p + 4) end_ l).mp hf).1
        simp only [Recovery.scan]
        omega
  · rw [Level_recover_off v d buffer p end_ (by simpa using hrec)]
    exact hde

theorem Step_ofRecovery_advances {r : Recovery} {d : Decoder} {p count max : Nat}
    {accept : Nat → Nat → Step} (hc : count ≤ max)
    (hr : r.result = RecoverResult.kContinueToNextStruct → p < r.current)
    (ha : r.result = RecoverResult.kStructRecovered →
      (accept r.dataEnd r.current).advances p count max) :
    (Step.ofRecovery r d count accept).advances p count max := by
  unfold Step.ofRecovery
  split
  · rename_i h
    exact ⟨Nat.le_of_lt (hr h), hc, Or.inl ⟨hr h, rfl⟩⟩
  · simp [Step.advances]
  · rename_i h
    exact ha h

/-! ### The loop over bus patches -/

theorem DecodeDSPData_accept_advances (buffer : List Nat) (fuel : Nat) (d : Decoder)
    (busPatchStart dataStart dataEnd current p count : Nat)
    (hm : d.fMaxBusPatches < 2 ^ 32 - 1) (hc : count ≤ d.fMaxBusPatches)
    (hf : dataEnd - dataStart < fuel) (hp : p ≤ current) :
    (DecodeDSPData.accept buffer fuel d busPatchStart dataStart dataEnd current count).advances
      p count d.fMaxBusPatches := by
  unfold DecodeDSPData.accept
  have h1 : (count + 1) % 2 ^ 32 = count + 1 := Nat.mod_eq_of_lt (by omega)
  simp only [h1]
  split_ifs with h2
  · simp [Step.advances]
  · exact Step_afterCall_advances _ _ _ _ _ _ (DecodeBusPatchData_returns buffer fuel _ _ _ hf)
      hp (by omega) rfl

theorem DecodeDSPData_body_advances (L : Layout) (buffer : List Nat) (fuel : Nat) (d : Decoder)
    (end_ p count : Nat) (hL : 0 < L.sizeofBusPatchHeader ∧ L.sizeofBusPatchHeader % 4 = 0)
    (hm : d.fMaxBusPatches < 2 ^ 32 - 1) (hc : count ≤ d.fMaxBusPatches) (hf : end_ < fuel) :
    (DecodeDSPData.body L buffer fuel d end_ p count).advances p count d.fMaxBusPatches := by
  by_cases hfit : p + L.sizeofBusPatchHeader ≤ end_
  · by_cases hw : L.busPatchLevel.wellFormed buffer p end_
    · rw [DecodeDSPData_body_wellFormed L buffer fuel d end_ p count hfit hw]
      have := hw.2.1
      exact DecodeDSPData_accept_advances buffer fuel d p _ _ _ p count hm hc (by omega)
        (by simp only [Level.dataEnd, Level.dataStart]; omega)
    · rw [DecodeDSPData_body_malformed L buffer fuel d end_ p count hfit hw]
      split_ifs
      · simp [Step.advances]
      · refine Step_ofRecovery_advances hc
          (Level_recover_continue L L.busPatchLevel (Or.inr (Or.inr rfl)) _ buffer p end_ hL.1)
          (fun hr => ?_)
        obtain ⟨r1, _, _, r4⟩ := Level_recover_recovered L L.busPatchLevel
          (Or.inr (Or.inr rfl)) _ buffer p end_ hL.2 hr
        exact DecodeDSPData_accept_advances buffer fuel
          (d.upd true (L.busPatchLevel.framing buffer p end_)) p _ _ _ p count hm hc (by omega) r4
  · rw [DecodeDSPData_body_noHeader L buffer fuel d end_ p count (by omega)]
    simp [Step.advances]

/-- With a limit below `2^32 - 1`, the loop of `DecodeDSPData` returns a
value for every sufficient iteration budget. -/
theorem DecodeDSPData_loop_returns_limit (L : Layout) (buffer : List Nat) (end_ : Nat)
    (hL : 0 < L.sizeofBusPatchHeader ∧ L.sizeofBusPatchHeader % 4 = 0) (fuel : Nat) :
    ∀ (d : Decoder) (current count : Nat), d.fMaxBusPatches < 2 ^ 32 - 1 →
      count ≤ d.fMaxBusPatches →
      (end_ - current) + (d.fMaxBusPatches - count) + end_ + 1 < fuel →
      (DecodeDSPData.loop L buffer end_ fuel d current count).1 ≠ none := by
  induction fuel with
  | zero => intro d current count _ _ h; omega
  | succ fuel ih =>
    intro d current count hm hc hf
    rw [DecodeDSPData.loop]
    split_ifs with h1
    · have hb := DecodeDSPData_body_advances L buffer fuel d end_ current count hL hm hc
        (by omega)
      have ha := DecodeDSPData_body_adds L buffer fuel d end_ current count
      revert hb ha
      cases DecodeDSPData.body L buffer fuel d end_ current count with
      | exit ret d2 => exact fun hb _ => hb
      | next d2 c2 n2 =>
        rintro ⟨b1, b2, b3⟩ ⟨h, t, e, _⟩
        have e2 : d2 = d.upd h t := e
        have hmax : d2.fMaxBusPatches = d.fMaxBusPatches := by rw [e2]; rfl
        exact ih d2 c2 n2 (by omega) (by omega) (by rw [hmax]; omega)
    · simp

/-! ### The loop over DSP structures -/

theorem DecodeBlockData_accept_advances (L : Layout) (buffer : List Nat) (fuel : Nat)
    (d : Decoder) (blockHeader dspStart dataStart dataEnd current p count : Nat)
    (hL : 0 < L.sizeofBusPatchHeader ∧ L.sizeofBusPatchHeader % 4 = 0)
    (hm : d.fMaxDSPs < 2 ^ 32 - 1) (hc : count ≤ d.fMaxDSPs)
    (hm2 : d.fMaxBusPatches < 2 ^ 32 - 1)
    (hf : 2 * dataEnd + d.fMaxBusPatches + 1 < fuel) (hp : p ≤ current) :
    (DecodeBlockData.accept L buffer fuel d blockHeader dspStart dataStart dataEnd current
      count).advances p count d.fMaxDSPs := by
  have hret : ∀ (d1 : Decoder) (e : Nat), d1.fMaxBusPatches = d.fMaxBusPatches →
      e ≤ dataEnd → (DecodeDSPData L buffer fuel d1 dataStart e).1 ≠ none := by
    intro d1 e h1 h2
    exact DecodeDSPData_loop_returns_limit L buffer e hL fuel d1 dataStart 0
      (by rw [h1]; exact hm2) (Nat.zero_le _) (by rw [h1]; omega)
  have hpad : ∀ d1 : Decoder, d1.fMaxBusPatches = d.fMaxBusPatches → count + 1 ≤ d.fMaxDSPs →
      (DecodeBlockData.padding L buffer fuel d1 dspStart dataStart dataEnd current
        (count + 1)).advances p count d.fMaxDSPs := by
    intro d1 h1 h2
    rw [DecodeBlockData_padding_eq]
    split_ifs
    · exact Step_afterCall_advances _ _ _ _ _ _ (hret d1 _ h1 (by omega)) hp h2 rfl
    · simp [Step.advances]
    · exact Step_afterCall_advances _ _ _ _ _ _ (hret _ _ h1 (by omega)) hp h2 rfl
    · exact Step_afterCall_advances _ _ _ _ _ _ (hret d1 _ h1 (Nat.le_refl _)) hp h2 rfl
  unfold DecodeBlockData.accept
  have h1 : (count + 1) % 2 ^ 32 = count + 1 := Nat.mod_eq_of_lt (by omega)
  simp only [h1]
  split_ifs with h2 h3 h4 h5
  · simp [Step.advances]
  · simp [Step.advances]
  · exact ⟨hp, by omega, Or.inr rfl⟩
  · exact hpad _ rfl (by omega)
  · exact hpad _ rfl (by omega)

theorem DecodeBlockData_body_advances (L : Layout) (buffer : List Nat) (fuel : Nat)
    (d : Decoder) (blockHeader end_ p count : Nat) (hL : L.wordSized)
    (hm : d.fMaxDSPs < 2 ^ 32 - 1) (hc : count ≤ d.fMaxDSPs)
    (hm2 : d.fMaxBusPatches < 2 ^ 32 - 1)
    (hf : 2 * end_ + d.fMaxBusPatches + 1 < fuel) :
    (DecodeBlockData.body L buffer fuel d blockHeader end_ p count).advances p count
      d.fMaxDSPs := by
  by_cases hfit : p + L.sizeofDSPHeader ≤ end_
  · by_cases hw : L.dspLevel.wellFormed buffer p end_
    · rw [DecodeBlockData_body_wellFormed L buffer fuel d blockHeader end_ p count hfit hw]
      have := hw.2.1
      exact DecodeBlockData_accept_advances L buffer fuel d blockHeader p _ _ _ p count hL.2.2
        hm hc hm2 (by omega) (by simp only [Level.dataEnd, Level.dataStart]; omega)
    · rw [DecodeBlockData_body_malformed L buffer fuel d blockHeader end_ p count hfit hw]
      split_ifs
      · simp [Step.advances]
      · refine Step_ofRecovery_advances hc
          (Level_recover_continue L L.dspLevel (Or.inr (Or.inl rfl)) _ buffer p end_ hL.2.1.1)
          (fun hr => ?_)
        obtain ⟨r1, _, _, r4⟩ := Level_recover_recovered L L.dspLevel
          (Or.inr (Or.inl rfl)) _ buffer p end_ hL.2.1.2 hr
        exact DecodeBlockData_accept_advances L buffer fuel
          (d.upd true (L.dspLevel.framing buffer p end_)) blockHeader p _ _ _ p count
          hL.2.2 hm hc hm2 (by simp only [Decoder.upd_fMaxBusPatches]; omega) r4
  · rw [DecodeBlockData_body_noHeader L buffer fuel d blockHeader end_ p count (by omega)]
    simp [Step.advances]

/-- With limits below `2^32 - 1`, the loop of `DecodeBlockData` returns a
value for every sufficient iteration budget. -/
theorem DecodeBlockData_loop_returns_limit (L : Layout) (buffer : List Nat)
    (blockHeader end_ : Nat) (hL : L.wordSized) (fuel : Nat) :
    ∀ (d : Decoder) (current count : Nat), d.fMaxDSPs < 2 ^ 32 - 1 →
      d.fMaxBusPatches < 2 ^ 32 - 1 → count ≤ d.fMaxDSPs →
      (end_ - current) + (d.fMaxDSPs - count) + 2 * end_ + d.fMaxBusPatches + 2 < fuel →
      (DecodeBlockData.loop L buffer blockHeader end_ fuel d current count).1 ≠ none := by
  induction fuel with
  | zero => intro d current count _ _ _ h; omega
  | succ fuel ih =>
    intro d current count hm hm2 hc hf
    rw [DecodeBlockData.loop]
    split_ifs with h1
    · have hb := DecodeBlockData_body_advances L buffer fuel d blockHeader end_ current count hL
        hm hc hm2 (by omega)
      have ha := DecodeBlockData_body_adds L buffer fuel d blockHeader end_ current count
      revert hb ha
      cases DecodeBlockData.body L buffer fuel d blockHeader end_ current count with
      | exit ret d2 => exact fun hb _ => hb
      | next d2 c2 n2 =>
        rintro ⟨b1, b2, b3⟩ ⟨h, t, e, _⟩
        have e2 : d2 = d.upd h t := e
        have hmax : d2.fMaxDSPs = d.fMaxDSPs := by rw [e2]; rfl
        have hmax2 : d2.fMaxBusPatches = d.fMaxBusPatches := by rw [e2]; rfl
        exact ih d2 c2 n2 (by omega) (by omega) (by omega) (by rw [hmax, hmax2]; omega)
    · simp

/-! ### The loop over blocks -/

theorem Decode_accept_advances (L : Layout) (buffer : List Nat) (fuel : Nat)
    (d : Decoder) (blockStart dataStart dataEnd current p count : Nat) (hL : L.wordSized)
    (hm : d.fMaxBlocks < 2 ^ 32 - 1) (hc : count ≤ d.fMaxBlocks)
    (hm1 : d.fMaxDSPs < 2 ^ 32 - 1) (hm2 : d.fMaxBusPatches < 2 ^ 32 - 1)
    (hf : 3 * dataEnd + d.fMaxDSPs + d.fMaxBusPatches + 2 < fuel) (hp : p ≤ current) :
    (Decode.accept L buffer fuel d blockStart dataStart dataEnd current count).advances p count
      d.fMaxBlocks := by
  unfold Decode.accept
  have h1 : (count + 1) % 2 ^ 32 = count + 1 := Nat.mod_eq_of_lt (by omega)
  simp only [h1]
  split_ifs with h2
  · simp [Step.advances]
  · exact Step_afterCall_advances _ _ _ _ _ _
      (DecodeBlockData_loop_returns_limit L buffer blockStart dataEnd hL fuel _ dataStart 0 hm1
        hm2 (Nat.zero_le _)
        (by simp only [Decoder.OnNewBlock_eq, Decoder.upd_fMaxDSPs,
          Decoder.upd_fMaxBusPatches]; omega))
      hp (by omega) rfl

theorem Decode_body_advances (L : Layout) (buffer : List Nat) (fuel : Nat)
    (d : Decoder) (end_ p count : Nat) (hL : L.wordSized)
    (hm : d.fMaxBlocks < 2 ^ 32 - 1) (hc : count ≤ d.fMaxBlocks)
    (hm1 : d.fMaxDSPs < 2 ^ 32 - 1) (hm2 : d.fMaxBusPatches < 2 ^ 32 - 1)
    (hf : 3 * end_ + d.fMaxDSPs + d.fMaxBusPatches + 2 < fuel) :
    (Decode.body L buffer fuel d end_ p count).advances p count d.fMaxBlocks := by
  by_cases hfit : p + L.sizeofBlockHeader ≤ end_
  · by_cases hw : L.blockLevel.wellFormed buffer p end_
    · rw [Decode_body_wellFormed L buffer fuel d end_ p count hfit hw]
      have := hw.2.1
      exact Decode_accept_advances L buffer fuel d p _ _ _ p count hL hm hc hm1 hm2 (by omega)
        (by simp only [Level.dataEnd, Level.dataStart]; omega)
    · by_cases hcm : count = d.fMaxBlocks
      · rw [Decode_body_tooBig L buffer fuel d end_ p count hfit hw hcm]
        simp [Step.advances]
      · rw [Decode_body_malformed L buffer fuel d end_ p count hfit hw hcm]
        split_ifs
        · simp [Step.advances]
        · refine Step_ofRecovery_advances hc
            (Level_recover_continue L L.blockLevel (Or.inl rfl) _ buffer p end_ hL.1.1)
            (fun hr => ?_)
          obtain ⟨r1, _, _, r4⟩ := Level_recover_recovered L L.blockLevel
            (Or.inl rfl) _ buffer p end_ hL.1.2 hr
          exact Decode_accept_advances L buffer fuel
            (d.upd true (L.blockLevel.framing buffer p end_)) p _ _ _ p count hL hm hc hm1 hm2
            (by simp only [Decoder.upd_fMaxDSPs, Decoder.upd_fMaxBusPatches]; omega) r4
  · rw [Decode_body_noHeader L buffer fuel d end_ p count (by omega)]
    simp [Step.advances]

/-- With limits below `2^32 - 1`, the loop of `Decode` returns a value for
every sufficient iteration budget. -/
theorem Decode_loop_returns_limit (L : Layout) (buffer : List Nat) (end_ : Nat)
    (hL : L.wordSized) (fuel : Nat) :
    ∀ (d : Decoder) (current count : Nat), d.fMaxBlocks < 2 ^ 32 - 1 →
      d.fMaxDSPs < 2 ^ 32 - 1 → d.fMaxBusPatches < 2 ^ 32 - 1 → count ≤ d.fMaxBlocks →
      (end_ - current) + (d.fMaxBlocks - count) + 3 * end_ + d.fMaxDSPs + d.fMaxBusPatches + 3
        < fuel →
      (Decode.loop L buffer end_ fuel d current count).1 ≠ none := by
  induction fuel with
  | zero => intro d current count _ _ _ _ h; omega
  | succ fuel ih =>
    intro d current count hm hm1 hm2 hc hf
    rw [Decode.loop]
    split_ifs with h1
    · have hb := Decode_body_advances L buffer fuel d end_ current count hL hm hc hm1 hm2
        (by omega)
      have ha := Decode_body_post L buffer fuel d end_ current count
      revert hb ha
      cases Decode.body L buffer fuel d end_ current count with
      | exit ret d2 => exact fun hb _ => hb
      | next d2 c2 n2 =>
        rintro ⟨b1, b2, b3⟩ ⟨t, e, _⟩
        have e2 : d2 = d.upd (d.fHadError || hasError t) t := e
        have hmax : d2.fMaxBlocks = d.fMaxBlocks := by rw [e2]; rfl
        have hmax1 : d2.fMaxDSPs = d.fMaxDSPs := by rw [e2]; rfl
        have hmax2 : d2.fMaxBusPatches = d.fMaxBusPatches := by rw [e2]; rfl
        exact ih d2 c2 n2 (by omega) (by omega) (by omega) (by omega)
          (by rw [hmax, hmax1, hmax2]; omega)
    · simp

/-- With header sizes that are positive multiples of the word size and limits
below `2^32 - 1`, `Decode` returns a value for every sufficient iteration
budget, whatever the buffer and the two flags. -/
theorem Decode_returns_limit (L : Layout) (buffer : List Nat) (fuel : Nat) (d : Decoder)
    (bufferSize : Nat) (hL : L.wordSized) (hm : d.fMaxBlocks < 2 ^ 32 - 1)
    (hm1 : d.fMaxDSPs < 2 ^ 32 - 1) (hm2 : d.fMaxBusPatches < 2 ^ 32 - 1)
    (hf : 4 * bufferSize + d.fMaxBlocks + d.fMaxDSPs + d.fMaxBusPatches + 3 < fuel) :
    (Decode L buffer fuel d bufferSize).1 ≠ none := by
  unfold Decode
  simp only [Nat.zero_add]
  exact Decode_loop_returns_limit L buffer bufferSize hL fuel _ 0 0 hm hm1 hm2 (Nat.zero_le _)
    (by simp only [Decoder.clearHadError_eq, Decoder.OnNewBuffer_eq, Decoder.upd_fMaxBlocks,
      Decoder.upd_fMaxDSPs, Decoder.upd_fMaxBusPatches]; omega)

theorem Decode_body_adds (L : Layout) (buffer : List Nat) (fuel : Nat) (d : Decoder)
    (end_ p count : Nat) :
    Adds 1 d (Decode.body L buffer fuel d end_ p count).decoder := by
  have hf : ∀ e ∈ L.blockLevel.framing buffer p end_, 1 ≤ e.rank :=
    Level_framing_rank _ _ _ _ _ (Nat.le_refl 1) (Nat.le_refl 1) (Nat.le_refl 1) (Nat.le_refl 1)
  by_cases hfit : p + L.sizeofBlockHeader ≤ end_
  · by_cases hw : L.blockLevel.wellFormed buffer p end_
    · rw [Decode_body_wellFormed L buffer fuel d end_ p count hfit hw]
      exact Adds_mono (by decide) (Decode_accept_adds _ _ _ _ _ _ _ _ _)
    · by_cases hc : count = d.fMaxBlocks
      · rw [Decode_body_tooBig L buffer fuel d end_ p count hfit hw hc]
        exact Adds_upd d _ (by simp [Event.rank, ErrorCode.rank])
      · rw [Decode_body_malformed L buffer fuel d end_ p count hfit hw hc]
        split_ifs
        · exact Adds_upd d _ hf
        · exact Adds_ofRecovery _ _ _ (Adds_upd d _ hf)
            (fun a b => Adds_mono (by decide) (Decode_accept_adds _ _ _ _ _ _ _ _ _))
  · rw [Decode_body_noHeader L buffer fuel d end_ p count (by omega)]
    refine Adds_upd d _ ?_
    split_ifs <;> simp [Event.rank, ErrorCode.rank]

theorem Decode_loop_adds (L : Layout) (buffer : List Nat) (end_ : Nat) (fuel : Nat) :
    ∀ (d : Decoder) (current count : Nat),
      Adds 1 d (Decode.loop L buffer end_ fuel d current count).2 := by
  induction fuel with
  | zero => intro d current count; exact Adds_refl _ _
  | succ fuel ih =>
    intro d current count
    rw [Decode.loop]
    split_ifs with h1
    · have hb := Decode_body_adds L buffer fuel d end_ current count
      revert hb
      cases Decode.body L buffer fuel d end_ current count with
      | exit ret d2 => exact fun hb => hb
      | next d2 c2 n2 => exact fun hb => Adds_trans hb (ih _ _ _)
    · exact Adds_refl _ _

theorem countKind_of_rank (t : List Event) (h : ∀ e ∈ t, 1 ≤ e.rank) : countKind 0 t = 0 := by
  unfold countKind
  rw [List.countP_eq_zero]
  intro e he
  have := h e he
  cases e <;> simp_all [Event.rank, Event.kind]

/-- C33: for every buffer, size, configuration and iteration budget, the
callbacks that a call of `Decode` adds begin with `OnNewBuffer` for the given
buffer (position 0) and size, and none of the callbacks behind it is an
`OnNewBuffer`.  For a buffer of size 0 it is the only callback and `Decode`
returns `true`, whatever the configuration and the earlier state of the
decoder. -/
theorem decode_onNewBuffer_first (L : Layout) (buffer : List Nat) (fuel : Nat) (d : Decoder)
    (bufferSize : Nat) :
    (∃ t, (Decode L buffer fuel d bufferSize).2.fHandler
          = d.fHandler ++ Event.OnNewBuffer 0 bufferSize :: t
        ∧ countKind 0 t = 0)
      ∧ Decode L buffer (fuel + 1) d 0 = (some true, d.upd false [Event.OnNewBuffer 0 0]) := by
  constructor
  · unfold Decode
    simp only [Decoder.clearHadError_eq, Decoder.OnNewBuffer_eq, Decoder.upd_upd,
      Decoder.upd_fHadError, List.nil_append, Nat.zero_add]
    obtain ⟨h, t, e, ht⟩ := Decode_loop_adds L buffer bufferSize fuel
      (d.upd false [Event.OnNewBuffer 0 bufferSize]) 0 0
    refine ⟨t, ?_, countKind_of_rank t ht⟩
    rw [e]
    simp
  · unfold Decode
    simp only [Decoder.clearHadError_eq, Decoder.OnNewBuffer_eq, Decoder.upd_upd,
      Decoder.upd_fHadError, List.nil_append, Nat.zero_add]
    rw [Decode.loop, if_neg (Nat.lt_irrefl 0)]
    simp

/-! ## The assertion of `DecodeBusPatchData` -/

theorem DecodeBusPatchData_assertion_iff (start end_ : Nat) :
    DecodeBusPatchData.assertion start end_
      ↔ (start ≤ end_ → (end_ - start) % 4 = 0) ∧ (end_ ≤ start → (start - end_) % 4 = 0) := by
  unfold DecodeBusPatchData.assertion
  omega

theorem DecodeDSPData_acceptAsserted_eq (buffer : List Nat) (fuel : Nat) (d : Decoder)
    (busPatchStart dataStart dataEnd current count : Nat)
    (h : DecodeBusPatchData.assertion dataStart dataEnd) :
    DecodeDSPData.acceptAsserted buffer fuel d busPatchStart dataStart dataEnd current count
      = some (DecodeDSPData.accept buffer fuel d busPatchStart dataStart dataEnd current
          count) := by
  unfold DecodeDSPData.acceptAsserted DecodeDSPData.accept DecodeBusPatchData.asserted
  simp only [if_pos h]
  split_ifs <;> rfl

/-- The end that `TryRecoverStruct` gives to the payload of a recovered
structure differs from the start of the payload by a multiple of 4, in either
direction. -/
theorem Level_recover_assertion (L : Layout) (v : Level) (hv : v.ofLayout L) (d : Decoder)
    (buffer : List Nat) (p end_ : Nat) (h4 : v.sizeofHeader % 4 = 0)
    (hr : (v.recover d buffer p end_).result = RecoverResult.kStructRecovered) :
    DecodeBusPatchData.assertion (v.dataStart p) (v.recover d buffer p end_).dataEnd := by
  have hde : DecodeBusPatchData.assertion (v.dataStart p) (v.dataEnd buffer p) := by
    rw [DecodeBusPatchData_assertion_iff]
    simp only [Level.dataEnd]
    omega
  have hse : DecodeBusPatchData.assertion (v.dataStart p) (v.structEnd buffer p) := by
    rw [DecodeBusPatchData_assertion_iff]
    simp only [Level.structEnd, Level.dataStart]
    omega
  by_cases hrec : d.fTryRecover = true
  · unfold Level.recover at hr ⊢
    rw [TryRecoverStruct_rows L v hv d buffer _ _ _ _ _ _ _ _ hrec] at hr ⊢
    split_ifs at hr ⊢ with a1 a2 a3
    · exact hde
    · exact hse
    · exact hde
    · exfalso
      revert hr
      unfold Recovery.scan
      cases FindKey buffer v.key (p + 4) end_ <;> simp
  · rw [Level_recover_off v d buffer p end_ (by simpa using hrec)] at hr
    simp at hr

theorem DecodeDSPData_bodyAsserted_eq (L : Layout) (hL : L.sizeofBusPatchHeader % 4 = 0)
    (buffer : List Nat) (fuel : Nat) (d : Decoder) (end_ p count : Nat) :
    DecodeDSPData.bodyAsserted L buffer fuel d end_ p count
      = some (DecodeDSPData.body L buffer fuel d end_ p count) := by
  unfold DecodeDSPData.bodyAsserted DecodeDSPData.body
  simp only []
  split_ifs with h1 h2 h3
  · rfl
  · rfl
  · split
    · rename_i hr
      simp only [hr]
    · rename_i hr
      simp only [hr]
    · rename_i hr
      try simp only [hr]
      exact DecodeDSPData_acceptAsserted_eq buffer fuel _ p _ _ _ count
        (Level_recover_assertion L L.busPatchLevel (Or.inr (Or.inr rfl)) _ buffer p end_ hL hr)
  · exact DecodeDSPData_acceptAsserted_eq buffer fuel d p _ _ _ count
      ((DecodeBusPatchData_assertion_iff _ _).2 (by omega))

theorem DecodeDSPData_loopAsserted_eq (L : Layout) (hL : L.sizeofBusPatchHeader % 4 = 0)
    (buffer : List Nat) (end_ fuel : Nat) :
    ∀ (d : Decoder) (current count : Nat),
      DecodeDSPData.loopAsserted L buffer end_ fuel d current count
        = some (DecodeDSPData.loop L buffer end_ fuel d current count) := by
  induction fuel with
  | zero => intro d current count; rfl
  | succ fuel ih =>
    intro d current count
    rw [DecodeDSPData.loopAsserted, DecodeDSPData.loop,
      DecodeDSPData_bodyAsserted_eq L hL buffer fuel d end_ current count]
    by_cases h1 : current < end_
    · rw [if_pos h1, if_pos h1]
      cases DecodeDSPData.body L buffer fuel d end_ current count with
      | exit ret d2 => rfl
      | next d2 c2 n2 => exact ih d2 c2 n2
    · rw [if_neg h1, if_neg h1]

theorem DecodeDSPData_asserted_eq (L : Layout) (hL : L.sizeofBusPatchHeader % 4 = 0)
    (buffer : List Nat) (fuel : Nat) (d : Decoder) (start end_ : Nat) :
    DecodeDSPData.asserted L buffer fuel d start end_
      = some (DecodeDSPData L buffer fuel d start end_) :=
  DecodeDSPData_loopAsserted_eq L hL buffer end_ fuel d start 0

theorem DecodeBlockData_decodeDSPAsserted_eq (L : Layout)
    (hL : L.sizeofBusPatchHeader % 4 = 0) (buffer : List Nat) (fuel : Nat) (d : Decoder)
    (dataStart dataEnd current count : Nat) :
    DecodeBlockData.decodeDSPAsserted L buffer fuel d dataStart dataEnd current count
      = some (DecodeBlockData.decodeDSP L buffer fuel d dataStart dataEnd current count) := by
  unfold DecodeBlockData.decodeDSPAsserted DecodeBlockData.decodeDSP
  rw [DecodeDSPData_asserted_eq L hL]

theorem DecodeBlockData_paddingAsserted_eq (L : Layout)
    (hL : L.sizeofBusPatchHeader % 4 = 0) (buffer : List Nat) (fuel : Nat) (d : Decoder)
    (dspStart dataStart dataEnd current count : Nat) :
    DecodeBlockData.paddingAsserted L buffer fuel d dspStart dataStart dataEnd current count
      = some (DecodeBlockData.padding L buffer fuel d dspStart dataStart dataEnd current
          count) := by
  unfold DecodeBlockData.paddingAsserted DecodeBlockData.padding
  simp only [DecodeBlockData_decodeDSPAsserted_eq L hL]
  split_ifs <;> rfl

theorem DecodeBlockData_acceptAsserted_eq (L : Layout)
    (hL : L.sizeofBusPatchHeader % 4 = 0) (buffer : List Nat) (fuel : Nat) (d : Decoder)
    (blockHeader dspStart dataStart dataEnd current count : Nat) :
    DecodeBlockData.acceptAsserted L buffer fuel d blockHeader dspStart dataStart dataEnd
        current count
      = some (DecodeBlockData.accept L buffer fuel d blockHeader dspStart dataStart dataEnd
          current count) := by
  unfold DecodeBlockData.acceptAsserted DecodeBlockData.accept
  simp only [DecodeBlockData_paddingAsserted_eq L hL]
  split_ifs <;> rfl

theorem DecodeBlockData_bodyAsserted_eq (L : Layout) (hL : L.sizeofBusPatchHeader % 4 = 0)
    (buffer : List Nat) (fuel : Nat) (d : Decoder) (blockHeader end_ p count : Nat) :
    DecodeBlockData.bodyAsserted L buffer fuel d blockHeader end_ p count
      = some (DecodeBlockData.body L buffer fuel d blockHeader end_ p count) := by
  unfold DecodeBlockData.bodyAsserted DecodeBlockData.body
  simp only [DecodeBlockData_acceptAsserted_eq L hL]
  split_ifs with h1 h2 h3
  · rfl
  · rfl
  · split <;> rename_i hr <;> simp only [hr]
  · rfl

theorem DecodeBlockData_loopAsserted_eq (L : Layout) (hL : L.sizeofBusPatchHeader % 4 = 0)
    (buffer : List Nat) (blockHeader end_ fuel : Nat) :
    ∀ (d : Decoder) (current count : Nat),
      DecodeBlockData.loopAsserted L buffer blockHeader end_ fuel d current count
        = some (DecodeBlockData.loop L buffer blockHeader end_ fuel d current count) := by
  induction fuel with
  | zero => intro d current count; rfl
  | succ fuel ih =>
    intro d current count
    rw [DecodeBlockData.loopAsserted, DecodeBlockData.loop,
      DecodeBlockData_bodyAsserted_eq L hL buffer fuel d blockHeader end_ current count]
    by_cases h1 : current < end_
    · rw [if_pos h1, if_pos h1]
      cases DecodeBlockData.body L buffer fuel d blockHeader end_ current count with
      | exit ret d2 => rfl
      | next d2 c2 n2 => exact ih d2 c2 n2
    · rw [if_neg h1, if_neg h1]

theorem Decode_acceptAsserted_eq (L : Layout) (hL : L.sizeofBusPatchHeader % 4 = 0)
    (buffer : List Nat) (fuel : Nat) (d : Decoder)
    (blockStart dataStart dataEnd current count : Nat) :
    Decode.acceptAsserted L buffer fuel d blockStart dataStart dataEnd current count
      = some (Decode.accept L buffer fuel d blockStart dataStart dataEnd current count) := by
  unfold Decode.acceptAsserted Decode.accept DecodeBlockData.asserted DecodeBlockData
  simp only [DecodeBlockData_loopAsserted_eq L hL]
  split_ifs <;> rfl

theorem Decode_bodyAsserted_eq (L : Layout) (hL : L.sizeofBusPatchHeader % 4 = 0)
    (buffer : List Nat) (fuel : Nat) (d : Decoder) (end_ p count : Nat) :
    Decode.bodyAsserted L buffer fuel d end_ p count
      = some (Decode.body L buffer fuel d end_ p count) := by
  unfold Decode.bodyAsserted Decode.body
  simp only [Decode_acceptAsserted_eq L hL]
  split_ifs with h1 h2 h3 h4 h5
  · rfl
  · rfl
  · rfl
  · rfl
  · split <;> rename_i hr <;> simp only [hr]
  · rfl

theorem Decode_loopAsserted_eq (L : Layout) (hL : L.sizeofBusPatchHeader % 4 = 0)
    (buffer : List Nat) (end_ fuel : Nat) :
    ∀ (d : Decoder) (current count : Nat),
      Decode.loopAsserted L buffer end_ fuel d current count
        = some (Decode.loop L buffer end_ fuel d current count) := by
  induction fuel with
  | zero => intro d current count; rfl
  | succ fuel ih =>
    intro d current count
    rw [Decode.loopAsserted, Decode.loop,
      Decode_bodyAsserted_eq L hL buffer fuel d end_ current count]
    by_cases h1 : current < end_
    · rw [if_pos h1, if_pos h1]
      cases Decode.body L buffer fuel d end_ current count with
      | exit ret d2 => rfl
      | next d2 c2 n2 => exact ih d2 c2 n2
    · rw [if_neg h1, if_neg h1]

/-- C31: with a bus patch header whose size is a multiple of 4, for every
buffer, size, configuration and iteration budget, `Decode` with the assertion
of `DecodeBusPatchData` enabled never fails the assertion and returns and
issues what `Decode` does.  The same holds of `DecodeDSPData`, the only caller
of `DecodeBusPatchData`, for every cursor and end it is called with, aligned
or not: the call is made for the start of the payload and either the end
computed from the length field or the end that `TryRecoverStruct` left, and
both differ from the start by a multiple of 4.  A call that passes the
assertion reads the memory between `start` and `end` only, that is, whole
words. -/
theorem decodeBusPatchData_assertion_holds (L : Layout) (hL : L.sizeofBusPatchHeader % 4 = 0)
    (buffer : List Nat) (fuel : Nat) (d : Decoder) :
    (∀ bufferSize,
        Decode.asserted L buffer fuel d bufferSize = some (Decode L buffer fuel d bufferSize))
      ∧ (∀ start end_,
        DecodeDSPData.asserted L buffer fuel d start end_
          = some (DecodeDSPData L buffer fuel d start end_))
      ∧ (∀ p end_,
        DecodeBusPatchData.assertion (L.busPatchLevel.dataStart p)
            (L.busPatchLevel.dataEnd buffer p)
          ∧ ((L.busPatchLevel.recover d buffer p end_).result = RecoverResult.kStructRecovered →
            DecodeBusPatchData.assertion (L.busPatchLevel.dataStart p)
              (L.busPatchLevel.recover d buffer p end_).dataEnd))
      ∧ (∀ start end_ b2, DecodeBusPatchData.assertion start end_ → agreeOn start end_ buffer b2 →
        DecodeBusPatchData buffer fuel d start end_ = DecodeBusPatchData b2 fuel d start end_) := by
  refine ⟨fun bufferSize => ?_, fun start end_ => DecodeDSPData_asserted_eq L hL buffer fuel d
    start end_, fun p end_ => ⟨?_, fun hr => ?_⟩, fun start end_ b2 ha h => ?_⟩
  · unfold Decode.asserted Decode
    exact Decode_loopAsserted_eq L hL buffer _ fuel _ _ _
  · rw [DecodeBusPatchData_assertion_iff]
    simp only [Level.dataEnd]
    omega
  · exact Level_recover_assertion L L.busPatchLevel (Or.inr (Or.inr rfl)) d buffer p end_ hL hr
  · rw [DecodeBusPatchData_assertion_iff] at ha
    exact DecodeBusPatchData_agree h end_ (Nat.le_refl _) fuel d start (Nat.le_refl _)
      (by omega)

/-- C31 on `unalignedBuffer`, decoded as the payload of a DSP structure with
"exit on error" off and "try recover" on: the key search leaves the cursor at
the unaligned position 5, and `DecodeBusPatchData` is called for the span from
17 to 21, which passes the assertion; a span from 17 to 19 would fail it. -/
theorem decodeBusPatchData_assertion_holds_witness :
    DecodeDSPData specLayout unalignedBuffer 6 recoverDecoder 0 21
        = (some true, recoverDecoder.upd true
            [Event.OnError ErrorCode.kBadBusPatchKey 0,
              Event.OnError ErrorCode.kBadBusPatchLength 4,
              Event.OnError ErrorCode.kBadBusPatchTotalLength 8,
              Event.OnError ErrorCode.kBusPatchLengthMismatch 0,
              Event.OnNewBusPatch 5 17, Event.OnData 3])
      ∧ DecodeBusPatchData.asserted unalignedBuffer 6 recoverDecoder 17 19 = none
      ∧ DecodeDSPData.asserted specLayout unalignedBuffer 6 recoverDecoder 0 21
        = some (DecodeDSPData specLayout unalignedBuffer 6 recoverDecoder 0 21) :=
  ⟨by decide, by decide,
    (decodeBusPatchData_assertion_holds specLayout (by decide) unalignedBuffer 6
      recoverDecoder).2.1 0 21⟩

/-! ## The decoder before and after a call of `Decode` -/

namespace Decoder

@[simp] theorem prepend_fExitOnError (d : Decoder) (pre : List Event) :
    (d.prepend pre).fExitOnError = d.fExitOnError := rfl
@[simp] theorem prepend_fTryRecover (d : Decoder) (pre : List Event) :
    (d.prepend pre).fTryRecover = d.fTryRecover := rfl
@[simp] theorem prepend_fSendDataOnParityError (d : Decoder) (pre : List Event) :
    (d.prepend pre).fSendDataOnParityError = d.fSendDataOnParityError := rfl
@[simp] theorem prepend_fHadError (d : Decoder) (pre : List Event) :
    (d.prepend pre).fHadError = d.fHadError := rfl
@[simp] theorem prepend_fMaxBlocks (d : Decoder) (pre : List Event) :
    (d.prepend pre).fMaxBlocks = d.fMaxBlocks := rfl
@[simp] theorem prepend_fMaxDSPs (d : Decoder) (pre : List Event) :
    (d.prepend pre).fMaxDSPs = d.fMaxDSPs := rfl
@[simp] theorem prepend_fMaxBusPatches (d : Decoder) (pre : List Event) :
    (d.prepend pre).fMaxBusPatches = d.fMaxBusPatches := rfl
@[simp] theorem prepend_fHandler (d : Decoder) (pre : List Event) :
    (d.prepend pre).fHandler = pre ++ d.fHandler := rfl

@[simp] theorem prepend_upd (d : Decoder) (pre : List Event) (h : Bool) (t : List Event) :
    (d.prepend pre).upd h t = (d.upd h t).prepend pre := by
  simp [upd, prepend, List.append_assoc]

theorem fresh_prepend (d : Decoder) (h : Bool) (t : List Event) :
    d.upd h t = (d.fresh.upd h t).prepend d.fHandler := by
  cases d
  simp [upd, prepend, fresh]

theorem fresh_eq_of_config {d d2 : Decoder} (h : d.config = d2.config) : d.fresh = d2.fresh := by
  cases d
  cases d2
  simp only [config, ExitOnError, TryRecover, SendDataOnParityError, MaxBlocks, MaxDSPs,
    MaxBusPatches, Prod.mk.injEq] at h
  simp [fresh, h]

end Decoder

theorem Step_afterCall_prepend (pre : List Event) (r : Option Bool) (d : Decoder)
    (current count : Nat) :
    Step.afterCall (r, d.prepend pre) current count
      = (Step.afterCall (r, d) current count).prepend pre := by
  unfold Step.afterCall
  cases r with
  | none => rfl
  | some b =>
    cases b
    · simp only [Decoder.prepend_fExitOnError]
      split_ifs <;> rfl
    · rfl

theorem TryRecoverStruct_prepend (pre : List Event) (d : Decoder) (buffer : List Nat)
    (expectedKey headerSize totalLength length structStart bufferEnd : Nat)
    (dataEnd structEnd current : Nat) :
    TryRecoverStruct (d.prepend pre) buffer expectedKey headerSize totalLength length structStart
        bufferEnd dataEnd structEnd current
      = TryRecoverStruct d buffer expectedKey headerSize totalLength length structStart
        bufferEnd dataEnd structEnd current := by
  unfold TryRecoverStruct
  rw [Decoder.prepend_fTryRecover]

theorem DecodeBusPatchData_prepend (pre : List Event) (buffer : List Nat) (fuel : Nat) :
    ∀ (d : Decoder) (data dataEnd : Nat),
      DecodeBusPatchData buffer fuel (d.prepend pre) data dataEnd
        = ((DecodeBusPatchData buffer fuel d data dataEnd).1,
            (DecodeBusPatchData buffer fuel d data dataEnd).2.prepend pre) := by
  induction fuel with
  | zero => intro d data dataEnd; rfl
  | succ fuel ih =>
    intro d data dataEnd
    rw [DecodeBusPatchData, DecodeBusPatchData]
    simp only [Decoder.OnData_eq, Decoder.OnError_eq, Decoder.setHadError_eq,
      Decoder.prepend_fHadError, Decoder.prepend_upd, Decoder.prepend_fExitOnError,
      Decoder.prepend_fSendDataOnParityError, Decoder.upd_fExitOnError,
      Decoder.upd_fSendDataOnParityError, ih]
    split_ifs <;> rfl

theorem Level_recover_prepend (pre : List Event) (v : Level) (d : Decoder) (buffer : List Nat)
    (p end_ : Nat) : v.recover (d.prepend pre) buffer p end_ = v.recover d buffer p end_ :=
  Level_recover_congr v _ _ buffer p end_ rfl

theorem Step_ofRecovery_prepend (pre : List Event) (r : Recovery) (d : Decoder) (count : Nat)
    (accept accept2 : Nat → Nat → Step)
    (h : ∀ a b, accept2 a b = (accept a b).prepend pre) :
    Step.ofRecovery r (d.prepend pre) count accept2
      = (Step.ofRecovery r d count accept).prepend pre := by
  unfold Step.ofRecovery
  split
  · rfl
  · rfl
  · exact h _ _

/-! ### The loop over bus patches -/

theorem DecodeDSPData_accept_prepend (pre : List Event) (buffer : List Nat) (fuel : Nat)
    (d : Decoder) (busPatchStart dataStart dataEnd current count : Nat) :
    DecodeDSPData.accept buffer fuel (d.prepend pre) busPatchStart dataStart dataEnd current
        count
      = (DecodeDSPData.accept buffer fuel d busPatchStart dataStart dataEnd current
          count).prepend pre := by
  unfold DecodeDSPData.accept
  simp only [Decoder.OnError_eq, Decoder.setHadError_eq, Decoder.OnNewBusPatch_eq,
    Decoder.prepend_fHadError, Decoder.prepend_upd, Decoder.prepend_fMaxBusPatches,
    DecodeBusPatchData_prepend, Step_afterCall_prepend, Prod.mk.eta]
  split_ifs <;> rfl

theorem DecodeDSPData_body_prepend (pre : List Event) (L : Layout) (buffer : List Nat)
    (fuel : Nat) (d : Decoder) (end_ p count : Nat) :
    DecodeDSPData.body L buffer fuel (d.prepend pre) end_ p count
      = (DecodeDSPData.body L buffer fuel d end_ p count).prepend pre := by
  by_cases hfit : p + L.sizeofBusPatchHeader ≤ end_
  · by_cases hw : L.busPatchLevel.wellFormed buffer p end_
    · rw [DecodeDSPData_body_wellFormed L buffer fuel _ end_ p count hfit hw,
        DecodeDSPData_body_wellFormed L buffer fuel _ end_ p count hfit hw]
      exact DecodeDSPData_accept_prepend pre buffer fuel d _ _ _ _ _
    · rw [DecodeDSPData_body_malformed L buffer fuel _ end_ p count hfit hw,
        DecodeDSPData_body_malformed L buffer fuel _ end_ p count hfit hw]
      simp only [Decoder.prepend_fExitOnError, Decoder.prepend_upd, Level_recover_prepend]
      split_ifs
      · rfl
      · exact Step_ofRecovery_prepend pre _ _ _ _ _
          (fun a b => DecodeDSPData_accept_prepend pre buffer fuel _ _ _ _ _ _)
  · rw [DecodeDSPData_body_noHeader L buffer fuel _ end_ p count (by omega),
      DecodeDSPData_body_noHeader L buffer fuel _ end_ p count (by omega)]
    simp only [Decoder.prepend_upd]
    rfl

theorem DecodeDSPData_loop_prepend (pre : List Event) (L : Layout) (buffer : List Nat)
    (end_ fuel : Nat) :
    ∀ (d : Decoder) (current count : Nat),
      DecodeDSPData.loop L buffer end_ fuel (d.prepend pre) current count
        = ((DecodeDSPData.loop L buffer end_ fuel d current count).1,
            (DecodeDSPData.loop L buffer end_ fuel d current count).2.prepend pre) := by
  induction fuel with
  | zero => intro d current count; rfl
  | succ fuel ih =>
    intro d current count
    rw [DecodeDSPData.loop, DecodeDSPData.loop, DecodeDSPData_body_prepend]
    by_cases h1 : current < end_
    · rw [if_pos h1, if_pos h1]
      cases DecodeDSPData.body L buffer fuel d end_ current count with
      | exit ret d2 => rfl
      | next d2 c2 n2 => exact ih d2 c2 n2
    · rw [if_neg h1, if_neg h1]

/-! ### The loop over DSP structures -/

theorem DecodeBlockData_padding_prepend (pre : List Event) (L : Layout) (buffer : List Nat)
    (fuel : Nat) (d : Decoder) (dspStart dataStart dataEnd current count : Nat) :
    DecodeBlockData.padding L buffer fuel (d.prepend pre) dspStart dataStart dataEnd current
        count
      = (DecodeBlockData.padding L buffer fuel d dspStart dataStart dataEnd current
          count).prepend pre := by
  rw [DecodeBlockData_padding_eq, DecodeBlockData_padding_eq]
  simp only [DecodeDSPData, Decoder.prepend_fExitOnError, Decoder.prepend_upd,
    DecodeDSPData_loop_prepend, Step_afterCall_prepend, Prod.mk.eta]
  split_ifs <;> rfl

theorem DecodeBlockData_accept_prepend (pre : List Event) (L : Layout) (buffer : List Nat)
    (fuel : Nat) (d : Decoder) (blockHeader dspStart dataStart dataEnd current count : Nat) :
    DecodeBlockData.accept L buffer fuel (d.prepend pre) blockHeader dspStart dataStart dataEnd
        current count
      = (DecodeBlockData.accept L buffer fuel d blockHeader dspStart dataStart dataEnd current
          count).prepend pre := by
  unfold DecodeBlockData.accept
  simp only [Decoder.OnError_eq, Decoder.setHadError_eq, Decoder.OnNewDSP_eq,
    Decoder.prepend_fHadError, Decoder.prepend_upd, Decoder.prepend_fMaxDSPs,
    Decoder.prepend_fExitOnError, Decoder.prepend_fTryRecover, Decoder.upd_fExitOnError,
    Decoder.upd_fTryRecover, DecodeBlockData_padding_prepend]
  split_ifs <;> rfl

theorem DecodeBlockData_body_prepend (pre : List Event) (L : Layout) (buffer : List Nat)
    (fuel : Nat) (d : Decoder) (blockHeader end_ p count : Nat) :
    DecodeBlockData.body L buffer fuel (d.prepend pre) blockHeader end_ p count
      = (DecodeBlockData.body L buffer fuel d blockHeader end_ p count).prepend pre := by
  by_cases hfit : p + L.sizeofDSPHeader ≤ end_
  · by_cases hw : L.dspLevel.wellFormed buffer p end_
    · rw [DecodeBlockData_body_wellFormed L buffer fuel _ blockHeader end_ p count hfit hw,
        DecodeBlockData_body_wellFormed L buffer fuel _ blockHeader end_ p count hfit hw]
      exact DecodeBlockData_accept_prepend pre L buffer fuel d _ _ _ _ _ _
    · rw [DecodeBlockData_body_malformed L buffer fuel _ blockHeader end_ p count hfit hw,
        DecodeBlockData_body_malformed L buffer fuel _ blockHeader end_ p count hfit hw]
      simp only [Decoder.prepend_fExitOnError, Decoder.prepend_upd, Level_recover_prepend]
      split_ifs
      · rfl
      · exact Step_ofRecovery_prepend pre _ _ _ _ _
          (fun a b => DecodeBlockData_accept_prepend pre L buffer fuel _ _ _ _ _ _ _)
  · rw [DecodeBlockData_body_noHeader L buffer fuel _ blockHeader end_ p count (by omega),
      DecodeBlockData_body_noHeader L buffer fuel _ blockHeader end_ p count (by omega)]
    simp only [Decoder.prepend_upd]
    rfl

theorem DecodeBlockData_loop_prepend (pre : List Event) (L : Layout) (buffer : List Nat)
    (blockHeader end_ fuel : Nat) :
    ∀ (d : Decoder) (current count : Nat),
      DecodeBlockData.loop L buffer blockHeader end_ fuel (d.prepend pre) current count
        = ((DecodeBlockData.loop L buffer blockHeader end_ fuel d current count).1,
            (DecodeBlockData.loop L buffer blockHeader end_ fuel d current count).2.prepend
              pre) := by
  induction fuel with
  | zero => intro d current count; rfl
  | succ fuel ih =>
    intro d current count
    rw [DecodeBlockData.loop, DecodeBlockData.loop, DecodeBlockData_body_prepend]
    by_cases h1 : current < end_
    · rw [if_pos h1, if_pos h1]
      cases DecodeBlockData.body L buffer fuel d blockHeader end_ current count with
      | exit ret d2 => rfl
      | next d2 c2 n2 => exact ih d2 c2 n2
    · rw [if_neg h1, if_neg h1]

/-! ### The loop over blocks -/

theorem Decode_accept_prepend (pre : List Event) (L : Layout) (buffer : List Nat)
    (fuel : Nat) (d : Decoder) (blockStart dataStart dataEnd current count : Nat) :
    Decode.accept L buffer fuel (d.prepend pre) blockStart dataStart dataEnd current count
      = (Decode.accept L buffer fuel d blockStart dataStart dataEnd current count).prepend
          pre := by
  unfold Decode.accept
  simp only [DecodeBlockData, Decoder.OnError_eq, Decoder.OnNewBlock_eq,
    Decoder.prepend_fHadError, Decoder.prepend_upd, Decoder.prepend_fMaxBlocks,
    DecodeBlockData_loop_prepend, Step_afterCall_prepend, Prod.mk.eta]
  split_ifs <;> rfl

theorem Decode_body_prepend (pre : List Event) (L : Layout) (buffer : List Nat)
    (fuel : Nat) (d : Decoder) (end_ p count : Nat) :
    Decode.body L buffer fuel (d.prepend pre) end_ p count
      = (Decode.body L buffer fuel d end_ p count).prepend pre := by
  by_cases hfit : p + L.sizeofBlockHeader ≤ end_
  · by_cases hw : L.blockLevel.wellFormed buffer p end_
    · rw [Decode_body_wellFormed L buffer fuel _ end_ p count hfit hw,
        Decode_body_wellFormed L buffer fuel _ end_ p count hfit hw]
      exact Decode_accept_prepend pre L buffer fuel d _ _ _ _ _
    · by_cases hc : count = d.fMaxBlocks
      · rw [Decode_body_tooBig L buffer fuel (d.prepend pre) end_ p count hfit hw hc,
          Decode_body_tooBig L buffer fuel d end_ p count hfit hw hc]
        simp only [Decoder.prepend_fHadError, Decoder.prepend_upd]
        rfl
      · rw [Decode_body_malformed L buffer fuel (d.prepend pre) end_ p count hfit hw hc,
          Decode_body_malformed L buffer fuel d end_ p count hfit hw hc]
        simp only [Decoder.prepend_fExitOnError, Decoder.prepend_fHadError, Decoder.prepend_upd,
          Level_recover_prepend]
        split_ifs
        · rfl
        · exact Step_ofRecovery_prepend pre _ _ _ _ _
            (fun a b => Decode_accept_prepend pre L buffer fuel _ _ _ _ _ _)
  · rw [Decode_body_noHeader L buffer fuel _ end_ p count (by omega),
      Decode_body_noHeader L buffer fuel _ end_ p count (by omega)]
    simp only [Decoder.prepend_fHadError, Decoder.prepend_fMaxBlocks, Decoder.prepend_upd]
    rfl

theorem Decode_loop_prepend (pre : List Event) (L : Layout) (buffer : List Nat)
    (end_ fuel : Nat) :
    ∀ (d : Decoder) (current count : Nat),
      Decode.loop L buffer end_ fuel (d.prepend pre) current count
        = ((Decode.loop L buffer end_ fuel d current count).1,
            (Decode.loop L buffer end_ fuel d current count).2.prepend pre) := by
  induction fuel with
  | zero => intro d current count; rfl
  | succ fuel ih =>
    intro d current count
    rw [Decode.loop, Decode.loop, Decode_body_prepend]
    by_cases h1 : current < end_
    · rw [if_pos h1, if_pos h1]
      cases Decode.body L buffer fuel d end_ current count with
      | exit ret d2 => rfl
      | next d2 c2 n2 => exact ih d2 c2 n2
    · rw [if_neg h1, if_neg h1]
      rfl

/-- What `Decode` does on the decoder `d` is what it does on the decoder with
the configuration of `d` that has not decoded anything, the callbacks being
added to those that `d` received before. -/
theorem Decode_eq_fresh (L : Layout) (buffer : List Nat) (fuel : Nat) (d : Decoder)
    (bufferSize : Nat) :
    Decode L buffer fuel d bufferSize
      = ((Decode L buffer fuel d.fresh bufferSize).1,
          (Decode L buffer fuel d.fresh bufferSize).2.prepend d.fHandler) := by
  unfold Decode
  simp only [Decoder.clearHadError_eq, Decoder.OnNewBuffer_eq, Decoder.upd_upd,
    Decoder.upd_fHadError, List.nil_append, Nat.zero_add]
  rw [Decoder.fresh_prepend d false [Event.OnNewBuffer 0 bufferSize], Decode_loop_prepend]

theorem Decode_config (L : Layout) (buffer : List Nat) (fuel : Nat) (d : Decoder)
    (bufferSize : Nat) : (Decode L buffer fuel d bufferSize).2.config = d.config := by
  obtain ⟨h, t, e, _⟩ := Decode_post L buffer fuel d bufferSize
  rw [e]
  rfl

/-- C32: `Decode` leaves the six configuration values as they were, and what
it returns and the callbacks it adds do not depend on what the decoder did
before: for two decoders `d` and `d2` with the same configuration, whatever
their `fHadError` flags and the callbacks their event handlers received, the
value returned, the callbacks added and the final `fHadError` flag are the
same.  In particular a call of `Decode` made after another call of `Decode` on
the same instance (for any buffer, size and iteration budget) returns and adds
what it does on `d` itself. -/
theorem decode_independent_of_history (L : Layout) (buffer : List Nat) (fuel : Nat)
    (d d2 : Decoder) (bufferSize : Nat) (hc : d.config = d2.config) :
    (Decode L buffer fuel d bufferSize).2.config = d.config
      ∧ (Decode L buffer fuel d bufferSize).1 = (Decode L buffer fuel d2 bufferSize).1
      ∧ (∃ t, (Decode L buffer fuel d bufferSize).2.fHandler = d.fHandler ++ t
          ∧ (Decode L buffer fuel d2 bufferSize).2.fHandler = d2.fHandler ++ t)
      ∧ (Decode L buffer fuel d bufferSize).2.fHadError
          = (Decode L buffer fuel d2 bufferSize).2.fHadError
      ∧ (∀ (buffer0 : List Nat) (fuel0 bufferSize0 : Nat),
          (Decode L buffer fuel (Decode L buffer0 fuel0 d bufferSize0).2 bufferSize).1
              = (Decode L buffer fuel d bufferSize).1
            ∧ ∃ t, (Decode L buffer fuel d bufferSize).2.fHandler = d.fHandler ++ t
              ∧ (Decode L buffer fuel (Decode L buffer0 fuel0 d bufferSize0).2
                  bufferSize).2.fHandler
                = (Decode L buffer0 fuel0 d bufferSize0).2.fHandler ++ t) := by
  have key : ∀ e e2 : Decoder, e.config = e2.config →
      (Decode L buffer fuel e bufferSize).1 = (Decode L buffer fuel e2 bufferSize).1
        ∧ (∃ t, (Decode L buffer fuel e bufferSize).2.fHandler = e.fHandler ++ t
          ∧ (Decode L buffer fuel e2 bufferSize).2.fHandler = e2.fHandler ++ t)
        ∧ (Decode L buffer fuel e bufferSize).2.fHadError
          = (Decode L buffer fuel e2 bufferSize).2.fHadError := by
    intro e e2 he
    rw [Decode_eq_fresh L buffer fuel e, Decode_eq_fresh L buffer fuel e2,
      Decoder.fresh_eq_of_config he]
    exact ⟨rfl, ⟨_, rfl, rfl⟩, rfl⟩
  refine ⟨Decode_config L buffer fuel d bufferSize, (key d d2 hc).1, (key d d2 hc).2.1,
    (key d d2 hc).2.2, fun buffer0 fuel0 bufferSize0 => ?_⟩
  obtain ⟨k1, ⟨t, k2, k3⟩, _⟩ := key d (Decode L buffer0 fuel0 d bufferSize0).2
    (Decode_config L buffer0 fuel0 d bufferSize0).symm
  exact ⟨k1.symm, t, k2, k3⟩

/-- C32 on the default decoder and the decoder left by the decoding of
`failBuffer`, which returned `false`: the two have the same configuration, and
the decoding of a buffer with one block, one DSP structure and one bus patch
holding the word `3` returns `true` on both. -/
theorem decode_independent_of_history_witness :
    (Decode specLayout failBuffer 5 Decoder.init 36).1 = some false
      ∧ (Decode specLayout (chainBuffer [3]) 10
          (Decode specLayout failBuffer 5 Decoder.init 36).2 56).1 = some true
      ∧ (Decode specLayout (chainBuffer [3]) 10 Decoder.init 56).1
        = (Decode specLayout (chainBuffer [3]) 10
            (Decode specLayout failBuffer 5 Decoder.init 36).2 56).1 :=
  ⟨by decide, by decide,
    (decode_independent_of_history specLayout (chainBuffer [3]) 10 Decoder.init
      (Decode specLayout failBuffer 5 Decoder.init 36).2 56 (by decide)).2.1⟩

/-! ## Runs without errors come to an end -/

theorem Settles_of_returns {k : Nat} {d : Decoder} {res : Option Bool × Decoder}
    (h : Adds k d res.2) (hr : res.1 ≠ none) : Settles d res := by
  obtain ⟨a, t, e, _⟩ := h
  exact ⟨a, t, e, fun hn => absurd hn hr⟩

theorem Step_settles_of_error {k : Nat} {d d1 : Decoder} {s : Step} (p : Nat) {h : Bool}
    {t : List Event} (e : d1 = d.upd h t) (ht : hasError t = true)
    (hs : Adds k d1 s.decoder) : s.settles d p := by
  obtain ⟨a, t2, e2, _⟩ := hs
  have e3 : s.decoder = d.upd a (t ++ t2) := by rw [e2, e]; simp
  have he : hasError (t ++ t2) = true := by rw [hasError_append, ht]; rfl
  cases s with
  | exit ret d2 => exact ⟨a, t ++ t2, e3, fun _ => he⟩
  | next d2 c2 n2 => exact ⟨a, t ++ t2, e3, Or.inr he⟩

theorem Step_settles_prepend {d d1 : Decoder} {s : Step} {p : Nat} {h : Bool}
    {t : List Event} (e : d1 = d.upd h t) (hs : s.settles d1 p) : s.settles d p := by
  cases s with
  | exit ret d2 =>
    obtain ⟨a, t2, e2, h2⟩ := hs
    exact ⟨a, t ++ t2, by rw [e2, e]; simp,
      fun hn => by rw [hasError_append, h2 hn]; simp⟩
  | next d2 c2 n2 =>
    obtain ⟨a, t2, e2, h2⟩ := hs
    refine ⟨a, t ++ t2, by rw [e2, e]; simp, ?_⟩
    rcases h2 with h2 | h2
    · exact Or.inl h2
    · exact Or.inr (by rw [hasError_append, h2]; simp)

theorem Step_afterCall_settles {d : Decoder} {res : Option Bool × Decoder} {p current : Nat}
    (count : Nat) (h : Settles d res) (hp : p < current) :
    (Step.afterCall res current count).settles d p := by
  obtain ⟨r, d2⟩ := res
  obtain ⟨a, t, e, hn⟩ := h
  simp only at e hn
  unfold Step.afterCall
  cases r with
  | none => exact ⟨a, t, e, fun _ => hn rfl⟩
  | some b =>
    cases b with
    | true => exact ⟨a, t, e, Or.inl hp⟩
    | false =>
      simp only
      split_ifs
      · exact ⟨a, t, e, fun hc => by simp at hc⟩
      · exact ⟨a, t, e, Or.inl hp⟩

theorem Step_ofRecovery_settles {k : Nat} {d d1 : Decoder} (r : Recovery) (count p : Nat)
    (accept : Nat → Nat → Step) {h : Bool} {t : List Event} (e : d1 = d.upd h t)
    (ht : hasError t = true) (ha : ∀ a b, Adds k d1 (accept a b).decoder) :
    (Step.ofRecovery r d1 count accept).settles d p :=
  Step_settles_of_error p e ht (Adds_ofRecovery r count accept (Adds_refl k d1) ha)

/-! ### The loop over bus patches -/

theorem DecodeDSPData_accept_settles (buffer : List Nat) (fuel : Nat) (d : Decoder)
    (busPatchStart dataStart dataEnd current p count : Nat)
    (hf : dataEnd - dataStart < fuel) (hp : p < current) :
    (DecodeDSPData.accept buffer fuel d busPatchStart dataStart dataEnd current count).settles
      d p := by
  unfold DecodeDSPData.accept
  simp only [Decoder.OnError_eq, Decoder.setHadError_eq, Decoder.OnNewBusPatch_eq,
    Decoder.upd_upd]
  split_ifs
  · exact ⟨_, _, rfl, fun hc => by simp at hc⟩
  · exact Step_settles_prepend rfl (Step_afterCall_settles _
      (Settles_of_returns (DecodeBusPatchData_adds buffer fuel _ _ _)
        (DecodeBusPatchData_returns buffer fuel _ _ _ hf)) hp)

theorem DecodeDSPData_body_settles (L : Layout) (buffer : List Nat) (fuel : Nat) (d : Decoder)
    (end_ p count : Nat) (hpos : 0 < L.sizeofBusPatchHeader) (hf : end_ - p ≤ fuel) :
    (DecodeDSPData.body L buffer fuel d end_ p count).settles d p := by
  by_cases hfit : p + L.sizeofBusPatchHeader ≤ end_
  · by_cases hw : L.busPatchLevel.wellFormed buffer p end_
    · rw [DecodeDSPData_body_wellFormed L buffer fuel d end_ p count hfit hw]
      have h2 := hw.2.1
      simp only [Level.dataEnd, Level.dataStart, Level.fLength, Layout.busPatchLevel] at h2 ⊢
      exact DecodeDSPData_accept_settles buffer fuel d p _ _ _ p count (by omega) (by omega)
    · rw [DecodeDSPData_body_malformed L buffer fuel d end_ p count hfit hw]
      have he := Level_framing_hasError L.busPatchLevel buffer p end_ hw
      split_ifs
      · exact ⟨_, _, rfl, fun hc => by simp at hc⟩
      · exact Step_ofRecovery_settles _ count p _ rfl he
          (fun a b => DecodeDSPData_accept_adds _ _ _ _ _ _ _ _)
  · rw [DecodeDSPData_body_noHeader L buffer fuel d end_ p count (by omega)]
    exact ⟨_, _, rfl, fun hc => by simp at hc⟩

theorem Settles_loop_step {k : Nat} {d d2 : Decoder} {p p2 : Nat}
    {res : Option Bool × Decoder} (h : ∃ a t, d2 = d.upd a t ∧ (p < p2 ∨ hasError t = true))
    (hadds : Adds k d2 res.2) (hs : p < p2 → Settles d2 res) : Settles d res := by
  obtain ⟨a, t, e, h2⟩ := h
  rcases h2 with h2 | h2
  · obtain ⟨b, t2, e2, hn⟩ := hs h2
    exact ⟨b, t ++ t2, by rw [e2, e]; simp, fun hc => by rw [hasError_append, hn hc]; simp⟩
  · obtain ⟨b, t2, e2, _⟩ := hadds
    exact ⟨b, t ++ t2, by rw [e2, e]; simp, fun _ => by rw [hasError_append, h2]; rfl⟩

theorem DecodeDSPData_loop_settles (L : Layout) (buffer : List Nat) (end_ : Nat)
    (hpos : 0 < L.sizeofBusPatchHeader) (fuel : Nat) :
    ∀ (d : Decoder) (current count : Nat), end_ - current < fuel →
      Settles d (DecodeDSPData.loop L buffer end_ fuel d current count) := by
  induction fuel with
  | zero => intro d current count h; omega
  | succ fuel ih =>
    intro d current count hf
    rw [DecodeDSPData.loop]
    split_ifs with h1
    · have hb := DecodeDSPData_body_settles L buffer fuel d end_ current count hpos (by omega)
      revert hb
      cases DecodeDSPData.body L buffer fuel d end_ current count with
      | exit ret d2 => exact fun hb => hb
      | next d2 c2 n2 =>
        exact fun hb => Settles_loop_step hb (DecodeDSPData_loop_adds L buffer end_ fuel d2 c2 n2)
          (fun hlt => ih d2 c2 n2 (by omega))
    · exact ⟨d.fHadError, [], (Decoder.upd_self d).symm, fun hc => by simp at hc⟩

/-! ### The loop over DSP structures -/

theorem DecodeBlockData_padding_settles (L : Layout) (buffer : List Nat) (fuel : Nat)
    (d : Decoder) (dspStart dataStart dataEnd current p count : Nat)
    (hpos : 0 < L.sizeofBusPatchHeader) (hf : dataEnd - dataStart < fuel) (hp : p < current) :
    (DecodeBlockData.padding L buffer fuel d dspStart dataStart dataEnd current count).settles
      d p := by
  have hcall : ∀ (d1 : Decoder) (e : Nat), e ≤ dataEnd →
      (Step.afterCall (DecodeDSPData L buffer fuel d1 dataStart e) current count).settles
        d1 p := fun d1 e he =>
    Step_afterCall_settles count
      (DecodeDSPData_loop_settles L buffer e hpos fuel d1 dataStart 0 (by omega)) hp
  rw [DecodeBlockData_padding_eq]
  split_ifs
  · exact hcall d _ (by omega)
  · exact ⟨_, _, rfl, fun hc => by simp at hc⟩
  · exact Step_settles_prepend rfl (hcall _ _ (by omega))
  · exact hcall d _ (Nat.le_refl _)

theorem DecodeBlockData_accept_settles (L : Layout) (buffer : List Nat) (fuel : Nat)
    (d : Decoder) (blockHeader dspStart dataStart dataEnd current p count : Nat)
    (hpos : 0 < L.sizeofBusPatchHeader) (hf : dataEnd - dataStart < fuel) (hp : p < current) :
    (DecodeBlockData.accept L buffer fuel d blockHeader dspStart dataStart dataEnd current
      count).settles d p := by
  unfold DecodeBlockData.accept
  simp only [Decoder.OnError_eq, Decoder.setHadError_eq, Decoder.OnNewDSP_eq, Decoder.upd_upd]
  split_ifs
  · exact ⟨_, _, rfl, fun hc => by simp at hc⟩
  · exact ⟨_, _, rfl, fun hc => by simp at hc⟩
  · exact ⟨_, _, rfl, Or.inl hp⟩
  · exact Step_settles_prepend rfl
      (DecodeBlockData_padding_settles L buffer fuel _ _ _ _ _ _ _ hpos hf hp)
  · exact Step_settles_prepend rfl
      (DecodeBlockData_padding_settles L buffer fuel _ _ _ _ _ _ _ hpos hf hp)

theorem DecodeBlockData_body_settles (L : Layout) (buffer : List Nat) (fuel : Nat)
    (d : Decoder) (blockHeader end_ p count : Nat) (hpos : 0 < L.sizeofDSPHeader)
    (hpos2 : 0 < L.sizeofBusPatchHeader) (hf : end_ - p ≤ fuel) :
    (DecodeBlockData.body L buffer fuel d blockHeader end_ p count).settles d p := by
  by_cases hfit : p + L.sizeofDSPHeader ≤ end_
  · by_cases hw : L.dspLevel.wellFormed buffer p end_
    · rw [DecodeBlockData_body_wellFormed L buffer fuel d blockHeader end_ p count hfit hw]
      have h2 := hw.2.1
      simp only [Level.dataEnd, Level.dataStart, Level.fLength, Layout.dspLevel] at h2 ⊢
      exact DecodeBlockData_accept_settles L buffer fuel d blockHeader p _ _ _ p count hpos2
        (by omega) (by omega)
    · rw [DecodeBlockData_body_malformed L buffer fuel d blockHeader end_ p count hfit hw]
      have he := Level_framing_hasError L.dspLevel buffer p end_ hw
      split_ifs
      · exact ⟨_, _, rfl, fun hc => by simp at hc⟩
      · exact Step_ofRecovery_settles _ count p _ rfl he
          (fun a b => DecodeBlockData_accept_adds _ _ _ _ _ _ _ _ _ _)
  · rw [DecodeBlockData_body_noHeader L buffer fuel d blockHeader end_ p count (by omega)]
    exact ⟨_, _, rfl, fun hc => by simp at hc⟩

theorem DecodeBlockData_loop_settles (L : Layout) (buffer : List Nat) (blockHeader end_ : Nat)
    (hpos : 0 < L.sizeofDSPHeader) (hpos2 : 0 < L.sizeofBusPatchHeader) (fuel : Nat) :
    ∀ (d : Decoder) (current count : Nat), end_ - current < fuel →
      Settles d (DecodeBlockData.loop L buffer blockHeader end_ fuel d current count) := by
  induction fuel with
  | zero => intro d current count h; omega
  | succ fuel ih =>
    intro d current count hf
    rw [DecodeBlockData.loop]
    split_ifs with h1
    · have hb := DecodeBlockData_body_settles L buffer fuel d blockHeader end_ current count
        hpos hpos2 (by omega)
      revert hb
      cases DecodeBlockData.body L buffer fuel d blockHeader end_ current count with
      | exit ret d2 => exact fun hb => hb
      | next d2 c2 n2 =>
        exact fun hb => Settles_loop_step hb
          (DecodeBlockData_loop_adds L buffer blockHeader end_ fuel d2 c2 n2)
          (fun hlt => ih d2 c2 n2 (by omega))
    · exact ⟨d.fHadError, [], (Decoder.upd_self d).symm, fun hc => by simp at hc⟩

/-! ### The loop over blocks -/

theorem Decode_accept_settles (L : Layout) (buffer : List Nat) (fuel : Nat)
    (d : Decoder) (blockStart dataStart dataEnd current p count : Nat)
    (hpos : 0 < L.sizeofDSPHeader) (hpos2 : 0 < L.sizeofBusPatchHeader)
    (hf : dataEnd - dataStart < fuel) (hp : p < current) :
    (Decode.accept L buffer fuel d blockStart dataStart dataEnd current count).settles d p := by
  unfold Decode.accept
  simp only [Decoder.OnError_eq, Decoder.OnNewBlock_eq]
  split_ifs
  · exact ⟨_, _, rfl, fun hc => by simp at hc⟩
  · exact Step_settles_prepend rfl (Step_afterCall_settles _
      (DecodeBlockData_loop_settles L buffer blockStart dataEnd hpos hpos2 fuel _ dataStart 0
        (by omega)) hp)

theorem Decode_body_settles (L : Layout) (buffer : List Nat) (fuel : Nat)
    (d : Decoder) (end_ p count : Nat)
    (hL : 0 < L.sizeofBlockHeader ∧ 0 < L.sizeofDSPHeader ∧ 0 < L.sizeofBusPatchHeader)
    (hf : end_ - p ≤ fuel) :
    (Decode.body L buffer fuel d end_ p count).settles d p := by
  by_cases hfit : p + L.sizeofBlockHeader ≤ end_
  · by_cases hw : L.blockLevel.wellFormed buffer p end_
    · rw [Decode_body_wellFormed L buffer fuel d end_ p count hfit hw]
      have h2 := hw.2.1
      simp only [Level.dataEnd, Level.dataStart, Level.fLength, Layout.blockLevel] at h2 ⊢
      exact Decode_accept_settles L buffer fuel d p _ _ _ p count hL.2.1 hL.2.2
        (by omega) (by omega)
    · by_cases hc : count = d.fMaxBlocks
      · rw [Decode_body_tooBig L buffer fuel d end_ p count hfit hw hc]
        exact ⟨_, _, rfl, fun hc => by simp at hc⟩
      · rw [Decode_body_malformed L buffer fuel d end_ p count hfit hw hc]
        have he := Level_framing_hasError L.blockLevel buffer p end_ hw
        split_ifs
        · exact ⟨_, _, rfl, fun hc => by simp at hc⟩
        · exact Step_ofRecovery_settles _ count p _ rfl he
            (fun a b => Decode_accept_adds _ _ _ _ _ _ _ _ _)
  · rw [Decode_body_noHeader L buffer fuel d end_ p count (by omega)]
    exact ⟨_, _, rfl, fun hc => by simp at hc⟩

theorem Decode_loop_settles (L : Layout) (buffer : List Nat) (end_ : Nat)
    (hL : 0 < L.sizeofBlockHeader ∧ 0 < L.sizeofDSPHeader ∧ 0 < L.sizeofBusPatchHeader)
    (fuel : Nat) :
    ∀ (d : Decoder) (current count : Nat), end_ - current < fuel →
      Settles d (Decode.loop L buffer end_ fuel d current count) := by
  induction fuel with
  | zero => intro d current count h; omega
  | succ fuel ih =>
    intro d current count hf
    rw [Decode.loop]
    split_ifs with h1
    · have hb := Decode_body_settles L buffer fuel d end_ current count hL (by omega)
      revert hb
      cases Decode.body L buffer fuel d end_ current count with
      | exit ret d2 => exact fun hb => hb
      | next d2 c2 n2 =>
        exact fun hb => Settles_loop_step hb (Decode_loop_adds L buffer end_ fuel d2 c2 n2)
          (fun hlt => ih d2 c2 n2 (by omega))
    · exact ⟨d.fHadError, [], (Decoder.upd_self d).symm, fun hc => by simp at hc⟩

/-- With header sizes that are not zero and an iteration budget above the
buffer size, `Decode` returns a value unless an `OnError` is among the
callbacks it issued, whatever the configuration. -/
theorem Decode_settles (L : Layout) (buffer : List Nat) (fuel : Nat) (d : Decoder)
    (bufferSize : Nat)
    (hL : 0 < L.sizeofBlockHeader ∧ 0 < L.sizeofDSPHeader ∧ 0 < L.sizeofBusPatchHeader)
    (hf : bufferSize < fuel) (t : List Event)
    (ht : (Decode L buffer fuel d bufferSize).2.fHandler = d.fHandler ++ t)
    (hn : hasError t = false) : (Decode L buffer fuel d bufferSize).1 ≠ none := by
  unfold Decode at ht ⊢
  simp only [Decoder.clearHadError_eq, Decoder.OnNewBuffer_eq, Decoder.upd_upd,
    Decoder.upd_fHadError, List.nil_append, Nat.zero_add] at ht ⊢
  obtain ⟨a, t2, e, h2⟩ := Decode_loop_settles L buffer bufferSize hL fuel
    (d.upd false [Event.OnNewBuffer 0 bufferSize]) 0 0 (by omega)
  intro hc
  have h3 := h2 hc
  rw [e] at ht
  simp only [Decoder.upd_upd, Decoder.upd_fHandler, List.append_cancel_left_eq] at ht
  rw [← ht] at hn
  simp [hasError_append, h3] at hn

end AliMUONTrackerDDLDecoder
